import Mathlib

/-!
# Taylor UUCP: the execute-file runner (uuxqt.c) and the submitter (uux.c)

A shallow embedding of `uqdo_xqt_file` / `uqcleanup` of `uuxqt.c` and of the
argument loop of `main` of `uux.c`.  The system-dependent layer (`fsysdep_*`,
`zsysdep_*`, the configuration reader) is not part of these files; its
functions are fields of an environment record and the theorems hold for every
environment.  Everything the C code changes outside its own variables (spool
files, mail, executions, queued work, locks, the log) is a field of an explicit
world record.
-/

namespace Uucp

/-! ## Shared data -/

/-- Log levels of `ulog`. -/
inductive tlog where
  | LOG_NORMAL
  | LOG_ERROR
  | LOG_FATAL
deriving DecidableEq, Repr

/-- The fields of `struct ssysteminfo` read by uuxqt.c. -/
structure ssysteminfo where
  zname : String
  zcmds : String
  zpath : String
  zremote_receive : String
deriving DecidableEq, Repr

/-- A work-file command, `struct scmd` (`pseq` is always NULL here and is left out). -/
structure scmd where
  bcmd : Char
  zfrom : String
  zto : String
  zuser : String
  zoptions : String
  ztemp : String
  imode : Nat
  znotify : String
  cbytes : Int
deriving DecidableEq, Repr

/-- C `strstr` on character lists: does `n` occur in `h` as a contiguous run. -/
def strstr_chars : List Char → List Char → Bool
  | [], n => n.isEmpty
  | c :: t, n => n.isPrefixOf (c :: t) || strstr_chars t n

/-- C `strstr (h, n) != NULL`. -/
def strstr (h n : String) : Bool := strstr_chars h.data n.data

/-! ## uuxqt.c: the execute file variables and their handlers -/

/-- The static variables of uuxqt.c that hold a parsed execute file.  The two
parallel arrays `azQfiles` / `azQfiles_to` (both of length `cQfiles`) are one
list of pairs. -/
structure XqtVars where
  azQargs : Option (List String)
  zQcmd : Option String
  zQinput : Option String
  zQoutfile : Option String
  zQoutsys : Option String
  azQfiles : List (String × Option String)
  zQrequestor : Option String
  zQuser : Option String
  zQsystem : Option String
  fQerror_ack : Bool
  fQno_ack : Bool
  fQsuccess_ack : Bool
  fQsend_input : Bool
  fQuse_exec : Bool
  zQstatus_file : Option String
  fQuse_sh : Bool
deriving DecidableEq, Repr

/-- The values `uqdo_xqt_file` assigns before it reads the file (lines 585-604). -/
def XqtVars.init : XqtVars :=
  { azQargs := none, zQcmd := none, zQinput := none, zQoutfile := none,
    zQoutsys := none, azQfiles := [], zQrequestor := none, zQuser := none,
    zQsystem := none, fQerror_ack := false, fQno_ack := false,
    fQsuccess_ack := false, fQsend_input := false, fQuse_exec := false,
    zQstatus_file := none, fQuse_sh := false }

/-- The parse state: the variables and the log lines written while parsing. -/
abbrev XqtParse := XqtVars × List (tlog × String)

/-- The `ulog` line of a handler that got the wrong number of arguments. -/
def wrong_args (zerr : String) (argv0 : String) : tlog × String :=
  (tlog.LOG_ERROR, zerr ++ ": " ++ argv0 ++ ": Wrong number of arguments")

/-- Handler `tqcmd` of the C line: store the arguments and the joined command. -/
def tqcmd (p : XqtParse) (argv : List String) : XqtParse :=
  if argv.length ≤ 1 then p
  else ({ p.1 with azQargs := some argv.tail,
                   zQcmd := some (" ".intercalate argv.tail) }, p.2)

/-- Handler `tqout` of the O line: one or two arguments. -/
def tqout (zerr : String) (p : XqtParse) (argv : List String) : XqtParse :=
  if argv.length ≠ 2 ∧ argv.length ≠ 3 then
    (p.1, p.2 ++ [wrong_args zerr (argv.headD "")])
  else
    let v1 := { p.1 with zQoutfile := some (argv.getD 1 "") }
    if argv.length = 3 then ({ v1 with zQoutsys := some (argv.getD 2 "") }, p.2)
    else (v1, p.2)

/-- Handler `tqfile` of the F line: one or two arguments, and a file that is
not in the spool directory is ignored. -/
def tqfile (fspool_file : String → Bool) (zerr : String) (p : XqtParse)
    (argv : List String) : XqtParse :=
  if argv.length ≠ 2 ∧ argv.length ≠ 3 then
    (p.1, p.2 ++ [wrong_args zerr (argv.headD "")])
  else if ! fspool_file (argv.getD 1 "") then p
  else
    ({ p.1 with azQfiles := p.1.azQfiles ++
          [(argv.getD 1 "", if argv.length = 3 then some (argv.getD 2 "") else none)] },
     p.2)

/-- Handler `tquser` of the U line. -/
def tquser (p : XqtParse) (argv : List String) : XqtParse :=
  ({ p.1 with zQuser := some (argv.getD 1 ""), zQsystem := some (argv.getD 2 "") }, p.2)

/-- Handler `tqset` of the flag lines: set the boolean the entry points to. -/
def tqset (set : XqtVars → XqtVars) (p : XqtParse) (_argv : List String) : XqtParse :=
  (set p.1, p.2)

/-- An entry of a command table (`struct scmdtab`): `CMDTABTYPE_FN | n` with its
handler, or `CMDTABTYPE_STRING` with the variable it sets. -/
inductive scmdtab where
  | fn (n : Nat) (handler : XqtParse → List String → XqtParse)
  | string (set : XqtVars → String → XqtVars)

/-- The table `asQcmds` (lines 377-395), with `ALLOW_SH_EXECUTION` set. -/
def asQcmds (fspool_file : String → Bool) (zerr : String) : List (String × scmdtab) :=
  [ ("C", scmdtab.fn 0 tqcmd),
    ("I", scmdtab.string (fun v s => { v with zQinput := some s })),
    ("O", scmdtab.fn 0 (tqout zerr)),
    ("F", scmdtab.fn 0 (tqfile fspool_file zerr)),
    ("R", scmdtab.string (fun v s => { v with zQrequestor := some s })),
    ("U", scmdtab.fn 3 tquser),
    ("Z", scmdtab.fn 1 (tqset (fun v => { v with fQerror_ack := true }))),
    ("N", scmdtab.fn 1 (tqset (fun v => { v with fQno_ack := true }))),
    ("n", scmdtab.fn 1 (tqset (fun v => { v with fQsuccess_ack := true }))),
    ("B", scmdtab.fn 1 (tqset (fun v => { v with fQsend_input := true }))),
    ("e", scmdtab.fn 1 (tqset (fun v => { v with fQuse_sh := true }))),
    ("E", scmdtab.fn 1 (tqset (fun v => { v with fQuse_exec := true }))),
    ("M", scmdtab.string (fun v s => { v with zQstatus_file := some s })) ]

/-- The first entry of a table with the given name. -/
def cmdtab_find (c : String) : List (String × scmdtab) → Option scmdtab
  | [] => none
  | (n, e) :: rest => if c = n then some e else cmdtab_find c rest

/-- Modelled from the spec: the command-table interpreter `uprocesscmds`, which
is not in these files, on one entry.  An entry `CMDTABTYPE_FN | n` with `n` not 0
calls its handler only for a line of exactly `n` words; an entry
`CMDTABTYPE_STRING` takes the one argument of the line (`I <name>`, `R <addr>`,
`M <file>`). -/
def cmdtab_apply (zerr : String) (p : XqtParse) (argv : List String) :
    scmdtab → XqtParse
  | scmdtab.fn n handler =>
    if n ≠ 0 ∧ argv.length ≠ n then (p.1, p.2 ++ [wrong_args zerr (argv.headD "")])
    else handler p argv
  | scmdtab.string set =>
    if argv.length ≠ 2 then (p.1, p.2 ++ [wrong_args zerr (argv.headD "")])
    else (set p.1 (argv.getD 1 ""), p.2)

/-- Modelled from the spec: the command-table interpreter `uprocesscmds`, which
is not in these files, on one line that it has split into words: the first word
selects the entry ("first character is the command"), "unknown lines are
ignored". -/
def tprocess_one_cmd (table : List (String × scmdtab)) (zerr : String) (p : XqtParse)
    (argv : List String) : XqtParse :=
  match argv with
  | [] => p
  | c :: _ =>
    match cmdtab_find c table with
    | none => p
    | some e => cmdtab_apply zerr p argv e

/-- The call `uprocesscmds (e, NULL, asQcmds, zfile, 0)` on the lines of the
file, each already split into words, starting from parse state `p`. -/
def uprocesscmds (fspool_file : String → Bool) (zerr : String) (p : XqtParse)
    (lines : List (List String)) : XqtParse :=
  lines.foldl (tprocess_one_cmd (asQcmds fspool_file zerr) zerr) p

/-! ## uuxqt.c: the world and the system-dependent layer -/

/-- One call of `fsysdep_mail (zto, zsubject, cstrs, paz)`. -/
structure Mail where
  zto : String
  zsubject : String
  paz : List String
deriving DecidableEq, Repr

/-- The text of a mail: the strings of `paz` written one after the other. -/
def Mail.text (m : Mail) : String := String.join m.paz

/-- One call of `fsysdep_execute`: the system, the user, the program, the
arguments, the command string, standard input, standard output, the shell flag. -/
structure Execution where
  zsystem : String
  zuser : String
  zabsolute : String
  azargs : List String
  zcmd : String
  zinput : Option String
  zoutput : Option String
  fshell : Bool
deriving DecidableEq, Repr

/-- Everything `uqdo_xqt_file` can change outside the parsed variables: the
files that exist, the mails sent, the commands executed, the work queued with
`fsysdep_spool_commands` (system, grade, commands), the log, the seconds slept,
the per-file locks and the execute-directory lock that exist, and the two
statics `zQunlock_file` and `fQunlock_directory`. -/
structure World where
  files : List String
  mails : List Mail
  executions : List Execution
  spooled : List (String × Char × List scmd)
  log : List (tlog × String)
  slept : Nat
  locks : List String
  dir_locked : Bool
  zQunlock_file : Option String
  fQunlock_directory : Bool
deriving DecidableEq, Repr

/-- C `remove (zfile)`. -/
def World.remove (w : World) (zfile : String) : World :=
  { w with files := w.files.filter (fun f => f != zfile) }

/-- A successful `fsysdep_move_file (zfrom, zto, 0)`. -/
def World.move (w : World) (zfrom zto : String) : World :=
  { w with files := zto :: (w.files.filter (fun f => f != zfrom)) }

/-- One `ulog` line. -/
def World.ulog (w : World) (level : tlog) (msg : String) : World :=
  { w with log := w.log ++ [(level, msg)] }

/-- One `fsysdep_mail` call. -/
def World.fsysdep_mail (w : World) (zto zsubject : String) (paz : List String) : World :=
  { w with mails := w.mails ++ [{ zto := zto, zsubject := zsubject, paz := paz }] }

/-- The functions and globals uuxqt.c uses and does not define.  `xqt_lines zfile`
is `fopen (zfile, "r")` with the lines split into words by `uprocesscmds`
(`none`: the file cannot be opened); `fsysdep_lock_uuxqt_dir i` is the result of
the attempt number `i` to lock the execute directory; `zsysdep_find_command`
returns the path and the error flag `ferr`; `zsysdep_data_file_name` returns the
file to write, `abtemp` and `abdata`; `fsysdep_execute` returns success and the
name `zerror` of the file with standard error; `read_lines` is `fopen` and
`zfgets` on that file. -/
structure XqtEnv where
  zLocalname : String
  fUnknown_ok : Bool
  sUnknown : ssysteminfo
  sLocalsys : ssysteminfo
  XQTDIR : String
  fspool_file : String → Bool
  xqt_lines : String → Option (List (List String))
  fsysdep_uuxqt_locked : String → Bool
  fsysdep_lock_uuxqt_file : String → Bool
  zsysdep_spool_file_name : ssysteminfo → String → Option String
  fsysdep_lock_uuxqt_dir : Nat → Bool
  zsysdep_find_command : String → String → String → Option String × Bool
  zsysdep_real_file_name : ssysteminfo → String → Option String
  fread_system_info : String → Option ssysteminfo
  fsysdep_make_spool_dir : ssysteminfo → Bool
  zsysdep_data_file_name : ssysteminfo → Char → Option (String × String × String)
  fin_directory_list : ssysteminfo → String → String → Bool
  zsysdep_in_dir : String → String → Option String
  fsysdep_move_file : String → String → Bool
  fsysdep_execute : Execution → Bool × String
  read_lines : String → Option (List String)

/-! ## uuxqt.c: `uqcleanup` and `uqdo_xqt_file` -/

def REMOVE_FILE : Nat := 1

def REMOVE_NEEDED : Nat := 2

def FREE_QINPUT : Nat := 4

/-- Function `uqcleanup (zfile, iflags)`: release the file lock, remove the
execute file and the required files as the flags say, release the directory
lock.  Freeing memory changes nothing in the world. -/
def uqcleanup (w : World) (v : XqtVars) (zfile : String) (iflags : Nat) : World :=
  let w1 : World := match w.zQunlock_file with
    | some f => { w with locks := w.locks.filter (fun g => g != f), zQunlock_file := none }
    | none => w
  let w2 : World := if iflags &&& REMOVE_FILE ≠ 0 then w1.remove zfile else w1
  let w3 : World :=
    if iflags &&& REMOVE_NEEDED ≠ 0 then
      v.azQfiles.foldl (fun (u : World) f => u.remove f.1) w2
    else w2
  if w3.fQunlock_directory then
    { w3 with dir_locked := false, fQunlock_directory := false }
  else w3

/-- The grade `zfile[strlen (zfile) - 5]` (the C code assumes five characters). -/
def bgrade_of (zfile : String) : Char :=
  zfile.data.getD (zfile.data.length - 5) ' '

/-- The address to mail results to (lines 705-727). -/
def zmail_of (zLocalname : String) (v : XqtVars) : Option String :=
  match v.zQrequestor with
  | some r => some r
  | none =>
    match v.zQuser with
    | none => none
    | some u =>
      match v.zQsystem with
      | none => some u
      | some s => if s = zLocalname then some u else some (s ++ "!" ++ u)

/-- The test `zmail != NULL && (! fQno_ack || fQerror_ack)` with the mail call
under it (lines 746, 883, 955). -/
def mail_failure (w : World) (v : XqtVars) (zmail : Option String)
    (paz : List String) : World :=
  match zmail with
  | some m =>
    if ! v.fQno_ack || v.fQerror_ack then w.fsysdep_mail m "Execution failed" paz else w
  | none => w

/-- The arguments of the call of `fsysdep_execute` (lines 948-951). -/
def execution_of (v : XqtVars) (qsys : ssysteminfo) (zabsolute : String)
    (zoutput : Option String) : Execution :=
  { zsystem := qsys.zname, zuser := v.zQuser.getD "uucp", zabsolute := zabsolute,
    azargs := v.azQargs.getD [], zcmd := v.zQcmd.getD "", zinput := v.zQinput,
    zoutput := zoutput, fshell := v.fQuse_sh }

/-- Lines 948-1061: run the command, mail the result, queue the output for
another system, remove the standard error file, clean up. -/
def uqdo_xqt_file_execute (env : XqtEnv) (w : World) (v : XqtVars) (zfile : String)
    (qsys : ssysteminfo) (bgrade : Char) (iclean : Nat) (zmail : Option String)
    (zabsolute : String) (zoutput : Option String) (qoutsys : Option ssysteminfo)
    (abtemp : String) : World :=
  let x := execution_of v qsys zabsolute zoutput
  let r := env.fsysdep_execute x
  let w1 : World := { w with executions := w.executions ++ [x] }
  let w2 : World :=
    if ! r.1 then
      let wl := w1.ulog tlog.LOG_NORMAL ("Execution failed (" ++ zfile ++ ")")
      let wm := mail_failure wl v zmail
        (["Execution request failed:\n\t", v.zQcmd.getD "", "\n"] ++
          (match env.read_lines r.2 with
           | none => ["There was no output on standard error\n"]
           | some ls => "Standard error output was:\n" :: ls))
      match qoutsys with
      | some _ => wm.remove (zoutput.getD "")
      | none => wm
    else
      let wm : World := match zmail with
        | some m =>
          if ! v.fQno_ack && ! v.fQerror_ack then
            w1.fsysdep_mail m "Execution succeded"
              ["\nExecution request succeeded:\n\t", v.zQcmd.getD "", "\n"]
          else w1
        | none => w1
      match qoutsys with
      | some osys =>
        let fnotify : Bool := zmail.isSome && (! v.fQno_ack && ! v.fQerror_ack)
        let s : scmd :=
          { bcmd := 'S', zfrom := abtemp, zto := v.zQoutfile.getD "",
            zuser := v.zQuser.getD "uucp",
            zoptions := if fnotify then "Cn" else "C",
            ztemp := abtemp, imode := 0o666,
            znotify := if fnotify then zmail.getD "" else "",
            cbytes := -1 }
        { wm with spooled := wm.spooled ++ [(osys.zname, bgrade, [s])] }
      | none => wm
  uqcleanup (w2.remove r.2) v zfile iclean

/-- Lines 910-940: move the required files that have a second name into the
execute directory; the left result is a return from `uqdo_xqt_file`. -/
def uqdo_xqt_file_move (env : XqtEnv) (zfile : String) (iclean : Nat) :
    List (String × Option String) → World → XqtVars → World ⊕ (World × XqtVars)
  | [], w, v => Sum.inr (w, v)
  | (_, none) :: rest, w, v => uqdo_xqt_file_move env zfile iclean rest w v
  | (zreal, some zto) :: rest, w, v =>
    match env.zsysdep_in_dir env.XQTDIR zto with
    | none => Sum.inl (uqcleanup w v zfile iclean)
    | some zname =>
      if ! env.fsysdep_move_file zreal zname then Sum.inl (uqcleanup w v zfile iclean)
      else
        uqdo_xqt_file_move env zfile iclean rest (w.move zreal zname)
          (if v.zQinput = some zreal then { v with zQinput := some zname } else v)

/-- Lines 910-1061: move the required files, then execute. -/
def uqdo_xqt_file_run (env : XqtEnv) (w : World) (v : XqtVars) (zfile : String)
    (qsys : ssysteminfo) (bgrade : Char) (iclean : Nat) (zmail : Option String)
    (zabsolute : String) (zoutput : Option String) (qoutsys : Option ssysteminfo)
    (abtemp : String) : World :=
  match uqdo_xqt_file_move env zfile iclean v.azQfiles w v with
  | Sum.inl w1 => w1
  | Sum.inr (w1, v1) =>
    uqdo_xqt_file_execute env w1 v1 zfile qsys bgrade iclean zmail zabsolute zoutput
      qoutsys abtemp

/-- Lines 834-845: name a data file for the output on system `qoutsys`, then run. -/
def uqdo_xqt_file_remote_output (env : XqtEnv) (w : World) (v : XqtVars)
    (zfile : String) (qsys : ssysteminfo) (bgrade : Char) (iclean : Nat)
    (zmail : Option String) (zabsolute : String) (qoutsys : ssysteminfo) : World :=
  match env.zsysdep_data_file_name qoutsys bgrade with
  | none => uqcleanup w v zfile iclean
  | some (zdata, abtemp, _) =>
    uqdo_xqt_file_run env w v zfile qsys bgrade iclean zmail zabsolute (some zdata)
      (some qoutsys) abtemp

/-- Lines 793-908: decide where standard output goes, then run. -/
def uqdo_xqt_file_output (env : XqtEnv) (w : World) (v : XqtVars) (zfile : String)
    (qsys : ssysteminfo) (bgrade : Char) (iclean : Nat) (zmail : Option String)
    (zabsolute : String) : World :=
  match v.zQoutfile with
  | none =>
    uqdo_xqt_file_run env w v zfile qsys bgrade iclean zmail zabsolute none none ""
  | some zout =>
    match (if v.zQoutsys = some env.zLocalname then none else v.zQoutsys) with
    | some zoutsys =>
      -- The output file is destined for some other system.
      if zoutsys = qsys.zname then
        uqdo_xqt_file_remote_output env w v zfile qsys bgrade iclean zmail zabsolute qsys
      else
        match env.fread_system_info zoutsys with
        | some soutsys =>
          if ! env.fsysdep_make_spool_dir soutsys then uqcleanup w v zfile iclean
          else
            uqdo_xqt_file_remote_output env w v zfile qsys bgrade iclean zmail zabsolute
              soutsys
        | none =>
          if ! env.fUnknown_ok then
            uqcleanup
              (w.ulog tlog.LOG_ERROR
                ("Can't send standard output to unknown system " ++ zoutsys))
              v zfile iclean
          else
            let soutsys : ssysteminfo := { env.sUnknown with zname := zoutsys }
            if ! env.fsysdep_make_spool_dir soutsys then uqcleanup w v zfile iclean
            else
              uqdo_xqt_file_remote_output env w v zfile qsys bgrade iclean zmail
                zabsolute soutsys
    | none =>
      -- The output stays on this system.
      let refuse (zname : String) : World :=
        uqcleanup
          (mail_failure (w.ulog tlog.LOG_ERROR ("Not permitted to write to " ++ zname))
            v zmail
            ["Your execution request failed because you are",
             " not permitted to write to\n\t", zname, "\non this system\n",
             "Execution requested was:\n\t", v.zQcmd.getD "", "\n"])
          v zfile iclean
      if env.fspool_file zout then refuse zout
      else
        match env.zsysdep_real_file_name env.sLocalsys zout with
        | none => uqcleanup w { v with zQoutfile := none } zfile iclean
        | some zreal =>
          if ! env.fin_directory_list qsys zreal qsys.zremote_receive then
            refuse zreal
          else
            uqdo_xqt_file_run env w { v with zQoutfile := some zreal } zfile qsys bgrade
              iclean zmail zabsolute (some zreal) none ""

/-- Lines 777-791: translate the standard input file, then go on to the output. -/
def uqdo_xqt_file_input (env : XqtEnv) (w : World) (v : XqtVars) (zfile : String)
    (qsys : ssysteminfo) (bgrade : Char) (iclean : Nat) (zmail : Option String)
    (zabsolute : String) : World :=
  match v.zQinput with
  | none => uqdo_xqt_file_output env w v zfile qsys bgrade iclean zmail zabsolute
  | some zin =>
    match (if env.fspool_file zin then env.zsysdep_spool_file_name qsys zin
           else env.zsysdep_real_file_name qsys zin) with
    | none => uqcleanup w { v with zQinput := none } zfile iclean
    | some zreal =>
      uqdo_xqt_file_output env w { v with zQinput := some zreal } zfile qsys bgrade
        (iclean ||| FREE_QINPUT) zmail zabsolute

/-- Lines 703-775: the mail address and the lookup of the command; a command
that is not permitted is mailed to the requestor. -/
def uqdo_xqt_file_command (env : XqtEnv) (w : World) (v : XqtVars) (zfile : String)
    (qsys : ssysteminfo) (bgrade : Char) : World :=
  let iclean : Nat := 0 ||| (REMOVE_FILE ||| REMOVE_NEEDED)
  let zmail := zmail_of env.zLocalname v
  let argv0 := (v.azQargs.getD []).headD ""
  match env.zsysdep_find_command argv0 qsys.zcmds qsys.zpath with
  | (none, ferr) =>
    if ferr then uqcleanup w v zfile iclean
    else
      uqcleanup
        (mail_failure (w.ulog tlog.LOG_ERROR ("Not permitted to execute " ++ argv0))
          v zmail
          ["Your execution request failed because you are not",
           " permitted to execute\n\t", argv0, "\non this system\n",
           "Execution requested was:\n\t", v.zQcmd.getD "", "\n"])
        v zfile iclean
  | (some zabsolute, _) =>
    uqdo_xqt_file_input env
      (w.ulog tlog.LOG_NORMAL ("Executing " ++ zfile ++ " (" ++ v.zQcmd.getD "" ++ ")"))
      v zfile qsys bgrade iclean zmail zabsolute

/-- Lines 658-675: the full spool names of the required files; `none` when a
name cannot be made or the file does not exist. -/
def required_files (env : XqtEnv) (qsys : ssysteminfo) (files : List String) :
    List (String × Option String) → Option (List (String × Option String))
  | [] => some []
  | (zname, zto) :: rest =>
    match env.zsysdep_spool_file_name qsys zname with
    | none => none
    | some zreal =>
      if zreal ∈ files then
        (required_files env qsys files rest).map (fun l => (zreal, zto) :: l)
      else none

/-- The loop `for (itries = 0; itries < 5; itries++)` of lines 686-691 with
`5 - itries` rounds left: the value of `itries` after it. -/
def lock_dir_loop (lock : Nat → Bool) : Nat → Nat → Nat
  | 0, itries => itries
  | left + 1, itries =>
    if lock itries then itries else lock_dir_loop lock left (itries + 1)

/-- Lines 677-701: lock the execute directory when a required file is to be
renamed, then go on to the command. -/
def uqdo_xqt_file_lock_dir (env : XqtEnv) (w : World) (v : XqtVars) (zfile : String)
    (qsys : ssysteminfo) (bgrade : Char) : World :=
  if v.azQfiles.any (fun f => f.2.isSome) then
    let itries := lock_dir_loop env.fsysdep_lock_uuxqt_dir 5 0
    let w1 : World := { w with slept := w.slept + 30 * itries }
    if itries ≥ 5 then
      uqcleanup (w1.ulog tlog.LOG_ERROR "Could not lock execute directory") v zfile 0
    else
      uqdo_xqt_file_command env
        { w1 with dir_locked := true, fQunlock_directory := true } v zfile qsys bgrade
  else uqdo_xqt_file_command env w v zfile qsys bgrade

/-- Lines 576-578: uuxqt runs for one command only (`-c`) and the system is
not permitted that command. -/
def cmd_not_accepted (zcmd : Option String) (zcmds : String) : Bool :=
  match zcmd with
  | some c => decide (zcmds ≠ "ALL") && ! strstr zcmds c
  | none => false

/-- Lines 619-636: with `-c`, the command word is another one; without `-c`,
another uuxqt holds the lock for this command word. -/
def not_for_this_uuxqt (env : XqtEnv) (zcmd : Option String) (argv0 : String) : Bool :=
  match zcmd with
  | some c => decide (c ≠ argv0)
  | none => env.fsysdep_uuxqt_locked argv0

/-- Function `uqdo_xqt_file (zfile, qsys, zcmd)`: process one execute file that
came from system `qsys`; `zcmd` is the command of the `-c` option.  `ulog_user`
only labels later log lines and is left out.  When a required file is missing
the C code has already replaced the names before it in `azQfiles`; the cleanup
on that path has no flag set and does not read them. -/
def uqdo_xqt_file (env : XqtEnv) (w : World) (zfile : String) (qsys : ssysteminfo)
    (zcmd : Option String) : World :=
  let bgrade := bgrade_of zfile
  let zcmds := qsys.zcmds
  if zcmds = "" then
    (w.ulog tlog.LOG_ERROR
      (zfile ++ ": No commands permitted for system " ++ qsys.zname)).remove zfile
  else if cmd_not_accepted zcmd zcmds then w
  else
    match env.xqt_lines zfile with
    | none => w
    | some lines =>
      let p := uprocesscmds env.fspool_file zfile (XqtVars.init, []) lines
      let v := p.1
      let w0 : World := { w with log := w.log ++ p.2 }
      let iclean : Nat := 0
      match v.azQargs with
      | none =>
        uqcleanup (w0.ulog tlog.LOG_ERROR (zfile ++ ": No command given")) v zfile
          (iclean ||| REMOVE_FILE)
      | some azQargs =>
        if not_for_this_uuxqt env zcmd (azQargs.headD "") then
          uqcleanup w0 v zfile iclean
        else if ! env.fsysdep_lock_uuxqt_file zfile then uqcleanup w0 v zfile iclean
        else
          let w1 : World :=
            { w0 with locks := zfile :: w0.locks, zQunlock_file := some zfile }
          match required_files env qsys w1.files v.azQfiles with
          | none => uqcleanup w1 v zfile iclean
          | some reals =>
            uqdo_xqt_file_lock_dir env w1 { v with azQfiles := reals } zfile qsys bgrade

/-! ## A concrete system-dependent layer for examples -/

/-- Modelled from the spec: the predicate `fspool_file`, which is not in these
files; "`is_spool_file(name)` returns true for names matching the regex
`^[CDX]\.`". -/
def is_spool_file (name : String) : Bool :=
  match name.data with
  | c :: '.' :: _ => c == 'C' || c == 'D' || c == 'X'
  | _ => false

/-- A peer that may run `rmail` and `rnews`. -/
def peerA : ssysteminfo :=
  { zname := "peerA", zcmds := "rmail rnews", zpath := "/bin",
    zremote_receive := "/usr/spool/uucppublic" }

/-- An example layer on the system `here`: the execute file `X.peerAN0001` has
the given lines, every lock is free, spool files live under `/spool/`, a command
is found under `/bin/` when the allowed list is `ALL` or contains its name, the
system `peerB` is known, and the command succeeds exactly when `fok` is true. -/
def example_env (lines : List (List String)) (fok : Bool) : XqtEnv :=
  { zLocalname := "here"
    fUnknown_ok := false
    sUnknown := { zname := "", zcmds := "", zpath := "", zremote_receive := "" }
    sLocalsys := { zname := "here", zcmds := "ALL", zpath := "/bin",
                   zremote_receive := "/usr/spool/uucppublic" }
    XQTDIR := ".Xqtdir"
    fspool_file := is_spool_file
    xqt_lines := fun zfile => if zfile = "X.peerAN0001" then some lines else none
    fsysdep_uuxqt_locked := fun _ => false
    fsysdep_lock_uuxqt_file := fun _ => true
    zsysdep_spool_file_name := fun _ zname => some ("/spool/" ++ zname)
    fsysdep_lock_uuxqt_dir := fun _ => true
    zsysdep_find_command := fun zcmd zcmds _ =>
      if zcmds = "ALL" ∨ strstr zcmds zcmd = true then (some ("/bin/" ++ zcmd), false)
      else (none, false)
    zsysdep_real_file_name := fun _ zname => some zname
    fread_system_info := fun zname =>
      if zname = "peerB" then
        some { zname := "peerB", zcmds := "rmail", zpath := "/bin",
               zremote_receive := "/usr/spool/uucppublic" }
      else none
    fsysdep_make_spool_dir := fun _ => true
    zsysdep_data_file_name := fun qsys bgrade =>
      some ("/spool/D." ++ qsys.zname ++ String.singleton bgrade ++ "0002",
            "D." ++ qsys.zname ++ String.singleton bgrade ++ "0002",
            "D.here" ++ String.singleton bgrade ++ "0002")
    fin_directory_list := fun _ zname _ => strstr zname "/usr/spool/uucppublic/"
    zsysdep_in_dir := fun zdir zname => some (zdir ++ "/" ++ zname)
    fsysdep_move_file := fun _ _ => true
    fsysdep_execute := fun _ => (fok, "/spool/.Temp/err")
    read_lines := fun _ => none }

/-- A world in which only the execute file `X.peerAN0001` exists. -/
def example_world : World :=
  { files := ["X.peerAN0001"], mails := [], executions := [], spooled := [],
    log := [], slept := 0, locks := [], dir_locked := false,
    zQunlock_file := none, fQunlock_directory := false }

/-- The variables of an execute file with the lines `C forbidden`, `O X.evil`,
`R bob`, `N` and `Z`. -/
def example_vars : XqtVars :=
  { XqtVars.init with
    azQargs := some ["forbidden"], zQcmd := some "forbidden",
    zQoutfile := some "X.evil", zQrequestor := some "bob",
    fQno_ack := true, fQerror_ack := true }

/-! ## uux.c: data -/

/-- The fields of `struct uuconf_system` read by uux.c. -/
structure uuconf_system where
  uuconf_zname : String
  uuconf_zlocalname : Option String
  uuconf_zpubdir : String
  uuconf_pzremote_receive : List String
  uuconf_pzlocal_send : List String
deriving DecidableEq, Repr

/-- The result of a uuconf lookup: `UUCONF_SUCCESS` with the system,
`UUCONF_NOT_FOUND`, or another error code with its message. -/
inductive uuconf_info where
  | UUCONF_SUCCESS (s : uuconf_system)
  | UUCONF_NOT_FOUND
  | UUCONF_ERROR (msg : String)
deriving DecidableEq, Repr

/-- The command line options of uux as `main` holds them after `getopt`. -/
structure UxOpts where
  zrequestor : Option String
  fretstdin : Bool
  fcopy : Bool
  fdontcopy : Bool
  fjobid : Bool
  bgrade : Char
  flink : Bool
  fno_ack : Bool
  fread_stdin : Bool
  fuucico : Bool
  zstatus_file : Option String
  fexpand : Bool
  ferror_ack : Bool
deriving DecidableEq, Repr

/-- The values `main` gives the options before `getopt` runs (lines 91-119),
with grade `N` for `BDEFAULT_UUX_GRADE`. -/
def UxOpts.init : UxOpts :=
  { zrequestor := none, fretstdin := false, fcopy := false, fdontcopy := false,
    fjobid := false, bgrade := 'N', flink := false, fno_ack := false,
    fread_stdin := false, fuucico := true, zstatus_file := none, fexpand := true,
    ferror_ack := false }

/-- How `uxcopy_stdin` ends: it returns, a signal makes it call `uxabort`, or
`fwrite` fails with the given fatal message. -/
inductive stdin_copy where
  | copied
  | signalled
  | fwrite_failed (msg : String)
deriving DecidableEq, Repr

/-- The functions and globals uux.c uses and does not define.  The number passed
to the functions that make names is the count of names made so far in this run;
`zsysdep_data_file_name` returns the file to write and the names `abtname`,
`abdname`, `abxname`; `fsysdep_link` returns `none` when it fails and otherwise
whether the link worked; `zsysdep_spool_commands` returns the job id and the
name of the command file it created. -/
structure UxEnv where
  zlocalname : String
  zsysdep_login_name : String
  uuconf_system_info : String → uuconf_info
  uuconf_system_local : uuconf_info
  funknown_system : String → Option uuconf_system
  zsysdep_xqt_file_name : Nat → Option String
  zsysdep_data_file_name :
    uuconf_system → String → Char → Nat → Option (String × String × String × String)
  esysdep_fopen : String → Bool
  zsysdep_local_file_cwd : String → String → Option String
  zsysdep_add_cwd : String → Option String
  fin_directory_list : String → List String → String → Bool → Bool → Option String → Bool
  fsysdep_access : String → Bool
  fsysdep_daemon_access : String → Bool
  fsysdep_link : String → String → Option Bool
  fcopy_file : String → String → Bool
  zsysdep_base_name : String → Option String
  zsysdep_spool_commands :
    uuconf_system → Char → List scmd → Nat → Option (String × String)
  uxcopy_stdin : stdin_copy
  fclose_ok : String → Bool
  fgot_signal : Bool
  fsysdep_run : List String → Bool

/-- The spool and the variables of uux.c: the files that exist, the work queued
by `zsysdep_spool_commands` (system, grade, commands), the count of names made,
the lines written to the execute file `eXxqt_file`, the list `pasXcmds`, the
list `pxaz` of recorded files, the job ids printed, the log, and
`zcall_system` / `fcall_any`. -/
structure UxState where
  files : List String
  queued : List (String × Char × List scmd)
  cnames : Nat
  xqt_lines : List String
  pasXcmds : List scmd
  pxaz : List String
  printed : List String
  log : List (tlog × String)
  zcall_system : Option String
  fcall_any : Bool
deriving DecidableEq, Repr

/-- How a run of uux ends: `uxabort` (directly or through a fatal `ulog`), the
exit after `zsysdep_spool_commands` failed at the commit (lines 917-921), or the
final `usysdep_exit (fexit)`. -/
inductive UxExit where
  | aborted
  | commit_failed
  | finished (fexit : Bool)
deriving DecidableEq, Repr

/-- The end of a run: the last state, how it ended, and the arguments of the
`uucico` it started, if any. -/
structure UxFinal where
  st : UxState
  exit : UxExit
  uucico : Option (List String)
deriving DecidableEq, Repr

/-- Function `uxrecord_file (zfile)`. -/
def uxrecord_file (st : UxState) (zfile : String) : UxState :=
  { st with pxaz := st.pxaz ++ [zfile] }

/-- Function `uxabort ()`: remove every recorded file and exit. -/
def uxabort (st : UxState) : UxFinal :=
  { st := { st with files := st.files.filter (fun f => ! st.pxaz.contains f) },
    exit := UxExit.aborted, uucico := none }

/-- A call `ulog (LOG_FATAL, ...)`: the message is logged and the function set
with `ulog_fatal_fn (uxabort)` runs. -/
def ulog_fatal (st : UxState) (msg : String) : UxFinal :=
  uxabort { st with log := st.log ++ [(tlog.LOG_FATAL, msg)] }

/-- Function `uxadd_xqt_line (bchar, z1, z2)`; a line is kept without its newline. -/
def uxadd_xqt_line (st : UxState) (bchar : Char) (z1 z2 : Option String) : UxState :=
  let line : String :=
    match z1 with
    | none => String.singleton bchar
    | some a =>
      match z2 with
      | none => String.singleton bchar ++ " " ++ a
      | some b => String.singleton bchar ++ " " ++ a ++ " " ++ b
  { st with xqt_lines := st.xqt_lines ++ [line] }

/-- Function `uxadd_send_file (zfrom, zto, zoptions, ztemp)`. -/
def uxadd_send_file (env : UxEnv) (st : UxState) (zfrom zto zoptions ztemp : String) :
    UxState :=
  { st with pasXcmds := st.pasXcmds ++
      [{ bcmd := 'S', zfrom := zfrom, zto := zto, zuser := env.zsysdep_login_name,
         zoptions := zoptions, ztemp := ztemp, imode := 0o666, znotify := "",
         cbytes := -1 }] }

/-- C `strchr (z, c)` as a split: the characters before the first `c` and those
after it. -/
def split_at_char (c : Char) : List Char → Option (List Char × List Char)
  | [] => none
  | d :: t =>
    if d = c then some ([], t)
    else (split_at_char c t).map (fun r => (d :: r.1, r.2))

/-- The characters of `ZSHELLCHARS`: the double quote, the apostrophe, the
backquote and `*?[;&()|<>\$`. -/
def ZSHELLCHARS : List Char :=
  [Char.ofNat 34, Char.ofNat 39, Char.ofNat 96, '*', '?', '[', ';', '&', '(', ')', '|',
   '<', '>', '\\', '$']

/-- The test `z[strcspn (z, ZSHELLCHARS)] != 0`: a shell character occurs in `z`. -/
def has_shell_char (z : String) : Bool :=
  z.data.any (fun c => ZSHELLCHARS.contains c)

/-- The update of `zcall_system` and `fcall_any` after work was queued for the
system `zname` (lines 779-788 and 928-937). -/
def note_call (st : UxState) (zname : String) : UxState :=
  if st.fcall_any then { st with zcall_system := none }
  else { st with fcall_any := true, zcall_system := some zname }

/-! ## uux.c: the argument loop of `main` -/

/-- The result of one step of `main`: the next state, with a value, or the end
of the run. -/
abbrev UxStep (α : Type) := Except UxFinal (UxState × α)

/-- The state after a call that made a name. -/
def UxState.named (st : UxState) : UxState := { st with cnames := st.cnames + 1 }

/-- Lines 620-675: decide which file is sent for the local file `zfile`; the
value is `zuse`, `abtname` and `abdname`. -/
def uxarg_local_data (env : UxEnv) (o : UxOpts) (sxqtsys : uuconf_system)
    (zxqtloc : String) (fxqtlocal : Bool) (st : UxState) (zfile : String) :
    UxStep (String × String × String) :=
  if o.fcopy || o.flink || fxqtlocal then
    match env.zsysdep_data_file_name sxqtsys zxqtloc o.bgrade st.cnames with
    | none => Except.error (uxabort st.named)
    | some (zdata, abtname, abdname, _) =>
      let st1 := uxrecord_file st.named zdata
      let created : UxState := { st1 with files := st1.files ++ [zdata] }
      if o.flink then
        match env.fsysdep_link zfile zdata with
        | none => Except.error (uxabort st1)
        | some true => Except.ok (created, abtname, abtname, abdname)
        | some false =>
          if o.fdontcopy then
            Except.error (ulog_fatal st1 (zfile ++ ": Can't link to spool directory"))
          else if ! env.fcopy_file zfile zdata then Except.error (uxabort st1)
          else Except.ok (created, abtname, abtname, abdname)
      else if ! env.fcopy_file zfile zdata then Except.error (uxabort st1)
      else Except.ok (created, abtname, abtname, abdname)
  else if ! env.fsysdep_daemon_access zfile then Except.error (uxabort st)
  else if ! env.fin_directory_list zfile sxqtsys.uuconf_pzlocal_send
      sxqtsys.uuconf_zpubdir true true (some env.zsysdep_login_name) then
    Except.error (ulog_fatal st ("Not permitted to send from " ++ zfile))
  else
    match env.zsysdep_data_file_name sxqtsys zxqtloc o.bgrade st.cnames with
    | none => Except.error (uxabort st.named)
    | some (_, _, abdname, _) => Except.ok (st.named, zfile, "D.0", abdname)

/-- Lines 600-706: the argument is the local file `zfile`; the value is the new
`pzargs[i]`. -/
def uxarg_local (env : UxEnv) (o : UxOpts) (sxqtsys : uuconf_system)
    (zxqtloc : String) (fxqtlocal : Bool) (st : UxState) (zfile : String)
    (finput : Bool) : UxStep (Option String) :=
  if ! env.fsysdep_access zfile then Except.error (uxabort st)
  else
    match uxarg_local_data env o sxqtsys zxqtloc fxqtlocal st zfile with
    | Except.error e => Except.error e
    | Except.ok (st1, zuse, abtname, abdname) =>
      if fxqtlocal then
        if finput then Except.ok (uxadd_xqt_line st1 'I' (some zuse) none, none)
        else Except.ok (st1, some zuse)
      else
        let st2 := uxadd_send_file env st1 zuse abdname
          (if o.fcopy || o.flink || fxqtlocal then "C" else "c") abtname
        if finput then
          Except.ok
            (uxadd_xqt_line (uxadd_xqt_line st2 'F' (some abdname) none) 'I'
              (some abdname) none, none)
        else
          match env.zsysdep_base_name zfile with
          | none => Except.error (uxabort st2)
          | some zbase =>
            Except.ok (uxadd_xqt_line st2 'F' (some abdname) (some zbase), some zbase)

/-- Lines 724-731: look up the system a remote file is on. -/
def uxarg_from_system (env : UxEnv) (st : UxState) (zsystem : String) :
    Except UxFinal uuconf_system :=
  match env.uuconf_system_info zsystem with
  | uuconf_info.UUCONF_SUCCESS s => Except.ok s
  | uuconf_info.UUCONF_ERROR msg => Except.error (ulog_fatal st msg)
  | uuconf_info.UUCONF_NOT_FOUND =>
    match env.funknown_system zsystem with
    | none => Except.error (ulog_fatal st (zsystem ++ ": System not found"))
    | some s => Except.ok s

/-- The request of lines 759-768 for the file `zfile`, to be received as `abtname`. -/
def request_cmd (env : UxEnv) (zfile abtname : String) : scmd :=
  { bcmd := 'R', zfrom := zfile, zto := abtname, zuser := env.zsysdep_login_name,
    zoptions := "9", ztemp := "", imode := 0o600, znotify := "", cbytes := -1 }

/-- Lines 716-810: the file `zfile` is on the system `zsystem`, which is neither
the local system nor, by name, the execution system. -/
def uxarg_remote (env : UxEnv) (o : UxOpts) (sxqtsys : uuconf_system)
    (zxqtloc : String) (fxqtlocal : Bool) (st : UxState) (zsystem zfile : String)
    (finput : Bool) : UxStep (Option String) :=
  match uxarg_from_system env st zsystem with
  | Except.error e => Except.error e
  | Except.ok sfromsys =>
    if sfromsys.uuconf_zname = sxqtsys.uuconf_zname then
      -- The file is already on the system where the command is to be executed.
      if finput then Except.ok (uxadd_xqt_line st 'I' (some zfile) none, none)
      else Except.ok (st, some zfile)
    else if ! fxqtlocal then
      Except.error (ulog_fatal st "uux forwarding does not yet work")
    else
      match env.zsysdep_data_file_name sxqtsys zxqtloc o.bgrade st.cnames with
      | none => Except.error (uxabort st.named)
      | some (_, abtname, _, _) =>
        let st1 := st.named
        let s := request_cmd env zfile abtname
        match env.zsysdep_spool_commands sfromsys o.bgrade [s] st1.cnames with
        | none => Except.error (uxabort st1.named)
        | some (zjobid, zcfile) =>
          let st2 : UxState :=
            { st1.named with
              files := st1.files ++ [zcfile],
              queued := st1.queued ++ [(sfromsys.uuconf_zname, o.bgrade, [s])],
              printed := if o.fjobid then st1.printed ++ [zjobid] else st1.printed }
          let st3 := note_call st2 sfromsys.uuconf_zname
          if finput then
            Except.ok
              (uxadd_xqt_line (uxadd_xqt_line st3 'F' (some abtname) none) 'I'
                (some abtname) none, none)
          else
            match env.zsysdep_base_name zfile with
            | none => Except.error (uxabort st3)
            | some zbase =>
              Except.ok (uxadd_xqt_line st3 'F' (some abtname) (some zbase), some zbase)

/-- Lines 542-561: the system and the file of an argument, and whether the
system is the local one. -/
def uxarg_system (env : UxEnv) (arg : String) : String × String × Bool :=
  match split_at_char '!' arg.data with
  | none => (env.zlocalname, arg, true)
  | some (zsystem, zfile) =>
    if zsystem ≠ [] then
      (String.mk zsystem, String.mk zfile, decide (String.mk zsystem = env.zlocalname))
    else (env.zlocalname, String.mk zfile, true)

/-- Lines 535-810: one argument `pzargs[i]` after the test for a redirection;
`finput` and `foutput` say whether `<` or `>` stood before it.  The value is the
new `pzargs[i]`. -/
def uxarg (env : UxEnv) (o : UxOpts) (sxqtsys : uuconf_system) (zxqtloc : String)
    (fxqtlocal : Bool) (st : UxState) (arg : String) (finput foutput : Bool) :
    UxStep (Option String) :=
  if (split_at_char '!' arg.data).isNone && ! finput && ! foutput then
    Except.ok (st, some arg)
  else
    let zsystem := (uxarg_system env arg).1
    let flocal := (uxarg_system env arg).2.2
    match (if flocal then
             env.zsysdep_local_file_cwd (uxarg_system env arg).2.1 sxqtsys.uuconf_zpubdir
           else if o.fexpand then env.zsysdep_add_cwd (uxarg_system env arg).2.1
           else some (uxarg_system env arg).2.1) with
    | none => Except.error (uxabort st)
    | some zfile =>
      if foutput then
        if flocal && ! env.fin_directory_list zfile sxqtsys.uuconf_pzremote_receive
            sxqtsys.uuconf_zpubdir true false none then
          Except.error (ulog_fatal st ("Not permitted to create " ++ zfile))
        else if zsystem = sxqtsys.uuconf_zname then
          Except.ok (uxadd_xqt_line st 'O' (some zfile) none, none)
        else
          Except.ok
            (uxadd_xqt_line st 'O' (some zfile) (some (if flocal then zxqtloc else zsystem)),
             none)
      else if finput && o.fread_stdin then
        Except.error (ulog_fatal st "Standard input specified twice")
      else if flocal then uxarg_local env o sxqtsys zxqtloc fxqtlocal st zfile finput
      else if sxqtsys.uuconf_zname = zsystem then
        -- The file is already on the system where the command is to be executed.
        if finput then Except.ok (uxadd_xqt_line st 'I' (some zfile) none, none)
        else Except.ok (st, some zfile)
      else uxarg_remote env o sxqtsys zxqtloc fxqtlocal st zsystem zfile finput

/-- Lines 508-517: a parenthesized argument loses its parentheses; a missing
closing parenthesis is logged. -/
def uxarg_paren (st : UxState) (arg : String) : UxState × String :=
  if arg.data.getLast? ≠ some ')' then
    ({ st with log := st.log ++ [(tlog.LOG_ERROR, "Mismatched parentheses")] },
     String.mk (arg.data.drop 1))
  else (st, String.mk ((arg.data.drop 1).dropLast))

/-- The loop of lines 498-811 over `pzargs`, from the argument at the head of
the list on; the value is the new `pzargs` (`none` for NULL). -/
def uxargs (env : UxEnv) (o : UxOpts) (sxqtsys : uuconf_system) (zxqtloc : String)
    (fxqtlocal : Bool) : List String → UxState → UxStep (List (Option String))
  | [], st => Except.ok (st, [])
  | [a], st =>
    if a.data.head? = some '(' then
      Except.ok ((uxarg_paren st a).1, [some (uxarg_paren st a).2])
    else
      match uxarg env o sxqtsys zxqtloc fxqtlocal st a false false with
      | Except.error e => Except.error e
      | Except.ok (st1, r) => Except.ok (st1, [r])
  | a :: b :: rest, st =>
    if a.data.head? = some '(' then
      match uxargs env o sxqtsys zxqtloc fxqtlocal (b :: rest) (uxarg_paren st a).1 with
      | Except.error e => Except.error e
      | Except.ok (st2, rs) => Except.ok (st2, some (uxarg_paren st a).2 :: rs)
    else if a.data.head? = some '<' ∨ a.data.head? = some '>' then
      match uxarg env o sxqtsys zxqtloc fxqtlocal st b
          (decide (a.data.head? = some '<')) (decide (a.data.head? = some '>')) with
      | Except.error e => Except.error e
      | Except.ok (st1, r) =>
        match uxargs env o sxqtsys zxqtloc fxqtlocal rest st1 with
        | Except.error e => Except.error e
        | Except.ok (st2, rs) => Except.ok (st2, none :: r :: rs)
    else
      match uxarg env o sxqtsys zxqtloc fxqtlocal st a false false with
      | Except.error e => Except.error e
      | Except.ok (st1, r) =>
        match uxargs env o sxqtsys zxqtloc fxqtlocal (b :: rest) st1 with
        | Except.error e => Except.error e
        | Except.ok (st2, rs) => Except.ok (st2, r :: rs)

/-! ## uux.c: `main` from line 426 on -/

/-- Lines 426-446: the system the command is executed on, the command without
the system, and `fxqtlocal`. -/
def uux_exec_system (env : UxEnv) (zcmd : String) : String × String × Bool :=
  match split_at_char '!' zcmd.data with
  | none => (env.zlocalname, zcmd, true)
  | some (zsys, z) =>
    if zsys = [] ∨ String.mk zsys = env.zlocalname then (env.zlocalname, String.mk z, true)
    else (String.mk zsys, String.mk z, false)

/-- Lines 448-466: the information on the execution system. -/
def uux_xqt_system (env : UxEnv) (st : UxState) (zsys : String) (fxqtlocal : Bool) :
    Except UxFinal uuconf_system :=
  match env.uuconf_system_info zsys with
  | uuconf_info.UUCONF_SUCCESS s => Except.ok s
  | uuconf_info.UUCONF_ERROR msg => Except.error (ulog_fatal st msg)
  | uuconf_info.UUCONF_NOT_FOUND =>
    if fxqtlocal then
      match env.uuconf_system_local with
      | uuconf_info.UUCONF_SUCCESS s => Except.ok { s with uuconf_zname := env.zlocalname }
      | uuconf_info.UUCONF_ERROR msg => Except.error (ulog_fatal st msg)
      | uuconf_info.UUCONF_NOT_FOUND => Except.error (ulog_fatal st "Not found")
    else
      match env.funknown_system zsys with
      | none => Except.error (ulog_fatal st (zsys ++ ": System not found"))
      | some s => Except.ok s

/-- Lines 816-849: with `-p`, copy standard input to a data file and tell the
execute file about it. -/
def uux_stdin (env : UxEnv) (o : UxOpts) (sxqtsys : uuconf_system) (zxqtloc : String)
    (fxqtlocal : Bool) (st : UxState) : Except UxFinal UxState :=
  if ! o.fread_stdin then Except.ok st
  else
    match env.zsysdep_data_file_name sxqtsys zxqtloc o.bgrade st.cnames with
    | none => Except.error (uxabort st.named)
    | some (zdata, abtname, abdname, _) =>
      if ! env.esysdep_fopen zdata then Except.error (uxabort st.named)
      else
        let st1 := uxrecord_file { st.named with files := st.files ++ [zdata] } zdata
        match env.uxcopy_stdin with
        | stdin_copy.signalled => Except.error (uxabort st1)
        | stdin_copy.fwrite_failed msg => Except.error (ulog_fatal st1 msg)
        | stdin_copy.copied =>
          if ! env.fclose_ok zdata then Except.error (ulog_fatal st1 "fclose")
          else if fxqtlocal then Except.ok (uxadd_xqt_line st1 'I' (some abtname) none)
          else
            Except.ok
              (uxadd_send_file env
                (uxadd_xqt_line (uxadd_xqt_line st1 'F' (some abdname) none) 'I'
                  (some abdname) none)
                abtname abdname "C" abtname)

/-- The arguments that are not NULL. -/
def live_args (pzargs : List (Option String)) : List String :=
  pzargs.filterMap id

/-- Lines 856-873: the C line and `fneedshell`. -/
def uux_command_line (zcmd : String) (pzargs : List (Option String)) : String × Bool :=
  (String.join ("C " :: zcmd :: (live_args pzargs).map (fun a => " " ++ a)),
   has_shell_char zcmd || (live_args pzargs).any has_shell_char)

/-- Lines 877-893: the lines for the options. -/
def uux_flag_lines (o : UxOpts) (fneedshell : Bool) (st : UxState) : UxState :=
  let st1 := if o.fno_ack then uxadd_xqt_line st 'N' none none else st
  let st2 := if o.ferror_ack then uxadd_xqt_line st1 'Z' none none else st1
  let st3 := match o.zrequestor with
    | some r => uxadd_xqt_line st2 'R' (some r) none
    | none => st2
  let st4 := if o.fretstdin then uxadd_xqt_line st3 'B' none none else st3
  let st5 := match o.zstatus_file with
    | some f => uxadd_xqt_line st4 'M' (some f) none
    | none => st4
  if fneedshell then uxadd_xqt_line st5 'e' none none else st5

/-- Lines 969-981: start uucico unless `-r` was given. -/
def uux_run_uucico (env : UxEnv) (o : UxOpts) (st : UxState) : UxFinal :=
  if ! o.fuucico then { st := st, exit := UxExit.finished true, uucico := none }
  else
    match st.zcall_system with
    | some zsys =>
      { st := st, exit := UxExit.finished (env.fsysdep_run ["uucico", "-s", zsys]),
        uucico := some ["uucico", "-s", zsys] }
    | none =>
      if st.fcall_any then
        { st := st, exit := UxExit.finished (env.fsysdep_run ["uucico", "-r1"]),
          uucico := some ["uucico", "-r1"] }
      else { st := st, exit := UxExit.finished true, uucico := none }

/-- Lines 856-981: write the command and the options, close the execute file,
queue the work, log, start uucico. -/
def uux_finish (env : UxEnv) (o : UxOpts) (sxqtsys : uuconf_system) (fxqtlocal : Bool)
    (zxqtname abxqt_tname abxqt_xname zcmd : String) (pzargs : List (Option String))
    (st : UxState) : UxFinal :=
  let st1 : UxState :=
    { st with xqt_lines := st.xqt_lines ++ [(uux_command_line zcmd pzargs).1] }
  let st2 := uux_flag_lines o (uux_command_line zcmd pzargs).2 st1
  if ! env.fclose_ok zxqtname then ulog_fatal st2 "fclose"
  else
    let st3 :=
      if ! fxqtlocal then uxadd_send_file env st2 abxqt_tname abxqt_xname "C" abxqt_tname
      else st2
    -- If we got a signal, get out before spooling anything.
    if env.fgot_signal then uxabort st3
    else
      -- From here on in, it's too late.  We don't call uxabort.
      let committed : Option UxState :=
        if st3.pasXcmds.length > 0 then
          match env.zsysdep_spool_commands sxqtsys o.bgrade st3.pasXcmds st3.cnames with
          | none => none
          | some (zjobid, zcfile) =>
            some (note_call
              { st3.named with
                files := st3.files ++ [zcfile],
                queued := st3.queued ++ [(sxqtsys.uuconf_zname, o.bgrade, st3.pasXcmds)],
                printed := if o.fjobid then st3.printed ++ [zjobid] else st3.printed }
              sxqtsys.uuconf_zname)
        else some st3
      match committed with
      | none => { st := st3.named, exit := UxExit.commit_failed, uucico := none }
      | some st4 =>
        uux_run_uucico env o
          { st4 with log := st4.log ++
              [(tlog.LOG_NORMAL, "Queuing " ++ " ".intercalate (zcmd :: live_args pzargs))] }

/-- Function `main` of uux.c from line 426 on: `zcmd` is the first word of the
command line and `pzargs` the array of the other words (lines 308-376), `st`
the spool before the run with the variables of the program at their initial
values. -/
def uux_main (env : UxEnv) (o : UxOpts) (st : UxState) (zcmd : String)
    (pzargs : List String) : UxFinal :=
  let zsys := (uux_exec_system env zcmd).1
  let zcmd1 := (uux_exec_system env zcmd).2.1
  let fxqtlocal := (uux_exec_system env zcmd).2.2
  match uux_xqt_system env st zsys fxqtlocal with
  | Except.error e => e
  | Except.ok sxqtsys =>
    let zxqtloc := sxqtsys.uuconf_zlocalname.getD env.zlocalname
    let names : Option (String × String × String) :=
      if fxqtlocal then (env.zsysdep_xqt_file_name st.cnames).map (fun z => (z, "", ""))
      else
        (env.zsysdep_data_file_name sxqtsys zxqtloc 'X' st.cnames).map
          (fun r => (r.1, r.2.1, r.2.2.2))
    match names with
    | none => uxabort st.named
    | some (zxqtname, abxqt_tname, abxqt_xname) =>
      if ! env.esysdep_fopen zxqtname then uxabort st.named
      else
        let st1 := uxrecord_file { st.named with files := st.files ++ [zxqtname] } zxqtname
        let st2 := uxadd_xqt_line st1 'U' (some env.zsysdep_login_name) (some zxqtloc)
        match uxargs env o sxqtsys zxqtloc fxqtlocal pzargs st2 with
        | Except.error e => e
        | Except.ok (st3, pzargs1) =>
          match uux_stdin env o sxqtsys zxqtloc fxqtlocal st3 with
          | Except.error e => e
          | Except.ok st4 =>
            uux_finish env o sxqtsys fxqtlocal zxqtname abxqt_tname abxqt_xname zcmd1
              pzargs1 st4

/-- An empty spool and the initial values of the variables of uux.c. -/
def UxState.init : UxState :=
  { files := [], queued := [], cnames := 0, xqt_lines := [], pasXcmds := [], pxaz := [],
    printed := [], log := [], zcall_system := none, fcall_any := false }

/-- The information on an example system. -/
def example_system (zname : String) : uuconf_system :=
  { uuconf_zname := zname, uuconf_zlocalname := none,
    uuconf_zpubdir := "/usr/spool/uucppublic",
    uuconf_pzremote_receive := ["/usr/spool/uucppublic"],
    uuconf_pzlocal_send := ["/"] }

/-- An example layer for uux on the system `here`, user `bob`: the systems
`peerA` and `peerB` are known, names are made from the count of names, files are
accessible unless they lie under `/secret`, every copy and queueing succeeds. -/
def example_uxenv : UxEnv :=
  { zlocalname := "here"
    zsysdep_login_name := "bob"
    uuconf_system_info := fun zname =>
      if zname = "peerA" ∨ zname = "peerB" then
        uuconf_info.UUCONF_SUCCESS (example_system zname)
      else uuconf_info.UUCONF_NOT_FOUND
    uuconf_system_local := uuconf_info.UUCONF_SUCCESS (example_system "here")
    funknown_system := fun _ => none
    zsysdep_xqt_file_name := fun n => some ("X.hereN000" ++ toString n)
    zsysdep_data_file_name := fun qsys _ bgrade n =>
      some ("/spool/" ++ qsys.uuconf_zname ++ "/D." ++ toString n,
            "D." ++ qsys.uuconf_zname ++ String.singleton bgrade ++ "000" ++ toString n,
            "D.here" ++ String.singleton bgrade ++ "000" ++ toString n,
            "X.here" ++ String.singleton bgrade ++ "000" ++ toString n)
    esysdep_fopen := fun _ => true
    zsysdep_local_file_cwd := fun zfile _ => some zfile
    zsysdep_add_cwd := fun zfile => some zfile
    fin_directory_list := fun _ _ _ _ _ _ => true
    fsysdep_access := fun zfile => ! strstr zfile "/secret"
    fsysdep_daemon_access := fun _ => true
    fsysdep_link := fun _ _ => some true
    fcopy_file := fun _ _ => true
    zsysdep_base_name := fun zfile => some zfile
    zsysdep_spool_commands := fun qsys bgrade _ n =>
      some (qsys.uuconf_zname ++ String.singleton bgrade ++ "000" ++ toString n,
            "C." ++ qsys.uuconf_zname ++ String.singleton bgrade ++ "000" ++ toString n)
    uxcopy_stdin := stdin_copy.copied
    fclose_ok := fun _ => true
    fgot_signal := false
    fsysdep_run := fun _ => true }

/-- A word of the command line that the argument loop leaves untouched: it has
no exclamation point and does not start with a parenthesis or a redirection. -/
def plain_word (a : String) : Bool :=
  (split_at_char '!' a.data).isNone && a.data.head? != some '(' &&
    a.data.head? != some '<' && a.data.head? != some '>'

/-- World `r` holds no lock of its own and no lock that world `w` does not have. -/
def NoLockLeft (w r : World) : Prop :=
  r.zQunlock_file = none ∧ r.fQunlock_directory = false ∧
  (∀ g ∈ r.locks, g ∈ w.locks) ∧ (r.dir_locked = true → w.dir_locked = true)

/-- World `u` is in the middle of a run that started in world `w`: the only
locks it has beyond those of `w` are the file lock named by `zQunlock_file`
and the directory lock flagged by `fQunlock_directory`. -/
def LocksOwned (w u : World) : Prop :=
  (∀ g ∈ u.locks, g ∈ w.locks ∨ u.zQunlock_file = some g) ∧
  (u.dir_locked = true → w.dir_locked = true ∨ u.fQunlock_directory = true)

/-- The lock fields of a world. -/
def lockf (w : World) : List String × Bool × Option String × Bool :=
  (w.locks, w.dir_locked, w.zQunlock_file, w.fQunlock_directory)

/-- An R line or a U line of an execute file (a line split into words). -/
def is_RU_line (argv : List String) : Bool :=
  argv.head? == some "R" || argv.head? == some "U"

/-- The variables set by the R line and the U line. -/
def mail_vars (v : XqtVars) : Option String × Option String × Option String :=
  (v.zQrequestor, v.zQuser, v.zQsystem)

/-- The variables with another value of `zQoutsys`. -/
def with_outsys (v : XqtVars) (o : Option String) : XqtVars := { v with zQoutsys := o }

/-- Function `uqdo_xqt_file` with the result of reading the execute file as an
argument: `opened` is `env.xqt_lines zfile`. -/
def uqdo_xqt_file_on (env : XqtEnv) (w : World) (zfile : String) (qsys : ssysteminfo)
    (zcmd : Option String) (opened : Option (List (List String))) : World :=
  let bgrade := bgrade_of zfile
  let zcmds := qsys.zcmds
  if zcmds = "" then
    (w.ulog tlog.LOG_ERROR
      (zfile ++ ": No commands permitted for system " ++ qsys.zname)).remove zfile
  else if cmd_not_accepted zcmd zcmds then w
  else
    match opened with
    | none => w
    | some lines =>
      let p := uprocesscmds env.fspool_file zfile (XqtVars.init, []) lines
      let v := p.1
      let w0 : World := { w with log := w.log ++ p.2 }
      let iclean : Nat := 0
      match v.azQargs with
      | none =>
        uqcleanup (w0.ulog tlog.LOG_ERROR (zfile ++ ": No command given")) v zfile
          (iclean ||| REMOVE_FILE)
      | some azQargs =>
        if not_for_this_uuxqt env zcmd (azQargs.headD "") then
          uqcleanup w0 v zfile iclean
        else if ! env.fsysdep_lock_uuxqt_file zfile then uqcleanup w0 v zfile iclean
        else
          let w1 : World :=
            { w0 with locks := zfile :: w0.locks, zQunlock_file := some zfile }
          match required_files env qsys w1.files v.azQfiles with
          | none => uqcleanup w1 v zfile iclean
          | some reals =>
            uqdo_xqt_file_lock_dir env w1 { v with azQfiles := reals } zfile qsys bgrade

/-! ## uuconf/tportc.c: port commands -/

/-- The enumeration `uuconf_porttype` as tportc.c uses it: the index into
`azPtype_names`. -/
inductive uuconf_porttype where
  | UUCONF_PORTTYPE_UNKNOWN
  | UUCONF_PORTTYPE_STDIN
  | UUCONF_PORTTYPE_DIRECT
  | UUCONF_PORTTYPE_PIPE
deriving DecidableEq, Repr

/-- The fields of `struct uuconf_port` that tportc.c names.  The members of the
union `uuconf_u` (`uuconf_sdirect`, `uuconf_spipe`) are fields of their own. -/
structure uuconf_port where
  uuconf_zname : String
  uuconf_ttype : uuconf_porttype
  uuconf_zprotocols : Option String
  uuconf_qproto_params : List (List String)
  uuconf_ireliable : Int
  uuconf_zlockname : Option String
  uuconf_zdevice : Option String
  uuconf_ibaud : Int
  uuconf_fcarrier : Bool
  uuconf_fhardflow : Bool
  uuconf_pzcmd : Option (List String)
deriving DecidableEq, Repr

/-- The array `azPtype_names`. -/
def azPtype_names : List (Option String × uuconf_porttype) :=
  [ (none, uuconf_porttype.UUCONF_PORTTYPE_UNKNOWN),
    (some "stdin", uuconf_porttype.UUCONF_PORTTYPE_STDIN),
    (some "direct", uuconf_porttype.UUCONF_PORTTYPE_DIRECT),
    (some "pipe", uuconf_porttype.UUCONF_PORTTYPE_PIPE) ]

/-- The error value of a uuconf return code. -/
inductive uuconf_error where
  | UUCONF_SUCCESS
  | UUCONF_SYNTAX_ERROR
  | other (i : Nat)
deriving DecidableEq, Repr

/-- A uuconf return code: the error value and the two bits
`UUCONF_CMDTABRET_KEEP` and `UUCONF_CMDTABRET_EXIT`. -/
structure uuconf_ret where
  value : uuconf_error
  keep : Bool
  exit : Bool
deriving DecidableEq, Repr

/-- The code `UUCONF_CMDTABRET_CONTINUE`. -/
def UUCONF_CMDTABRET_CONTINUE : uuconf_ret :=
  { value := uuconf_error.UUCONF_SUCCESS, keep := false, exit := false }

/-- The code `UUCONF_SYNTAX_ERROR`. -/
def UUCONF_SYNTAX_ERROR : uuconf_ret :=
  { value := uuconf_error.UUCONF_SYNTAX_ERROR, keep := false, exit := false }

/-- The type field of a command table entry. -/
inductive cmdtabtype where
  | UUCONF_CMDTABTYPE_STRING
  | UUCONF_CMDTABTYPE_LONG
  | UUCONF_CMDTABTYPE_BOOLEAN
  | UUCONF_CMDTABTYPE_FULLSTRING
  | UUCONF_CMDTABTYPE_FN (n : Nat)
deriving DecidableEq, Repr

/-- The member of `struct uuconf_port` an entry points to (`offsetof`). -/
inductive port_offset where
  | uuconf_zprotocols
  | uuconf_qproto_params
  | uuconf_ireliable
  | uuconf_zlockname
  | uuconf_zdevice
  | uuconf_ibaud
  | uuconf_fcarrier
  | uuconf_fhardflow
  | uuconf_pzcmd
deriving DecidableEq, Repr

/-- The functions that the port command tables name. -/
inductive port_fn where
  | ipproto_param
  | _uuconf_iseven_bit
  | _uuconf_ireliable
  | _uuconf_ihalf_duplex
deriving DecidableEq, Repr

/-- An entry `struct cmdtab_offset`. -/
structure cmdtab_offset where
  zcmd : String
  itype : cmdtabtype
  ioff : port_offset
  pfi : Option port_fn
deriving DecidableEq, Repr

/-- The table `asPort_cmds` without its closing NULL entry. -/
def asPort_cmds : List cmdtab_offset :=
  [ { zcmd := "protocol", itype := cmdtabtype.UUCONF_CMDTABTYPE_STRING,
      ioff := port_offset.uuconf_zprotocols, pfi := none },
    { zcmd := "protocol-parameter", itype := cmdtabtype.UUCONF_CMDTABTYPE_FN 0,
      ioff := port_offset.uuconf_qproto_params, pfi := some port_fn.ipproto_param },
    { zcmd := "seven-bit", itype := cmdtabtype.UUCONF_CMDTABTYPE_FN 2,
      ioff := port_offset.uuconf_ireliable, pfi := some port_fn._uuconf_iseven_bit },
    { zcmd := "reliable", itype := cmdtabtype.UUCONF_CMDTABTYPE_FN 2,
      ioff := port_offset.uuconf_ireliable, pfi := some port_fn._uuconf_ireliable },
    { zcmd := "half-duplex", itype := cmdtabtype.UUCONF_CMDTABTYPE_FN 2,
      ioff := port_offset.uuconf_ireliable, pfi := some port_fn._uuconf_ihalf_duplex },
    { zcmd := "lockname", itype := cmdtabtype.UUCONF_CMDTABTYPE_STRING,
      ioff := port_offset.uuconf_zlockname, pfi := none } ]

/-- The table `asPstdin_cmds` without its closing NULL entry. -/
def asPstdin_cmds : List cmdtab_offset := []

/-- The table `asPdirect_cmds` without its closing NULL entry. -/
def asPdirect_cmds : List cmdtab_offset :=
  [ { zcmd := "device", itype := cmdtabtype.UUCONF_CMDTABTYPE_STRING,
      ioff := port_offset.uuconf_zdevice, pfi := none },
    { zcmd := "baud", itype := cmdtabtype.UUCONF_CMDTABTYPE_LONG,
      ioff := port_offset.uuconf_ibaud, pfi := none },
    { zcmd := "speed", itype := cmdtabtype.UUCONF_CMDTABTYPE_LONG,
      ioff := port_offset.uuconf_ibaud, pfi := none },
    { zcmd := "carrier", itype := cmdtabtype.UUCONF_CMDTABTYPE_BOOLEAN,
      ioff := port_offset.uuconf_fcarrier, pfi := none },
    { zcmd := "hardflow", itype := cmdtabtype.UUCONF_CMDTABTYPE_BOOLEAN,
      ioff := port_offset.uuconf_fhardflow, pfi := none } ]

/-- The table `asPpipe_cmds` without its closing NULL entry. -/
def asPpipe_cmds : List cmdtab_offset :=
  [ { zcmd := "command", itype := cmdtabtype.UUCONF_CMDTABTYPE_FULLSTRING,
      ioff := port_offset.uuconf_pzcmd, pfi := none } ]

/-- C `tolower` in the C locale. -/
def c_tolower (c : Char) : Char :=
  if 65 ≤ c.toNat ∧ c.toNat ≤ 90 then Char.ofNat (c.toNat + 32) else c

/-- C `strcasecmp (a, b) == 0`. -/
def strcasecmp_eq (a b : String) : Bool :=
  a.data.map c_tolower == b.data.map c_tolower

/-- What tportc.c uses and does not define.  `uuconf_cmd_entry` is what
`uuconf_cmd_args` does with the entry it has found for a command: the return
code and the port after it.  `ttype_uninit` is the value of the local variable
`ttype` of `_uuconf_iport_cmd` where the function reads it without having set
it (a first command that is not `type`). -/
structure PortEnv where
  uuconf_cmd_entry : cmdtab_offset → List String → uuconf_port → uuconf_ret × uuconf_port
  ttype_uninit : uuconf_porttype

/-- Function `ipbaud_range`: the handler of `baud-range`, which no table names. -/
def ipbaud_range (_argv : List String) : Nat := 0

/-- Function `ipcunknown`: the error for an unknown port command. -/
def ipcunknown (_argv : List String) : uuconf_ret :=
  { value := uuconf_error.UUCONF_SYNTAX_ERROR, keep := false, exit := true }

/-- The first entry of a table whose name is the command, letter case ignored. -/
def port_cmd_find (zcmd : String) : List cmdtab_offset → Option cmdtab_offset
  | [] => none
  | e :: rest => if strcasecmp_eq zcmd e.zcmd then some e else port_cmd_find zcmd rest

/-- Modelled from the spec: the table interpreter `uuconf_cmd_args`, which is
not in these files.  The entry that names the command `argv[0]` is applied; for
a command that no entry names the function `pfiunknown` is called, here always
`ipcunknown` ("Give an error for an unknown port command"). -/
def uuconf_cmd_args (env : PortEnv) (argv : List String) (qcmds : List cmdtab_offset)
    (qport : uuconf_port) (pfiunknown : List String → uuconf_ret) :
    uuconf_ret × uuconf_port :=
  match port_cmd_find (argv.headD "") qcmds with
  | some e => env.uuconf_cmd_entry e argv qport
  | none => (pfiunknown argv, qport)

/-- The port after the `switch (ttype)` that resets the fields of the type. -/
def port_set_type (qport : uuconf_port) (ttype : uuconf_porttype) : uuconf_port :=
  match ttype with
  | uuconf_porttype.UUCONF_PORTTYPE_DIRECT =>
    { qport with uuconf_ttype := ttype, uuconf_zdevice := none, uuconf_ibaud := -1,
                 uuconf_fcarrier := false, uuconf_fhardflow := true }
  | uuconf_porttype.UUCONF_PORTTYPE_PIPE =>
    { qport with uuconf_ttype := ttype, uuconf_pzcmd := none }
  | _ => { qport with uuconf_ttype := ttype }

/-- The second half of `_uuconf_iport_cmd`: look the command up in the generic
table, else in the table of the port type, and hand it to `uuconf_cmd_args`. -/
def _uuconf_iport_cmd_lookup (env : PortEnv) (argv : List String) (qport : uuconf_port) :
    uuconf_ret × uuconf_port :=
  let run (qcmds : List cmdtab_offset) : uuconf_ret × uuconf_port :=
    let r := uuconf_cmd_args env argv qcmds qport ipcunknown
    ({ r.1 with exit := false }, r.2)
  if (port_cmd_find (argv.headD "") asPort_cmds).isSome then run asPort_cmds
  else
    match qport.uuconf_ttype with
    | uuconf_porttype.UUCONF_PORTTYPE_STDIN => run asPstdin_cmds
    | uuconf_porttype.UUCONF_PORTTYPE_DIRECT => run asPdirect_cmds
    | uuconf_porttype.UUCONF_PORTTYPE_PIPE => run asPpipe_cmds
    | _ => (UUCONF_SYNTAX_ERROR, qport)

/-- Function `_uuconf_iport_cmd (qglobal, argc, argv, qport)`: the return code
and the port after the call. -/
def _uuconf_iport_cmd (env : PortEnv) (argv : List String) (qport : uuconf_port) :
    uuconf_ret × uuconf_port :=
  let fgottype := strcasecmp_eq (argv.headD "") "type"
  if fgottype then
    if argv.length ≠ 2 then (UUCONF_SYNTAX_ERROR, qport)
    else
      match azPtype_names.find?
          (fun n => match n.1 with
            | some z => strcasecmp_eq (argv.getD 1 "") z
            | none => false) with
      | none => (UUCONF_SYNTAX_ERROR, qport)
      | some n => (UUCONF_CMDTABRET_CONTINUE, port_set_type qport n.2)
  else if qport.uuconf_ttype = uuconf_porttype.UUCONF_PORTTYPE_UNKNOWN then
    _uuconf_iport_cmd_lookup env argv (port_set_type qport env.ttype_uninit)
  else _uuconf_iport_cmd_lookup env argv qport

/-- A layer in which a found entry changes nothing and succeeds. -/
def example_portenv : PortEnv :=
  { uuconf_cmd_entry := fun _ _ qport => (UUCONF_CMDTABRET_CONTINUE, qport)
    ttype_uninit := uuconf_porttype.UUCONF_PORTTYPE_UNKNOWN }

/-- A direct port on `/dev/ttyS0` at 9600 baud. -/
def example_port : uuconf_port :=
  { uuconf_zname := "port1", uuconf_ttype := uuconf_porttype.UUCONF_PORTTYPE_DIRECT,
    uuconf_zprotocols := none, uuconf_qproto_params := [], uuconf_ireliable := 0,
    uuconf_zlockname := none, uuconf_zdevice := some "/dev/ttyS0", uuconf_ibaud := 9600,
    uuconf_fcarrier := false, uuconf_fhardflow := true, uuconf_pzcmd := none }

/-! ## uustat.c: data -/

def JOB_SHOW : Nat := 0o1

def JOB_INQUIRE : Nat := 0o2

def JOB_KILL : Nat := 0o4

def JOB_MAIL : Nat := 0o10

def JOB_NOTIFY : Nat := 0o20

/-- A command as `fsysdep_get_work` returns it: the fields of `struct scmd`
and the sequence pointer `pseq`, which names the command file it came from. -/
structure swork where
  s : scmd
  pseq : Nat
deriving DecidableEq, Repr

/-- One cell of `struct scmdlist`; the list `qlist` is a list of cells. -/
structure scmdlist where
  s : swork
  itime : Int
deriving DecidableEq, Repr

/-- The fields of `struct tm` that uustat.c prints. -/
structure tm where
  tm_year : Int
  tm_mon : Int
  tm_mday : Int
  tm_hour : Int
  tm_min : Int
  tm_sec : Int
deriving DecidableEq, Repr

/-- The static variables that hold a read execute file (lines 573-596). -/
structure SxqtVars where
  zSxqt_user : Option String
  zSxqt_system : Option String
  zSxqt_requestor : Option String
  zSxqt_prog : Option String
  zSxqt_cmd : Option String
  pazSxqt_files : List String
  zSxqt_stdin : Option String
deriving DecidableEq, Repr

/-- What uustat changes outside its own variables: standard output, standard
error, the log, the mails sent, what is left of standard input, the job ids
given to `fsysdep_kill_job`, and the files given to `remove`. -/
structure UsWorld where
  out : List String
  err : List String
  log : List (tlog × String)
  mails : List Mail
  stdin : List Char
  killed : List String
  removed : List String
deriving DecidableEq, Repr

/-- One `ulog` line of uustat. -/
def UsWorld.ulog (w : UsWorld) (level : tlog) (msg : String) : UsWorld :=
  { w with log := w.log ++ [(level, msg)] }

/-- One `printf` of uustat. -/
def UsWorld.printf (w : UsWorld) (z : String) : UsWorld :=
  { w with out := w.out ++ [z] }

/-- The statics of uustat.c: the world, the list `qlist` and the job id
`zlistid` of `fsworkfile_show` (NULL is the empty list and `none`), and the
variables of the execute file read last. -/
structure UsState where
  w : UsWorld
  qlist : List scmdlist
  zlistid : Option String
  x : SxqtVars
deriving DecidableEq, Repr

/-- Several `printf` calls of uustat. -/
def UsWorld.printfs (w : UsWorld) (l : List String) : UsWorld :=
  { w with out := w.out ++ l }

/-- The state after one `ulog` line. -/
def UsState.logged (st : UsState) (level : tlog) (msg : String) : UsState :=
  { st with w := st.w.ulog level msg }

/-- How a run of uustat ends: `exit (EXIT_FAILURE)` in `ususage`, the exit of a
fatal `ulog`, the final `usysdep_exit (fret)`, or, as `undefined`, the call of
`strcmp` with a null pointer at line 1129, from which on the C program has no
defined behaviour (where a null pointer may not be read, the system ends it). -/
inductive UsExit where
  | usage
  | fatal
  | finished (fret : Bool)
  | undefined
deriving DecidableEq, Repr

/-- The end of a run of uustat; at the exit `undefined`, `st` is the state before
the call that is not defined. -/
structure UsFinal where
  st : UsState
  exit : UsExit
deriving DecidableEq, Repr

/-- A part of a run of uustat: the state after it with the value it returns, or
the end of the program inside it. -/
abbrev UsStep := Except UsFinal (UsState × Bool)

/-- Function `ususage ()`: print the usage message (here its second line) on
standard error and exit. -/
def ususage (st : UsState) : UsFinal :=
  { st := { st with w := { st.w with err := st.w.err ++ ["Usage: uustat [options]\n"] } },
    exit := UsExit.usage }

/-- A call `ulog (LOG_FATAL, ...)` of uustat: the message is logged and the
program exits. -/
def us_fatal (st : UsState) (msg : String) : UsFinal :=
  { st := st.logged tlog.LOG_FATAL msg, exit := UsExit.fatal }

/-- The result of `uuconf_localname`: `UUCONF_SUCCESS` with the name,
`UUCONF_NOT_FOUND`, or another error code with its message. -/
inductive uuconf_localname_result where
  | UUCONF_SUCCESS (zloc : String)
  | UUCONF_NOT_FOUND
  | UUCONF_ERROR (msg : String)
deriving DecidableEq, Repr

/-- The functions and globals uustat.c uses and does not define.
`xqt_file zfile` is `fopen (zfile, "r")` with the lines split into words by
`uuconf_cmd_file` (the error is the text of `strerror (errno)`);
`fsysdep_get_work qsys` is `fsysdep_get_work_init` (`none` when it fails) with
the commands that the calls of `fsysdep_get_work` return before the `H` command
(flag true) or before a call fails (flag false); `fsysdep_get_xqt` is
`fsysdep_get_xqt_init` with the pairs of file and system that
`zsysdep_get_xqt` returns and the value of `ferr` at its last call;
`remove_error` is `none` when `remove` works and else the text of `strerror`;
`fin_directory_list_send qsys zfile` is the call of `fin_directory_list` with
`qsys->uuconf_pzremote_send` in `fsnotify`. -/
structure UsEnv where
  zsysdep_login_name : String
  fsysdep_privileged : Bool
  OWNER : String
  HAVE_INTERNET_MAIL : Bool
  fspool_file : String → Bool
  zsysdep_spool_file_name : uuconf_system → String → Option String
  zsysdep_local_file : String → String → Option String
  fin_directory_list_send : uuconf_system → String → Bool
  csysdep_size : String → Int
  zsysdep_jobid : uuconf_system → Nat → Option String
  isysdep_work_time : uuconf_system → Nat → Int
  isysdep_file_time : String → Int
  isysdep_time : Int
  usysdep_localtime : Int → tm
  xqt_file : String → Except String (List (List String))
  uuconf_error_text : String
  read_lines : String → Option (List String)
  fsysdep_mail : String → String → List String → Bool
  fsysdep_kill_job : String → Bool
  fsysdep_rejuvenate_job : String → Bool
  uuconf_localname : uuconf_localname_result
  zsysdep_localname : Option String
  uuconf_system_info : String → uuconf_info
  funknown_system : String → Option uuconf_system
  uuconf_system_names : Option (List String)
  fsysdep_get_work : uuconf_system → Option (List swork × Bool)
  fsysdep_get_xqt : Option (List (String × String) × Bool)
  remove_error : String → Option String
  uuconf_init : Option String
  fsysdep_other_config : String → Bool

/-! ## uustat.c: reading an execute file -/

/-- Handler `isxqt_cmd` of the C line. -/
def isxqt_cmd (v : SxqtVars) (argv : List String) : SxqtVars :=
  if argv.length ≤ 1 then v
  else { v with zSxqt_prog := some (argv.getD 1 ""),
                zSxqt_cmd := some (" ".intercalate argv.tail) }

/-- Handler `isxqt_file` of the F line. -/
def isxqt_file (fspool_file : String → Bool) (v : SxqtVars) (argv : List String) :
    SxqtVars :=
  if argv.length ≠ 2 ∧ argv.length ≠ 3 then v
  else if ! fspool_file (argv.getD 1 "") then v
  else { v with pazSxqt_files := v.pazSxqt_files ++ [argv.getD 1 ""] }

/-- Handler `isxqt_user` of the U line. -/
def isxqt_user (v : SxqtVars) (argv : List String) : SxqtVars :=
  { v with zSxqt_user := some (argv.getD 1 ""), zSxqt_system := some (argv.getD 2 "") }

/-- An entry of the table `asSxqt_cmds`: `UUCONF_CMDTABTYPE_FN | n` with its
function, or `UUCONF_CMDTABTYPE_STRING` with the variable it sets. -/
inductive sxqt_cmdtab where
  | fn (n : Nat) (pfi : SxqtVars → List String → SxqtVars)
  | string (set : SxqtVars → String → SxqtVars)

/-- The table `asSxqt_cmds` (lines 599-607). -/
def asSxqt_cmds (fspool_file : String → Bool) : List (String × sxqt_cmdtab) :=
  [ ("C", sxqt_cmdtab.fn 0 isxqt_cmd),
    ("I", sxqt_cmdtab.string (fun v s => { v with zSxqt_stdin := some s })),
    ("F", sxqt_cmdtab.fn 0 (isxqt_file fspool_file)),
    ("R", sxqt_cmdtab.string (fun v s => { v with zSxqt_requestor := some s })),
    ("U", sxqt_cmdtab.fn 3 isxqt_user) ]

/-- The first entry of a table with the given name. -/
def sxqt_find (c : String) : List (String × sxqt_cmdtab) → Option sxqt_cmdtab
  | [] => none
  | (n, e) :: rest => if c = n then some e else sxqt_find c rest

/-- Modelled from the spec: the file interpreter `uuconf_cmd_file`, which is not
in these files, on lines already split into words: the first word selects the
entry, "unknown lines are ignored", and a line with the wrong number of words
for its entry ends the reading with an error (the flag is false). -/
def uuconf_cmd_file (table : List (String × sxqt_cmdtab)) :
    SxqtVars → List (List String) → SxqtVars × Bool
  | v, [] => (v, true)
  | v, argv :: rest =>
    match sxqt_find (argv.headD "") table with
    | none => uuconf_cmd_file table v rest
    | some (sxqt_cmdtab.fn n pfi) =>
      if n ≠ 0 ∧ argv.length ≠ n then (v, false)
      else uuconf_cmd_file table (pfi v argv) rest
    | some (sxqt_cmdtab.string set) =>
      if argv.length ≠ 2 then (v, false)
      else uuconf_cmd_file table (set v (argv.getD 1 "")) rest

/-- Function `fsxqt_file_read (puuconf, zfile)`. -/
def fsxqt_file_read (env : UsEnv) (st : UsState) (zfile : String) : UsState × Bool :=
  match env.xqt_file zfile with
  | Except.error zerr =>
    ({ st with w := st.w.ulog tlog.LOG_ERROR ("fopen (" ++ zfile ++ "): " ++ zerr) }, false)
  | Except.ok lines =>
    let v0 : SxqtVars :=
      { st.x with zSxqt_user := none, zSxqt_system := none, zSxqt_requestor := none,
                  zSxqt_prog := none, zSxqt_cmd := none, pazSxqt_files := [] }
    let r := uuconf_cmd_file (asSxqt_cmds env.fspool_file) v0 lines
    let w1 : UsWorld :=
      if r.2 then st.w else st.w.ulog tlog.LOG_ERROR env.uuconf_error_text
    let v1 : SxqtVars :=
      if r.1.zSxqt_user.isNone then { r.1 with zSxqt_user := some "*unknown*" } else r.1
    let v2 : SxqtVars :=
      if v1.zSxqt_system.isNone then { v1 with zSxqt_system := some "*unknown*" } else v1
    let v3 : SxqtVars :=
      if v2.zSxqt_prog.isNone then
        { v2 with zSxqt_prog := some "*none*", zSxqt_cmd := some "*none*" }
      else v2
    ({ st with w := w1, x := v3 }, r.2)

/-! ## uustat.c: `fsnotify` -/

/-- The lines `fsnotify` adds for a list of commands (lines 1567-1590). -/
def fsnotify_cmds : List scmdlist → List String
  | [] => []
  | q :: rest =>
    (if q.s.s.bcmd = 'S' then "\tsend " else "\trequest ") ::
      q.s.s.zfrom :: " to " :: q.s.s.zto :: fsnotify_cmds rest

/-- The lines of standard input that `fsnotify` adds (lines 1593-1646). -/
def fsnotify_stdin (env : UsEnv) (cstdin : Int) (qsys : uuconf_system)
    (zstdin : Option String) : List String :=
  match zstdin with
  | none => []
  | some zin =>
    if cstdin ≤ 0 then []
    else
      let fspool := env.fspool_file zin
      let zfile :=
        if fspool then env.zsysdep_spool_file_name qsys zin
        else env.zsysdep_local_file zin qsys.uuconf_zpubdir
      match zfile with
      | none => []
      | some zf =>
        if fspool || env.fin_directory_list_send qsys zf then
          match env.read_lines zf with
          | none => []
          | some lines => "\n" :: lines.take cstdin.toNat
        else []

/-- The text `pz` that `fsnotify` mails (lines 1528-1646). -/
def fsnotify_text (env : UsEnv) (zcomment : Option String) (cstdin : Int)
    (fkilled : Bool) (zcmd : Option String) (qcmd : List scmdlist) (zid : Option String)
    (zuser : String) (qsys : uuconf_system) (zstdin : Option String) : List String :=
  (match zid with
   | none => ["A UUCP execution request\n"]
   | some id => ["UUCP job\n\t", id, "\n"]) ++
  ["requested by\n\t", zuser, "\non system\n\t", qsys.uuconf_zname, "\n"] ++
  (if fkilled then ["has been killed.\n"] else []) ++
  (match zcomment with
   | some c => [c, "\n"]
   | none => []) ++
  ["The job ", if fkilled then "was\n" else "is\n"] ++
  (match zcmd with
   | some c => ["\t", c]
   | none => fsnotify_cmds qcmd) ++
  fsnotify_stdin env cstdin qsys zstdin

/-- Function `fsnotify`: mail what was done with a job to `OWNER` (`JOB_MAIL`)
and to the requestor (`JOB_NOTIFY`).  `Except.error w` is the end of the program
in `ulog_uuconf (LOG_FATAL, ...)` (line 1680), with the world `w` it leaves. -/
def fsnotify (env : UsEnv) (w : UsWorld) (icmd : Nat) (zcomment : Option String)
    (cstdin : Int) (fkilled : Bool) (zcmd : Option String) (qcmd : List scmdlist)
    (zid : Option String) (zuser : String) (qsys : uuconf_system)
    (zstdin : Option String) (zrequestor : Option String) :
    Except UsWorld (UsWorld × Bool) :=
  let pz := fsnotify_text env zcomment cstdin fkilled zcmd qcmd zid zuser qsys zstdin
  let zsubject := if fkilled then "UUCP job killed" else "UUCP notification"
  let r1 : UsWorld × Bool :=
    if icmd &&& JOB_MAIL ≠ 0 then
      ({ w with mails := w.mails ++ [{ zto := env.OWNER, zsubject := zsubject, paz := pz }] },
       env.fsysdep_mail env.OWNER zsubject pz)
    else (w, true)
  if icmd &&& JOB_NOTIFY ≠ 0 then
    let zmail0 := match zrequestor with
      | some r => r
      | none => zuser
    let send (zloc : String) : UsWorld × Bool :=
      let zmail :=
        if qsys.uuconf_zname ≠ zloc ∧ (! env.HAVE_INTERNET_MAIL ∨ '@' ∉ zmail0.data) then
          qsys.uuconf_zname ++ "!" ++ zmail0
        else zmail0
      ({ r1.1 with mails := r1.1.mails ++ [{ zto := zmail, zsubject := zsubject, paz := pz }] },
       r1.2 && env.fsysdep_mail zmail zsubject pz)
    match env.uuconf_localname with
    | uuconf_localname_result.UUCONF_SUCCESS zloc => Except.ok (send zloc)
    | uuconf_localname_result.UUCONF_NOT_FOUND =>
      match env.zsysdep_localname with
      | none => Except.ok (r1.1, false)
      | some zloc => Except.ok (send zloc)
    | uuconf_localname_result.UUCONF_ERROR msg =>
      Except.error (r1.1.ulog tlog.LOG_FATAL msg)
  else Except.ok r1

/-! ## uustat.c: work files -/

/-- The loops of the form `fmatch = fnot; for (...) if (p (paz[i])) { fmatch =
! fmatch; break; }`: the value of `fmatch` after the loop. -/
def us_match_loop (p : String → Bool) (fmatch : Bool) : List String → Bool
  | [] => fmatch
  | z :: rest => if p z then ! fmatch else us_match_loop p fmatch rest

/-- C `printf ("%0<n>d", i)`. -/
def fmt_0d (n : Nat) (i : Int) : String :=
  if i < 0 then "-" ++ String.mk (List.replicate (n - 1 - (toString i.natAbs).length) '0')
    ++ toString i.natAbs
  else String.mk (List.replicate (n - (toString i.natAbs).length) '0') ++ toString i.natAbs

/-- The time as all listings print it: `%04d-%02d-%02d %02d:%02d:%02d`. -/
def us_time_text (env : UsEnv) (itime : Int) : String :=
  let stime := env.usysdep_localtime itime
  fmt_0d 4 (stime.tm_year + 1900) ++ "-" ++ fmt_0d 2 (stime.tm_mon + 1) ++ "-" ++
    fmt_0d 2 stime.tm_mday ++ " " ++ fmt_0d 2 stime.tm_hour ++ ":" ++
    fmt_0d 2 stime.tm_min ++ ":" ++ fmt_0d 2 stime.tm_sec

/-- Function `usworkfile_header (qsys, qcmd, zjobid, itime, ffirst)`: what it prints. -/
def usworkfile_header (env : UsEnv) (qsys : uuconf_system) (qcmd : scmd)
    (zjobid : String) (itime : Int) (ffirst : Bool) : String :=
  (if ffirst then zjobid else "-") ++ " " ++ qsys.uuconf_zname ++ " " ++ qcmd.zuser ++ " "
    ++ us_time_text env itime ++ " "

/-- The test for the command that sends an execute file: an `S` command to a
name that starts with `X.` from a spool file. -/
def us_is_xqt (env : UsEnv) (q : scmdlist) : Bool :=
  q.s.s.bcmd == 'S' && q.s.s.zto.data.getD 0 (Char.ofNat 0) == 'X' &&
    q.s.s.zto.data.getD 1 (Char.ofNat 0) == '.' && env.fspool_file q.s.s.zfrom

/-- The file whose size is shown for an `S` command. -/
def us_send_file (env : UsEnv) (qsys : uuconf_system) (s : scmd) : Option String :=
  if s.zoptions.data.contains 'C' || env.fspool_file s.zfrom then
    env.zsysdep_spool_file_name qsys s.ztemp
  else some s.zfrom

/-- The lines printed for a regular work file (lines 1010-1052, with `DEBUG > 0`). -/
def us_show_lines (env : UsEnv) (qsys : uuconf_system) (zlistid : String)
    (ffirst : Bool) : List scmdlist → List String
  | [] => []
  | q :: rest =>
    (usworkfile_header env qsys q.s.s zlistid q.itime ffirst ++
      (if q.s.s.bcmd = 'S' then
        "Sending " ++ q.s.s.zfrom ++ " (" ++
          toString (match us_send_file env qsys q.s.s with
            | none => (0 : Int)
            | some zfile => env.csysdep_size zfile) ++ " bytes) to " ++ q.s.s.zto
       else if q.s.s.bcmd = 'R' ∨ q.s.s.bcmd = 'X' then
        "Requesting " ++ q.s.s.zfrom ++ " to " ++ q.s.s.zto
       else "Bad line " ++ toString q.s.s.bcmd.toNat) ++ "\n") ::
      us_show_lines env qsys zlistid false rest

/-- The sum `csize` of the sizes of the files sent (lines 1072-1090). -/
def us_csize (env : UsEnv) (qsys : uuconf_system) : List scmdlist → Int
  | [] => 0
  | q :: rest =>
    (if q.s.s.bcmd = 'S' then
      match us_send_file env qsys q.s.s with
      | none => 0
      | some zfile => env.csysdep_size zfile
     else 0) + us_csize env qsys rest

/-- The loop of lines 1126-1138 that looks for the name `zstdin` of the standard
input file on this system: `some zstdin` is its value after the loop (`none` is
NULL), and `none` is the call `strcmp (qstdin->s.zto, zSxqt_stdin)` with a null
pointer, which the loop makes at the first `S` command when `zSxqt_stdin` is
NULL. -/
def us_zstdin (env : UsEnv) (zSxqt_stdin : Option String) :
    List scmdlist → Option (Option String)
  | [] => some none
  | q :: rest =>
    if q.s.s.bcmd = 'S' then
      match zSxqt_stdin with
      | none => none
      | some zin =>
        if q.s.s.zto = zin then
          if q.s.s.zoptions.data.contains 'C' || env.fspool_file q.s.s.zfrom then
            some (some q.s.s.ztemp)
          else some (some q.s.s.zfrom)
        else us_zstdin env zSxqt_stdin rest
    else us_zstdin env zSxqt_stdin rest

/-- The command filter for a job without execute file (lines 1008-1010):
`ccommands == 0 || (fnotcommands && strcmp (pazcommands[0], "ALL") == 0)`. -/
def us_plain_cmd_match (pazcommands : List String) (fnotcommands : Bool) : Bool :=
  decide (pazcommands.length = 0 ∨ (fnotcommands = true ∧ pazcommands.head? = some "ALL"))

/-- The command filter for a job with an execute file (lines 1101-1117), whose
command is `zSxqt_prog`. -/
def us_xqt_cmd_match (zSxqt_prog : Option String) (pazcommands : List String)
    (fnotcommands : Bool) : Bool :=
  if pazcommands.length = 0 then true
  else us_match_loop (fun z => z == "ALL" || some z == zSxqt_prog) fnotcommands pazcommands

/-- The characters left after `while (b != EOF && b != '\n') b = getchar ();`
when `b` was not the end of the line. -/
def us_skip_line : List Char → List Char
  | [] => []
  | c :: rest => if c = '\n' then rest else us_skip_line rest

/-- The answer read from standard input: `fkill` and what is left of the input. -/
def us_getchar_answer (stdin : List Char) : Bool × List Char :=
  match stdin with
  | [] => (false, [])
  | b :: rest => (b == 'y' || b == 'Y', if b = '\n' then rest else us_skip_line rest)

/-- The value of `fkill` (lines 1152-1168 and 1383-1399): with `JOB_INQUIRE`
the user is asked about `zwhat` on standard error, else `JOB_KILL` decides. -/
def us_fkill (w : UsWorld) (icmd : Nat) (zwhat : String) : UsWorld × Bool :=
  if icmd &&& JOB_INQUIRE ≠ 0 then
    let r := us_getchar_answer w.stdin
    ({ w with err := w.err ++ ["uustat: Kill " ++ zwhat ++ "? "], stdin := r.2 }, r.1)
  else if icmd &&& JOB_KILL ≠ 0 then (w, true)
  else (w, false)

/-- Lines 1170-1190 of `fsworkfile_show`: refuse to kill the job of another
user, else notify and kill; the flag is false where the C code returns FALSE. -/
def usworkfile_kill (env : UsEnv) (icmd : Nat) (qsys : uuconf_system)
    (zcomment : Option String) (cstdin : Int) (zstdin : Option String)
    (st : UsState) (fkill : Bool) : UsStep :=
  let zlistid := st.zlistid.getD ""
  let zuser := match st.qlist with
    | [] => ""
    | q :: _ => q.s.s.zuser
  if fkill && env.zsysdep_login_name != zuser && ! env.fsysdep_privileged then
    Except.ok
      ({ st with w := st.w.ulog tlog.LOG_ERROR (zlistid ++ ": Not submitted by you") }, true)
  else
    let n : Except UsWorld (UsWorld × Bool) :=
      if icmd &&& (JOB_MAIL ||| JOB_NOTIFY) ≠ 0 then
        fsnotify env st.w icmd zcomment cstdin fkill st.x.zSxqt_cmd st.qlist
          (some zlistid) zuser qsys zstdin st.x.zSxqt_requestor
      else Except.ok (st.w, true)
    match n with
    | Except.error w => Except.error { st := { st with w := w }, exit := UsExit.fatal }
    | Except.ok r =>
      if ! r.2 then Except.ok ({ st with w := r.1 }, false)
      else if fkill then
        Except.ok
          ({ st with w := { r.1 with killed := r.1.killed ++ [zlistid] } },
           env.fsysdep_kill_job zlistid)
      else Except.ok ({ st with w := r.1 }, true)

/-- Lines 1148-1190: for a job that matched, decide `fkill` and act on it. -/
def usworkfile_match (env : UsEnv) (icmd : Nat) (qsys : uuconf_system)
    (zcomment : Option String) (cstdin : Int) (zstdin : Option String)
    (st : UsState) (fmatch : Bool) : UsStep :=
  if fmatch then
    let r := us_fkill st.w icmd (st.zlistid.getD "")
    usworkfile_kill env icmd qsys zcomment cstdin zstdin { st with w := r.1 } r.2
  else Except.ok (st, true)

/-- The end of lines 985-1207 of `fsworkfile_show` (lines 1192-1209): when the
lines before did not return FALSE the list is emptied. -/
def usworkfile_done (r : UsStep) : UsStep :=
  match r with
  | Except.error f => Except.error f
  | Except.ok r =>
    if r.2 then Except.ok ({ r.1 with qlist := [], zlistid := none }, true) else Except.ok r

/-- Lines 985-1207 of `fsworkfile_show`: show the job accumulated in `qlist`,
act on it and empty the list.  Where the C code returns FALSE the list stays. -/
def usworkfile_job (env : UsEnv) (icmd : Nat) (qsys : uuconf_system)
    (pazcommands : List String) (fnotcommands : Bool) (zcomment : Option String)
    (cstdin : Int) (st : UsState) : UsStep :=
  let zlistid := st.zlistid.getD ""
  match st.qlist.find? (us_is_xqt env) with
  | none =>
    let st0 : UsState :=
      { st with x := { st.x with zSxqt_cmd := none, zSxqt_requestor := none } }
    if us_plain_cmd_match pazcommands fnotcommands then
      let st1 : UsState :=
        if icmd &&& JOB_SHOW ≠ 0 then
          { st0 with w := st0.w.printfs (us_show_lines env qsys zlistid true st0.qlist) }
        else st0
      usworkfile_done (usworkfile_match env icmd qsys zcomment cstdin none st1 true)
    else usworkfile_done (usworkfile_match env icmd qsys zcomment cstdin none st0 false)
  | some qxqt =>
    match env.zsysdep_spool_file_name qsys qxqt.s.s.zfrom with
    | none => Except.ok (st, false)
    | some zxqt =>
      let r := fsxqt_file_read env st zxqt
      if ! r.2 then Except.ok r
      else
        let st0 := r.1
        let csize := us_csize env qsys st0.qlist
        let fmatch : Bool := us_xqt_cmd_match st0.x.zSxqt_prog pazcommands fnotcommands
        match (if fmatch then us_zstdin env st0.x.zSxqt_stdin st0.qlist else some none) with
        | none => Except.error { st := st0, exit := UsExit.undefined }
        | some zstdin =>
          let st1 : UsState :=
            if fmatch && decide (icmd &&& JOB_SHOW ≠ 0) then
              let lines : List String :=
                [usworkfile_header env qsys qxqt.s.s zlistid qxqt.itime true,
                 "Executing " ++ st0.x.zSxqt_cmd.getD "" ++ " (sending " ++
                   toString csize ++ " bytes)\n"]
              { st0 with w := st0.w.printfs lines }
            else st0
          usworkfile_done (usworkfile_match env icmd qsys zcomment cstdin zstdin st1 fmatch)

/-- Function `fsworkfile_show`: called with each command of a system and at the
end with no command (`qcmd == NULL`). -/
def fsworkfile_show (env : UsEnv) (icmd : Nat) (qsys : uuconf_system)
    (qcmd : Option (swork × Int)) (pazcommands : List String) (fnotcommands : Bool)
    (zcomment : Option String) (cstdin : Int) (st : UsState) : UsStep :=
  let flush (st : UsState) : UsStep :=
    if st.qlist ≠ [] then
      usworkfile_job env icmd qsys pazcommands fnotcommands zcomment cstdin st
    else Except.ok (st, true)
  match qcmd with
  | none => flush st
  | some (s, itime) =>
    match env.zsysdep_jobid qsys s.pseq with
    | none => Except.ok (st, false)
    | some zid =>
      if st.qlist ≠ [] ∧ st.zlistid = some zid then
        Except.ok ({ st with qlist := st.qlist ++ [{ s := s, itime := itime }] }, true)
      else
        match flush st with
        | Except.error f => Except.error f
        | Except.ok r =>
          if ! r.2 then Except.ok r
          else
            Except.ok
              ({ r.1 with qlist := [{ s := s, itime := itime }], zlistid := some zid }, true)

/-- The selection of one command in `fsworkfiles_system` (lines 894-914): the
user filter, then the two age filters. -/
def us_work_selected (env : UsEnv) (qsys : uuconf_system) (pazusers : List String)
    (fnotusers : Bool) (iold iyoung : Int) (s : swork) : Bool :=
  if pazusers.length > 0 ∧
      us_match_loop (fun z => z == s.s.zuser) fnotusers pazusers = false then false
  else
    let itime := env.isysdep_work_time qsys s.pseq
    if iold ≠ -1 ∧ itime > iold then false
    else if iyoung ≠ -1 ∧ itime < iyoung then false
    else true

/-- The loop `while (TRUE)` of `fsworkfiles_system` over the commands that
`fsysdep_get_work` returns; the flag is false where the C code returns FALSE. -/
def fsworkfiles_system_loop (env : UsEnv) (icmd : Nat) (qsys : uuconf_system)
    (pazusers : List String) (fnotusers : Bool) (iold iyoung : Int)
    (pazcommands : List String) (fnotcommands : Bool) (zcomment : Option String)
    (cstdin : Int) : List swork → UsState → UsStep
  | [], st => Except.ok (st, true)
  | s :: rest, st =>
    if us_work_selected env qsys pazusers fnotusers iold iyoung s then
      match fsworkfile_show env icmd qsys (some (s, env.isysdep_work_time qsys s.pseq))
        pazcommands fnotcommands zcomment cstdin st with
      | Except.error f => Except.error f
      | Except.ok r =>
        if ! r.2 then Except.ok r
        else
          fsworkfiles_system_loop env icmd qsys pazusers fnotusers iold iyoung pazcommands
            fnotcommands zcomment cstdin rest r.1
    else
      fsworkfiles_system_loop env icmd qsys pazusers fnotusers iold iyoung pazcommands
        fnotcommands zcomment cstdin rest st

/-- Function `fsworkfiles_system`: look at the work files of one system. -/
def fsworkfiles_system (env : UsEnv) (icmd : Nat) (qsys : uuconf_system)
    (pazusers : List String) (fnotusers : Bool) (iold iyoung : Int)
    (pazcommands : List String) (fnotcommands : Bool) (zcomment : Option String)
    (cstdin : Int) (st : UsState) : UsStep :=
  match env.fsysdep_get_work qsys with
  | none => Except.ok (st, false)
  | some (cmds, fend) =>
    match fsworkfiles_system_loop env icmd qsys pazusers fnotusers iold iyoung
      pazcommands fnotcommands zcomment cstdin cmds st with
    | Except.error f => Except.error f
    | Except.ok r =>
      if ! r.2 then Except.ok r
      else if ! fend then Except.ok (r.1, false)
      else fsworkfile_show env icmd qsys none pazcommands fnotcommands zcomment cstdin r.1

/-- The loop of `fsworkfiles` over systems; `fret` is the flag so far. -/
def fsworkfiles_loop (env : UsEnv) (icmd : Nat) (fnamed : Bool)
    (pazusers : List String) (fnotusers : Bool) (iold iyoung : Int)
    (pazcommands : List String) (fnotcommands : Bool) (zcomment : Option String)
    (cstdin : Int) : List String → UsState → Bool → UsStep
  | [], st, fret => Except.ok (st, fret)
  | z :: rest, st, fret =>
    match env.uuconf_system_info z with
    | uuconf_info.UUCONF_SUCCESS ssys =>
      match fsworkfiles_system env icmd ssys pazusers fnotusers iold iyoung pazcommands
        fnotcommands zcomment cstdin st with
      | Except.error f => Except.error f
      | Except.ok r =>
        fsworkfiles_loop env icmd fnamed pazusers fnotusers iold iyoung pazcommands
          fnotcommands zcomment cstdin rest r.1 (fret && r.2)
    | uuconf_info.UUCONF_NOT_FOUND =>
      fsworkfiles_loop env icmd fnamed pazusers fnotusers iold iyoung pazcommands
        fnotcommands zcomment cstdin rest
        (st.logged tlog.LOG_ERROR
          (if fnamed then z ++ ": System not found" else env.uuconf_error_text))
        false
    | uuconf_info.UUCONF_ERROR msg =>
      fsworkfiles_loop env icmd fnamed pazusers fnotusers iold iyoung pazcommands
        fnotcommands zcomment cstdin rest { st with w := st.w.ulog tlog.LOG_ERROR msg } false

/-- Function `fsworkfiles`: the systems named with `-s`, or all systems but
those named with `-S`. -/
def fsworkfiles (env : UsEnv) (icmd : Nat) (pazsystems : List String) (fnotsystems : Bool)
    (pazusers : List String) (fnotusers : Bool) (iold iyoung : Int)
    (pazcommands : List String) (fnotcommands : Bool) (zcomment : Option String)
    (cstdin : Int) (st : UsState) : UsStep :=
  if pazsystems.length > 0 ∧ fnotsystems = false then
    fsworkfiles_loop env icmd true pazusers fnotusers iold iyoung pazcommands fnotcommands
      zcomment cstdin pazsystems st true
  else
    match env.uuconf_system_names with
    | none =>
      Except.ok ({ st with w := st.w.ulog tlog.LOG_ERROR env.uuconf_error_text }, false)
    | some pznames =>
      fsworkfiles_loop env icmd false pazusers fnotusers iold iyoung pazcommands
        fnotcommands zcomment cstdin
        (pznames.filter (fun z => ! pazsystems.contains z)) st true

/-! ## uustat.c: execute files -/

/-- Lines 1401-1433 of `fsexecutions`: the job of another user, or of another
system than this one, is not killed; the value is `fbad`. -/
def usexecutions_own (env : UsEnv) (w : UsWorld) (x : SxqtVars) (zsystem : String)
    (fkill : Bool) : UsWorld × Bool :=
  if fkill then
    if x.zSxqt_user != some env.zsysdep_login_name && ! env.fsysdep_privileged then
      (w.ulog tlog.LOG_ERROR "Job not submitted by you\n", true)
    else
      let check (zlocalname : String) : UsWorld × Bool :=
        if zsystem ≠ zlocalname then
          (w.ulog tlog.LOG_ERROR "Job not submitted by you", true)
        else (w, false)
      match env.uuconf_localname with
      | uuconf_localname_result.UUCONF_SUCCESS zlocalname => check zlocalname
      | uuconf_localname_result.UUCONF_NOT_FOUND =>
        match env.zsysdep_localname with
        | none => (w, true)
        | some zlocalname => check zlocalname
      | uuconf_localname_result.UUCONF_ERROR msg => (w.ulog tlog.LOG_ERROR msg, true)
  else (w, false)

/-- Lines 1435-1452 of `fsexecutions`: the system of the job; `none` sets `fbad`. -/
def usexecutions_system (env : UsEnv) (w : UsWorld) (zsystem : String) :
    UsWorld × Option uuconf_system :=
  match env.uuconf_system_info zsystem with
  | uuconf_info.UUCONF_SUCCESS ssys => (w, some ssys)
  | uuconf_info.UUCONF_ERROR msg => (w.ulog tlog.LOG_ERROR msg, none)
  | uuconf_info.UUCONF_NOT_FOUND =>
    match env.funknown_system zsystem with
    | some ssys => (w, some ssys)
    | none => (w.ulog tlog.LOG_ERROR ("Job for unknown system " ++ zsystem), none)

/-- Lines 1469-1484 of `fsexecutions`: remove the files of the job and the
execute file. -/
def usexecutions_remove (env : UsEnv) (w : UsWorld) (x : SxqtVars) (ssys : uuconf_system)
    (zfile : String) : UsWorld :=
  let w1 : UsWorld :=
    { w with removed := w.removed ++
        x.pazSxqt_files.filterMap (fun f => env.zsysdep_spool_file_name ssys f) ++ [zfile] }
  match env.remove_error zfile with
  | none => w1
  | some zerr => w1.ulog tlog.LOG_ERROR ("remove (" ++ zfile ++ "): " ++ zerr)

/-- Lines 1358-1490 of `fsexecutions`: show a job that matched and act on it;
the flag is true where the C code sets `ferr` and leaves the loop. -/
def usexecutions_match (env : UsEnv) (icmd : Nat) (zcomment : Option String)
    (cstdin : Int) (st : UsState) (zfile zsystem : String) (itime : Int) :
    UsStep :=
  let w0 : UsWorld :=
    if icmd &&& JOB_SHOW ≠ 0 then
      st.w.printfs
        [zsystem ++ " " ++ st.x.zSxqt_system.getD "" ++ "!",
         match st.x.zSxqt_requestor with
         | some r => r
         | none => st.x.zSxqt_user.getD "",
         " " ++ us_time_text env itime ++ " ",
         st.x.zSxqt_cmd.getD "" ++ "\n"]
    else st.w
  let k := us_fkill w0 icmd (st.x.zSxqt_cmd.getD "")
  let fkill := k.2
  let o := usexecutions_own env k.1 st.x zsystem fkill
  if o.2 then Except.ok ({ st with w := o.1 }, false)
  else
    match usexecutions_system env o.1 zsystem with
    | (w2, none) => Except.ok ({ st with w := w2 }, false)
    | (w2, some ssys) =>
      let n : Except UsWorld (UsWorld × Bool) :=
        if icmd &&& (JOB_MAIL ||| JOB_NOTIFY) ≠ 0 then
          fsnotify env w2 icmd zcomment cstdin fkill st.x.zSxqt_cmd [] none
            (st.x.zSxqt_user.getD "") ssys st.x.zSxqt_stdin st.x.zSxqt_requestor
        else Except.ok (w2, true)
      match n with
      | Except.error w => Except.error { st := { st with w := w }, exit := UsExit.fatal }
      | Except.ok n =>
        if ! n.2 then Except.ok ({ st with w := n.1 }, true)
        else if fkill then
          Except.ok ({ st with w := usexecutions_remove env n.1 st.x ssys zfile }, false)
        else Except.ok ({ st with w := n.1 }, false)

/-- The test of one execute file in `fsexecutions` (lines 1293-1317): the
system filter, then the age filters. -/
def us_xqt_selected (env : UsEnv) (pazsystems : List String) (fnotsystems : Bool)
    (iold iyoung : Int) (zfile zsystem : String) : Bool :=
  if pazsystems.length > 0 ∧
      us_match_loop (fun z => z == zsystem) fnotsystems pazsystems = false then false
  else
    let itime := env.isysdep_file_time zfile
    if (iold ≠ -1 ∧ itime > iold) ∨ (iyoung ≠ -1 ∧ itime < iyoung) then false else true

/-- The value of `fmatch` for a read execute file (lines 1327-1356): the user
filter, then the command filter. -/
def us_xqt_match (x : SxqtVars) (pazusers : List String) (fnotusers : Bool)
    (pazcommands : List String) (fnotcommands : Bool) : Bool :=
  let fmatch : Bool :=
    if pazusers.length = 0 then true
    else
      us_match_loop (fun z => x.zSxqt_user == some z || x.zSxqt_requestor == some z)
        fnotusers pazusers
  if fmatch && decide (pazcommands.length > 0) then
    us_match_loop (fun z => z == "ALL" || some z == x.zSxqt_prog) fnotcommands pazcommands
  else fmatch

/-- The loop `while ((zfile = zsysdep_get_xqt (&zsystem, &ferr)) != NULL)` of
`fsexecutions`; `ferr` is the value that the last call of `zsysdep_get_xqt`
gives it when the loop runs to its end. -/
def fsexecutions_loop (env : UsEnv) (icmd : Nat) (pazsystems : List String)
    (fnotsystems : Bool) (pazusers : List String) (fnotusers : Bool) (iold iyoung : Int)
    (pazcommands : List String) (fnotcommands : Bool) (zcomment : Option String)
    (cstdin : Int) (ferr : Bool) : List (String × String) → UsState → UsStep
  | [], st => Except.ok (st, ferr)
  | (zfile, zsystem) :: rest, st =>
    if ! us_xqt_selected env pazsystems fnotsystems iold iyoung zfile zsystem then
      fsexecutions_loop env icmd pazsystems fnotsystems pazusers fnotusers iold iyoung
        pazcommands fnotcommands zcomment cstdin ferr rest st
    else
      let r := fsxqt_file_read env st zfile
      if ! r.2 then
        fsexecutions_loop env icmd pazsystems fnotsystems pazusers fnotusers iold iyoung
          pazcommands fnotcommands zcomment cstdin ferr rest r.1
      else if us_xqt_match r.1.x pazusers fnotusers pazcommands fnotcommands then
        match usexecutions_match env icmd zcomment cstdin r.1 zfile zsystem
          (env.isysdep_file_time zfile) with
        | Except.error f => Except.error f
        | Except.ok m =>
          if m.2 then Except.ok (m.1, true)
          else
            fsexecutions_loop env icmd pazsystems fnotsystems pazusers fnotusers iold iyoung
              pazcommands fnotcommands zcomment cstdin ferr rest m.1
      else
        fsexecutions_loop env icmd pazsystems fnotsystems pazusers fnotusers iold iyoung
          pazcommands fnotcommands zcomment cstdin ferr rest r.1

/-- Function `fsexecutions`: the state after it and the value it returns, which
is `ferr` (line 1498). -/
def fsexecutions (env : UsEnv) (icmd : Nat) (pazsystems : List String)
    (fnotsystems : Bool) (pazusers : List String) (fnotusers : Bool) (iold iyoung : Int)
    (pazcommands : List String) (fnotcommands : Bool) (zcomment : Option String)
    (cstdin : Int) (st : UsState) : UsStep :=
  match env.fsysdep_get_xqt with
  | none => Except.ok (st, false)
  | some (files, ferr) =>
    fsexecutions_loop env icmd pazsystems fnotsystems pazusers fnotusers iold iyoung
      pazcommands fnotcommands zcomment cstdin ferr files st

/-! ## uustat.c: `-q` and `-m` -/

/-- The number `iunits` and the unit `zunit` that `usunits_show (idiff)` chooses;
the dividend is positive where it divides. -/
def usunits (idiff : Int) : Int × String :=
  if idiff > 24 * 60 * 60 then (idiff / (24 * 60 * 60), "day")
  else if idiff > 60 * 60 then (idiff / (60 * 60), "hour")
  else if idiff > 60 then (idiff / 60, "min")
  else (idiff, "sec")

/-- Function `usunits_show (idiff)`: what it prints, `"%ld %s%s"`. -/
def usunits_show (idiff : Int) : String :=
  toString (usunits idiff).1 ++ " " ++ (usunits idiff).2 ++
    (if (usunits idiff).1 = 1 then "" else "s")

/-- The array `azStatus` of lib/status.c without `USE_TRADITIONAL_STATUS`. -/
def azStatus : List String :=
  ["Conversation complete", "Port unavailable", "Login failed", "Handshake failed",
   "Call failed", "Talking", "Wrong time to call"]

/-- Function `fsquery_show`: what it prints for a system with `cwork` jobs, the
oldest of time `ifirstwork`, and the executions `qxqt` (their number and the
time of the oldest); `sstat` is the result of `fsysdep_get_status`: `none` when
it fails, else `fnostatus`, `ilast` and `ttype`. -/
def fsquery_show (env : UsEnv) (qsys : uuconf_system) (cwork : Int) (ifirstwork : Int)
    (qxqt : Option (Int × Int)) (inow : Int) (zlocalname : String)
    (sstat : Option (Bool × Int × Nat)) : List String × Bool :=
  let flocal := qsys.uuconf_zname = zlocalname
  if ¬ flocal ∧ sstat.isNone then ([], false)
  else
    let head : List String :=
      [qsys.uuconf_zname ++ " " ++ toString cwork ++ "C (",
       if cwork = 0 then "0 secs" else usunits_show (inow - ifirstwork),
       ") ",
       match qxqt with
       | none => "0X (0 secs)"
       | some (cxqts, ifirst) =>
         toString cxqts ++ "X (" ++ usunits_show (inow - ifirst) ++ ")"]
    match sstat with
    | some (false, ilast, ttype) =>
      if flocal then (head ++ ["\n"], true)
      else
        (head ++ [" " ++ us_time_text env ilast ++ " ", azStatus.getD ttype "" ++ "\n"], true)
    | _ => (head ++ ["\n"], true)

/-- The fields of `struct sstatus` that `fsmachines` prints. -/
structure sstatus where
  ttype : Nat
  cretries : Int
  ilast : Int
  cwait : Int
deriving DecidableEq, Repr

/-- The index `STATUS_TALKING` of `azStatus`. -/
def STATUS_TALKING : Nat := 5

/-- The line `fsmachines` prints for one system. -/
def fsmachines_line (env : UsEnv) (zsystem : String) (sstat : sstatus) : String :=
  zsystem ++ String.mk (List.replicate (14 - zsystem.length) ' ') ++ " " ++
    us_time_text env sstat.ilast ++ " " ++ azStatus.getD sstat.ttype "" ++
    (if sstat.ttype ≠ STATUS_TALKING ∧ sstat.cwait > 0 then
      " (" ++ toString sstat.cretries ++ " " ++
        (if sstat.cretries = 1 then "try" else "tries") ++
        (if sstat.ilast + sstat.cwait > env.isysdep_time then
          ", next " ++ us_time_text env (sstat.ilast + sstat.cwait)
         else "") ++ ")"
     else "") ++ "\n"

/-- Function `fsmachines`, for the result of `fsysdep_all_status_init` (`none`
when it fails) with the entries that `zsysdep_all_status` returns and the value
of `ferr` at its last call; it returns `! ferr` (line 2128). -/
def fsmachines (env : UsEnv) (status : Option (List (String × sstatus) × Bool))
    (w : UsWorld) : UsWorld × Bool :=
  match status with
  | none => (w, false)
  | some (l, ferr) => (w.printfs (l.map (fun e => fsmachines_line env e.1 e.2)), ! ferr)

/-! ## uustat.c: `main` -/

/-- The variables of `main` that `getopt` sets. -/
structure UsOpts where
  fall : Bool
  cstdin : Int
  pazcommands : List String
  fnotcommands : Bool
  fexecute : Bool
  pazkills : List String
  fmachine : Bool
  ioldhours : Int
  fps : Bool
  fquery : Bool
  pazrejuvs : List String
  pazsystems : List String
  fnotsystems : Bool
  pazusers : List String
  fnotusers : Bool
  zcomment : Option String
  iyounghours : Int
  zconfig : Option String
  icmd : Nat
deriving DecidableEq, Repr

/-- The values `main` gives its variables (lines 155-194). -/
def UsOpts.init : UsOpts :=
  { fall := false, cstdin := 100, pazcommands := [], fnotcommands := false,
    fexecute := false, pazkills := [], fmachine := false, ioldhours := -1, fps := false,
    fquery := false, pazrejuvs := [], pazsystems := [], fnotsystems := false,
    pazusers := [], fnotusers := false, zcomment := none, iyounghours := -1,
    zconfig := none, icmd := JOB_SHOW }

/-- C `isspace` in the C locale. -/
def c_isspace (c : Char) : Bool :=
  c == ' ' || c == '\t' || c == '\n' || c == Char.ofNat 11 || c == Char.ofNat 12 || c == '\r'

/-- The value of the decimal digits at the start of a string, after the value
`acc` of the digits before them. -/
def strtol_digits (acc : Nat) : List Char → Nat
  | [] => acc
  | c :: rest =>
    if c.isDigit then strtol_digits (10 * acc + (c.toNat - '0'.toNat)) rest else acc

/-- C `strtol (z, NULL, 10)` with a `long` of 64 bits: white space, a sign, the
digits; a value out of range is `LONG_MAX` or `LONG_MIN`. -/
def strtol10 (z : String) : Int :=
  match z.data.dropWhile c_isspace with
  | '-' :: rest => max (-(strtol_digits 0 rest : Int)) (-(2 ^ 63))
  | '+' :: rest => min (strtol_digits 0 rest : Int) (2 ^ 63 - 1)
  | rest => min (strtol_digits 0 rest : Int) (2 ^ 63 - 1)

/-- The cast `(int)` of a `long` to an `int` of 32 bits. -/
def to_int (i : Int) : Int := (i + 2 ^ 31) % 2 ^ 32 - 2 ^ 31

/-- One round of the `switch (iopt)` of `main` for the option letter `iopt` with
the argument `optarg`; `none` is the call of `ususage`. -/
def uustat_option (env : UsEnv) (o : UsOpts) (iopt : Char) (optarg : String) :
    Option UsOpts :=
  if iopt = 'a' then some { o with fall := true }
  else if iopt = 'B' then some { o with cstdin := to_int (strtol10 optarg) }
  else if iopt = 'C' then
    some { o with fnotcommands := true, pazcommands := o.pazcommands ++ [optarg] }
  else if iopt = 'c' then some { o with pazcommands := o.pazcommands ++ [optarg] }
  else if iopt = 'e' then some { o with fexecute := true }
  else if iopt = 'i' then some { o with icmd := o.icmd ||| JOB_INQUIRE }
  else if iopt = 'I' then
    some (if env.fsysdep_other_config optarg then { o with zconfig := some optarg } else o)
  else if iopt = 'k' then some { o with pazkills := o.pazkills ++ [optarg] }
  else if iopt = 'K' then some { o with icmd := o.icmd ||| JOB_KILL }
  else if iopt = 'm' then some { o with fmachine := true }
  else if iopt = 'M' then some { o with icmd := o.icmd ||| JOB_MAIL }
  else if iopt = 'N' then some { o with icmd := o.icmd ||| JOB_NOTIFY }
  else if iopt = 'o' then some { o with ioldhours := to_int (strtol10 optarg) }
  else if iopt = 'p' then some { o with fps := true }
  else if iopt = 'q' then some { o with fquery := true }
  else if iopt = 'Q' then some { o with icmd := o.icmd - (o.icmd &&& JOB_SHOW) }
  else if iopt = 'r' then some { o with pazrejuvs := o.pazrejuvs ++ [optarg] }
  else if iopt = 'S' then
    some { o with fnotsystems := true, pazsystems := o.pazsystems ++ [optarg] }
  else if iopt = 's' then some { o with pazsystems := o.pazsystems ++ [optarg] }
  else if iopt = 'U' then
    some { o with fnotusers := true, pazusers := o.pazusers ++ [optarg] }
  else if iopt = 'u' then some { o with pazusers := o.pazusers ++ [optarg] }
  else if iopt = 'W' then some { o with zcomment := some optarg }
  else if iopt = 'x' then some o
  else if iopt = 'y' then some { o with iyounghours := to_int 10 }
  else none

/-- The loop `while ((iopt = getopt (...)) != EOF)` over the options that
`getopt` returns, each with its argument. -/
def uustat_getopt (env : UsEnv) : UsOpts → List (Char × String) → Option UsOpts
  | o, [] => some o
  | o, (iopt, optarg) :: rest =>
    match uustat_option env o iopt optarg with
    | none => none
    | some o1 => uustat_getopt env o1 rest

/-- The count `ccmds` of option groups in use (lines 361-375). -/
def uustat_ccmds (o : UsOpts) : Nat :=
  (if o.fall then 1 else 0) +
  (if o.pazkills.length > 0 ∨ o.pazrejuvs.length > 0 then 1 else 0) +
  (if o.fmachine then 1 else 0) +
  (if o.fps then 1 else 0) +
  (if o.fquery then 1 else 0) +
  (if o.fexecute = true ∨ o.pazsystems.length > 0 ∨ o.pazusers.length > 0 ∨
      o.ioldhours ≠ -1 ∨ o.iyounghours ≠ -1 ∨ o.pazcommands.length > 0 then 1 else 0)

/-- The loop of lines 409-430 that replaces each system name by its canonical
name; a name that is not found ends the program. -/
def uustat_canonicalize (env : UsEnv) (st : UsState) :
    List String → Except UsFinal (List String)
  | [] => Except.ok []
  | z :: rest =>
    match env.uuconf_system_info z with
    | uuconf_info.UUCONF_NOT_FOUND => Except.error (us_fatal st (z ++ ": System not found"))
    | uuconf_info.UUCONF_ERROR msg => Except.error (us_fatal st msg)
    | uuconf_info.UUCONF_SUCCESS ssys =>
      match uustat_canonicalize env st rest with
      | Except.error f => Except.error f
      | Except.ok l => Except.ok (ssys.uuconf_zname :: l)

/-- The threshold `iold` or `iyoung` for a number of hours (lines 432-449). -/
def uustat_age (env : UsEnv) (ihours : Int) : Int :=
  if ihours = -1 then -1
  else
    let i := env.isysdep_time - ihours * 60 * 60
    if i < 0 then 0 else i

/-- The loops of lines 479-487 over the jobs of `-k` and of `-r`. -/
def uustat_kills (env : UsEnv) (o : UsOpts) (w : UsWorld) : UsWorld × Bool :=
  ({ w with killed := w.killed ++ o.pazkills },
   o.pazkills.all env.fsysdep_kill_job && o.pazrejuvs.all env.fsysdep_rejuvenate_job)

/-- What `main` calls and this development does not follow: the function
`fsquery` of uustat.c (`-q`), the status entries that `fsmachines` lists (`-m`),
and `fsysdep_lock_status` (`-p`). -/
structure UsOther where
  fsquery : UsWorld → UsWorld × Bool
  all_status : Option (List (String × sstatus) × Bool)
  fsysdep_lock_status : UsWorld → UsWorld × Bool

/-- Lines 451-498 of `main`: call the function that the options select. -/
def uustat_dispatch (env : UsEnv) (other : UsOther) (o : UsOpts) (pazsystems : List String)
    (pazusers : List String) (iold iyoung : Int) (st : UsState) : UsFinal :=
  let fin (r : UsStep) : UsFinal :=
    match r with
    | Except.error f => f
    | Except.ok r => { st := r.1, exit := UsExit.finished r.2 }
  let finw (r : UsWorld × Bool) : UsFinal :=
    { st := { st with w := r.1 }, exit := UsExit.finished r.2 }
  if o.fexecute = false ∧ (o.fall = true ∨ pazsystems.length > 0 ∨ pazusers.length > 0 ∨
      o.ioldhours ≠ -1 ∨ o.iyounghours ≠ -1 ∨ o.pazcommands.length > 0) then
    fin (fsworkfiles env o.icmd pazsystems o.fnotsystems pazusers o.fnotusers iold iyoung
      o.pazcommands o.fnotcommands o.zcomment o.cstdin st)
  else if o.fexecute then
    fin (fsexecutions env o.icmd pazsystems o.fnotsystems pazusers o.fnotusers iold iyoung
      o.pazcommands o.fnotcommands o.zcomment o.cstdin st)
  else if o.icmd ≠ JOB_SHOW then
    ususage (st.logged tlog.LOG_ERROR
      "-i, -K, -M, -N, -Q not supported with -k, -m, -p, -q, -r")
  else if o.fquery then finw (other.fsquery st.w)
  else if o.fmachine then finw (fsmachines env other.all_status st.w)
  else if o.pazkills.length > 0 ∨ o.pazrejuvs.length > 0 then finw (uustat_kills env o st.w)
  else if o.fps then finw (other.fsysdep_lock_status st.w)
  else us_fatal st "Can't happen"

/-- Function `main` of uustat.c, after `getopt` has split the command line into
the options `opts`; `fextra` says that an argument is left after the options
(`optind != argc`). -/
def uustat_main (env : UsEnv) (other : UsOther) (opts : List (Char × String))
    (fextra : Bool) (st : UsState) : UsFinal :=
  match uustat_getopt env UsOpts.init opts with
  | none => ususage st
  | some o =>
    if fextra then ususage st
    else if uustat_ccmds o > 1 then ususage (st.logged tlog.LOG_ERROR "Too many options")
    else
      match env.uuconf_init with
      | some msg => us_fatal st msg
      | none =>
        let pazusers := if uustat_ccmds o = 0 then [env.zsysdep_login_name] else o.pazusers
        match uustat_canonicalize env st o.pazsystems with
        | Except.error f => f
        | Except.ok pazsystems =>
          uustat_dispatch env other o pazsystems pazusers (uustat_age env o.ioldhours)
            (uustat_age env o.iyounghours) st

/-! ## A concrete layer for uustat examples -/

/-- A command that sends `/home/alice/f`, queued by `alice` in command file `pseq`. -/
def example_work (pseq : Nat) : swork :=
  { s := { bcmd := 'S', zfrom := "/home/alice/f", zto := "~/f", zuser := "alice",
           zoptions := "c", ztemp := "D.0", imode := 0o644, znotify := "", cbytes := -1 },
    pseq := pseq }

/-- An example layer for uustat on the system `here`, run by `bob`, who is not
privileged, at time 100000: the system `peerA` is known and has one command
file with one command, queued by `alice` 5400 seconds ago; the execute file
`X.peerAN0002` from `peerA` holds `U alice peerA` and `C rmail carol` and is as
old; every mail and every kill succeeds. -/
def example_usenv : UsEnv :=
  { zsysdep_login_name := "bob"
    fsysdep_privileged := false
    OWNER := "uucp"
    HAVE_INTERNET_MAIL := true
    fspool_file := is_spool_file
    zsysdep_spool_file_name := fun _ z => some ("/spool/" ++ z)
    zsysdep_local_file := fun z _ => some z
    fin_directory_list_send := fun _ _ => true
    csysdep_size := fun _ => 10
    zsysdep_jobid := fun qsys n => some (qsys.uuconf_zname ++ "N000" ++ toString n)
    isysdep_work_time := fun _ _ => 94600
    isysdep_file_time := fun _ => 94600
    isysdep_time := 100000
    usysdep_localtime := fun i =>
      { tm_year := 70, tm_mon := 0, tm_mday := 1 + i / 86400, tm_hour := i / 3600 % 24,
        tm_min := i / 60 % 60, tm_sec := i % 60 }
    xqt_file := fun z =>
      if z = "X.peerAN0002" then Except.ok [["U", "alice", "peerA"], ["C", "rmail", "carol"]]
      else Except.error "No such file or directory"
    uuconf_error_text := "uuconf error"
    read_lines := fun _ => none
    fsysdep_mail := fun _ _ _ => true
    fsysdep_kill_job := fun _ => true
    fsysdep_rejuvenate_job := fun _ => true
    uuconf_localname := uuconf_localname_result.UUCONF_SUCCESS "here"
    zsysdep_localname := some "here"
    uuconf_system_info := fun z =>
      if z = "peerA" then uuconf_info.UUCONF_SUCCESS (example_system "peerA")
      else uuconf_info.UUCONF_NOT_FOUND
    funknown_system := fun _ => none
    uuconf_system_names := some ["peerA"]
    fsysdep_get_work := fun _ => some ([example_work 1], true)
    fsysdep_get_xqt := some ([("X.peerAN0002", "peerA")], false)
    remove_error := fun _ => none
    uuconf_init := none
    fsysdep_other_config := fun _ => true }

/-- The branches of `main` that are not followed do nothing in the examples. -/
def example_usother : UsOther :=
  { fsquery := fun w => (w, true), all_status := some ([], false),
    fsysdep_lock_status := fun w => (w, true) }

/-- The state of uustat when `main` starts, with nothing on standard input. -/
def UsState.init : UsState :=
  { w := { out := [], err := [], log := [], mails := [], stdin := [], killed := [],
           removed := [] },
    qlist := [], zlistid := none,
    x := { zSxqt_user := none, zSxqt_system := none, zSxqt_requestor := none,
           zSxqt_prog := none, zSxqt_cmd := none, pazSxqt_files := [],
           zSxqt_stdin := none } }

/-- The calls of `fsworkfile_show` for a list of commands of a system, each with
its time, one after the other up to the first call that returns FALSE or ends
the program. -/
def us_show_each (env : UsEnv) (icmd : Nat) (qsys : uuconf_system)
    (pazcommands : List String) (fnotcommands : Bool) (zcomment : Option String)
    (cstdin : Int) : List swork → UsState → UsStep
  | [], st => Except.ok (st, true)
  | s :: rest, st =>
    match fsworkfile_show env icmd qsys (some (s, env.isysdep_work_time qsys s.pseq))
      pazcommands fnotcommands zcomment cstdin st with
    | Except.error f => Except.error f
    | Except.ok r =>
      if ! r.2 then Except.ok r
      else us_show_each env icmd qsys pazcommands fnotcommands zcomment cstdin rest r.1

/-- The command of the examples that sends the execute file `X.peerAN0003` of a
job that `alice` queued with uux, from the spool file `D.X0003`. -/
def example_xqt_work : swork :=
  { s := { bcmd := 'S', zfrom := "D.X0003", zto := "X.peerAN0003", zuser := "alice",
           zoptions := "C", ztemp := "D.X0003", imode := 0o666, znotify := "", cbytes := -1 },
    pseq := 3 }

/-- The example layer for uustat with one job for `peerA`, which has an execute
file with the given lines. -/
def example_usenv_xqt (lines : List (List String)) : UsEnv :=
  { example_usenv with
    fsysdep_get_work := fun _ => some ([example_xqt_work], true)
    xqt_file := fun z =>
      if z = "/spool/D.X0003" then Except.ok lines
      else Except.error "No such file or directory" }

/-- The world that a part of a run of uustat leaves: the world of the state
after it, or the world in which the program ended. -/
def us_world (r : UsStep) : UsWorld :=
  match r with
  | Except.ok r => r.1.w
  | Except.error f => f.st.w

/-- The units of `usunits_show` with their length in seconds, the largest first. -/
def us_units : List (Int × String) :=
  [(24 * 60 * 60, "day"), (60 * 60, "hour"), (60, "min"), (1, "sec")]

/-! ## uustat.c: the jobs that `fsworkfile_show` makes of a stream of commands -/

/-- A sequence of commands, each with its time, passed one by one to
`fsworkfile_show` and followed by the final call with no command; the flag is
false when a call returned FALSE, and the sequence stops there. -/
def us_feed (env : UsEnv) (icmd : Nat) (qsys : uuconf_system) (pazcommands : List String)
    (fnotcommands : Bool) (zcomment : Option String) (cstdin : Int) :
    List scmdlist → UsState → UsStep
  | [], st => fsworkfile_show env icmd qsys none pazcommands fnotcommands zcomment cstdin st
  | c :: rest, st =>
    match fsworkfile_show env icmd qsys (some (c.s, c.itime)) pazcommands fnotcommands
      zcomment cstdin st with
    | Except.error f => Except.error f
    | Except.ok r =>
      if ! r.2 then Except.ok r
      else us_feed env icmd qsys pazcommands fnotcommands zcomment cstdin rest r.1

/-- The maximal runs of consecutive elements with equal value of `f`, each with
that value. -/
def us_runs (f : scmdlist → String) : List scmdlist → List (String × List scmdlist)
  | [] => []
  | c :: rest =>
    match us_runs f rest with
    | (j, g) :: gs => if f c = j then (j, c :: g) :: gs else (f c, [c]) :: (j, g) :: gs
    | [] => [(f c, [c])]

/-- The elements of a list of runs, in order. -/
def us_runs_concat : List (String × List scmdlist) → List scmdlist
  | [] => []
  | r :: rest => r.2 ++ us_runs_concat rest

/-- The jobs of a list, each given in turn to lines 985-1207 of `fsworkfile_show`
as the list `qlist` with the job id `zlistid`; it stops at the first job for
which these lines return FALSE. -/
def us_process_jobs (env : UsEnv) (icmd : Nat) (qsys : uuconf_system)
    (pazcommands : List String) (fnotcommands : Bool) (zcomment : Option String)
    (cstdin : Int) : List (String × List scmdlist) → UsState → UsStep
  | [], st => Except.ok (st, true)
  | (j, g) :: rest, st =>
    match usworkfile_job env icmd qsys pazcommands fnotcommands zcomment cstdin
      { st with qlist := g, zlistid := some j } with
    | Except.error f => Except.error f
    | Except.ok r =>
      if ! r.2 then Except.ok r
      else us_process_jobs env icmd qsys pazcommands fnotcommands zcomment cstdin rest r.1

/-! ## uustat.c: the option groups -/

/-- The groups of options of which at most one may be used: `-a`; `-k` and `-r`;
`-m`; `-p`; `-q`; and the listing options `-e -s -S -u -U -o -y -c -C`. -/
def us_group (c : Char) : Option Nat :=
  if c = 'a' then some 0
  else if c = 'k' ∨ c = 'r' then some 1
  else if c = 'm' then some 2
  else if c = 'p' then some 3
  else if c = 'q' then some 4
  else if c = 'e' ∨ c = 's' ∨ c = 'S' ∨ c = 'u' ∨ c = 'U' ∨ c = 'o' ∨ c = 'y' ∨ c = 'c' ∨
      c = 'C' then some 5
  else none

/-- The value of the last `-o` option of a command line, and -1 without one. -/
def us_last_o : List (Char × String) → Int
  | [] => -1
  | (c, optarg) :: rest =>
    if rest.any (fun p => p.1 == 'o') then us_last_o rest
    else if c = 'o' then to_int (strtol10 optarg) else -1

/-- A group counts as used by a command line: one of its options other than `-o`
is given, or, for the listing group, the last `-o` has a value other than -1. -/
def us_group_used (opts : List (Char × String)) (g : Nat) : Bool :=
  opts.any (fun p => us_group p.1 == some g && p.1 != 'o') ||
    (g == 5 && us_last_o opts != -1)

/-- The number of groups that count as used. -/
def us_groups_used (opts : List (Char × String)) : Nat :=
  ((List.range 6).filter (us_group_used opts)).length

/-- What `ccmds` depends on: the five flags and the three counts as "not zero",
and the two hour values. -/
def us_flags (o : UsOpts) : Bool × Bool × Bool × Bool × Bool × Bool × Int × Int :=
  (o.fall, decide (o.pazkills.length > 0 ∨ o.pazrejuvs.length > 0), o.fmachine, o.fps,
   o.fquery,
   decide (o.fexecute = true ∨ o.pazsystems.length > 0 ∨ o.pazusers.length > 0 ∨
     o.pazcommands.length > 0),
   o.ioldhours, o.iyounghours)

/-- What one option does to `us_flags`. -/
def us_flags_step (fl : Bool × Bool × Bool × Bool × Bool × Bool × Int × Int)
    (p : Char × String) : Bool × Bool × Bool × Bool × Bool × Bool × Int × Int :=
  (fl.1 || p.1 == 'a', fl.2.1 || (p.1 == 'k' || p.1 == 'r'), fl.2.2.1 || p.1 == 'm',
   fl.2.2.2.1 || p.1 == 'p', fl.2.2.2.2.1 || p.1 == 'q',
   fl.2.2.2.2.2.1 ||
     (p.1 == 'e' || p.1 == 's' || p.1 == 'S' || p.1 == 'u' || p.1 == 'U' || p.1 == 'c' ||
       p.1 == 'C'),
   if p.1 = 'o' then to_int (strtol10 p.2) else fl.2.2.2.2.2.2.1,
   if p.1 = 'y' then 10 else fl.2.2.2.2.2.2.2)

/-! ## uux.c: splitting the command line (lines 308-376) -/

/-- The characters of `ZSHELLSEPS`. -/
def ZSHELLSEPS : List Char := [';', '&', '*', '|', '<', '>', ' ', '\t']

/-- The characters of `ZSHELLNONREDIRSEPS`. -/
def ZSHELLNONREDIRSEPS : List Char := [';', '&', '*', '|', ' ', '\t']

/-- C `strcspn (z, reject)`. -/
def strcspn (z reject : List Char) : Nat :=
  (z.takeWhile (fun c => ! reject.contains c)).length

/-- C `strspn (z, accept)`. -/
def strspn (z accept : List Char) : Nat :=
  (z.takeWhile (fun c => accept.contains c)).length

/-- C `strtok` on what is left of the string: the next token and what is left
after the delimiter that ends it, or `none` when only delimiters are left. -/
def strtok (z delim : List Char) : Option (List Char × List Char) :=
  if z.dropWhile (fun c => delim.contains c) = [] then none
  else
    some ((z.dropWhile (fun c => delim.contains c)).takeWhile (fun c => ! delim.contains c),
          (((z.dropWhile (fun c => delim.contains c)).dropWhile
              (fun c => ! delim.contains c)).drop 1))

/-- Lines 313-322: `zargs`, every argument followed by a space. -/
def uux_zargs (argv : List String) : List Char :=
  (argv.map (fun a => a.data ++ [' '])).flatten

/-- The loop `while (*zarg != 0)` of lines 344-375 on one token of `strtok`; the
first argument bounds the number of rounds. -/
def uux_split_word : Nat → List Char → List String
  | 0, _ => []
  | fuel + 1, zarg =>
    if zarg = [] then []
    else
      let clen := strcspn zarg ZSHELLSEPS
      let out1 : List String := if clen > 0 then [String.mk (zarg.take clen)] else []
      let zarg1 := if clen > 0 then zarg.drop clen else zarg
      -- We deliberately separate '>' and '<' out.
      if zarg1 ≠ [] then
        let clen2 :=
          if strspn zarg1 ZSHELLNONREDIRSEPS = 0 then 1 else strspn zarg1 ZSHELLNONREDIRSEPS
        out1 ++ String.mk (zarg1.take clen2) :: uux_split_word fuel (zarg1.drop clen2)
      else out1 ++ uux_split_word fuel zarg1

/-- The loop over `strtok (zargs, " \t")` of lines 340-376; the first argument
bounds the number of rounds. -/
def uux_split_args : Nat → List Char → List String
  | 0, _ => []
  | fuel + 1, z =>
    match strtok z [' ', '\t'] with
    | none => []
    | some (zarg, rest) => uux_split_word zarg.length zarg ++ uux_split_args fuel rest

/-- Lines 308-376: `zcmd` and the array `pzargs` made of the arguments of the
command line. -/
def uux_split (argv : List String) : String × List String :=
  (String.mk ((uux_zargs argv).take (strcspn (uux_zargs argv) ZSHELLSEPS)),
   uux_split_args (uux_zargs argv).length
     ((uux_zargs argv).drop (strcspn (uux_zargs argv) ZSHELLSEPS)))

/-- The arguments joined by single spaces. -/
def joined_by_spaces (argv : List String) : List Char :=
  (" ".intercalate argv).data

/-- A token as the specification describes it: not empty, and a run of
characters that are no separators, or a run of the characters `;&*|`, or `<`, or
`>`. -/
def is_uux_token (t : String) : Prop :=
  t.data ≠ [] ∧
  ((∀ c ∈ t.data, c ∉ ZSHELLSEPS) ∨ (∀ c ∈ t.data, c ∈ [';', '&', '*', '|']) ∨
    t = "<" ∨ t = ">")

/-- Whether the argument loop, after the words of the list, is in the middle of
a redirection: the last word it looked at starts with `<` or `>`, so that the
next word, if there is one, is taken as the file of the redirection. -/
def redir_pending : List String → Bool
  | [] => false
  | [a] => a.data.head? != some '(' && (a.data.head? == some '<' || a.data.head? == some '>')
  | a :: b :: rest =>
    if a.data.head? = some '(' then redir_pending (b :: rest)
    else if a.data.head? = some '<' ∨ a.data.head? = some '>' then redir_pending rest
    else redir_pending (b :: rest)

/-- The lines that lines 877-893 add to the execute file, in their order. -/
def uux_flag_text (o : UxOpts) (fneedshell : Bool) : List String :=
  (if o.fno_ack then ["N"] else []) ++ (if o.ferror_ack then ["Z"] else []) ++
  (match o.zrequestor with
   | some r => ["R " ++ r]
   | none => []) ++
  (if o.fretstdin then ["B"] else []) ++
  (match o.zstatus_file with
   | some f => ["M " ++ f]
   | none => []) ++
  (if fneedshell then ["e"] else [])

/-- What `zcall_system` and `fcall_any` are after command files were queued for
the systems of the list, one after the other, from their initial values. -/
def call_state : List (String × Char × List scmd) → Option String × Bool
  | [] => (none, false)
  | [e] => (some e.1, true)
  | _ :: _ :: _ => (none, true)

/-- The queue of `st` is `q0` and the command files queued since, and
`zcall_system` and `fcall_any` are as these command files make them. -/
def CallInv (q0 : List (String × Char × List scmd)) (st : UxState) : Prop :=
  ∃ added, st.queued = q0 ++ added ∧ (st.zcall_system, st.fcall_any) = call_state added

/-- The fields of the state that say what was queued and whom to call. -/
def callf (st : UxState) : List (String × Char × List scmd) × Option String × Bool :=
  (st.queued, st.zcall_system, st.fcall_any)

/-- The arguments of the uucico that lines 969-981 start after command files
were queued for the systems of the list. -/
def uucico_args (fuucico : Bool) (added : List (String × Char × List scmd)) :
    Option (List String) :=
  if fuucico then
    match added with
    | [] => none
    | [e] => some ["uucico", "-s", e.1]
    | _ :: _ :: _ => some ["uucico", "-r1"]
  else none

/-! ## The execute file as uux writes it and as uuxqt reads it -/

/-- Modelled from the spec: the words of a line ("fields are
whitespace-separated, no quoting"), as the line interpreter `uprocesscmds`,
which is not in these files, splits it; `cur` holds the characters of the word
that is being read. -/
def xqt_split : List Char → List Char → List String
  | cur, [] => if cur = [] then [] else [String.mk cur]
  | cur, c :: t =>
    if c_isspace c then
      if cur = [] then xqt_split [] t else String.mk cur :: xqt_split [] t
    else xqt_split (cur ++ [c]) t

/-- Modelled from the spec: the words of a line of an execute file. -/
def xqt_words (line : String) : List String := xqt_split [] line.data

/-- The variables after `uqdo_xqt_file` has read an execute file with the given
lines (lines 585-606). -/
def xqt_parse (fspool_file : String → Bool) (zerr : String) (lines : List String) :
    XqtParse :=
  uprocesscmds fspool_file zerr (XqtVars.init, []) (lines.map xqt_words)

/-- A string that is one field of a line: not empty and without white space. -/
def is_word (z : String) : Prop := z.data ≠ [] ∧ ∀ c ∈ z.data, c_isspace c = false

/-- The line that `uxadd_xqt_line (bchar, z1, z2)` writes for `z1` not NULL. -/
def xqt_item_text (i : Char × String × Option String) : String :=
  match i.2.2 with
  | none => String.singleton i.1 ++ " " ++ i.2.1
  | some b => String.singleton i.1 ++ " " ++ i.2.1 ++ " " ++ b

/-- The fields of the line that `uxadd_xqt_line (bchar, z1, z2)` writes. -/
def xqt_item_fields (i : Char × String × Option String) : List String :=
  match i.2.2 with
  | none => [String.singleton i.1, i.2.1]
  | some b => [String.singleton i.1, i.2.1, b]

/-- An F, I or O line as the argument loop of uux writes them: an I line has
one field. -/
def is_file_item (i : Char × String × Option String) : Prop :=
  i.1 = 'F' ∨ (i.1 = 'I' ∧ i.2.2 = none) ∨ i.1 = 'O'

/-- The fields of an F, I or O line are words. -/
def item_words (i : Char × String × Option String) : Prop :=
  is_word i.2.1 ∧ ∀ b, i.2.2 = some b → is_word b

/-- What the handlers of uuxqt do with the fields of an F, I or O line whose
file, for an F line, is a spool file. -/
def item_step (v : XqtVars) (i : Char × String × Option String) : XqtVars :=
  if i.1 = 'F' then { v with azQfiles := v.azQfiles ++ [(i.2.1, i.2.2)] }
  else if i.1 = 'I' then { v with zQinput := some i.2.1 }
  else
    match i.2.2 with
    | none => { v with zQoutfile := some i.2.1 }
    | some s => { v with zQoutfile := some i.2.1, zQoutsys := some s }

/-- The lines of the execute file of `st` are the lines `l0` and then F, I and O
lines as `uxadd_xqt_line` writes them. -/
def LinesInv (l0 : List String) (st : UxState) : Prop :=
  ∃ items : List (Char × String × Option String),
    (∀ i ∈ items, is_file_item i) ∧ st.xqt_lines = l0 ++ items.map xqt_item_text

/-- State `st1` comes from `st` by adding commands to `pasXcmds` and lines to the
execute file, with nothing queued. -/
def UxGrows (st st1 : UxState) : Prop :=
  st1.queued = st.queued ∧ (∃ cmds, st1.pasXcmds = st.pasXcmds ++ cmds) ∧
    ∃ lines, st1.xqt_lines = st.xqt_lines ++ lines

/-- The run ended through `uxabort`, with the queue of `st` and without uucico. -/
def UxAborted (st : UxState) (e : UxFinal) : Prop :=
  e.exit = UxExit.aborted ∧ e.uucico = none ∧ e.st.queued = st.queued

/-- World `u` has every file of world `w` but those that satisfy `R`. -/
def Keeps (R : String → Prop) (w u : World) : Prop :=
  ∀ g ∈ w.files, g ∈ u.files ∨ R g

/-! ## Lemmas on `uqcleanup` -/

@[simp] theorem World.remove_mails (w : World) (f : String) : (w.remove f).mails = w.mails := rfl

@[simp] theorem World.remove_executions (w : World) (f : String) :
    (w.remove f).executions = w.executions := rfl

@[simp] theorem World.remove_spooled (w : World) (f : String) :
    (w.remove f).spooled = w.spooled := rfl

@[simp] theorem World.remove_log (w : World) (f : String) : (w.remove f).log = w.log := rfl

@[simp] theorem World.remove_fQunlock_directory (w : World) (f : String) :
    (w.remove f).fQunlock_directory = w.fQunlock_directory := rfl

@[simp] theorem World.remove_files (w : World) (f : String) :
    (w.remove f).files = w.files.filter (fun g => g != f) := rfl

theorem World.not_mem_remove (w : World) (f : String) : f ∉ (w.remove f).files := by
  simp [World.remove]

theorem World.mem_remove_imp (w : World) (f g : String) (h : g ∈ (w.remove f).files) :
    g ∈ w.files := by
  simp [World.remove] at h
  exact h.1

/-- Removing a list of required files keeps everything but the files. -/
theorem foldl_remove_frame (l : List (String × Option String)) (w : World) :
    (l.foldl (fun (u : World) f => u.remove f.1) w).mails = w.mails ∧
    (l.foldl (fun (u : World) f => u.remove f.1) w).executions = w.executions ∧
    (l.foldl (fun (u : World) f => u.remove f.1) w).spooled = w.spooled ∧
    (l.foldl (fun (u : World) f => u.remove f.1) w).log = w.log ∧
    (l.foldl (fun (u : World) f => u.remove f.1) w).fQunlock_directory
      = w.fQunlock_directory ∧
    (∀ g, g ∈ (l.foldl (fun (u : World) f => u.remove f.1) w).files → g ∈ w.files) := by
  induction l generalizing w with
  | nil => simp
  | cons a t ih =>
    simp only [List.foldl_cons]
    obtain ⟨h1, h2, h3, h4, h5, h6⟩ := ih (w.remove a.1)
    refine ⟨by simp [h1], by simp [h2], by simp [h3], by simp [h4], by simp [h5], ?_⟩
    intro g hg
    exact World.mem_remove_imp w a.1 g (h6 g hg)

/-- Function `uqcleanup` sends no mail, runs nothing, queues nothing, logs nothing. -/
theorem uqcleanup_frame (w : World) (v : XqtVars) (zfile : String) (iflags : Nat) :
    (uqcleanup w v zfile iflags).mails = w.mails ∧
    (uqcleanup w v zfile iflags).executions = w.executions ∧
    (uqcleanup w v zfile iflags).spooled = w.spooled ∧
    (uqcleanup w v zfile iflags).log = w.log := by
  unfold uqcleanup
  have key := foldl_remove_frame v.azQfiles
  cases hq : w.zQunlock_file <;> simp only [] <;>
    split_ifs <;> simp [(key _).1, (key _).2.1, (key _).2.2.1, (key _).2.2.2.1]

@[simp] theorem uqcleanup_mails (w : World) (v : XqtVars) (zfile : String) (iflags : Nat) :
    (uqcleanup w v zfile iflags).mails = w.mails := (uqcleanup_frame w v zfile iflags).1

@[simp] theorem uqcleanup_executions (w : World) (v : XqtVars) (zfile : String)
    (iflags : Nat) : (uqcleanup w v zfile iflags).executions = w.executions :=
  (uqcleanup_frame w v zfile iflags).2.1

@[simp] theorem uqcleanup_spooled (w : World) (v : XqtVars) (zfile : String)
    (iflags : Nat) : (uqcleanup w v zfile iflags).spooled = w.spooled :=
  (uqcleanup_frame w v zfile iflags).2.2.1

@[simp] theorem uqcleanup_log (w : World) (v : XqtVars) (zfile : String) (iflags : Nat) :
    (uqcleanup w v zfile iflags).log = w.log := (uqcleanup_frame w v zfile iflags).2.2.2

/-- With no flag set `uqcleanup` removes no file. -/
@[simp] theorem uqcleanup_zero_files (w : World) (v : XqtVars) (zfile : String) :
    (uqcleanup w v zfile 0).files = w.files := by
  unfold uqcleanup
  cases hq : w.zQunlock_file <;> simp <;> split_ifs <;> rfl

/-- With `REMOVE_FILE` set `uqcleanup` removes the execute file. -/
theorem uqcleanup_removes_file (w : World) (v : XqtVars) (zfile : String) (iflags : Nat)
    (h : iflags &&& REMOVE_FILE ≠ 0) : zfile ∉ (uqcleanup w v zfile iflags).files := by
  unfold uqcleanup
  intro hmem
  have key := foldl_remove_frame v.azQfiles
  cases hq : w.zQunlock_file <;> simp only [hq, h, ne_eq, not_false_eq_true, if_true] at hmem <;>
    split_ifs at hmem <;>
    first
      | exact World.not_mem_remove _ zfile ((key _).2.2.2.2.2 zfile hmem)
      | exact World.not_mem_remove _ zfile hmem

/-! ## Lemmas on the parser -/

/-- An entry found in a table is in the table under the name looked for. -/
theorem cmdtab_find_mem (c : String) (table : List (String × scmdtab)) (e : scmdtab)
    (h : cmdtab_find c table = some e) : (c, e) ∈ table := by
  induction table with
  | nil => simp [cmdtab_find] at h
  | cons a t ih =>
    obtain ⟨n, e1⟩ := a
    unfold cmdtab_find at h
    split_ifs at h with hc
    · simp only [Option.some.injEq] at h
      subst hc h
      exact List.mem_cons_self _ _
    · exact List.mem_cons_of_mem _ (ih h)

/-- Every entry of `asQcmds` but the C entry leaves `azQargs` alone. -/
theorem asQcmds_entry_azQargs (fsp : String → Bool) (zerr : String) (p : XqtParse)
    (argv : List String) (x : String × scmdtab) (hx : x ∈ asQcmds fsp zerr)
    (hc : x.1 ≠ "C") : (cmdtab_apply zerr p argv x.2).1.azQargs = p.1.azQargs := by
  simp only [asQcmds, List.mem_cons, List.mem_singleton, List.not_mem_nil, or_false] at hx
  rcases hx with h | h | h | h | h | h | h | h | h | h | h | h | h <;> subst h
  · exact absurd rfl hc
  all_goals
    simp only [cmdtab_apply, tqout, tqfile, tquser, tqset]
    repeat' split
    all_goals rfl

/-- A line that is not a C line with at least one argument leaves `azQargs` alone. -/
theorem tprocess_one_cmd_azQargs (fsp : String → Bool) (zerr : String) (p : XqtParse)
    (argv : List String) (h : argv.head? = some "C" → argv.length ≤ 1) :
    (tprocess_one_cmd (asQcmds fsp zerr) zerr p argv).1.azQargs = p.1.azQargs := by
  cases argv with
  | nil => rfl
  | cons c t =>
    rw [tprocess_one_cmd]
    by_cases h1 : c = "C"
    · subst h1
      have hl : t.length = 0 := by
        have := h rfl
        simp only [List.length_cons] at this
        omega
      simp [asQcmds, cmdtab_find, cmdtab_apply, tqcmd, hl]
    · cases hf : cmdtab_find c (asQcmds fsp zerr) with
      | none => rfl
      | some e =>
        exact asQcmds_entry_azQargs fsp zerr p (c :: t) (c, e)
          (cmdtab_find_mem c _ e hf) h1

/-- Without a C line that has an argument, parsing leaves `azQargs` alone. -/
theorem uprocesscmds_azQargs (fsp : String → Bool) (zerr : String)
    (lines : List (List String)) (p : XqtParse)
    (h : ∀ l ∈ lines, l.head? = some "C" → l.length ≤ 1) :
    (uprocesscmds fsp zerr p lines).1.azQargs = p.1.azQargs := by
  unfold uprocesscmds
  induction lines generalizing p with
  | nil => rfl
  | cons a t ih =>
    simp only [List.foldl_cons]
    rw [ih _ (fun l hl => h l (List.mem_cons_of_mem a hl))]
    exact tprocess_one_cmd_azQargs fsp zerr p a (h a (List.mem_cons_self a t))

/-- A missing required file makes the loop of lines 658-675 stop. -/
theorem required_files_absent (env : XqtEnv) (qsys : ssysteminfo) (files : List String)
    (l : List (String × Option String))
    (h : ∃ f ∈ l, ∀ zreal, env.zsysdep_spool_file_name qsys f.1 = some zreal →
      zreal ∉ files) :
    required_files env qsys files l = none := by
  induction l with
  | nil => simp at h
  | cons a t ih =>
    obtain ⟨f, hf, habs⟩ := h
    obtain ⟨zname, zto⟩ := a
    unfold required_files
    cases hs : env.zsysdep_spool_file_name qsys zname with
    | none => rfl
    | some zreal =>
      simp only []
      by_cases hin : zreal ∈ files
      · rw [if_pos hin]
        rcases List.mem_cons.mp hf with heq | hmem
        · subst heq
          exact absurd hin (habs zreal hs)
        · rw [ih ⟨f, hmem, habs⟩]
          rfl
      · rw [if_neg hin]

/-! ## Claims on uuxqt.c -/

/-- C6: for an execute file with a command line, from a system that is permitted
at least one command, a required file that is absent (its spool name cannot be
made or no such file exists) makes `uqdo_xqt_file` execute nothing and remove
nothing: the execute file and the required files that are present all stay. -/
theorem C6_missing_required_file_keeps_job (env : XqtEnv) (w : World) (zfile : String)
    (qsys : ssysteminfo) (zcmd : Option String) (lines : List (List String))
    (hcmds : qsys.zcmds ≠ "")
    (hopen : env.xqt_lines zfile = some lines)
    (hcmd : (uprocesscmds env.fspool_file zfile (XqtVars.init, []) lines).1.azQargs ≠ none)
    (habsent : ∃ f ∈ (uprocesscmds env.fspool_file zfile (XqtVars.init, []) lines).1.azQfiles,
      ∀ zreal, env.zsysdep_spool_file_name qsys f.1 = some zreal → zreal ∉ w.files) :
    (uqdo_xqt_file env w zfile qsys zcmd).executions = w.executions ∧
    (uqdo_xqt_file env w zfile qsys zcmd).files = w.files := by
  have hreq := required_files_absent env qsys w.files _ habsent
  unfold uqdo_xqt_file
  simp only [hcmds, if_false, hopen]
  cases hargs : (uprocesscmds env.fspool_file zfile (XqtVars.init, []) lines).1.azQargs with
  | none => exact absurd hargs hcmd
  | some args =>
    simp only [hreq]
    split_ifs <;> simp

/-- C6 at a concrete input: the F line names `D.data`, which is not in the spool. -/
theorem C6_missing_required_file_keeps_job_witness :
    (uqdo_xqt_file (example_env [["C", "rmail", "bob"], ["F", "D.data"]] true)
        example_world "X.peerAN0001" peerA none).executions = [] ∧
    (uqdo_xqt_file (example_env [["C", "rmail", "bob"], ["F", "D.data"]] true)
        example_world "X.peerAN0001" peerA none).files = ["X.peerAN0001"] :=
  C6_missing_required_file_keeps_job
    (example_env [["C", "rmail", "bob"], ["F", "D.data"]] true)
    example_world "X.peerAN0001" peerA none [["C", "rmail", "bob"], ["F", "D.data"]]
    (by decide) (by decide) (by decide) (by decide)

/-- C7: an execute file that `uqdo_xqt_file` parses (the `-c` test on the allowed
commands passes and the file opens) and that has no C line with a command is
removed, and nothing is executed. -/
theorem C7_no_command_removes_file (env : XqtEnv) (w : World) (zfile : String)
    (qsys : ssysteminfo) (zcmd : Option String) (lines : List (List String))
    (hpre : ∀ c, zcmd = some c → qsys.zcmds = "ALL" ∨ strstr qsys.zcmds c = true)
    (hopen : env.xqt_lines zfile = some lines)
    (hnoC : ∀ l ∈ lines, l.head? = some "C" → l.length ≤ 1) :
    zfile ∉ (uqdo_xqt_file env w zfile qsys zcmd).files ∧
    (uqdo_xqt_file env w zfile qsys zcmd).executions = w.executions := by
  have hargs : (uprocesscmds env.fspool_file zfile (XqtVars.init, []) lines).1.azQargs
      = none := uprocesscmds_azQargs env.fspool_file zfile lines _ hnoC
  have hskip : cmd_not_accepted zcmd qsys.zcmds = false := by
    cases zcmd with
    | none => rfl
    | some c =>
      rcases hpre c rfl with h | h
      · simp [cmd_not_accepted, h]
      · simp [cmd_not_accepted, h]
  unfold uqdo_xqt_file
  by_cases hcmds : qsys.zcmds = ""
  · simp only [hcmds, if_true]
    exact ⟨World.not_mem_remove _ zfile, rfl⟩
  · simp only [hcmds, if_false, hskip, hopen, hargs, Bool.false_eq_true]
    refine ⟨uqcleanup_removes_file _ _ zfile _ (by decide), ?_⟩
    simp [World.ulog]

/-- C7 at a concrete input: an execute file with only a U line. -/
theorem C7_no_command_removes_file_witness :
    "X.peerAN0001" ∉ (uqdo_xqt_file (example_env [["U", "bob", "peerA"]] true)
        example_world "X.peerAN0001" peerA none).files ∧
    (uqdo_xqt_file (example_env [["U", "bob", "peerA"]] true)
        example_world "X.peerAN0001" peerA none).executions = [] :=
  C7_no_command_removes_file (example_env [["U", "bob", "peerA"]] true)
    example_world "X.peerAN0001" peerA none [["U", "bob", "peerA"]]
    (by decide) (by decide) (by decide)

/-- C8 as stated fails: for a system with no permitted command, `uuxqt -c rnews`
removes an execute file whose command word is `rmail`. -/
theorem C8_counterexample :
    (uprocesscmds is_spool_file "X.peerAN0001" (XqtVars.init, [])
        [["U", "bob", "peerA"], ["C", "rmail", "bob"]]).1.azQargs = some ["rmail", "bob"] ∧
    "X.peerAN0001" ∈ example_world.files ∧
    "X.peerAN0001" ∉ (uqdo_xqt_file
        (example_env [["U", "bob", "peerA"], ["C", "rmail", "bob"]] true)
        example_world "X.peerAN0001" { peerA with zcmds := "" } (some "rnews")).files := by
  decide

/-- C8, amended: for a system that is permitted at least one command, when uuxqt
runs with `-c cmd` and the command word of the execute file differs from `cmd`,
the execute file is not removed (no file is) and nothing is executed. -/
theorem C8_other_command_skipped (env : XqtEnv) (w : World) (zfile : String)
    (qsys : ssysteminfo) (cmd : String) (lines : List (List String))
    (azQargs : List String)
    (hcmds : qsys.zcmds ≠ "")
    (hopen : env.xqt_lines zfile = some lines)
    (hargs : (uprocesscmds env.fspool_file zfile (XqtVars.init, []) lines).1.azQargs
      = some azQargs)
    (hne : azQargs.headD "" ≠ cmd) :
    (uqdo_xqt_file env w zfile qsys (some cmd)).files = w.files ∧
    (uqdo_xqt_file env w zfile qsys (some cmd)).executions = w.executions := by
  unfold uqdo_xqt_file
  simp only [hcmds, if_false, hopen, hargs]
  have hne2 : not_for_this_uuxqt env (some cmd) (azQargs.headD "") = true := by
    simp only [not_for_this_uuxqt, decide_eq_true_eq]
    exact fun h => hne h.symm
  simp only [hne2, if_true]
  split_ifs <;> simp

/-- C8 at a concrete input: `-c rnews` and an execute file for `rmail`. -/
theorem C8_other_command_skipped_witness :
    (uqdo_xqt_file (example_env [["U", "bob", "peerA"], ["C", "rmail", "bob"]] true)
        example_world "X.peerAN0001" peerA (some "rnews")).files = ["X.peerAN0001"] ∧
    (uqdo_xqt_file (example_env [["U", "bob", "peerA"], ["C", "rmail", "bob"]] true)
        example_world "X.peerAN0001" peerA (some "rnews")).executions = [] :=
  C8_other_command_skipped
    (example_env [["U", "bob", "peerA"], ["C", "rmail", "bob"]] true)
    example_world "X.peerAN0001" peerA "rnews"
    [["U", "bob", "peerA"], ["C", "rmail", "bob"]] ["rmail", "bob"]
    (by decide) (by decide) (by decide) (by decide)

/-- The mail test of the three failure sites. -/
theorem mail_failure_mails (w : World) (v : XqtVars) (addr : String) (paz : List String) :
    (mail_failure w v (some addr) paz).mails =
      if v.fQno_ack = true ∧ v.fQerror_ack = false then w.mails
      else w.mails ++ [{ zto := addr, zsubject := "Execution failed", paz := paz }] := by
  unfold mail_failure
  cases h1 : v.fQno_ack <;> cases h2 : v.fQerror_ack <;> simp [World.fsysdep_mail]

/-- C2: with a known mail address `addr`, each of the three failure
notifications of `uqdo_xqt_file` (the command is not permitted, lines 741-761;
the output file is not permitted, lines 879-898; the execution failed, lines
952-1003) is mailed to `addr` with subject `Execution failed` unless the N flag
is set and the Z flag is not; nothing is mailed when N is set and Z is not. -/
theorem C2_failure_mail_unless_N_without_Z (env : XqtEnv) (w : World) (v : XqtVars)
    (zfile : String) (qsys : ssysteminfo) (bgrade : Char) (iclean : Nat) (addr : String)
    (zabsolute : String) (zoutput : Option String) (qoutsys : Option ssysteminfo)
    (abtemp : String) :
    (zmail_of env.zLocalname v = some addr →
      env.zsysdep_find_command ((v.azQargs.getD []).headD "") qsys.zcmds qsys.zpath
        = (none, false) →
      ((v.fQno_ack = true ∧ v.fQerror_ack = false) →
        (uqdo_xqt_file_command env w v zfile qsys bgrade).mails = w.mails) ∧
      (¬ (v.fQno_ack = true ∧ v.fQerror_ack = false) →
        ∃ paz, (uqdo_xqt_file_command env w v zfile qsys bgrade).mails =
          w.mails ++ [{ zto := addr, zsubject := "Execution failed", paz := paz }])) ∧
    ((∃ zout, v.zQoutfile = some zout ∧
        (v.zQoutsys = none ∨ v.zQoutsys = some env.zLocalname) ∧
        (env.fspool_file zout = true ∨
          ∃ zreal, env.fspool_file zout = false ∧
            env.zsysdep_real_file_name env.sLocalsys zout = some zreal ∧
            env.fin_directory_list qsys zreal qsys.zremote_receive = false)) →
      ((v.fQno_ack = true ∧ v.fQerror_ack = false) →
        (uqdo_xqt_file_output env w v zfile qsys bgrade iclean (some addr)
          zabsolute).mails = w.mails) ∧
      (¬ (v.fQno_ack = true ∧ v.fQerror_ack = false) →
        ∃ paz, (uqdo_xqt_file_output env w v zfile qsys bgrade iclean (some addr)
          zabsolute).mails =
          w.mails ++ [{ zto := addr, zsubject := "Execution failed", paz := paz }])) ∧
    ((env.fsysdep_execute (execution_of v qsys zabsolute zoutput)).1 = false →
      ((v.fQno_ack = true ∧ v.fQerror_ack = false) →
        (uqdo_xqt_file_execute env w v zfile qsys bgrade iclean (some addr) zabsolute
          zoutput qoutsys abtemp).mails = w.mails) ∧
      (¬ (v.fQno_ack = true ∧ v.fQerror_ack = false) →
        ∃ paz, (uqdo_xqt_file_execute env w v zfile qsys bgrade iclean (some addr)
          zabsolute zoutput qoutsys abtemp).mails =
          w.mails ++ [{ zto := addr, zsubject := "Execution failed", paz := paz }])) := by
  refine ⟨?_, ?_, ?_⟩
  · intro hmail hfind
    unfold uqdo_xqt_file_command
    simp only [hfind, hmail, uqcleanup_mails, mail_failure_mails, World.ulog,
      Bool.false_eq_true, if_false]
    constructor
    · intro h
      rw [if_pos h]
    · intro h
      rw [if_neg h]
      exact ⟨_, rfl⟩
  · rintro ⟨zout, hout, hsys, hrefuse⟩
    have hloc : (if v.zQoutsys = some env.zLocalname then none else v.zQoutsys) = none := by
      rcases hsys with h | h <;> simp [h]
    unfold uqdo_xqt_file_output
    simp only [hout, hloc]
    rcases hrefuse with hsp | ⟨zreal, hsp, hreal, hdir⟩
    · simp only [hsp, if_true, uqcleanup_mails, mail_failure_mails, World.ulog]
      constructor
      · intro h
        rw [if_pos h]
      · intro h
        rw [if_neg h]
        exact ⟨_, rfl⟩
    · simp only [hsp, hreal, hdir, Bool.false_eq_true, if_false, Bool.not_false, if_true,
        uqcleanup_mails, mail_failure_mails, World.ulog]
      constructor
      · intro h
        rw [if_pos h]
      · intro h
        rw [if_neg h]
        exact ⟨_, rfl⟩
  · intro hfail
    unfold uqdo_xqt_file_execute
    simp only [hfail, Bool.not_false, if_true, uqcleanup_mails, World.remove_mails]
    have hq : ∀ u : World, (match qoutsys with
        | some _ => u.remove (zoutput.getD "")
        | none => u).mails = u.mails := by
      intro u
      cases qoutsys <;> rfl
    rw [hq, mail_failure_mails]
    simp only [World.ulog]
    constructor
    · intro h
      rw [if_pos h]
    · intro h
      rw [if_neg h]
      exact ⟨_, rfl⟩

/-- C2 at a concrete input with both the N and the Z flag: each of the three
failures is mailed to `bob`. -/
theorem C2_failure_mail_unless_N_without_Z_witness :
    (∃ paz, (uqdo_xqt_file_command (example_env [] false) example_world example_vars
        "X.peerAN0001" peerA 'N').mails =
        example_world.mails ++ [{ zto := "bob", zsubject := "Execution failed", paz := paz }]) ∧
    (∃ paz, (uqdo_xqt_file_output (example_env [] false) example_world example_vars
        "X.peerAN0001" peerA 'N' 3 (some "bob") "/bin/forbidden").mails =
        example_world.mails ++ [{ zto := "bob", zsubject := "Execution failed", paz := paz }]) ∧
    (∃ paz, (uqdo_xqt_file_execute (example_env [] false) example_world example_vars
        "X.peerAN0001" peerA 'N' 3 (some "bob") "/bin/forbidden" none none "").mails =
        example_world.mails ++ [{ zto := "bob", zsubject := "Execution failed", paz := paz }]) :=
  ⟨((C2_failure_mail_unless_N_without_Z (example_env [] false) example_world example_vars
        "X.peerAN0001" peerA 'N' 3 "bob" "/bin/forbidden" none none "").1
        (by decide) (by decide)).2 (by decide),
   ((C2_failure_mail_unless_N_without_Z (example_env [] false) example_world example_vars
        "X.peerAN0001" peerA 'N' 3 "bob" "/bin/forbidden" none none "").2.1
        ⟨"X.evil", by decide, by decide, Or.inl (by decide)⟩).2 (by decide),
   ((C2_failure_mail_unless_N_without_Z (example_env [] false) example_world example_vars
        "X.peerAN0001" peerA 'N' 3 "bob" "/bin/forbidden" none none "").2.2
        (by decide)).2 (by decide)⟩

/-- The text of the mail for a command that is not permitted. -/
theorem not_permitted_text (addr subject argv0 zcmd : String) :
    Mail.text { zto := addr, zsubject := subject,
                paz := ["Your execution request failed because you are not",
                        " permitted to execute\n\t", argv0, "\non this system\n",
                        "Execution requested was:\n\t", zcmd, "\n"] } =
      "Your execution request failed because you are not permitted to execute\n\t" ++
        argv0 ++ "\non this system\nExecution requested was:\n\t" ++ zcmd ++ "\n" := by
  apply String.ext
  simp [Mail.text, String.join]

/-- The command phase when the lookup says "not permitted" (lines 733-765). -/
theorem uqdo_xqt_file_command_not_permitted (env : XqtEnv) (w : World) (v : XqtVars)
    (zfile : String) (qsys : ssysteminfo) (bgrade : Char)
    (hfind : env.zsysdep_find_command ((v.azQargs.getD []).headD "") qsys.zcmds qsys.zpath
      = (none, false)) :
    uqdo_xqt_file_command env w v zfile qsys bgrade =
      uqcleanup
        (mail_failure
          (w.ulog tlog.LOG_ERROR ("Not permitted to execute " ++ (v.azQargs.getD []).headD ""))
          v (zmail_of env.zLocalname v)
          ["Your execution request failed because you are not",
           " permitted to execute\n\t", (v.azQargs.getD []).headD "", "\non this system\n",
           "Execution requested was:\n\t", v.zQcmd.getD "", "\n"])
        v zfile 3 := by
  unfold uqdo_xqt_file_command
  simp only [hfind]
  rfl

/-- C3 as stated fails: the command word `forbidden` is not among the commands
of `peerA` and the lookup reports "not permitted" without error, yet (1) the
execute file with the line `F D.peerAN0002`, whose file has not arrived, is
left in the spool and nothing is mailed or logged; (2) the execute file that is
locked by another uuxqt is left too; and (3) where the mail is sent, it does
not contain the text "... you are not permitted to execute forbidden": a line
break and a tab stand between `execute` and the command word. -/
theorem C3_counterexample :
    (example_env [] true).zsysdep_find_command "forbidden" peerA.zcmds peerA.zpath =
      (none, false) ∧
    (uqdo_xqt_file
        (example_env [["U", "bob", "peerA"], ["F", "D.peerAN0002"], ["C", "forbidden", "x"]]
          true)
        example_world "X.peerAN0001" peerA none).files = ["X.peerAN0001"] ∧
    (uqdo_xqt_file
        (example_env [["U", "bob", "peerA"], ["F", "D.peerAN0002"], ["C", "forbidden", "x"]]
          true)
        example_world "X.peerAN0001" peerA none).mails = [] ∧
    (uqdo_xqt_file
        (example_env [["U", "bob", "peerA"], ["F", "D.peerAN0002"], ["C", "forbidden", "x"]]
          true)
        example_world "X.peerAN0001" peerA none).log = [] ∧
    (uqdo_xqt_file
        { example_env [["U", "bob", "peerA"], ["C", "forbidden", "x"]] true with
          fsysdep_lock_uuxqt_file := fun _ => false }
        example_world "X.peerAN0001" peerA none).files = ["X.peerAN0001"] ∧
    (uqdo_xqt_file
        { example_env [["U", "bob", "peerA"], ["C", "forbidden", "x"]] true with
          fsysdep_lock_uuxqt_file := fun _ => false }
        example_world "X.peerAN0001" peerA none).mails = [] ∧
    (uqdo_xqt_file (example_env [["U", "bob", "peerA"], ["C", "forbidden", "x"]] true)
        example_world "X.peerAN0001" peerA none).mails.map Mail.text =
      ["Your execution request failed because you are not permitted to execute\n\t" ++
        "forbidden\non this system\nExecution requested was:\n\tforbidden x\n"] ∧
    ∀ m ∈ (uqdo_xqt_file (example_env [["U", "bob", "peerA"], ["C", "forbidden", "x"]] true)
        example_world "X.peerAN0001" peerA none).mails,
      strstr m.text
        "Your execution request failed because you are not permitted to execute forbidden"
        = false := by
  decide

/-- C3, amended: when `uqdo_xqt_file` reaches the lookup of the command word
`argv0` (the system is permitted some command, the `-c` tests pass, the file
opens and has a command, the file lock and, if needed, the directory lock are
taken, the required files exist) and the lookup reports "not permitted" without
error, then nothing is executed, the execute file is removed, and, when an
address is known and mail is not suppressed (N is not set or Z is set), exactly
one mail is sent, to that address, with the text "Your execution request failed
because you are not permitted to execute", a line break and a tab, `argv0`, and
then "on this system" and the command requested. -/
theorem C3_not_permitted_removed_and_mailed (env : XqtEnv) (w : World) (zfile : String)
    (qsys : ssysteminfo) (zcmd : Option String) (lines : List (List String))
    (argv0 : String) (rest : List String) (reals : List (String × Option String))
    (hcmds : qsys.zcmds ≠ "")
    (hacc : cmd_not_accepted zcmd qsys.zcmds = false)
    (hopen : env.xqt_lines zfile = some lines)
    (hargs : (uprocesscmds env.fspool_file zfile (XqtVars.init, []) lines).1.azQargs
      = some (argv0 :: rest))
    (hthis : not_for_this_uuxqt env zcmd argv0 = false)
    (hlock : env.fsysdep_lock_uuxqt_file zfile = true)
    (hreq : required_files env qsys w.files
      (uprocesscmds env.fspool_file zfile (XqtVars.init, []) lines).1.azQfiles = some reals)
    (hdir : reals.any (fun f => f.2.isSome) = true →
      lock_dir_loop env.fsysdep_lock_uuxqt_dir 5 0 < 5)
    (hfind : env.zsysdep_find_command argv0 qsys.zcmds qsys.zpath = (none, false)) :
    (uqdo_xqt_file env w zfile qsys zcmd).executions = w.executions ∧
    zfile ∉ (uqdo_xqt_file env w zfile qsys zcmd).files ∧
    ∀ addr,
      zmail_of env.zLocalname
        (uprocesscmds env.fspool_file zfile (XqtVars.init, []) lines).1 = some addr →
      ((uprocesscmds env.fspool_file zfile (XqtVars.init, []) lines).1.fQno_ack = false ∨
        (uprocesscmds env.fspool_file zfile (XqtVars.init, []) lines).1.fQerror_ack = true) →
      ∃ m, (uqdo_xqt_file env w zfile qsys zcmd).mails = w.mails ++ [m] ∧
        m.zto = addr ∧
        m.text =
          "Your execution request failed because you are not permitted to execute\n\t" ++
          argv0 ++ "\non this system\nExecution requested was:\n\t" ++
          ((uprocesscmds env.fspool_file zfile (XqtVars.init, []) lines).1.zQcmd.getD "") ++
          "\n" := by
  generalize hp : uprocesscmds env.fspool_file zfile (XqtVars.init, []) lines = p at *
  have hfind2 : ∀ v : XqtVars, v.azQargs = some (argv0 :: rest) →
      env.zsysdep_find_command ((v.azQargs.getD []).headD "") qsys.zcmds qsys.zpath
        = (none, false) := by
    intro v hv
    rw [hv]
    exact hfind
  have key : ∀ (u : World) (v1 : XqtVars), u.executions = w.executions →
      u.mails = w.mails → v1.azQargs = some (argv0 :: rest) → v1.zQcmd = p.1.zQcmd →
      v1.fQno_ack = p.1.fQno_ack → v1.fQerror_ack = p.1.fQerror_ack →
      zmail_of env.zLocalname v1 = zmail_of env.zLocalname p.1 →
      (uqdo_xqt_file_command env u v1 zfile qsys (bgrade_of zfile)).executions
        = w.executions ∧
      zfile ∉ (uqdo_xqt_file_command env u v1 zfile qsys (bgrade_of zfile)).files ∧
      ∀ addr, zmail_of env.zLocalname p.1 = some addr →
        (p.1.fQno_ack = false ∨ p.1.fQerror_ack = true) →
        ∃ m, (uqdo_xqt_file_command env u v1 zfile qsys (bgrade_of zfile)).mails
            = w.mails ++ [m] ∧ m.zto = addr ∧
          m.text =
            "Your execution request failed because you are not permitted to execute\n\t" ++
            argv0 ++ "\non this system\nExecution requested was:\n\t" ++
            (p.1.zQcmd.getD "") ++ "\n" := by
    intro u v1 hx hm hv1 hc1 hn1 he1 hz1
    rw [uqdo_xqt_file_command_not_permitted env u v1 zfile qsys _ (hfind2 v1 hv1)]
    refine ⟨?_, uqcleanup_removes_file _ _ zfile 3 (by decide), ?_⟩
    · rw [uqcleanup_executions]
      unfold mail_failure
      split
      · split_ifs <;> simpa [World.fsysdep_mail, World.ulog] using hx
      · simpa [World.ulog] using hx
    · intro addr haddr hflags
      rw [uqcleanup_mails, hz1, haddr, mail_failure_mails]
      have hno : ¬ (v1.fQno_ack = true ∧ v1.fQerror_ack = false) := by
        rw [hn1, he1]
        rintro ⟨h1, h2⟩
        rcases hflags with h | h
        · rw [h1] at h
          exact Bool.noConfusion h
        · rw [h2] at h
          exact Bool.noConfusion h
      rw [if_neg hno]
      refine ⟨_, by simp only [World.ulog, hm]; rfl, rfl, ?_⟩
      simp only [hv1, hc1, Option.getD_some, List.headD_cons]
      exact not_permitted_text _ _ _ _
  unfold uqdo_xqt_file
  simp only [hcmds, if_false, hacc, Bool.false_eq_true, hopen, hp, hargs, List.headD_cons,
    hthis, hlock, Bool.not_true, hreq]
  unfold uqdo_xqt_file_lock_dir
  by_cases hany : reals.any (fun f => f.2.isSome) = true
  · have hlt := hdir hany
    have hge : ¬ lock_dir_loop env.fsysdep_lock_uuxqt_dir 5 0 ≥ 5 := by omega
    simp only [hany, if_true, hge, if_false]
    apply key <;> rfl
  · simp only [hany, Bool.false_eq_true, if_false]
    apply key <;> rfl

/-- C3 at a concrete input: the command word `forbidden` for a system that may
run `rmail` and `rnews`. -/
theorem C3_not_permitted_removed_and_mailed_witness :
    (uqdo_xqt_file (example_env [["U", "bob", "peerA"], ["C", "forbidden", "x"]] true)
        example_world "X.peerAN0001" peerA none).executions = [] ∧
    "X.peerAN0001" ∉
      (uqdo_xqt_file (example_env [["U", "bob", "peerA"], ["C", "forbidden", "x"]] true)
        example_world "X.peerAN0001" peerA none).files ∧
    ∃ m, (uqdo_xqt_file (example_env [["U", "bob", "peerA"], ["C", "forbidden", "x"]] true)
        example_world "X.peerAN0001" peerA none).mails = [] ++ [m] ∧
      m.zto = "peerA!bob" ∧
      m.text =
        "Your execution request failed because you are not permitted to execute\n\t" ++
        "forbidden" ++ "\non this system\nExecution requested was:\n\t" ++
        "forbidden x" ++ "\n" :=
  have h := C3_not_permitted_removed_and_mailed
    (example_env [["U", "bob", "peerA"], ["C", "forbidden", "x"]] true)
    example_world "X.peerAN0001" peerA none
    [["U", "bob", "peerA"], ["C", "forbidden", "x"]] "forbidden" ["x"] []
    (by decide) (by decide) (by decide) (by decide) (by decide) (by decide) (by decide)
    (by decide) (by decide)
  ⟨h.1, h.2.1, h.2.2 "peerA!bob" (by decide) (Or.inl (by decide))⟩

/-- C9 as stated fails: an execute file without the n flag (and without N and
Z), with a known address, whose command succeeds: the "succeeded" mail is sent. -/
theorem C9_counterexample :
    (uprocesscmds is_spool_file "X.peerAN0001" (XqtVars.init, [])
        [["U", "bob", "peerA"], ["C", "rmail", "bob"]]).1.fQsuccess_ack = false ∧
    (uprocesscmds is_spool_file "X.peerAN0001" (XqtVars.init, [])
        [["U", "bob", "peerA"], ["C", "rmail", "bob"]]).1.fQno_ack = false ∧
    zmail_of "here" (uprocesscmds is_spool_file "X.peerAN0001" (XqtVars.init, [])
        [["U", "bob", "peerA"], ["C", "rmail", "bob"]]).1 = some "peerA!bob" ∧
    (uqdo_xqt_file (example_env [["U", "bob", "peerA"], ["C", "rmail", "bob"]] true)
        example_world "X.peerAN0001" peerA none).executions.map
          (fun x => ((example_env [["U", "bob", "peerA"], ["C", "rmail", "bob"]]
            true).fsysdep_execute x).1) = [true] ∧
    (uqdo_xqt_file (example_env [["U", "bob", "peerA"], ["C", "rmail", "bob"]] true)
        example_world "X.peerAN0001" peerA none).mails =
      [{ zto := "peerA!bob", zsubject := "Execution succeded",
         paz := ["\nExecution request succeeded:\n\t", "rmail bob", "\n"] }] := by
  decide

/-- C9, amended: with a known mail address `addr` and without the N flag, when
the command succeeds `uqdo_xqt_file` (lines 1008-1021) sends the "succeeded"
mail to `addr` if the Z flag is not set, whether or not the n flag is set, and
sends no mail if the Z flag is set and the n flag is not. -/
theorem C9_success_mail_unless_Z (env : XqtEnv) (w : World) (v : XqtVars)
    (zfile : String) (qsys : ssysteminfo) (bgrade : Char) (iclean : Nat) (addr : String)
    (zabsolute : String) (zoutput : Option String) (qoutsys : Option ssysteminfo)
    (abtemp : String)
    (hok : (env.fsysdep_execute (execution_of v qsys zabsolute zoutput)).1 = true)
    (hN : v.fQno_ack = false) :
    (v.fQerror_ack = false →
      (uqdo_xqt_file_execute env w v zfile qsys bgrade iclean (some addr) zabsolute
        zoutput qoutsys abtemp).mails =
        w.mails ++ [{ zto := addr, zsubject := "Execution succeded",
                      paz := ["\nExecution request succeeded:\n\t", v.zQcmd.getD "", "\n"] }]) ∧
    (v.fQerror_ack = true → v.fQsuccess_ack = false →
      (uqdo_xqt_file_execute env w v zfile qsys bgrade iclean (some addr) zabsolute
        zoutput qoutsys abtemp).mails = w.mails) := by
  unfold uqdo_xqt_file_execute
  simp only [hok, Bool.not_true, Bool.false_eq_true, if_false, uqcleanup_mails,
    World.remove_mails, hN, Bool.not_false, Bool.true_and]
  constructor
  · intro hZ
    cases qoutsys <;> simp [hZ, World.fsysdep_mail]
  · intro hZ _
    cases qoutsys <;> simp [hZ]

/-- C9 at a concrete input: the flags n and Z are both absent and the command
succeeds. -/
theorem C9_success_mail_unless_Z_witness :
    (uqdo_xqt_file_execute (example_env [] true) example_world
        { example_vars with fQno_ack := false, fQerror_ack := false }
        "X.peerAN0001" peerA 'N' 3 (some "bob") "/bin/forbidden" none none "").mails =
      example_world.mails ++
        [{ zto := "bob", zsubject := "Execution succeded",
           paz := ["\nExecution request succeeded:\n\t",
                   ({ example_vars with fQno_ack := false,
                                        fQerror_ack := false } : XqtVars).zQcmd.getD "",
                   "\n"] }] :=
  (C9_success_mail_unless_Z (example_env [] true) example_world
    { example_vars with fQno_ack := false, fQerror_ack := false }
    "X.peerAN0001" peerA 'N' 3 "bob" "/bin/forbidden" none none ""
    (by decide) (by decide)).1 (by decide)

@[simp] theorem mail_failure_executions (w : World) (v : XqtVars) (zmail : Option String)
    (paz : List String) : (mail_failure w v zmail paz).executions = w.executions := by
  unfold mail_failure
  split
  · split_ifs <;> rfl
  · rfl

@[simp] theorem mail_failure_spooled (w : World) (v : XqtVars) (zmail : Option String)
    (paz : List String) : (mail_failure w v zmail paz).spooled = w.spooled := by
  unfold mail_failure
  split
  · split_ifs <;> rfl
  · rfl

/-- A spool-form output file that stays on this system is refused (lines 856-902). -/
theorem uqdo_xqt_file_output_spool_local (env : XqtEnv) (w : World) (v : XqtVars)
    (zfile : String) (qsys : ssysteminfo) (bgrade : Char) (iclean : Nat)
    (zmail : Option String) (zabsolute : String) (zout : String)
    (hout : v.zQoutfile = some zout) (hsp : env.fspool_file zout = true)
    (hsys : v.zQoutsys = none ∨ v.zQoutsys = some env.zLocalname) :
    (uqdo_xqt_file_output env w v zfile qsys bgrade iclean zmail zabsolute).executions
      = w.executions ∧
    (uqdo_xqt_file_output env w v zfile qsys bgrade iclean zmail zabsolute).spooled
      = w.spooled := by
  have hloc : (if v.zQoutsys = some env.zLocalname then none else v.zQoutsys) = none := by
    rcases hsys with h | h <;> simp [h]
  unfold uqdo_xqt_file_output
  simp only [hout, hloc, hsp, if_true]
  simp [World.ulog]

/-- The input phase before such an output file (lines 777-791). -/
theorem uqdo_xqt_file_input_spool_local (env : XqtEnv) (w : World) (v : XqtVars)
    (zfile : String) (qsys : ssysteminfo) (bgrade : Char) (iclean : Nat)
    (zmail : Option String) (zabsolute : String) (zout : String)
    (hout : v.zQoutfile = some zout) (hsp : env.fspool_file zout = true)
    (hsys : v.zQoutsys = none ∨ v.zQoutsys = some env.zLocalname) :
    (uqdo_xqt_file_input env w v zfile qsys bgrade iclean zmail zabsolute).executions
      = w.executions ∧
    (uqdo_xqt_file_input env w v zfile qsys bgrade iclean zmail zabsolute).spooled
      = w.spooled := by
  unfold uqdo_xqt_file_input
  split
  · exact uqdo_xqt_file_output_spool_local env w v zfile qsys bgrade iclean zmail zabsolute
      zout hout hsp hsys
  · split
    · simp
    · exact uqdo_xqt_file_output_spool_local env w _ zfile qsys bgrade _ zmail zabsolute
        zout hout hsp hsys

/-- The command phase before such an output file (lines 703-775). -/
theorem uqdo_xqt_file_command_spool_local (env : XqtEnv) (w : World) (v : XqtVars)
    (zfile : String) (qsys : ssysteminfo) (bgrade : Char) (zout : String)
    (hout : v.zQoutfile = some zout) (hsp : env.fspool_file zout = true)
    (hsys : v.zQoutsys = none ∨ v.zQoutsys = some env.zLocalname) :
    (uqdo_xqt_file_command env w v zfile qsys bgrade).executions = w.executions ∧
    (uqdo_xqt_file_command env w v zfile qsys bgrade).spooled = w.spooled := by
  unfold uqdo_xqt_file_command
  simp only []
  split
  · split_ifs <;> simp [World.ulog]
  · exact uqdo_xqt_file_input_spool_local env _ v zfile qsys bgrade _ _ _ zout hout hsp hsys

/-- The directory lock before such an output file (lines 677-701). -/
theorem uqdo_xqt_file_lock_dir_spool_local (env : XqtEnv) (w : World) (v : XqtVars)
    (zfile : String) (qsys : ssysteminfo) (bgrade : Char) (zout : String)
    (hout : v.zQoutfile = some zout) (hsp : env.fspool_file zout = true)
    (hsys : v.zQoutsys = none ∨ v.zQoutsys = some env.zLocalname) :
    (uqdo_xqt_file_lock_dir env w v zfile qsys bgrade).executions = w.executions ∧
    (uqdo_xqt_file_lock_dir env w v zfile qsys bgrade).spooled = w.spooled := by
  unfold uqdo_xqt_file_lock_dir
  simp only []
  repeat' split
  all_goals first
    | exact uqdo_xqt_file_command_spool_local env _ v zfile qsys bgrade zout hout hsp hsys
    | simp [World.ulog]

/-- C4 as stated fails: with `O X.evil peerB` (a spool-form name, output for
another system) the command is executed and its output is queued for `peerB`
under the name `X.evil`. -/
theorem C4_counterexample :
    is_spool_file "X.evil" = true ∧
    (uqdo_xqt_file
        (example_env [["U", "bob", "peerA"], ["C", "rmail", "x"], ["O", "X.evil", "peerB"]]
          true)
        example_world "X.peerAN0001" peerA none).executions.map (fun x => x.zcmd)
      = ["rmail x"] ∧
    (uqdo_xqt_file
        (example_env [["U", "bob", "peerA"], ["C", "rmail", "x"], ["O", "X.evil", "peerB"]]
          true)
        example_world "X.peerAN0001" peerA none).spooled.map
          (fun q => (q.1, q.2.2.map (fun s => (s.bcmd, s.zto))))
      = [("peerB", [('S', "X.evil")])] := by
  decide

/-- C4, amended: for every execute file whose O line names a spool-form file and
gives no system or the local system name, `uqdo_xqt_file` executes no command
and queues no work; no output is written or queued under that name. -/
theorem C4_local_spool_output_rejected (env : XqtEnv) (w : World) (zfile : String)
    (qsys : ssysteminfo) (zcmd : Option String) (lines : List (List String))
    (zout : String)
    (hopen : env.xqt_lines zfile = some lines)
    (hout : (uprocesscmds env.fspool_file zfile (XqtVars.init, []) lines).1.zQoutfile
      = some zout)
    (hsp : env.fspool_file zout = true)
    (hsys : (uprocesscmds env.fspool_file zfile (XqtVars.init, []) lines).1.zQoutsys = none ∨
      (uprocesscmds env.fspool_file zfile (XqtVars.init, []) lines).1.zQoutsys
        = some env.zLocalname) :
    (uqdo_xqt_file env w zfile qsys zcmd).executions = w.executions ∧
    (uqdo_xqt_file env w zfile qsys zcmd).spooled = w.spooled := by
  generalize hp : uprocesscmds env.fspool_file zfile (XqtVars.init, []) lines = p at *
  unfold uqdo_xqt_file
  simp only [hopen, hp]
  repeat' split
  all_goals first
    | exact ⟨rfl, rfl⟩
    | exact uqdo_xqt_file_lock_dir_spool_local env _ _ zfile qsys _ zout hout hsp hsys
    | simp [World.ulog]

/-- C4 at a concrete input: `O X.evil` with no system. -/
theorem C4_local_spool_output_rejected_witness :
    (uqdo_xqt_file
        (example_env [["U", "bob", "peerA"], ["C", "rmail", "x"], ["O", "X.evil"]] true)
        example_world "X.peerAN0001" peerA none).executions = [] ∧
    (uqdo_xqt_file
        (example_env [["U", "bob", "peerA"], ["C", "rmail", "x"], ["O", "X.evil"]] true)
        example_world "X.peerAN0001" peerA none).spooled = [] :=
  C4_local_spool_output_rejected
    (example_env [["U", "bob", "peerA"], ["C", "rmail", "x"], ["O", "X.evil"]] true)
    example_world "X.peerAN0001" peerA none
    [["U", "bob", "peerA"], ["C", "rmail", "x"], ["O", "X.evil"]] "X.evil"
    (by decide) (by decide) (by decide) (Or.inl (by decide))

/-! ## The required files -/

/-- Every entry of `asQcmds` keeps the names in `azQfiles` spool-form. -/
theorem asQcmds_entry_spool (fsp : String → Bool) (zerr : String) (p : XqtParse)
    (argv : List String) (x : String × scmdtab) (hx : x ∈ asQcmds fsp zerr)
    (hp : ∀ f ∈ p.1.azQfiles, fsp f.1 = true) :
    ∀ f ∈ (cmdtab_apply zerr p argv x.2).1.azQfiles, fsp f.1 = true := by
  simp only [asQcmds, List.mem_cons, List.mem_singleton, List.not_mem_nil, or_false] at hx
  rcases hx with h | h | h | h | h | h | h | h | h | h | h | h | h <;> subst h
  case inr.inr.inr.inl =>
    simp only [cmdtab_apply, tqfile]
    repeat' split
    all_goals first
      | exact hp
      | (intro f hf
         simp only [List.mem_append, List.mem_singleton] at hf
         rcases hf with hf | hf
         · exact hp f hf
         · subst hf
           simp_all)
  all_goals
    simp only [cmdtab_apply, tqcmd, tqout, tquser, tqset]
    repeat' split
    all_goals exact hp

/-- Parsing keeps the names in `azQfiles` spool-form. -/
theorem uprocesscmds_spool (fsp : String → Bool) (zerr : String)
    (lines : List (List String)) (p : XqtParse)
    (hp : ∀ f ∈ p.1.azQfiles, fsp f.1 = true) :
    ∀ f ∈ (uprocesscmds fsp zerr p lines).1.azQfiles, fsp f.1 = true := by
  unfold uprocesscmds
  induction lines generalizing p with
  | nil => exact hp
  | cons a t ih =>
    simp only [List.foldl_cons]
    apply ih
    cases a with
    | nil => exact hp
    | cons c r =>
      rw [tprocess_one_cmd]
      cases hf : cmdtab_find c (asQcmds fsp zerr) with
      | none => exact hp
      | some e =>
        exact asQcmds_entry_spool fsp zerr p (c :: r) (c, e) (cmdtab_find_mem c _ e hf) hp

/-- An F line with a wrong number of arguments or a name that is not spool-form
changes no variable. -/
theorem tprocess_one_cmd_F_ignored (fsp : String → Bool) (zerr : String) (p : XqtParse)
    (args : List String)
    (h : (args.length ≠ 1 ∧ args.length ≠ 2) ∨ fsp (args.getD 0 "") = false) :
    (tprocess_one_cmd (asQcmds fsp zerr) zerr p ("F" :: args)).1 = p.1 := by
  simp only [tprocess_one_cmd, asQcmds, cmdtab_find,
    show ("F" : String) = "C" ↔ False from by decide,
    show ("F" : String) = "I" ↔ False from by decide,
    show ("F" : String) = "O" ↔ False from by decide, if_false, if_true]
  simp only [cmdtab_apply, tqfile]
  rcases h with ⟨h1, h2⟩ | h
  · have : (("F" :: args).length ≠ 2 ∧ ("F" :: args).length ≠ 3) := by
      simp only [List.length_cons]
      omega
    rw [if_pos this]
    split <;> rfl
  · repeat' split
    all_goals first
      | rfl
      | simp_all

/-- The names the loop of lines 658-675 stores are the spool names of the
names it was given. -/
theorem required_files_some (env : XqtEnv) (qsys : ssysteminfo) (files : List String)
    (l reals : List (String × Option String))
    (h : required_files env qsys files l = some reals) :
    ∀ r ∈ reals, ∃ f ∈ l, env.zsysdep_spool_file_name qsys f.1 = some r.1 := by
  induction l generalizing reals with
  | nil =>
    simp only [required_files, Option.some.injEq] at h
    subst h
    simp
  | cons a t ih =>
    obtain ⟨zname, zto⟩ := a
    unfold required_files at h
    cases hs : env.zsysdep_spool_file_name qsys zname with
    | none => simp [hs] at h
    | some zreal =>
      simp only [hs] at h
      split_ifs at h
      cases ht : required_files env qsys files t with
      | none => simp [ht] at h
      | some rs =>
        simp only [ht, Option.map_some', Option.some.injEq] at h
        subst h
        intro r hr
        rcases List.mem_cons.mp hr with hr | hr
        · subst hr
          exact ⟨(zname, zto), List.mem_cons_self _ _, hs⟩
        · obtain ⟨f, hf, hfs⟩ := ih rs ht r hr
          exact ⟨f, List.mem_cons_of_mem _ hf, hfs⟩

/-! ## Which files a run removes -/

theorem keeps_refl (R : String → Prop) (w : World) : Keeps R w w :=
  fun _ hg => Or.inl hg

theorem keeps_trans {R : String → Prop} {a b c : World} (h1 : Keeps R a b)
    (h2 : Keeps R b c) : Keeps R a c :=
  fun g hg => (h1 g hg).elim (fun h => h2 g h) Or.inr

theorem keeps_of_files_eq {R : String → Prop} {w u : World} (h : u.files = w.files) :
    Keeps R w u :=
  fun _ hg => Or.inl (h ▸ hg)

theorem keeps_remove {R : String → Prop} (w : World) (f : String) (hf : R f) :
    Keeps R w (w.remove f) := by
  intro g hg
  by_cases h : g = f
  · right
    rw [h]
    exact hf
  · left
    simp [World.remove, hg, h]

theorem keeps_move {R : String → Prop} (w : World) (a b : String) (ha : R a) :
    Keeps R w (w.move a b) := by
  intro g hg
  by_cases h : g = a
  · right
    rw [h]
    exact ha
  · left
    simp [World.move, hg, h]

/-- Removing the required files keeps every other file. -/
theorem foldl_remove_mem (l : List (String × Option String)) (w : World) (g : String)
    (hg : g ∈ w.files) (hl : ∀ f ∈ l, g ≠ f.1) :
    g ∈ (l.foldl (fun (u : World) f => u.remove f.1) w).files := by
  induction l generalizing w with
  | nil => exact hg
  | cons a t ih =>
    simp only [List.foldl_cons]
    apply ih
    · simp [World.remove, hg, hl a (List.mem_cons_self a t)]
    · exact fun f hf => hl f (List.mem_cons_of_mem a hf)

/-- Function `uqcleanup` keeps every file but the execute file (with
`REMOVE_FILE`) and the required files (with `REMOVE_NEEDED`). -/
theorem uqcleanup_mem (w : World) (v : XqtVars) (zfile : String) (iflags : Nat)
    (g : String) (hg : g ∈ w.files)
    (hz : iflags &&& REMOVE_FILE ≠ 0 → g ≠ zfile)
    (hf : iflags &&& REMOVE_NEEDED ≠ 0 → ∀ f ∈ v.azQfiles, g ≠ f.1) :
    g ∈ (uqcleanup w v zfile iflags).files := by
  have h1 : ∀ u : World, g ∈ u.files →
      g ∈ (if iflags &&& REMOVE_FILE ≠ 0 then u.remove zfile else u).files := by
    intro u hu
    by_cases hA : iflags &&& REMOVE_FILE ≠ 0
    · rw [if_pos hA]
      simp [World.remove, hu, hz hA]
    · rw [if_neg hA]
      exact hu
  have h2 : ∀ u : World, g ∈ u.files →
      g ∈ (if iflags &&& REMOVE_NEEDED ≠ 0 then
        v.azQfiles.foldl (fun (u : World) f => u.remove f.1) u else u).files := by
    intro u hu
    by_cases hB : iflags &&& REMOVE_NEEDED ≠ 0
    · rw [if_pos hB]
      exact foldl_remove_mem _ _ g hu (hf hB)
    · rw [if_neg hB]
      exact hu
  have h3 : ∀ u : World, g ∈ u.files →
      g ∈ (if u.fQunlock_directory = true then
        { u with dir_locked := false, fQunlock_directory := false } else u).files := by
    intro u hu
    split <;> exact hu
  have h0 : g ∈ (match w.zQunlock_file with
      | some f => { w with locks := w.locks.filter (fun g => g != f), zQunlock_file := none }
      | none => w).files := by
    cases w.zQunlock_file <;> exact hg
  unfold uqcleanup
  exact h3 _ (h2 _ (h1 _ h0))

theorem keeps_uqcleanup {R : String → Prop} (w : World) (v : XqtVars) (zfile : String)
    (iflags : Nat) (hz : R zfile) (hf : ∀ f ∈ v.azQfiles, R f.1) :
    Keeps R w (uqcleanup w v zfile iflags) := by
  intro g hg
  by_cases h1 : g = zfile
  · right
    rw [h1]
    exact hz
  · by_cases h2 : ∃ f ∈ v.azQfiles, g = f.1
    · obtain ⟨f, hfm, hgf⟩ := h2
      right
      rw [hgf]
      exact hf f hfm
    · left
      apply uqcleanup_mem w v zfile iflags g hg (fun _ => h1)
      intro _ f hfm hgf
      exact h2 ⟨f, hfm, hgf⟩

@[simp] theorem mail_failure_files (w : World) (v : XqtVars) (zmail : Option String)
    (paz : List String) : (mail_failure w v zmail paz).files = w.files := by
  unfold mail_failure
  split
  · split_ifs <;> rfl
  · rfl

theorem keeps_cleanup_of {R : String → Prop} (w u : World) (v : XqtVars) (zfile : String)
    (iflags : Nat) (hu : u.files = w.files) (hz : R zfile)
    (hf : ∀ f ∈ v.azQfiles, R f.1) : Keeps R w (uqcleanup u v zfile iflags) :=
  keeps_trans (keeps_of_files_eq hu) (keeps_uqcleanup u v zfile iflags hz hf)

/-- The execution removes only the standard error file, the data file of a
failed remote output, the execute file and the required files. -/
theorem keeps_execute {R : String → Prop} (env : XqtEnv) (w u : World) (v : XqtVars)
    (zfile : String) (qsys : ssysteminfo) (bgrade : Char) (iclean : Nat)
    (zmail : Option String) (zabsolute : String) (zoutput : Option String)
    (qoutsys : Option ssysteminfo) (abtemp : String)
    (hu : Keeps R w u) (hz : R zfile) (herr : ∀ x, R (env.fsysdep_execute x).2)
    (hf : ∀ f ∈ v.azQfiles, R f.1) (hout : qoutsys.isSome = true → R (zoutput.getD "")) :
    Keeps R w (uqdo_xqt_file_execute env u v zfile qsys bgrade iclean zmail zabsolute
      zoutput qoutsys abtemp) := by
  unfold uqdo_xqt_file_execute
  simp only []
  refine keeps_trans hu (keeps_trans ?_ (keeps_uqcleanup _ v zfile iclean hz hf))
  refine keeps_trans ?_ (keeps_remove _ _ (herr _))
  split
  · cases qoutsys with
    | none => exact keeps_of_files_eq (by simp [World.ulog])
    | some o =>
      refine keeps_trans (keeps_of_files_eq ?_) (keeps_remove _ _ (hout rfl))
      simp [World.ulog]
  · cases qoutsys <;> cases zmail <;> simp only [] <;> (try split) <;>
      exact keeps_of_files_eq rfl

/-- Moving the required files removes only required files. -/
theorem keeps_move_loop {R : String → Prop} (env : XqtEnv) (zfile : String) (iclean : Nat)
    (hz : R zfile) (l : List (String × Option String)) :
    ∀ (w u : World) (v : XqtVars), Keeps R w u → (∀ f ∈ l, R f.1) →
      (∀ f ∈ v.azQfiles, R f.1) →
      match uqdo_xqt_file_move env zfile iclean l u v with
      | Sum.inl u1 => Keeps R w u1
      | Sum.inr (u1, v1) => Keeps R w u1 ∧ v1.azQfiles = v.azQfiles := by
  induction l with
  | nil =>
    intro w u v hu _ _
    exact ⟨hu, rfl⟩
  | cons a t ih =>
    intro w u v hu hl hf
    obtain ⟨zreal, zto⟩ := a
    cases zto with
    | none =>
      rw [uqdo_xqt_file_move]
      exact ih w u v hu (fun f hfm => hl f (List.mem_cons_of_mem _ hfm)) hf
    | some zto =>
      rw [uqdo_xqt_file_move]
      cases hd : env.zsysdep_in_dir env.XQTDIR zto with
      | none => exact keeps_trans hu (keeps_uqcleanup u v zfile iclean hz hf)
      | some zname =>
        simp only []
        by_cases hm : env.fsysdep_move_file zreal zname = true
        · simp only [hm, Bool.not_true, Bool.false_eq_true, if_false]
          have hmove : Keeps R w (u.move zreal zname) :=
            keeps_trans hu (keeps_move u zreal zname (hl _ (List.mem_cons_self _ _)))
          have := ih w (u.move zreal zname)
            (if v.zQinput = some zreal then { v with zQinput := some zname } else v)
            hmove (fun f hfm => hl f (List.mem_cons_of_mem _ hfm))
            (by split <;> exact hf)
          revert this
          cases uqdo_xqt_file_move env zfile iclean t (u.move zreal zname)
            (if v.zQinput = some zreal then { v with zQinput := some zname } else v) with
          | inl u1 => exact fun h => h
          | inr r =>
            intro h
            refine ⟨h.1, h.2.trans ?_⟩
            split <;> rfl
        · simp only [hm, Bool.not_false, if_true]
          exact keeps_trans hu (keeps_uqcleanup u v zfile iclean hz hf)

theorem keeps_run {R : String → Prop} (env : XqtEnv) (w u : World) (v : XqtVars)
    (zfile : String) (qsys : ssysteminfo) (bgrade : Char) (iclean : Nat)
    (zmail : Option String) (zabsolute : String) (zoutput : Option String)
    (qoutsys : Option ssysteminfo) (abtemp : String)
    (hu : Keeps R w u) (hz : R zfile) (herr : ∀ x, R (env.fsysdep_execute x).2)
    (hf : ∀ f ∈ v.azQfiles, R f.1) (hout : qoutsys.isSome = true → R (zoutput.getD "")) :
    Keeps R w (uqdo_xqt_file_run env u v zfile qsys bgrade iclean zmail zabsolute
      zoutput qoutsys abtemp) := by
  unfold uqdo_xqt_file_run
  have := keeps_move_loop env zfile iclean hz v.azQfiles w u v hu hf hf
  revert this
  cases uqdo_xqt_file_move env zfile iclean v.azQfiles u v with
  | inl u1 => exact fun h => h
  | inr r =>
    intro h
    exact keeps_execute env w r.1 r.2 zfile qsys bgrade iclean zmail zabsolute zoutput
      qoutsys abtemp h.1 hz herr (by rw [h.2]; exact hf) hout

theorem keeps_remote_output {R : String → Prop} (env : XqtEnv) (w u : World) (v : XqtVars)
    (zfile : String) (qsys : ssysteminfo) (bgrade : Char) (iclean : Nat)
    (zmail : Option String) (zabsolute : String) (qoutsys : ssysteminfo)
    (hu : Keeps R w u) (hz : R zfile) (herr : ∀ x, R (env.fsysdep_execute x).2)
    (hdata : ∀ s c r, env.zsysdep_data_file_name s c = some r → R r.1)
    (hf : ∀ f ∈ v.azQfiles, R f.1) :
    Keeps R w (uqdo_xqt_file_remote_output env u v zfile qsys bgrade iclean zmail
      zabsolute qoutsys) := by
  unfold uqdo_xqt_file_remote_output
  cases hd : env.zsysdep_data_file_name qoutsys bgrade with
  | none => exact keeps_trans hu (keeps_uqcleanup u v zfile iclean hz hf)
  | some r =>
    obtain ⟨zdata, abtemp, abdata⟩ := r
    exact keeps_run env w u v zfile qsys bgrade iclean zmail zabsolute (some zdata)
      (some qoutsys) abtemp hu hz herr hf (fun _ => hdata _ _ _ hd)

theorem keeps_output {R : String → Prop} (env : XqtEnv) (w u : World) (v : XqtVars)
    (zfile : String) (qsys : ssysteminfo) (bgrade : Char) (iclean : Nat)
    (zmail : Option String) (zabsolute : String)
    (hu : u.files = w.files) (hz : R zfile) (herr : ∀ x, R (env.fsysdep_execute x).2)
    (hdata : ∀ s c r, env.zsysdep_data_file_name s c = some r → R r.1)
    (hf : ∀ f ∈ v.azQfiles, R f.1) :
    Keeps R w (uqdo_xqt_file_output env u v zfile qsys bgrade iclean zmail zabsolute) := by
  have hk : Keeps R w u := keeps_of_files_eq hu
  unfold uqdo_xqt_file_output
  simp only []
  repeat' split
  all_goals first
    | exact keeps_run env w u _ zfile qsys bgrade iclean zmail zabsolute _ _ _ hk hz herr hf
        (fun h => Bool.noConfusion h)
    | exact keeps_remote_output env w u v zfile qsys bgrade iclean zmail zabsolute _ hk hz
        herr hdata hf
    | exact keeps_cleanup_of w _ _ zfile iclean (by simp [World.ulog, hu]) hz hf

theorem keeps_input {R : String → Prop} (env : XqtEnv) (w u : World) (v : XqtVars)
    (zfile : String) (qsys : ssysteminfo) (bgrade : Char) (iclean : Nat)
    (zmail : Option String) (zabsolute : String)
    (hu : u.files = w.files) (hz : R zfile) (herr : ∀ x, R (env.fsysdep_execute x).2)
    (hdata : ∀ s c r, env.zsysdep_data_file_name s c = some r → R r.1)
    (hf : ∀ f ∈ v.azQfiles, R f.1) :
    Keeps R w (uqdo_xqt_file_input env u v zfile qsys bgrade iclean zmail zabsolute) := by
  unfold uqdo_xqt_file_input
  repeat' split
  all_goals first
    | exact keeps_output env w u _ zfile qsys bgrade _ zmail zabsolute hu hz herr hdata hf
    | exact keeps_cleanup_of w _ _ zfile iclean hu hz hf

theorem keeps_command {R : String → Prop} (env : XqtEnv) (w u : World) (v : XqtVars)
    (zfile : String) (qsys : ssysteminfo) (bgrade : Char)
    (hu : u.files = w.files) (hz : R zfile) (herr : ∀ x, R (env.fsysdep_execute x).2)
    (hdata : ∀ s c r, env.zsysdep_data_file_name s c = some r → R r.1)
    (hf : ∀ f ∈ v.azQfiles, R f.1) :
    Keeps R w (uqdo_xqt_file_command env u v zfile qsys bgrade) := by
  unfold uqdo_xqt_file_command
  simp only []
  repeat' split
  all_goals first
    | exact keeps_input env w _ v zfile qsys bgrade _ _ _ (by simp [World.ulog, hu]) hz herr
        hdata hf
    | exact keeps_cleanup_of w _ _ zfile _ (by simp [World.ulog, hu]) hz hf

theorem keeps_lock_dir {R : String → Prop} (env : XqtEnv) (w u : World) (v : XqtVars)
    (zfile : String) (qsys : ssysteminfo) (bgrade : Char)
    (hu : u.files = w.files) (hz : R zfile) (herr : ∀ x, R (env.fsysdep_execute x).2)
    (hdata : ∀ s c r, env.zsysdep_data_file_name s c = some r → R r.1)
    (hf : ∀ f ∈ v.azQfiles, R f.1) :
    Keeps R w (uqdo_xqt_file_lock_dir env u v zfile qsys bgrade) := by
  unfold uqdo_xqt_file_lock_dir
  simp only []
  repeat' split
  all_goals first
    | exact keeps_command env w _ v zfile qsys bgrade (by simp [hu]) hz herr hdata hf
    | exact keeps_cleanup_of w _ _ zfile _ (by simp [World.ulog, hu]) hz hf

theorem keeps_uqcleanup_early {R : String → Prop} (w u : World) (v : XqtVars)
    (zfile : String) (iflags : Nat) (hu : u.files = w.files) (hz : R zfile)
    (hflags : iflags &&& REMOVE_NEEDED = 0) : Keeps R w (uqcleanup u v zfile iflags) := by
  intro g hg
  by_cases h1 : g = zfile
  · right
    rw [h1]
    exact hz
  · left
    exact uqcleanup_mem u v zfile iflags g (hu ▸ hg) (fun _ => h1)
      (fun h => absurd hflags h)

/-- A run of `uqdo_xqt_file` removes only the execute file, a standard error
file, a data file named for remote output, and spool names of required files. -/
theorem keeps_uqdo_xqt_file (env : XqtEnv) (w : World) (zfile : String)
    (qsys : ssysteminfo) (zcmd : Option String) (lines : List (List String))
    (hopen : env.xqt_lines zfile = some lines) :
    Keeps
      (fun g => g = zfile ∨ (∃ x, g = (env.fsysdep_execute x).2) ∨
        (∃ s c r, env.zsysdep_data_file_name s c = some r ∧ g = r.1) ∨
        ∃ f ∈ (uprocesscmds env.fspool_file zfile (XqtVars.init, []) lines).1.azQfiles,
          env.fspool_file f.1 = true ∧ env.zsysdep_spool_file_name qsys f.1 = some g)
      w (uqdo_xqt_file env w zfile qsys zcmd) := by
  have hspool := uprocesscmds_spool env.fspool_file zfile lines (XqtVars.init, [])
    (by intro f hf; simp [XqtVars.init] at hf)
  generalize hp : uprocesscmds env.fspool_file zfile (XqtVars.init, []) lines = p at *
  unfold uqdo_xqt_file
  simp only [hopen, hp]
  split
  · exact keeps_trans (keeps_of_files_eq rfl) (keeps_remove _ zfile (Or.inl rfl))
  · split
    · exact keeps_refl _ w
    · split
      · exact keeps_uqcleanup_early w _ _ zfile _ rfl (Or.inl rfl) (by decide)
      · split
        · exact keeps_uqcleanup_early w _ _ zfile _ rfl (Or.inl rfl) (by decide)
        · split
          · exact keeps_uqcleanup_early w _ _ zfile _ rfl (Or.inl rfl) (by decide)
          · split
            · exact keeps_uqcleanup_early w _ _ zfile _ rfl (Or.inl rfl) (by decide)
            · rename_i reals hreq
              have hreals := required_files_some env qsys _ _ reals hreq
              refine keeps_lock_dir env w _ _ zfile qsys _ ?_ (Or.inl rfl) ?_ ?_ ?_
              · rfl
              · exact fun x => Or.inr (Or.inl ⟨x, rfl⟩)
              · exact fun s c r hr => Or.inr (Or.inr (Or.inl ⟨s, c, r, hr, rfl⟩))
              · intro f hf
                obtain ⟨f0, hf0, hs⟩ := hreals f hf
                exact Or.inr (Or.inr (Or.inr ⟨f0, hf0, hspool f0 hf0, hs⟩))

/-- C5: after `uprocesscmds` has read an execute file every name in the list of
required files satisfies `fspool_file`; an F line whose first argument is not a
spool-form name, or that has not one or two arguments, changes no variable; and
a file that a run of `uqdo_xqt_file` removes is the execute file, the standard
error file of the execution, a data file named for remote output, or the spool
name of a spool-form name of an F line, so never a file named only by an F line
that is not spool-form. -/
theorem C5_required_files_are_spool_files (env : XqtEnv) (zfile : String)
    (lines : List (List String)) :
    (∀ f ∈ (uprocesscmds env.fspool_file zfile (XqtVars.init, []) lines).1.azQfiles,
      env.fspool_file f.1 = true) ∧
    (∀ (p : XqtParse) (args : List String),
      (args.length ≠ 1 ∧ args.length ≠ 2) ∨ env.fspool_file (args.getD 0 "") = false →
      (tprocess_one_cmd (asQcmds env.fspool_file zfile) zfile p ("F" :: args)).1 = p.1) ∧
    (∀ (w : World) (qsys : ssysteminfo) (zcmd : Option String),
      env.xqt_lines zfile = some lines →
      ∀ g ∈ w.files, g ∉ (uqdo_xqt_file env w zfile qsys zcmd).files →
        g = zfile ∨ (∃ x, g = (env.fsysdep_execute x).2) ∨
        (∃ s c r, env.zsysdep_data_file_name s c = some r ∧ g = r.1) ∨
        ∃ f ∈ (uprocesscmds env.fspool_file zfile (XqtVars.init, []) lines).1.azQfiles,
          env.fspool_file f.1 = true ∧ env.zsysdep_spool_file_name qsys f.1 = some g) := by
  refine ⟨?_, ?_, ?_⟩
  · exact uprocesscmds_spool env.fspool_file zfile lines (XqtVars.init, [])
      (by intro f hf; simp [XqtVars.init] at hf)
  · exact fun p args h => tprocess_one_cmd_F_ignored env.fspool_file zfile p args h
  · intro w qsys zcmd hopen g hg hng
    rcases keeps_uqdo_xqt_file env w zfile qsys zcmd lines hopen g hg with h | h
    · exact absurd h hng
    · exact h

/-- C5 at a concrete input: of the lines `F /etc/passwd` and `F D.data` only
the second enters the list, the first changes no variable, and the file
`/spool/D.data` that the run removes is the spool name of `D.data`. -/
theorem C5_required_files_are_spool_files_witness :
    (∀ f ∈ (uprocesscmds is_spool_file "X.peerAN0001" (XqtVars.init, [])
        [["C", "rmail", "x"], ["F", "/etc/passwd"], ["F", "D.data"]]).1.azQfiles,
      is_spool_file f.1 = true) ∧
    (tprocess_one_cmd (asQcmds is_spool_file "X.peerAN0001") "X.peerAN0001"
        (XqtVars.init, []) ("F" :: ["/etc/passwd"])).1 = XqtVars.init ∧
    ("/spool/D.data" = "X.peerAN0001" ∨
      (∃ x, "/spool/D.data" =
        ((example_env [["C", "rmail", "x"], ["F", "/etc/passwd"], ["F", "D.data"]]
          true).fsysdep_execute x).2) ∨
      (∃ s c r,
        (example_env [["C", "rmail", "x"], ["F", "/etc/passwd"], ["F", "D.data"]]
          true).zsysdep_data_file_name s c = some r ∧ "/spool/D.data" = r.1) ∨
      ∃ f ∈ (uprocesscmds is_spool_file "X.peerAN0001" (XqtVars.init, [])
          [["C", "rmail", "x"], ["F", "/etc/passwd"], ["F", "D.data"]]).1.azQfiles,
        is_spool_file f.1 = true ∧
        (example_env [["C", "rmail", "x"], ["F", "/etc/passwd"], ["F", "D.data"]]
          true).zsysdep_spool_file_name peerA f.1 = some "/spool/D.data") :=
  have h := C5_required_files_are_spool_files
    (example_env [["C", "rmail", "x"], ["F", "/etc/passwd"], ["F", "D.data"]] true)
    "X.peerAN0001" [["C", "rmail", "x"], ["F", "/etc/passwd"], ["F", "D.data"]]
  ⟨h.1, h.2.1 (XqtVars.init, []) ["/etc/passwd"] (Or.inr (by decide)),
   h.2.2 { example_world with files := ["X.peerAN0001", "/spool/D.data", "/etc/passwd"] }
     peerA none (by decide) "/spool/D.data" (by decide) (by decide)⟩

/-! ## Claims on uux.c -/

/-- C1, the failing run: `uux cat peerB!/tmp/x !/secret/y` on the system `here`
(local execution; the first file is on a third system, the second is a local
file the user may not read).  The run ends in `uxabort`, and the request for
`peerB` queued for the first argument is still in the spool, which was empty
before. -/
theorem C1_abort_leaves_request_queued :
    UxState.init.files = [] ∧ UxState.init.queued = [] ∧
    (uux_main example_uxenv UxOpts.init UxState.init "cat"
      ["peerB!/tmp/x", "!/secret/y"]).exit = UxExit.aborted ∧
    (uux_main example_uxenv UxOpts.init UxState.init "cat"
      ["peerB!/tmp/x", "!/secret/y"]).st.files = ["C.peerBN0002"] ∧
    (uux_main example_uxenv UxOpts.init UxState.init "cat"
      ["peerB!/tmp/x", "!/secret/y"]).st.queued =
      [("peerB", 'N', [request_cmd example_uxenv "/tmp/x" "D.hereN0001"])] := by
  decide

/-- An argument with a system that is not the local one has an exclamation point. -/
theorem uxarg_system_remote (env : UxEnv) (arg zsystem zfile : String)
    (h : uxarg_system env arg = (zsystem, zfile, false)) :
    (split_at_char '!' arg.data).isNone = false := by
  unfold uxarg_system at h
  cases hs : split_at_char '!' arg.data with
  | none =>
    rw [hs] at h
    simp at h
  | some r => rfl

/-- An argument that names a file on a system that is neither the local one nor,
by name, the execution system goes to the branch of lines 716-810. -/
theorem uxarg_third_system (env : UxEnv) (o : UxOpts) (sxqtsys : uuconf_system)
    (zxqtloc : String) (fxqtlocal : Bool) (st : UxState) (arg : String) (finput : Bool)
    (zsystem zfile0 zfile : String)
    (harg : uxarg_system env arg = (zsystem, zfile0, false))
    (hexp : (if o.fexpand then env.zsysdep_add_cwd zfile0 else some zfile0) = some zfile)
    (hin : ¬ (finput = true ∧ o.fread_stdin = true))
    (hne : sxqtsys.uuconf_zname ≠ zsystem) :
    uxarg env o sxqtsys zxqtloc fxqtlocal st arg finput false =
      uxarg_remote env o sxqtsys zxqtloc fxqtlocal st zsystem zfile finput := by
  have hsplit := uxarg_system_remote env arg zsystem zfile0 harg
  have hin2 : (finput && o.fread_stdin) = false := by
    cases finput <;> cases hr : o.fread_stdin <;> simp_all
  unfold uxarg
  simp only [hsplit, harg, Bool.false_and, Bool.false_eq_true, if_false, hexp, hin2, hne]

/-- A system that is known is found whatever the state. -/
theorem uxarg_from_system_known (env : UxEnv) (st : UxState) (zsystem : String)
    (sfromsys : uuconf_system)
    (hknown : env.uuconf_system_info zsystem = uuconf_info.UUCONF_SUCCESS sfromsys ∨
      (env.uuconf_system_info zsystem = uuconf_info.UUCONF_NOT_FOUND ∧
        env.funknown_system zsystem = some sfromsys)) :
    uxarg_from_system env st zsystem = Except.ok sfromsys := by
  unfold uxarg_from_system
  rcases hknown with h | ⟨h1, h2⟩
  · rw [h]
  · rw [h1]
    simp only [h2]

/-- The loop leaves a plain word untouched. -/
theorem uxargs_plain_cons (env : UxEnv) (o : UxOpts) (sxqtsys : uuconf_system)
    (zxqtloc : String) (fxqtlocal : Bool) (a : String) (rest : List String) (st : UxState)
    (ha : plain_word a = true) :
    uxargs env o sxqtsys zxqtloc fxqtlocal (a :: rest) st =
      match uxargs env o sxqtsys zxqtloc fxqtlocal rest st with
      | Except.error e => Except.error e
      | Except.ok (st2, rs) => Except.ok (st2, some a :: rs) := by
  simp only [plain_word, Bool.and_eq_true, bne_iff_ne, ne_eq] at ha
  obtain ⟨⟨⟨h1, h2⟩, h3⟩, h4⟩ := ha
  have hx : uxarg env o sxqtsys zxqtloc fxqtlocal st a false false
      = Except.ok (st, some a) := by
    unfold uxarg
    simp [h1]
  cases rest with
  | nil => simp only [uxargs, h2, if_false, hx]
  | cons b r => simp only [uxargs, h2, h3, h4, or_self, if_false, hx]

/-- The loop leaves a run of plain words untouched. -/
theorem uxargs_plain_append (env : UxEnv) (o : UxOpts) (sxqtsys : uuconf_system)
    (zxqtloc : String) (fxqtlocal : Bool) (pre rest : List String) (st : UxState)
    (hpre : ∀ a ∈ pre, plain_word a = true) :
    uxargs env o sxqtsys zxqtloc fxqtlocal (pre ++ rest) st =
      match uxargs env o sxqtsys zxqtloc fxqtlocal rest st with
      | Except.error e => Except.error e
      | Except.ok (st2, rs) => Except.ok (st2, pre.map some ++ rs) := by
  induction pre with
  | nil =>
    simp only [List.nil_append, List.map_nil]
    cases uxargs env o sxqtsys zxqtloc fxqtlocal rest st with
    | error e => rfl
    | ok r => rfl
  | cons a t ih =>
    rw [List.cons_append, uxargs_plain_cons env o sxqtsys zxqtloc fxqtlocal a _ st
      (hpre a (List.mem_cons_self a t)), ih (fun b hb => hpre b (List.mem_cons_of_mem a hb))]
    cases uxargs env o sxqtsys zxqtloc fxqtlocal rest st with
    | error e => rfl
    | ok r => rfl

/-- An argument that ends the run ends the loop. -/
theorem uxargs_cons_error (env : UxEnv) (o : UxOpts) (sxqtsys : uuconf_system)
    (zxqtloc : String) (fxqtlocal : Bool) (a : String) (post : List String) (st : UxState)
    (e : UxFinal)
    (h1 : a.data.head? ≠ some '(') (h2 : a.data.head? ≠ some '<')
    (h3 : a.data.head? ≠ some '>')
    (hx : uxarg env o sxqtsys zxqtloc fxqtlocal st a false false = Except.error e) :
    uxargs env o sxqtsys zxqtloc fxqtlocal (a :: post) st = Except.error e := by
  cases post with
  | nil => simp only [uxargs, h1, if_false, hx]
  | cons b r => simp only [uxargs, h1, h2, h3, or_self, if_false, hx]

/-! ## Locks: every path of `uqdo_xqt_file` ends without a lock -/

@[simp] theorem World.remove_locks (w : World) (f : String) : (w.remove f).locks = w.locks := rfl

@[simp] theorem World.remove_dir_locked (w : World) (f : String) :
    (w.remove f).dir_locked = w.dir_locked := rfl

@[simp] theorem World.remove_zQunlock_file (w : World) (f : String) :
    (w.remove f).zQunlock_file = w.zQunlock_file := rfl

theorem foldl_remove_locks (l : List (String × Option String)) (w : World) :
    (l.foldl (fun (u : World) f => u.remove f.1) w).locks = w.locks ∧
    (l.foldl (fun (u : World) f => u.remove f.1) w).dir_locked = w.dir_locked ∧
    (l.foldl (fun (u : World) f => u.remove f.1) w).zQunlock_file = w.zQunlock_file ∧
    (l.foldl (fun (u : World) f => u.remove f.1) w).fQunlock_directory
      = w.fQunlock_directory := by
  induction l generalizing w with
  | nil => simp
  | cons a t ih =>
    simp only [List.foldl_cons]
    obtain ⟨h1, h2, h3, h4⟩ := ih (w.remove a.1)
    exact ⟨h1, h2, h3, h4⟩

/-- The lock fields after `uqcleanup`. -/
theorem uqcleanup_lock_fields (u : World) (v : XqtVars) (zfile : String) (iflags : Nat) :
    (uqcleanup u v zfile iflags).zQunlock_file = none ∧
    (uqcleanup u v zfile iflags).fQunlock_directory = false ∧
    (uqcleanup u v zfile iflags).locks =
      (match u.zQunlock_file with
       | some f => u.locks.filter (fun g => g != f)
       | none => u.locks) ∧
    (uqcleanup u v zfile iflags).dir_locked = (u.dir_locked && ! u.fQunlock_directory) := by
  unfold uqcleanup
  have key := foldl_remove_locks v.azQfiles
  cases hq : u.zQunlock_file <;> simp only [] <;> split_ifs <;>
    simp_all [(key _).1, (key _).2.1, (key _).2.2.1, (key _).2.2.2]

/-- Function `uqcleanup` releases what the run owns. -/
theorem nolock_uqcleanup (w u : World) (v : XqtVars) (zfile : String) (iflags : Nat)
    (h : LocksOwned w u) : NoLockLeft w (uqcleanup u v zfile iflags) := by
  obtain ⟨hl, hd⟩ := h
  obtain ⟨h1, h2, h3, h4⟩ := uqcleanup_lock_fields u v zfile iflags
  refine ⟨h1, h2, ?_, ?_⟩
  · intro g hg
    rw [h3] at hg
    cases hq : u.zQunlock_file with
    | none =>
      rw [hq] at hg
      rcases hl g hg with h5 | h5
      · exact h5
      · rw [hq] at h5; cases h5
    | some f =>
      rw [hq] at hg
      simp only [List.mem_filter, bne_iff_ne, ne_eq] at hg
      rcases hl g hg.1 with h5 | h5
      · exact h5
      · rw [hq] at h5
        exact absurd (Option.some.inj h5).symm hg.2
  · intro h5
    rw [h4] at h5
    simp only [Bool.and_eq_true, Bool.not_eq_true', Bool.not_eq_eq_eq_not, Bool.not_true] at h5
    rcases hd h5.1 with h6 | h6
    · exact h6
    · rw [h5.2] at h6; cases h6

@[simp] theorem lockf_remove (w : World) (f : String) : lockf (w.remove f) = lockf w := rfl

@[simp] theorem lockf_move (w : World) (f g : String) : lockf (w.move f g) = lockf w := rfl

@[simp] theorem lockf_ulog (w : World) (l : tlog) (m : String) :
    lockf (w.ulog l m) = lockf w := rfl

@[simp] theorem lockf_fsysdep_mail (w : World) (a b : String) (p : List String) :
    lockf (w.fsysdep_mail a b p) = lockf w := rfl

@[simp] theorem lockf_mail_failure (w : World) (v : XqtVars) (zmail : Option String)
    (paz : List String) : lockf (mail_failure w v zmail paz) = lockf w := by
  unfold mail_failure
  split
  · split_ifs <;> rfl
  · rfl

theorem locksOwned_congr {w u u1 : World} (h : LocksOwned w u) (he : lockf u1 = lockf u) :
    LocksOwned w u1 := by
  simp only [lockf, Prod.mk.injEq] at he
  obtain ⟨h1, h2, h3, h4⟩ := he
  unfold LocksOwned
  rw [h1, h2, h3, h4]
  exact h

theorem nolock_cleanup_of (w u u1 : World) (v : XqtVars) (zfile : String) (iflags : Nat)
    (h : LocksOwned w u) (he : lockf u1 = lockf u) :
    NoLockLeft w (uqcleanup u1 v zfile iflags) :=
  nolock_uqcleanup w u1 v zfile iflags (locksOwned_congr h he)

theorem nolock_execute (env : XqtEnv) (w u : World) (v : XqtVars)
    (zfile : String) (qsys : ssysteminfo) (bgrade : Char) (iclean : Nat)
    (zmail : Option String) (zabsolute : String) (zoutput : Option String)
    (qoutsys : Option ssysteminfo) (abtemp : String) (hu : LocksOwned w u) :
    NoLockLeft w (uqdo_xqt_file_execute env u v zfile qsys bgrade iclean zmail zabsolute
      zoutput qoutsys abtemp) := by
  unfold uqdo_xqt_file_execute
  simp only []
  refine nolock_cleanup_of w u _ v zfile iclean hu ?_
  rw [lockf_remove]
  split
  · cases qoutsys <;> simp <;> rfl
  · cases qoutsys <;> cases zmail <;> simp only [] <;> (try split) <;> rfl

theorem nolock_move_loop (env : XqtEnv) (zfile : String) (iclean : Nat)
    (l : List (String × Option String)) :
    ∀ (w u : World) (v : XqtVars), LocksOwned w u →
      match uqdo_xqt_file_move env zfile iclean l u v with
      | Sum.inl u1 => NoLockLeft w u1
      | Sum.inr (u1, _) => LocksOwned w u1 := by
  induction l with
  | nil =>
    intro w u v hu
    exact hu
  | cons a t ih =>
    intro w u v hu
    obtain ⟨zreal, zto⟩ := a
    cases zto with
    | none =>
      rw [uqdo_xqt_file_move]
      exact ih w u v hu
    | some zto =>
      rw [uqdo_xqt_file_move]
      cases hd : env.zsysdep_in_dir env.XQTDIR zto with
      | none => exact nolock_uqcleanup w u v zfile iclean hu
      | some zname =>
        simp only []
        by_cases hm : env.fsysdep_move_file zreal zname = true
        · simp only [hm, Bool.not_true, Bool.false_eq_true, if_false]
          exact ih w (u.move zreal zname) _ (locksOwned_congr hu (lockf_move _ _ _))
        · simp only [hm, Bool.not_false, if_true]
          exact nolock_uqcleanup w u v zfile iclean hu

theorem nolock_run (env : XqtEnv) (w u : World) (v : XqtVars)
    (zfile : String) (qsys : ssysteminfo) (bgrade : Char) (iclean : Nat)
    (zmail : Option String) (zabsolute : String) (zoutput : Option String)
    (qoutsys : Option ssysteminfo) (abtemp : String) (hu : LocksOwned w u) :
    NoLockLeft w (uqdo_xqt_file_run env u v zfile qsys bgrade iclean zmail zabsolute
      zoutput qoutsys abtemp) := by
  unfold uqdo_xqt_file_run
  have := nolock_move_loop env zfile iclean v.azQfiles w u v hu
  revert this
  cases uqdo_xqt_file_move env zfile iclean v.azQfiles u v with
  | inl u1 => exact fun h => h
  | inr r =>
    intro h
    exact nolock_execute env w r.1 r.2 zfile qsys bgrade iclean zmail zabsolute zoutput
      qoutsys abtemp h

theorem nolock_remote_output (env : XqtEnv) (w u : World) (v : XqtVars)
    (zfile : String) (qsys : ssysteminfo) (bgrade : Char) (iclean : Nat)
    (zmail : Option String) (zabsolute : String) (qoutsys : ssysteminfo)
    (hu : LocksOwned w u) :
    NoLockLeft w (uqdo_xqt_file_remote_output env u v zfile qsys bgrade iclean zmail
      zabsolute qoutsys) := by
  unfold uqdo_xqt_file_remote_output
  cases hd : env.zsysdep_data_file_name qoutsys bgrade with
  | none => exact nolock_uqcleanup w u v zfile iclean hu
  | some r =>
    obtain ⟨zdata, abtemp, abdata⟩ := r
    exact nolock_run env w u v zfile qsys bgrade iclean zmail zabsolute (some zdata)
      (some qoutsys) abtemp hu

theorem nolock_output (env : XqtEnv) (w u : World) (v : XqtVars)
    (zfile : String) (qsys : ssysteminfo) (bgrade : Char) (iclean : Nat)
    (zmail : Option String) (zabsolute : String) (hu : LocksOwned w u) :
    NoLockLeft w (uqdo_xqt_file_output env u v zfile qsys bgrade iclean zmail zabsolute) := by
  unfold uqdo_xqt_file_output
  simp only []
  repeat' split
  all_goals first
    | exact nolock_run env w u _ zfile qsys bgrade iclean zmail zabsolute _ _ _ hu
    | exact nolock_remote_output env w u v zfile qsys bgrade iclean zmail zabsolute _ hu
    | exact nolock_cleanup_of w u _ _ zfile iclean hu (by simp)

theorem nolock_input (env : XqtEnv) (w u : World) (v : XqtVars)
    (zfile : String) (qsys : ssysteminfo) (bgrade : Char) (iclean : Nat)
    (zmail : Option String) (zabsolute : String) (hu : LocksOwned w u) :
    NoLockLeft w (uqdo_xqt_file_input env u v zfile qsys bgrade iclean zmail zabsolute) := by
  unfold uqdo_xqt_file_input
  repeat' split
  all_goals first
    | exact nolock_output env w u _ zfile qsys bgrade _ zmail zabsolute hu
    | exact nolock_uqcleanup w u _ zfile iclean hu

theorem nolock_command (env : XqtEnv) (w u : World) (v : XqtVars)
    (zfile : String) (qsys : ssysteminfo) (bgrade : Char) (hu : LocksOwned w u) :
    NoLockLeft w (uqdo_xqt_file_command env u v zfile qsys bgrade) := by
  unfold uqdo_xqt_file_command
  simp only []
  repeat' split
  all_goals first
    | exact nolock_input env w _ v zfile qsys bgrade _ _ _ (locksOwned_congr hu (by simp))
    | exact nolock_cleanup_of w u _ _ zfile _ hu (by simp)

theorem nolock_lock_dir (env : XqtEnv) (w u : World) (v : XqtVars)
    (zfile : String) (qsys : ssysteminfo) (bgrade : Char) (hu : LocksOwned w u) :
    NoLockLeft w (uqdo_xqt_file_lock_dir env u v zfile qsys bgrade) := by
  unfold uqdo_xqt_file_lock_dir
  simp only []
  repeat' split
  all_goals first
    | exact nolock_command env w u v zfile qsys bgrade hu
    | exact nolock_cleanup_of w u _ _ zfile _ hu rfl
    | (refine nolock_command env w _ v zfile qsys bgrade ⟨?_, ?_⟩
       · exact hu.1
       · exact fun _ => Or.inr rfl)

/-- C29: every call of `uqdo_xqt_file` returns with no lock left: when
`zQunlock_file` is NULL and `fQunlock_directory` is FALSE before the call, then
after it, by whatever path it returned, `zQunlock_file` is NULL and
`fQunlock_directory` is FALSE; moreover every per-file lock that exists after
the call existed before it, and the execute directory is locked after the call
only if it was before. -/
theorem C29_no_lock_left_behind (env : XqtEnv) (w : World) (zfile : String)
    (qsys : ssysteminfo) (zcmd : Option String)
    (hfile : w.zQunlock_file = none) (hdir : w.fQunlock_directory = false) :
    (uqdo_xqt_file env w zfile qsys zcmd).zQunlock_file = none ∧
    (uqdo_xqt_file env w zfile qsys zcmd).fQunlock_directory = false ∧
    (∀ g ∈ (uqdo_xqt_file env w zfile qsys zcmd).locks, g ∈ w.locks) ∧
    ((uqdo_xqt_file env w zfile qsys zcmd).dir_locked = true → w.dir_locked = true) := by
  have h0 : LocksOwned w w := ⟨fun g hg => Or.inl hg, fun h => Or.inl h⟩
  have hw : NoLockLeft w w := ⟨hfile, hdir, fun g hg => hg, fun h => h⟩
  show NoLockLeft w (uqdo_xqt_file env w zfile qsys zcmd)
  unfold uqdo_xqt_file
  simp only []
  split
  · exact hw
  · split
    · exact hw
    · split
      · exact hw
      · have h1 : ∀ p : XqtParse, LocksOwned w { w with log := w.log ++ p.2 } := fun _ => h0
        split
        · exact nolock_cleanup_of w w _ _ zfile _ h0 rfl
        · split
          · exact nolock_cleanup_of w w _ _ zfile _ h0 rfl
          · split
            · exact nolock_cleanup_of w w _ _ zfile _ h0 rfl
            · have h2 : ∀ l : List (tlog × String), LocksOwned w
                  { w with log := l, locks := zfile :: w.locks,
                           zQunlock_file := some zfile } := by
                intro l
                refine ⟨?_, fun h => Or.inl h⟩
                intro g hg
                rcases List.mem_cons.mp hg with h3 | h3
                · right; rw [h3]
                · left; exact h3
              split
              · exact nolock_cleanup_of w _ _ _ zfile _ (h2 _) rfl
              · exact nolock_lock_dir env w _ _ zfile qsys _ (h2 _)

/-- C29 at an execute file that needs a file renamed: both locks are taken and
both are released. -/
theorem C29_no_lock_left_behind_witness :
    (uqdo_xqt_file (example_env [["U", "bob", "peerA"], ["F", "D.peerAN0001", "in"],
        ["C", "rmail", "bob"]] true)
      { example_world with files := ["X.peerAN0001", "/spool/D.peerAN0001"] }
      "X.peerAN0001" peerA none).zQunlock_file = none ∧
    (uqdo_xqt_file (example_env [["U", "bob", "peerA"], ["F", "D.peerAN0001", "in"],
        ["C", "rmail", "bob"]] true)
      { example_world with files := ["X.peerAN0001", "/spool/D.peerAN0001"] }
      "X.peerAN0001" peerA none).fQunlock_directory = false :=
  ⟨(C29_no_lock_left_behind _ _ "X.peerAN0001" peerA none rfl rfl).1,
   (C29_no_lock_left_behind _ _ "X.peerAN0001" peerA none rfl rfl).2.1⟩

/-! ## The mail address depends on the R and U lines only -/

theorem zmail_of_congr (zLocalname : String) (v u : XqtVars)
    (h : mail_vars v = mail_vars u) : zmail_of zLocalname v = zmail_of zLocalname u := by
  simp only [mail_vars, Prod.mk.injEq] at h
  unfold zmail_of
  rw [h.1, h.2.1, h.2.2]

/-- Every entry of `asQcmds` but the R and the U entry leaves the mail variables alone. -/
theorem asQcmds_entry_mail_vars (fsp : String → Bool) (zerr : String) (p : XqtParse)
    (argv : List String) (x : String × scmdtab) (hx : x ∈ asQcmds fsp zerr)
    (hr : x.1 ≠ "R") (hu : x.1 ≠ "U") :
    mail_vars (cmdtab_apply zerr p argv x.2).1 = mail_vars p.1 := by
  simp only [asQcmds, List.mem_cons, List.mem_singleton, List.not_mem_nil, or_false] at hx
  rcases hx with h | h | h | h | h | h | h | h | h | h | h | h | h <;> subst h
  case inr.inr.inr.inr.inl => exact absurd rfl hr
  case inr.inr.inr.inr.inr.inl => exact absurd rfl hu
  all_goals
    simp only [cmdtab_apply, tqcmd, tqout, tqfile, tquser, tqset]
    repeat' split
    all_goals rfl

/-- What an entry of `asQcmds` does to the mail variables depends on these
variables only. -/
theorem asQcmds_entry_mail_vars_congr (fsp : String → Bool) (zerr : String)
    (p q : XqtParse) (argv : List String) (x : String × scmdtab)
    (hx : x ∈ asQcmds fsp zerr) (h : mail_vars p.1 = mail_vars q.1) :
    mail_vars (cmdtab_apply zerr p argv x.2).1 = mail_vars (cmdtab_apply zerr q argv x.2).1 := by
  simp only [asQcmds, List.mem_cons, List.mem_singleton, List.not_mem_nil, or_false] at hx
  simp only [mail_vars, Prod.mk.injEq] at h
  obtain ⟨h1, h2, h3⟩ := h
  rcases hx with h | h | h | h | h | h | h | h | h | h | h | h | h <;> subst h
  all_goals
    simp only [cmdtab_apply, tqcmd, tqout, tqfile, tquser, tqset, mail_vars]
    repeat' split
    all_goals simp [h1, h2, h3]

theorem tprocess_one_cmd_mail_vars (fsp : String → Bool) (zerr : String) (p : XqtParse)
    (argv : List String) (h : is_RU_line argv = false) :
    mail_vars (tprocess_one_cmd (asQcmds fsp zerr) zerr p argv).1 = mail_vars p.1 := by
  cases argv with
  | nil => rfl
  | cons c t =>
    rw [tprocess_one_cmd]
    simp only [is_RU_line, List.head?_cons, Bool.or_eq_false_iff, beq_eq_false_iff_ne, ne_eq,
      Option.some.injEq] at h
    cases hf : cmdtab_find c (asQcmds fsp zerr) with
    | none => rfl
    | some e =>
      exact asQcmds_entry_mail_vars fsp zerr p (c :: t) (c, e)
        (cmdtab_find_mem c _ e hf) h.1 h.2

theorem tprocess_one_cmd_mail_vars_congr (fsp : String → Bool) (zerr : String)
    (p q : XqtParse) (argv : List String) (h : mail_vars p.1 = mail_vars q.1) :
    mail_vars (tprocess_one_cmd (asQcmds fsp zerr) zerr p argv).1 =
      mail_vars (tprocess_one_cmd (asQcmds fsp zerr) zerr q argv).1 := by
  cases argv with
  | nil => exact h
  | cons c t =>
    rw [tprocess_one_cmd, tprocess_one_cmd]
    cases hf : cmdtab_find c (asQcmds fsp zerr) with
    | none => exact h
    | some e =>
      exact asQcmds_entry_mail_vars_congr fsp zerr p q (c :: t) (c, e)
        (cmdtab_find_mem c _ e hf) h

/-- Parsing all lines and parsing only the R and U lines give the same mail
variables. -/
theorem uprocesscmds_mail_vars (fsp : String → Bool) (zerr : String)
    (lines : List (List String)) (p q : XqtParse) (h : mail_vars p.1 = mail_vars q.1) :
    mail_vars (uprocesscmds fsp zerr p lines).1 =
      mail_vars (uprocesscmds fsp zerr q (lines.filter is_RU_line)).1 := by
  unfold uprocesscmds
  induction lines generalizing p q with
  | nil => exact h
  | cons a t ih =>
    simp only [List.foldl_cons, List.filter_cons]
    cases ha : is_RU_line a with
    | true =>
      simp only [if_true, List.foldl_cons]
      exact ih _ _ (tprocess_one_cmd_mail_vars_congr fsp zerr p q a h)
    | false =>
      simp only [Bool.false_eq_true, if_false]
      exact ih _ _ ((tprocess_one_cmd_mail_vars fsp zerr p a ha).trans h)

/-- Every entry of `asQcmds` keeps: there is a user exactly when there is a system. -/
theorem asQcmds_entry_user_system (fsp : String → Bool) (zerr : String) (p : XqtParse)
    (argv : List String) (x : String × scmdtab) (hx : x ∈ asQcmds fsp zerr)
    (h : p.1.zQuser.isSome = p.1.zQsystem.isSome) :
    (cmdtab_apply zerr p argv x.2).1.zQuser.isSome =
      (cmdtab_apply zerr p argv x.2).1.zQsystem.isSome := by
  simp only [asQcmds, List.mem_cons, List.mem_singleton, List.not_mem_nil, or_false] at hx
  rcases hx with h | h | h | h | h | h | h | h | h | h | h | h | h <;> subst h
  all_goals
    simp only [cmdtab_apply, tqcmd, tqout, tqfile, tquser, tqset]
    repeat' split
    all_goals first | exact h | rfl

theorem uprocesscmds_user_system (fsp : String → Bool) (zerr : String)
    (lines : List (List String)) (p : XqtParse)
    (h : p.1.zQuser.isSome = p.1.zQsystem.isSome) :
    (uprocesscmds fsp zerr p lines).1.zQuser.isSome =
      (uprocesscmds fsp zerr p lines).1.zQsystem.isSome := by
  unfold uprocesscmds
  induction lines generalizing p with
  | nil => exact h
  | cons a t ih =>
    simp only [List.foldl_cons]
    apply ih
    cases a with
    | nil => exact h
    | cons c r =>
      rw [tprocess_one_cmd]
      cases hf : cmdtab_find c (asQcmds fsp zerr) with
      | none => exact h
      | some e =>
        exact asQcmds_entry_user_system fsp zerr p (c :: r) (c, e)
          (cmdtab_find_mem c _ e hf) h

/-- C30: the address `zmail` that `uqdo_xqt_file` mails results to (lines
705-727), for the variables left by parsing an execute file: it is the same
for the file with only its R and U lines; it is the requestor of the R line
when there is one; otherwise there is none when there is no user; otherwise it
is the user alone when the system of the U line is the local name, and else
system, "!" and user; and a user is set exactly when a system is set, so these
cases are all there are. -/
theorem C30_mail_address_from_R_and_U (fsp : String → Bool) (zerr : String)
    (lines : List (List String)) (zLocalname : String) :
    zmail_of zLocalname (uprocesscmds fsp zerr (XqtVars.init, []) lines).1 =
      zmail_of zLocalname
        (uprocesscmds fsp zerr (XqtVars.init, []) (lines.filter is_RU_line)).1 ∧
    (∀ r, (uprocesscmds fsp zerr (XqtVars.init, []) lines).1.zQrequestor = some r →
      zmail_of zLocalname (uprocesscmds fsp zerr (XqtVars.init, []) lines).1 = some r) ∧
    ((uprocesscmds fsp zerr (XqtVars.init, []) lines).1.zQrequestor = none →
      (uprocesscmds fsp zerr (XqtVars.init, []) lines).1.zQuser = none →
      zmail_of zLocalname (uprocesscmds fsp zerr (XqtVars.init, []) lines).1 = none) ∧
    (∀ u s, (uprocesscmds fsp zerr (XqtVars.init, []) lines).1.zQrequestor = none →
      (uprocesscmds fsp zerr (XqtVars.init, []) lines).1.zQuser = some u →
      (uprocesscmds fsp zerr (XqtVars.init, []) lines).1.zQsystem = some s →
      zmail_of zLocalname (uprocesscmds fsp zerr (XqtVars.init, []) lines).1 =
        if s = zLocalname then some u else some (s ++ "!" ++ u)) ∧
    (uprocesscmds fsp zerr (XqtVars.init, []) lines).1.zQuser.isSome =
      (uprocesscmds fsp zerr (XqtVars.init, []) lines).1.zQsystem.isSome := by
  refine ⟨?_, ?_, ?_, ?_, ?_⟩
  · exact zmail_of_congr zLocalname _ _
      (uprocesscmds_mail_vars fsp zerr lines (XqtVars.init, []) (XqtVars.init, []) rfl)
  · intro r hr
    simp only [zmail_of, hr]
  · intro hr hu
    simp only [zmail_of, hr, hu]
  · intro u s hr hu hs
    simp only [zmail_of, hr, hu, hs]
  · exact uprocesscmds_user_system fsp zerr lines (XqtVars.init, []) rfl

/-! ## An O line that names the local system -/

theorem execute_with_outsys (env : XqtEnv) (w : World) (v : XqtVars) (o : Option String)
    (zfile : String) (qsys : ssysteminfo) (bgrade : Char) (iclean : Nat)
    (zmail : Option String) (zabsolute : String) (zoutput : Option String)
    (qoutsys : Option ssysteminfo) (abtemp : String) :
    uqdo_xqt_file_execute env w (with_outsys v o) zfile qsys bgrade iclean zmail zabsolute
      zoutput qoutsys abtemp =
    uqdo_xqt_file_execute env w v zfile qsys bgrade iclean zmail zabsolute
      zoutput qoutsys abtemp := rfl

theorem uqcleanup_with_outsys (w : World) (v : XqtVars) (o : Option String)
    (zfile : String) (iflags : Nat) :
    uqcleanup w (with_outsys v o) zfile iflags = uqcleanup w v zfile iflags := rfl

theorem move_with_outsys (env : XqtEnv) (zfile : String) (iclean : Nat) (o : Option String)
    (l : List (String × Option String)) :
    ∀ (w : World) (v : XqtVars),
      uqdo_xqt_file_move env zfile iclean l w (with_outsys v o) =
        match uqdo_xqt_file_move env zfile iclean l w v with
        | Sum.inl w1 => Sum.inl w1
        | Sum.inr (w1, v1) => Sum.inr (w1, with_outsys v1 o) := by
  induction l with
  | nil => intro w v; rfl
  | cons a t ih =>
    intro w v
    obtain ⟨zreal, zto⟩ := a
    cases zto with
    | none =>
      rw [uqdo_xqt_file_move, uqdo_xqt_file_move]
      exact ih w v
    | some zto =>
      rw [uqdo_xqt_file_move, uqdo_xqt_file_move]
      cases hd : env.zsysdep_in_dir env.XQTDIR zto with
      | none => rfl
      | some zname =>
        simp only []
        by_cases hm : env.fsysdep_move_file zreal zname = true
        · simp only [hm, Bool.not_true, Bool.false_eq_true, if_false]
          have : (if (with_outsys v o).zQinput = some zreal
                    then { with_outsys v o with zQinput := some zname }
                    else with_outsys v o) =
              with_outsys (if v.zQinput = some zreal then { v with zQinput := some zname }
                else v) o := by
            show (if v.zQinput = some zreal then _ else _) = _
            split <;> rfl
          rw [this]
          exact ih _ _
        · simp only [hm, Bool.not_false, if_true]
          rfl

theorem run_with_outsys (env : XqtEnv) (w : World) (v : XqtVars) (o : Option String)
    (zfile : String) (qsys : ssysteminfo) (bgrade : Char) (iclean : Nat)
    (zmail : Option String) (zabsolute : String) (zoutput : Option String)
    (qoutsys : Option ssysteminfo) (abtemp : String) :
    uqdo_xqt_file_run env w (with_outsys v o) zfile qsys bgrade iclean zmail zabsolute
      zoutput qoutsys abtemp =
    uqdo_xqt_file_run env w v zfile qsys bgrade iclean zmail zabsolute
      zoutput qoutsys abtemp := by
  unfold uqdo_xqt_file_run
  have h := move_with_outsys env zfile iclean o v.azQfiles w v
  have h2 : (with_outsys v o).azQfiles = v.azQfiles := rfl
  rw [h2, h]
  cases uqdo_xqt_file_move env zfile iclean v.azQfiles w v with
  | inl w1 => rfl
  | inr r => rfl

/-- With `zQoutsys` the local name the output is resolved as with no `zQoutsys`. -/
theorem output_with_outsys_local (env : XqtEnv) (w : World) (v : XqtVars)
    (zfile : String) (qsys : ssysteminfo) (bgrade : Char) (iclean : Nat)
    (zmail : Option String) (zabsolute : String) :
    uqdo_xqt_file_output env w (with_outsys v (some env.zLocalname)) zfile qsys bgrade
      iclean zmail zabsolute =
    uqdo_xqt_file_output env w (with_outsys v none) zfile qsys bgrade iclean zmail
      zabsolute := by
  unfold uqdo_xqt_file_output
  have h1 : (with_outsys v (some env.zLocalname)).zQoutfile = v.zQoutfile := rfl
  have h2 : (with_outsys v none).zQoutfile = v.zQoutfile := rfl
  rw [h1, h2]
  cases hout : v.zQoutfile with
  | none =>
    simp only []
    rw [run_with_outsys, run_with_outsys]
  | some zout =>
    have h3 : (if (with_outsys v (some env.zLocalname)).zQoutsys = some env.zLocalname
        then none else (with_outsys v (some env.zLocalname)).zQoutsys) = none := by
      simp [with_outsys]
    have h4 : (if (with_outsys v none).zQoutsys = some env.zLocalname
        then none else (with_outsys v none).zQoutsys) = none := by
      simp [with_outsys]
    simp only [h3, h4]
    split
    · rfl
    · split
      · rfl
      · split
        · rfl
        · exact (run_with_outsys env w { v with zQoutfile := _ } (some env.zLocalname)
            zfile qsys bgrade iclean zmail zabsolute _ none "").trans
            (run_with_outsys env w { v with zQoutfile := _ } none
              zfile qsys bgrade iclean zmail zabsolute _ none "").symm

theorem input_with_outsys_local (env : XqtEnv) (w : World) (v : XqtVars)
    (zfile : String) (qsys : ssysteminfo) (bgrade : Char) (iclean : Nat)
    (zmail : Option String) (zabsolute : String) :
    uqdo_xqt_file_input env w (with_outsys v (some env.zLocalname)) zfile qsys bgrade
      iclean zmail zabsolute =
    uqdo_xqt_file_input env w (with_outsys v none) zfile qsys bgrade iclean zmail
      zabsolute := by
  unfold uqdo_xqt_file_input
  have h1 : (with_outsys v (some env.zLocalname)).zQinput = v.zQinput := rfl
  have h2 : (with_outsys v none).zQinput = v.zQinput := rfl
  rw [h1, h2]
  cases hin : v.zQinput with
  | none => exact output_with_outsys_local env w v zfile qsys bgrade iclean zmail zabsolute
  | some zin =>
    simp only []
    split
    · rfl
    · exact output_with_outsys_local env w { v with zQinput := _ } zfile qsys bgrade _
        zmail zabsolute

theorem command_with_outsys_local (env : XqtEnv) (w : World) (v : XqtVars)
    (zfile : String) (qsys : ssysteminfo) (bgrade : Char) :
    uqdo_xqt_file_command env w (with_outsys v (some env.zLocalname)) zfile qsys bgrade =
    uqdo_xqt_file_command env w (with_outsys v none) zfile qsys bgrade := by
  unfold uqdo_xqt_file_command
  simp only []
  have h1 : zmail_of env.zLocalname (with_outsys v (some env.zLocalname)) =
      zmail_of env.zLocalname v := rfl
  have h2 : zmail_of env.zLocalname (with_outsys v none) = zmail_of env.zLocalname v := rfl
  have h3 : (with_outsys v (some env.zLocalname)).azQargs = v.azQargs := rfl
  have h4 : (with_outsys v none).azQargs = v.azQargs := rfl
  have h5 : (with_outsys v (some env.zLocalname)).zQcmd = v.zQcmd := rfl
  have h6 : (with_outsys v none).zQcmd = v.zQcmd := rfl
  rw [h1, h2, h3, h4, h5, h6]
  split
  · split <;> rfl
  · exact input_with_outsys_local env _ v zfile qsys bgrade _ _ _

theorem lock_dir_with_outsys_local (env : XqtEnv) (w : World) (v : XqtVars)
    (zfile : String) (qsys : ssysteminfo) (bgrade : Char) :
    uqdo_xqt_file_lock_dir env w (with_outsys v (some env.zLocalname)) zfile qsys bgrade =
    uqdo_xqt_file_lock_dir env w (with_outsys v none) zfile qsys bgrade := by
  unfold uqdo_xqt_file_lock_dir
  have h1 : (with_outsys v (some env.zLocalname)).azQfiles = v.azQfiles := rfl
  have h2 : (with_outsys v none).azQfiles = v.azQfiles := rfl
  rw [h1, h2]
  simp only []
  split
  · split
    · rfl
    · exact command_with_outsys_local env _ v zfile qsys bgrade
  · exact command_with_outsys_local env w v zfile qsys bgrade

/-! ### No work is queued when the output stays on this system -/

theorem execute_spooled_local (env : XqtEnv) (w : World) (v : XqtVars)
    (zfile : String) (qsys : ssysteminfo) (bgrade : Char) (iclean : Nat)
    (zmail : Option String) (zabsolute : String) (zoutput : Option String)
    (abtemp : String) :
    (uqdo_xqt_file_execute env w v zfile qsys bgrade iclean zmail zabsolute
      zoutput none abtemp).spooled = w.spooled := by
  unfold uqdo_xqt_file_execute
  simp only [uqcleanup_spooled, World.remove_spooled]
  split
  · simp [World.ulog]
  · cases zmail with
    | none => rfl
    | some m =>
      simp only []
      split <;> rfl

theorem move_spooled (env : XqtEnv) (zfile : String) (iclean : Nat)
    (l : List (String × Option String)) :
    ∀ (w : World) (v : XqtVars),
      match uqdo_xqt_file_move env zfile iclean l w v with
      | Sum.inl w1 => w1.spooled = w.spooled
      | Sum.inr (w1, _) => w1.spooled = w.spooled := by
  induction l with
  | nil => intro w v; rfl
  | cons a t ih =>
    intro w v
    obtain ⟨zreal, zto⟩ := a
    cases zto with
    | none =>
      rw [uqdo_xqt_file_move]
      exact ih w v
    | some zto =>
      rw [uqdo_xqt_file_move]
      cases hd : env.zsysdep_in_dir env.XQTDIR zto with
      | none => simp
      | some zname =>
        simp only []
        by_cases hm : env.fsysdep_move_file zreal zname = true
        · simp only [hm, Bool.not_true, Bool.false_eq_true, if_false]
          exact ih (w.move zreal zname) _
        · simp only [hm, Bool.not_false, if_true]
          simp

theorem run_spooled_local (env : XqtEnv) (w : World) (v : XqtVars)
    (zfile : String) (qsys : ssysteminfo) (bgrade : Char) (iclean : Nat)
    (zmail : Option String) (zabsolute : String) (zoutput : Option String)
    (abtemp : String) :
    (uqdo_xqt_file_run env w v zfile qsys bgrade iclean zmail zabsolute
      zoutput none abtemp).spooled = w.spooled := by
  unfold uqdo_xqt_file_run
  have := move_spooled env zfile iclean v.azQfiles w v
  revert this
  cases uqdo_xqt_file_move env zfile iclean v.azQfiles w v with
  | inl w1 => exact fun h => h
  | inr r =>
    intro h
    exact (execute_spooled_local env r.1 r.2 zfile qsys bgrade iclean zmail zabsolute
      zoutput abtemp).trans h

theorem output_spooled_local (env : XqtEnv) (w : World) (v : XqtVars)
    (zfile : String) (qsys : ssysteminfo) (bgrade : Char) (iclean : Nat)
    (zmail : Option String) (zabsolute : String) (hsys : v.zQoutsys = none) :
    (uqdo_xqt_file_output env w v zfile qsys bgrade iclean zmail zabsolute).spooled
      = w.spooled := by
  unfold uqdo_xqt_file_output
  simp only [hsys]
  split
  · exact run_spooled_local env w v zfile qsys bgrade iclean zmail zabsolute none ""
  · simp only [reduceCtorEq, if_false]
    repeat' split
    all_goals first
      | exact run_spooled_local env w _ zfile qsys bgrade iclean zmail zabsolute _ ""
      | simp [World.ulog]

theorem input_spooled_local (env : XqtEnv) (w : World) (v : XqtVars)
    (zfile : String) (qsys : ssysteminfo) (bgrade : Char) (iclean : Nat)
    (zmail : Option String) (zabsolute : String) (hsys : v.zQoutsys = none) :
    (uqdo_xqt_file_input env w v zfile qsys bgrade iclean zmail zabsolute).spooled
      = w.spooled := by
  unfold uqdo_xqt_file_input
  repeat' split
  all_goals first
    | exact output_spooled_local env w _ zfile qsys bgrade _ zmail zabsolute hsys
    | simp

theorem command_spooled_local (env : XqtEnv) (w : World) (v : XqtVars)
    (zfile : String) (qsys : ssysteminfo) (bgrade : Char) (hsys : v.zQoutsys = none) :
    (uqdo_xqt_file_command env w v zfile qsys bgrade).spooled = w.spooled := by
  unfold uqdo_xqt_file_command
  simp only []
  repeat' split
  all_goals first
    | exact (input_spooled_local env _ v zfile qsys bgrade _ _ _ hsys).trans rfl
    | simp [World.ulog]

theorem lock_dir_spooled_local (env : XqtEnv) (w : World) (v : XqtVars)
    (zfile : String) (qsys : ssysteminfo) (bgrade : Char) (hsys : v.zQoutsys = none) :
    (uqdo_xqt_file_lock_dir env w v zfile qsys bgrade).spooled = w.spooled := by
  unfold uqdo_xqt_file_lock_dir
  simp only []
  repeat' split
  all_goals first
    | exact (command_spooled_local env _ v zfile qsys bgrade hsys).trans rfl
    | simp [World.ulog]

/-! ### Parsing the two forms of the O line -/

theorem uqdo_xqt_file_eq_on (env : XqtEnv) (w : World) (zfile : String)
    (qsys : ssysteminfo) (zcmd : Option String) :
    uqdo_xqt_file env w zfile qsys zcmd =
      uqdo_xqt_file_on env w zfile qsys zcmd (env.xqt_lines zfile) := rfl

/-- Every entry of `asQcmds` but the O entry leaves `zQoutsys` alone and does
the same whatever its value is. -/
theorem asQcmds_entry_with_outsys (fsp : String → Bool) (zerr : String) (v : XqtVars)
    (lg : List (tlog × String)) (o : Option String)
    (argv : List String) (x : String × scmdtab) (hx : x ∈ asQcmds fsp zerr)
    (ho : x.1 ≠ "O") :
    cmdtab_apply zerr (with_outsys v o, lg) argv x.2 =
      (with_outsys (cmdtab_apply zerr (v, lg) argv x.2).1 o,
       (cmdtab_apply zerr (v, lg) argv x.2).2) ∧
    (cmdtab_apply zerr (v, lg) argv x.2).1.zQoutsys = v.zQoutsys := by
  simp only [asQcmds, List.mem_cons, List.mem_singleton, List.not_mem_nil, or_false] at hx
  rcases hx with h | h | h | h | h | h | h | h | h | h | h | h | h <;> subst h
  case inr.inr.inl => exact absurd rfl ho
  all_goals
    simp only [cmdtab_apply, tqcmd, tqfile, tquser, tqset]
    repeat' split
    all_goals exact ⟨rfl, rfl⟩

theorem tprocess_one_cmd_with_outsys (fsp : String → Bool) (zerr : String) (v : XqtVars)
    (lg : List (tlog × String)) (o : Option String) (argv : List String)
    (h : argv.head? ≠ some "O") :
    tprocess_one_cmd (asQcmds fsp zerr) zerr (with_outsys v o, lg) argv =
      (with_outsys (tprocess_one_cmd (asQcmds fsp zerr) zerr (v, lg) argv).1 o,
       (tprocess_one_cmd (asQcmds fsp zerr) zerr (v, lg) argv).2) ∧
    (tprocess_one_cmd (asQcmds fsp zerr) zerr (v, lg) argv).1.zQoutsys = v.zQoutsys := by
  cases argv with
  | nil => exact ⟨rfl, rfl⟩
  | cons c t =>
    rw [tprocess_one_cmd, tprocess_one_cmd]
    simp only [List.head?_cons, ne_eq, Option.some.injEq] at h
    cases hf : cmdtab_find c (asQcmds fsp zerr) with
    | none => exact ⟨rfl, rfl⟩
    | some e =>
      exact asQcmds_entry_with_outsys fsp zerr v lg o (c :: t) (c, e)
        (cmdtab_find_mem c _ e hf) h

theorem uprocesscmds_with_outsys (fsp : String → Bool) (zerr : String)
    (lines : List (List String)) (h : ∀ l ∈ lines, l.head? ≠ some "O") :
    ∀ (v : XqtVars) (lg : List (tlog × String)) (o : Option String),
      uprocesscmds fsp zerr (with_outsys v o, lg) lines =
        (with_outsys (uprocesscmds fsp zerr (v, lg) lines).1 o,
         (uprocesscmds fsp zerr (v, lg) lines).2) ∧
      (uprocesscmds fsp zerr (v, lg) lines).1.zQoutsys = v.zQoutsys := by
  unfold uprocesscmds
  induction lines with
  | nil => intro v lg o; exact ⟨rfl, rfl⟩
  | cons a t ih =>
    intro v lg o
    simp only [List.foldl_cons]
    obtain ⟨h1, h2⟩ := tprocess_one_cmd_with_outsys fsp zerr v lg o a
      (h a (List.mem_cons_self a t))
    rw [h1]
    obtain ⟨h3, h4⟩ := ih (fun l hl => h l (List.mem_cons_of_mem a hl))
      (tprocess_one_cmd (asQcmds fsp zerr) zerr (v, lg) a).1
      (tprocess_one_cmd (asQcmds fsp zerr) zerr (v, lg) a).2 o
    exact ⟨h3, h4.trans h2⟩

/-- The two forms of the O line give the same variables but for `zQoutsys`,
which is the local name for the one and NULL for the other. -/
theorem uprocesscmds_O_local (fsp : String → Bool) (zerr : String)
    (pre post : List (List String)) (f zLocalname : String)
    (hpre : ∀ l ∈ pre, l.head? ≠ some "O") (hpost : ∀ l ∈ post, l.head? ≠ some "O") :
    uprocesscmds fsp zerr (XqtVars.init, []) (pre ++ ["O", f, zLocalname] :: post) =
      (with_outsys (uprocesscmds fsp zerr (XqtVars.init, []) (pre ++ ["O", f] :: post)).1
        (some zLocalname),
       (uprocesscmds fsp zerr (XqtVars.init, []) (pre ++ ["O", f] :: post)).2) ∧
    (uprocesscmds fsp zerr (XqtVars.init, []) (pre ++ ["O", f] :: post)).1.zQoutsys = none := by
  have hp := (uprocesscmds_with_outsys fsp zerr pre hpre XqtVars.init [] none).2
  have e1 : ∀ l, uprocesscmds fsp zerr (XqtVars.init, []) (pre ++ l :: post) =
      uprocesscmds fsp zerr
        (tprocess_one_cmd (asQcmds fsp zerr) zerr
          (uprocesscmds fsp zerr (XqtVars.init, []) pre) l) post := by
    intro l
    simp only [uprocesscmds, List.foldl_append, List.foldl_cons]
  rw [e1, e1]
  generalize uprocesscmds fsp zerr (XqtVars.init, []) pre = p0 at hp
  obtain ⟨v0, lg0⟩ := p0
  have s1 : tprocess_one_cmd (asQcmds fsp zerr) zerr (v0, lg0) ["O", f, zLocalname] =
      (with_outsys { v0 with zQoutfile := some f } (some zLocalname), lg0) := by
    simp [tprocess_one_cmd, asQcmds, cmdtab_find, cmdtab_apply, tqout, with_outsys]
  have s2 : tprocess_one_cmd (asQcmds fsp zerr) zerr (v0, lg0) ["O", f] =
      ({ v0 with zQoutfile := some f }, lg0) := by
    simp [tprocess_one_cmd, asQcmds, cmdtab_find, cmdtab_apply, tqout]
  rw [s1, s2]
  obtain ⟨h1, h2⟩ := uprocesscmds_with_outsys fsp zerr post hpost
    { v0 with zQoutfile := some f } lg0 (some zLocalname)
  exact ⟨h1, h2.trans hp⟩

theorem with_outsys_self (v : XqtVars) : with_outsys v v.zQoutsys = v := rfl

/-- Without `zQoutsys` after parsing, a run queues no work. -/
theorem uqdo_xqt_file_on_spooled_local (env : XqtEnv) (w : World) (zfile : String)
    (qsys : ssysteminfo) (zcmd : Option String) (opened : Option (List (List String)))
    (h : ∀ lines, opened = some lines →
      (uprocesscmds env.fspool_file zfile (XqtVars.init, []) lines).1.zQoutsys = none) :
    (uqdo_xqt_file_on env w zfile qsys zcmd opened).spooled = w.spooled := by
  unfold uqdo_xqt_file_on
  simp only []
  split
  · rfl
  · split
    · rfl
    · split
      · rfl
      · rename_i lines
        have h2 := h lines rfl
        repeat' split
        all_goals first
          | simp [World.ulog]
          | (refine (lock_dir_spooled_local env _ _ zfile qsys _ ?_).trans rfl
             exact h2)

theorem port_cmd_find_congr (a b : String) (h : strcasecmp_eq a b = true)
    (t : List cmdtab_offset) : port_cmd_find a t = port_cmd_find b t := by
  have hab : a.data.map c_tolower = b.data.map c_tolower := by
    simpa [strcasecmp_eq] using h
  induction t with
  | nil => rfl
  | cons e rest ih =>
    simp only [port_cmd_find, strcasecmp_eq, hab, ih]

/-- C27 as stated fails: for a direct port the command `baud-range 9600 19200`
gives `UUCONF_SYNTAX_ERROR`. -/
theorem C27_counterexample :
    (_uuconf_iport_cmd example_portenv ["baud-range", "9600", "19200"] example_port).1 =
      UUCONF_SYNTAX_ERROR := by decide

/-- C27, amended: for every port whose type is stdin, direct or pipe the command
`baud-range`, in any letter case, is in no table, so `_uuconf_iport_cmd`
returns `UUCONF_SYNTAX_ERROR` (the code of `ipcunknown` without the exit bit)
and leaves every field of the port as it was. -/
theorem C27_baud_range_rejected (env : PortEnv) (zcmd : String) (args : List String)
    (qport : uuconf_port) (hcmd : strcasecmp_eq zcmd "baud-range" = true)
    (htype : qport.uuconf_ttype ≠ uuconf_porttype.UUCONF_PORTTYPE_UNKNOWN) :
    _uuconf_iport_cmd env (zcmd :: args) qport = (UUCONF_SYNTAX_ERROR, qport) := by
  have hab : zcmd.data.map c_tolower = "baud-range".data.map c_tolower := by
    simpa [strcasecmp_eq] using hcmd
  have h1 : strcasecmp_eq zcmd "type" = false := by
    simp only [strcasecmp_eq, hab]
    decide
  have h2 : port_cmd_find zcmd asPort_cmds = none :=
    (port_cmd_find_congr zcmd _ hcmd _).trans (by decide)
  have h3 : port_cmd_find zcmd asPstdin_cmds = none :=
    (port_cmd_find_congr zcmd _ hcmd _).trans (by decide)
  have h4 : port_cmd_find zcmd asPdirect_cmds = none :=
    (port_cmd_find_congr zcmd _ hcmd _).trans (by decide)
  have h5 : port_cmd_find zcmd asPpipe_cmds = none :=
    (port_cmd_find_congr zcmd _ hcmd _).trans (by decide)
  unfold _uuconf_iport_cmd
  simp only [List.headD_cons, h1, Bool.false_eq_true, if_false, htype]
  unfold _uuconf_iport_cmd_lookup
  simp only [List.headD_cons, h2, Option.isSome_none, Bool.false_eq_true, if_false]
  cases ht : qport.uuconf_ttype with
  | UUCONF_PORTTYPE_UNKNOWN => exact absurd ht htype
  | UUCONF_PORTTYPE_STDIN =>
    simp only [uuconf_cmd_args, List.headD_cons, h3, ipcunknown]
    rfl
  | UUCONF_PORTTYPE_DIRECT =>
    simp only [uuconf_cmd_args, List.headD_cons, h4, ipcunknown]
    rfl
  | UUCONF_PORTTYPE_PIPE =>
    simp only [uuconf_cmd_args, List.headD_cons, h5, ipcunknown]
    rfl

/-- C27, amended, at the direct port `example_port`. -/
theorem C27_baud_range_rejected_witness :
    _uuconf_iport_cmd example_portenv ["Baud-Range", "9600", "19200"] example_port =
      (UUCONF_SYNTAX_ERROR, example_port) :=
  C27_baud_range_rejected example_portenv "Baud-Range" ["9600", "19200"] example_port
    (by decide) (by decide)

/-- C30 at a file with the line `U bob peerA` and no R line, on the system
`here`: the address is `peerA!bob`. -/
theorem C30_mail_address_from_R_and_U_witness :
    zmail_of "here"
      (uprocesscmds is_spool_file "X.peerAN0001" (XqtVars.init, [])
        [["U", "bob", "peerA"], ["C", "rmail", "bob"]]).1 =
      (if "peerA" = "here" then some "bob" else some ("peerA" ++ "!" ++ "bob")) :=
  (C30_mail_address_from_R_and_U is_spool_file "X.peerAN0001"
    [["U", "bob", "peerA"], ["C", "rmail", "bob"]] "here").2.2.2.1 "bob" "peerA"
    (by decide) (by decide) (by decide)

/-! ## Claims on uustat.c -/

/-- C25 as stated fails: an age of 3600 seconds is printed as `60 mins`, not as
`1 hour`, though the hour fits into it. -/
theorem C25_counterexample :
    usunits_show 3600 = "60 mins" ∧ usunits 3600 ≠ (3600 / 3600, "hour") := by
  decide

/-- C25, amended: for every age `d ≥ 0` in seconds `usunits_show` prints the count
`d / u` (rounded down), the name of the unit `u`, and an `s` unless the count
is 1, where `u` is the largest unit among day, hour, min and sec that is less
than `d` (a unit equal to `d` is not taken), and sec when `d ≤ 60`; so 3700
gives `1 hour`, 50 gives `50 secs`, 3600 gives `60 mins`. -/
theorem C25_units_strictly_below (d : Int) (hd : 0 ≤ d) :
    (∃ u ∈ us_units,
      usunits d = (d / u.1, u.2) ∧
      (u.1 < d ∨ (u.2 = "sec" ∧ d ≤ 60)) ∧
      (∀ v ∈ us_units, v.1 < d → v.1 ≤ u.1)) ∧
    usunits_show d =
      toString (usunits d).1 ++ " " ++ (usunits d).2 ++
        (if (usunits d).1 = 1 then "" else "s") ∧
    usunits_show 3700 = "1 hour" ∧ usunits_show 50 = "50 secs" ∧
    usunits_show 3600 = "60 mins" := by
  refine ⟨?_, rfl, by decide, by decide, by decide⟩
  unfold usunits
  have hmem : ∀ v ∈ us_units, v = (86400, "day") ∨ v = (3600, "hour") ∨ v = (60, "min") ∨
      v = (1, "sec") := by
    intro v hv
    simpa [us_units] using hv
  by_cases h1 : (86400 : Int) < d
  · refine ⟨(86400, "day"), by simp [us_units], by simp [h1], Or.inl h1, ?_⟩
    intro v hv _
    rcases hmem v hv with h | h | h | h <;> subst h <;> simp
  · by_cases h2 : (3600 : Int) < d
    · refine ⟨(3600, "hour"), by simp [us_units], by simp [h1, h2], Or.inl h2, ?_⟩
      intro v hv hlt
      rcases hmem v hv with h | h | h | h <;> subst h <;> simp at hlt ⊢
      omega
    · by_cases h3 : (60 : Int) < d
      · refine ⟨(60, "min"), by simp [us_units], by simp [h1, h2, h3], Or.inl h3, ?_⟩
        intro v hv hlt
        rcases hmem v hv with h | h | h | h <;> subst h <;> simp at hlt ⊢ <;> omega
      · refine ⟨(1, "sec"), by simp [us_units], by simp [h1, h2, h3],
          Or.inr ⟨rfl, by omega⟩, ?_⟩
        intro v hv hlt
        rcases hmem v hv with h | h | h | h <;> subst h <;> simp at hlt ⊢ <;> omega

/-- C25, amended, at an age of one day: `24 hours`. -/
theorem C25_units_strictly_below_witness :
    ∃ u ∈ us_units,
      usunits 86400 = (86400 / u.1, u.2) ∧
      (u.1 < 86400 ∨ (u.2 = "sec" ∧ (86400 : Int) ≤ 60)) ∧
      (∀ v ∈ us_units, v.1 < 86400 → v.1 ≤ u.1) :=
  (C25_units_strictly_below 86400 (by decide)).1

/-- C21: the option `-y` does not read its argument: whatever `optarg` is,
`iyounghours` becomes 10 (the value of the comma expression at line 341), so
the threshold `iyoung` is the current time less 36000 seconds, clamped at 0. -/
theorem C21_y_always_ten_hours (env : UsEnv) (o : UsOpts) (optarg : String) :
    uustat_option env o 'y' optarg = some { o with iyounghours := 10 } ∧
    uustat_age env 10 =
      (if env.isysdep_time - 36000 < 0 then 0 else env.isysdep_time - 36000) ∧
    (uustat_main example_usenv example_usother [('y', "1")] false UsState.init).st.w.out =
      ["peerAN0001 peerA alice 1970-01-02 02:16:40 Sending /home/alice/f (10 bytes) to ~/f\n"] := by
  refine ⟨rfl, ?_, by decide⟩
  simp only [uustat_age]
  norm_num

/-- With no option but `JOB_SHOW` a job that matched neither ends the loop of
`fsexecutions` nor the program. -/
theorem usexecutions_match_show (env : UsEnv) (zcomment : Option String) (cstdin : Int)
    (st : UsState) (zfile zsystem : String) (itime : Int) :
    ∃ st1, usexecutions_match env JOB_SHOW zcomment cstdin st zfile zsystem itime =
      Except.ok (st1, false) := by
  unfold usexecutions_match
  have e1 : JOB_SHOW &&& (JOB_MAIL ||| JOB_NOTIFY) = 0 := by decide
  simp only [e1, ne_eq, not_true_eq_false, if_false, Bool.not_true]
  repeat' split
  all_goals first | exact ⟨_, rfl⟩ | simp at *

/-- With no option but `JOB_SHOW` the loop of `fsexecutions` runs to its end. -/
theorem fsexecutions_loop_show (env : UsEnv) (fnotsystems fnotusers : Bool)
    (iold iyoung : Int) (pazcommands : List String) (fnotcommands : Bool)
    (zcomment : Option String) (cstdin : Int) (ferr : Bool)
    (files : List (String × String)) :
    ∀ (st : UsState) (pazsystems pazusers : List String),
      (fsexecutions_loop env JOB_SHOW pazsystems fnotsystems pazusers fnotusers iold iyoung
        pazcommands fnotcommands zcomment cstdin ferr files st).map Prod.snd =
        Except.ok ferr := by
  induction files with
  | nil => intro st _ _; rfl
  | cons a t ih =>
    intro st ps pu
    obtain ⟨zfile, zsystem⟩ := a
    rw [fsexecutions_loop]
    split
    · exact ih _ _ _
    · simp only []
      split
      · exact ih _ _ _
      · split
        · obtain ⟨st1, h1⟩ := usexecutions_match_show env zcomment cstdin
            (fsxqt_file_read env st zfile).1 zfile zsystem (env.isysdep_file_time zfile)
          rw [h1]
          simp only [Bool.false_eq_true, if_false]
          exact ih _ _ _
        · exact ih _ _ _

theorem fsexecutions_show (env : UsEnv) (pazsystems : List String) (fnotsystems : Bool)
    (pazusers : List String) (fnotusers : Bool) (iold iyoung : Int)
    (pazcommands : List String) (fnotcommands : Bool) (zcomment : Option String)
    (cstdin : Int) (st : UsState) :
    (fsexecutions env JOB_SHOW pazsystems fnotsystems pazusers fnotusers iold iyoung
      pazcommands fnotcommands zcomment cstdin st).map Prod.snd =
      Except.ok
        (match env.fsysdep_get_xqt with
         | none => false
         | some (_, ferr) => ferr) := by
  unfold fsexecutions
  cases env.fsysdep_get_xqt with
  | none => rfl
  | some r =>
    exact fsexecutions_loop_show env fnotsystems fnotusers iold iyoung pazcommands
      fnotcommands zcomment cstdin r.2 r.1 st pazsystems pazusers

/-- C24: `fsexecutions` returns the value of `ferr`: FALSE when the scan of
the execute files ended without error and TRUE when `zsysdep_get_xqt` reported
an error; so `uustat -e` ends with `usysdep_exit (FALSE)` after a scan without
error.  Function `fsmachines` returns `! ferr`. -/
theorem C24_fsexecutions_returns_ferr (env : UsEnv) (other : UsOther)
    (pazsystems : List String) (fnotsystems : Bool) (pazusers : List String)
    (fnotusers : Bool) (iold iyoung : Int) (pazcommands : List String)
    (fnotcommands : Bool) (zcomment : Option String) (cstdin : Int) (st : UsState)
    (l : List (String × sstatus)) (ferr : Bool) (w : UsWorld) :
    (fsexecutions env JOB_SHOW pazsystems fnotsystems pazusers fnotusers iold iyoung
      pazcommands fnotcommands zcomment cstdin st).map Prod.snd =
      Except.ok
        (match env.fsysdep_get_xqt with
         | none => false
         | some (_, ferr) => ferr) ∧
    (fsmachines env (some (l, ferr)) w).2 = (! ferr) ∧
    (uustat_main env other [('e', "")] false st).exit =
      (match env.uuconf_init with
       | some _ => UsExit.fatal
       | none =>
         UsExit.finished
           (match env.fsysdep_get_xqt with
            | none => false
            | some (_, ferr) => ferr)) ∧
    (uustat_main example_usenv example_usother [('e', "")] false UsState.init).exit =
      UsExit.finished false := by
  refine ⟨fsexecutions_show env _ _ _ _ _ _ _ _ _ _ st, rfl, ?_, by decide⟩
  have hopt : uustat_getopt env UsOpts.init [('e', "")] =
      some { UsOpts.init with fexecute := true } := rfl
  have hcc : uustat_ccmds { UsOpts.init with fexecute := true } = 1 := by decide
  unfold uustat_main
  simp only [hopt, hcc, Bool.false_eq_true, if_false]
  cases env.uuconf_init with
  | some msg => rfl
  | none =>
    simp only [uustat_canonicalize, UsOpts.init, uustat_dispatch]
    simp only [Bool.true_eq_false, false_and, if_false, if_true, gt_iff_lt, lt_self_iff_false]
    have h := fsexecutions_show env [] false (if 1 = 0 then [env.zsysdep_login_name] else [])
      false (uustat_age env (-1)) (uustat_age env (-1)) [] false none 100 st
    generalize fsexecutions env JOB_SHOW [] false
      (if 1 = 0 then [env.zsysdep_login_name] else []) false (uustat_age env (-1))
      (uustat_age env (-1)) [] false none 100 st = r at h ⊢
    cases r with
    | error f => simp [Except.map] at h
    | ok r =>
      simp only [Except.map, Except.ok.injEq] at h
      simp only [h]

/-- C20 as stated fails: a job that is 5400 seconds old is listed by `uustat -o 1`
and is not listed by `uustat -o 2`. -/
theorem C20_counterexample :
    (uustat_main example_usenv example_usother [('o', "1")] false UsState.init).st.w.out =
      ["peerAN0001 peerA alice 1970-01-02 02:16:40 Sending /home/alice/f (10 bytes) to ~/f\n"] ∧
    (uustat_main example_usenv example_usother [('o', "2")] false UsState.init).st.w.out = [] := by
  decide

theorem uustat_age_antitone (env : UsEnv) (h1 h2 : Int) (hh1 : 0 ≤ h1) (hh : h1 ≤ h2) :
    uustat_age env h1 ≠ -1 ∧ uustat_age env h2 ≠ -1 ∧
      uustat_age env h2 ≤ uustat_age env h1 := by
  unfold uustat_age
  have e1 : h1 ≠ -1 := by omega
  have e2 : h2 ≠ -1 := by omega
  simp only [e1, e2, if_false]
  refine ⟨?_, ?_, ?_⟩
  · split <;> omega
  · split <;> omega
  · split <;> split <;> omega

/-- C23 as stated fails: with `-s peerA -s nosuch` the jobs of the known system
`peerA` are not listed; with `-s peerA` alone they are. -/
theorem C23_counterexample :
    (uustat_main example_usenv example_usother [('s', "peerA"), ('s', "nosuch")] false
      UsState.init).st.w.out = [] ∧
    (uustat_main example_usenv example_usother [('s', "peerA"), ('s', "nosuch")] false
      UsState.init).exit = UsExit.fatal ∧
    (uustat_main example_usenv example_usother [('s', "peerA")] false UsState.init).st.w.out =
      ["peerAN0001 peerA alice 1970-01-02 02:16:40 Sending /home/alice/f (10 bytes) to ~/f\n"] := by
  decide

theorem uustat_canonicalize_not_found (env : UsEnv) (st : UsState) (pre post : List String)
    (z : String)
    (hpre : ∀ y ∈ pre, ∃ s, env.uuconf_system_info y = uuconf_info.UUCONF_SUCCESS s)
    (hz : env.uuconf_system_info z = uuconf_info.UUCONF_NOT_FOUND) :
    uustat_canonicalize env st (pre ++ z :: post) =
      Except.error (us_fatal st (z ++ ": System not found")) := by
  induction pre with
  | nil => simp only [List.nil_append, uustat_canonicalize, hz]
  | cons a t ih =>
    obtain ⟨s, hs⟩ := hpre a (List.mem_cons_self a t)
    have e := ih (fun y hy => hpre y (List.mem_cons_of_mem a hy))
    rw [List.cons_append, uustat_canonicalize]
    simp only [hs, e]

/-- C23, amended: when uustat is given system names with `-s` or `-S` and one of
them is unknown, the run ends at once in the loop of `main` that makes the
names canonical (lines 409-430): `<name>: System not found` is logged as a
fatal error for the first unknown name, the program exits with a failure
status, and nothing else is done, so no job of any system is processed. -/
theorem C23_unknown_system_is_fatal (env : UsEnv) (other : UsOther)
    (opts : List (Char × String)) (st : UsState) (o : UsOpts) (pre post : List String)
    (z : String)
    (hopt : uustat_getopt env UsOpts.init opts = some o)
    (hcc : uustat_ccmds o ≤ 1) (hinit : env.uuconf_init = none)
    (hsys : o.pazsystems = pre ++ z :: post)
    (hpre : ∀ y ∈ pre, ∃ s, env.uuconf_system_info y = uuconf_info.UUCONF_SUCCESS s)
    (hz : env.uuconf_system_info z = uuconf_info.UUCONF_NOT_FOUND) :
    uustat_main env other opts false st = us_fatal st (z ++ ": System not found") := by
  unfold uustat_main
  have hcc2 : ¬ uustat_ccmds o > 1 := by omega
  simp only [hopt, Bool.false_eq_true, if_false, hcc2, hinit, hsys,
    uustat_canonicalize_not_found env st pre post z hpre hz]

/-- C23, amended, at `uustat -s peerA -s nosuch`. -/
theorem C23_unknown_system_is_fatal_witness :
    uustat_main example_usenv example_usother [('s', "peerA"), ('s', "nosuch")] false
      UsState.init = us_fatal UsState.init ("nosuch" ++ ": System not found") :=
  C23_unknown_system_is_fatal example_usenv example_usother
    [('s', "peerA"), ('s', "nosuch")] UsState.init
    { UsOpts.init with pazsystems := ["peerA", "nosuch"] } ["peerA"] [] "nosuch"
    (by decide) (by decide) (by decide) (by decide)
    (by
      intro y hy
      simp only [List.mem_singleton] at hy
      subst hy
      exact ⟨example_system "peerA", rfl⟩)
    (by decide)

theorem us_match_loop_false (p : String → Bool) (l : List String) :
    us_match_loop p false l = true ↔ ∃ z ∈ l, p z = true := by
  induction l with
  | nil => simp [us_match_loop]
  | cons a t ih =>
    unfold us_match_loop
    by_cases h : p a = true
    · simp [h]
    · simp [h, ih]

theorem us_match_loop_true (p : String → Bool) (l : List String) :
    us_match_loop p true l = true ↔ ∀ z ∈ l, p z = false := by
  induction l with
  | nil => simp [us_match_loop]
  | cons a t ih =>
    unfold us_match_loop
    by_cases h : p a = true
    · simp [h]
    · simp [h, ih]

theorem us_runs_head (f : scmdlist → String) (c : scmdlist) (rest : List scmdlist) :
    ∃ g gs, us_runs f (c :: rest) = (f c, c :: g) :: gs := by
  rw [us_runs]
  cases h : us_runs f rest with
  | nil => exact ⟨[], [], rfl⟩
  | cons r gs =>
    obtain ⟨j, g⟩ := r
    simp only []
    by_cases hj : f c = j
    · rw [if_pos hj]
      exact ⟨g, gs, by rw [hj]⟩
    · rw [if_neg hj]
      exact ⟨[], (j, g) :: gs, rfl⟩

/-- A run followed by an element of another value is a run of the whole. -/
theorem us_runs_append_ne (f : scmdlist → String) (j : String) (a : scmdlist)
    (t : List scmdlist) (ha : f a ≠ j) (c : scmdlist) (g : List scmdlist)
    (hc : f c = j) (hg : ∀ d ∈ g, f d = j) :
    us_runs f ((c :: g) ++ a :: t) = (j, c :: g) :: us_runs f (a :: t) := by
  induction g generalizing c with
  | nil =>
    obtain ⟨g1, gs1, h1⟩ := us_runs_head f a t
    simp only [List.cons_append, List.nil_append]
    rw [us_runs, h1]
    simp only []
    have : ¬ f c = f a := by
      rw [hc]
      exact fun h => ha h.symm
    rw [if_neg this, hc]
  | cons d g ih =>
    have hd : f d = j := hg d (List.mem_cons_self d g)
    have e := ih d hd (fun x hx => hg x (List.mem_cons_of_mem d hx))
    rw [List.cons_append, us_runs, e]
    simp only [hc, if_true]

/-- A list of elements of one value is one run. -/
theorem us_runs_const (f : scmdlist → String) (j : String) (c : scmdlist)
    (g : List scmdlist) (hc : f c = j) (hg : ∀ d ∈ g, f d = j) :
    us_runs f (c :: g) = [(j, c :: g)] := by
  induction g generalizing c with
  | nil =>
    rw [us_runs, us_runs]
    simp only [hc]
  | cons d g ih =>
    have hd : f d = j := hg d (List.mem_cons_self d g)
    rw [us_runs, ih d hd (fun x hx => hg x (List.mem_cons_of_mem d hx))]
    simp only [hc, if_true]

/-- The runs hold every element once, in order. -/
theorem us_runs_concat_eq (f : scmdlist → String) (l : List scmdlist) :
    us_runs_concat (us_runs f l) = l := by
  induction l with
  | nil => rfl
  | cons c rest ih =>
    rw [us_runs]
    cases h : us_runs f rest with
    | nil =>
      rw [h] at ih
      simp only [us_runs_concat] at ih ⊢
      rw [← ih]
      rfl
    | cons r gs =>
      obtain ⟨j, g⟩ := r
      rw [h] at ih
      simp only []
      by_cases hj : f c = j
      · rw [if_pos hj]
        simp only [us_runs_concat] at ih ⊢
        rw [← ih]
        rfl
      · rw [if_neg hj]
        simp only [us_runs_concat] at ih ⊢
        rw [← ih]
        rfl

/-- Every run is a list, not empty, of elements with the value of the run. -/
theorem us_runs_mem (f : scmdlist → String) (l : List scmdlist) :
    ∀ r ∈ us_runs f l, r.2 ≠ [] ∧ ∀ c ∈ r.2, f c = r.1 := by
  induction l with
  | nil => intro r hr; simp [us_runs] at hr
  | cons c rest ih =>
    rw [us_runs]
    cases h : us_runs f rest with
    | nil =>
      intro r hr
      simp only [List.mem_singleton] at hr
      subst hr
      simp
    | cons r0 gs =>
      obtain ⟨j, g⟩ := r0
      rw [h] at ih
      simp only []
      have ih0 := ih (j, g) (List.mem_cons_self _ _)
      by_cases hj : f c = j
      · rw [if_pos hj]
        intro r hr
        rcases List.mem_cons.mp hr with h1 | h1
        · subst h1
          refine ⟨by simp, ?_⟩
          intro d hd
          rcases List.mem_cons.mp hd with h2 | h2
          · rw [h2]; exact hj
          · exact ih0.2 d h2
        · exact ih r (List.mem_cons_of_mem _ h1)
      · rw [if_neg hj]
        intro r hr
        rcases List.mem_cons.mp hr with h1 | h1
        · subst h1
          simp
        · exact ih r h1

/-- Two runs that follow each other have different values: the runs are maximal. -/
theorem us_runs_chain (f : scmdlist → String) (l : List scmdlist) :
    List.Chain' (fun a b => a.1 ≠ b.1) (us_runs f l) := by
  induction l with
  | nil => simp [us_runs]
  | cons c rest ih =>
    rw [us_runs]
    cases h : us_runs f rest with
    | nil => simp
    | cons r0 gs =>
      obtain ⟨j, g⟩ := r0
      rw [h] at ih
      simp only []
      by_cases hj : f c = j
      · rw [if_pos hj]
        cases gs with
        | nil => simp
        | cons r1 gs1 =>
          rw [List.chain'_cons] at ih ⊢
          exact ih
      · rw [if_neg hj]
        rw [List.chain'_cons]
        exact ⟨hj, ih⟩

/-! ## The count of option groups -/

/-- What an option of `uustat` does to the variables that `ccmds` is made of. -/
theorem uustat_option_flags (env : UsEnv) (o o1 : UsOpts) (iopt : Char) (optarg : String)
    (h : uustat_option env o iopt optarg = some o1) :
    us_flags o1 = us_flags_step (us_flags o) (iopt, optarg) := by
  by_cases h0 : iopt = 'a'
  · subst h0
    have e : uustat_option env o 'a' optarg = some _ := rfl
    rw [e] at h
    injection h with h
    subst h
    simp [us_flags, us_flags_step]
  by_cases h1 : iopt = 'B'
  · subst h1
    have e : uustat_option env o 'B' optarg = some _ := rfl
    rw [e] at h
    injection h with h
    subst h
    simp [us_flags, us_flags_step]
  by_cases h2 : iopt = 'C'
  · subst h2
    have e : uustat_option env o 'C' optarg = some _ := rfl
    rw [e] at h
    injection h with h
    subst h
    simp [us_flags, us_flags_step]
  by_cases h3 : iopt = 'c'
  · subst h3
    have e : uustat_option env o 'c' optarg = some _ := rfl
    rw [e] at h
    injection h with h
    subst h
    simp [us_flags, us_flags_step]
  by_cases h4 : iopt = 'e'
  · subst h4
    have e : uustat_option env o 'e' optarg = some _ := rfl
    rw [e] at h
    injection h with h
    subst h
    simp [us_flags, us_flags_step]
  by_cases h5 : iopt = 'i'
  · subst h5
    have e : uustat_option env o 'i' optarg = some _ := rfl
    rw [e] at h
    injection h with h
    subst h
    simp [us_flags, us_flags_step]
  by_cases h6 : iopt = 'I'
  · subst h6
    have e : uustat_option env o 'I' optarg = some _ := rfl
    rw [e] at h
    injection h with h
    subst h
    split <;> simp [us_flags, us_flags_step]
  by_cases h7 : iopt = 'k'
  · subst h7
    have e : uustat_option env o 'k' optarg = some _ := rfl
    rw [e] at h
    injection h with h
    subst h
    simp [us_flags, us_flags_step]
  by_cases h8 : iopt = 'K'
  · subst h8
    have e : uustat_option env o 'K' optarg = some _ := rfl
    rw [e] at h
    injection h with h
    subst h
    simp [us_flags, us_flags_step]
  by_cases h9 : iopt = 'm'
  · subst h9
    have e : uustat_option env o 'm' optarg = some _ := rfl
    rw [e] at h
    injection h with h
    subst h
    simp [us_flags, us_flags_step]
  by_cases h10 : iopt = 'M'
  · subst h10
    have e : uustat_option env o 'M' optarg = some _ := rfl
    rw [e] at h
    injection h with h
    subst h
    simp [us_flags, us_flags_step]
  by_cases h11 : iopt = 'N'
  · subst h11
    have e : uustat_option env o 'N' optarg = some _ := rfl
    rw [e] at h
    injection h with h
    subst h
    simp [us_flags, us_flags_step]
  by_cases h12 : iopt = 'o'
  · subst h12
    have e : uustat_option env o 'o' optarg = some _ := rfl
    rw [e] at h
    injection h with h
    subst h
    simp [us_flags, us_flags_step]
  by_cases h13 : iopt = 'p'
  · subst h13
    have e : uustat_option env o 'p' optarg = some _ := rfl
    rw [e] at h
    injection h with h
    subst h
    simp [us_flags, us_flags_step]
  by_cases h14 : iopt = 'q'
  · subst h14
    have e : uustat_option env o 'q' optarg = some _ := rfl
    rw [e] at h
    injection h with h
    subst h
    simp [us_flags, us_flags_step]
  by_cases h15 : iopt = 'Q'
  · subst h15
    have e : uustat_option env o 'Q' optarg = some _ := rfl
    rw [e] at h
    injection h with h
    subst h
    simp [us_flags, us_flags_step]
  by_cases h16 : iopt = 'r'
  · subst h16
    have e : uustat_option env o 'r' optarg = some _ := rfl
    rw [e] at h
    injection h with h
    subst h
    simp [us_flags, us_flags_step]
  by_cases h17 : iopt = 'S'
  · subst h17
    have e : uustat_option env o 'S' optarg = some _ := rfl
    rw [e] at h
    injection h with h
    subst h
    simp [us_flags, us_flags_step]
  by_cases h18 : iopt = 's'
  · subst h18
    have e : uustat_option env o 's' optarg = some _ := rfl
    rw [e] at h
    injection h with h
    subst h
    simp [us_flags, us_flags_step]
  by_cases h19 : iopt = 'U'
  · subst h19
    have e : uustat_option env o 'U' optarg = some _ := rfl
    rw [e] at h
    injection h with h
    subst h
    simp [us_flags, us_flags_step]
  by_cases h20 : iopt = 'u'
  · subst h20
    have e : uustat_option env o 'u' optarg = some _ := rfl
    rw [e] at h
    injection h with h
    subst h
    simp [us_flags, us_flags_step]
  by_cases h21 : iopt = 'W'
  · subst h21
    have e : uustat_option env o 'W' optarg = some _ := rfl
    rw [e] at h
    injection h with h
    subst h
    simp [us_flags, us_flags_step]
  by_cases h22 : iopt = 'x'
  · subst h22
    have e : uustat_option env o 'x' optarg = some _ := rfl
    rw [e] at h
    injection h with h
    subst h
    simp [us_flags, us_flags_step]
  by_cases h23 : iopt = 'y'
  · subst h23
    have e : uustat_option env o 'y' optarg = some _ := rfl
    rw [e] at h
    injection h with h
    subst h
    simp [us_flags, us_flags_step, show to_int 10 = 10 from by decide]
  unfold uustat_option at h
  simp only [h0, h1, h2, h3, h4, h5, h6, h7, h8, h9, h10, h11, h12, h13, h14, h15, h16, h17, h18, h19, h20, h21, h22, h23, if_false] at h
  cases h

/-- The variables that `ccmds` is made of, after all options. -/
theorem uustat_getopt_flags (env : UsEnv) (opts : List (Char × String)) :
    ∀ (o o1 : UsOpts), uustat_getopt env o opts = some o1 →
      us_flags o1 = opts.foldl us_flags_step (us_flags o) := by
  induction opts with
  | nil =>
    intro o o1 h
    simp only [uustat_getopt, Option.some.injEq] at h
    rw [h]
    rfl
  | cons p rest ih =>
    intro o o1 h
    obtain ⟨c, a⟩ := p
    rw [uustat_getopt] at h
    cases h2 : uustat_option env o c a with
    | none => rw [h2] at h; cases h
    | some o2 =>
      rw [h2] at h
      simp only [] at h
      rw [List.foldl_cons, ← uustat_option_flags env o o2 c a h2]
      exact ih o2 o1 h

theorem us_flags_fold (opts : List (Char × String)) :
    ∀ fl : Bool × Bool × Bool × Bool × Bool × Bool × Int × Int,
      opts.foldl us_flags_step fl =
        (fl.1 || opts.any (fun p => p.1 == 'a'),
         fl.2.1 || opts.any (fun p => p.1 == 'k' || p.1 == 'r'),
         fl.2.2.1 || opts.any (fun p => p.1 == 'm'),
         fl.2.2.2.1 || opts.any (fun p => p.1 == 'p'),
         fl.2.2.2.2.1 || opts.any (fun p => p.1 == 'q'),
         fl.2.2.2.2.2.1 || opts.any (fun p => p.1 == 'e' || p.1 == 's' || p.1 == 'S' ||
           p.1 == 'u' || p.1 == 'U' || p.1 == 'c' || p.1 == 'C'),
         if opts.any (fun p => p.1 == 'o') then us_last_o opts else fl.2.2.2.2.2.2.1,
         if opts.any (fun p => p.1 == 'y') then 10 else fl.2.2.2.2.2.2.2) := by
  induction opts with
  | nil => intro fl; simp
  | cons p rest ih =>
    intro fl
    rw [List.foldl_cons, ih]
    obtain ⟨c, a⟩ := p
    simp only [us_flags_step, List.any_cons, Bool.or_assoc, us_last_o]
    refine Prod.ext rfl (Prod.ext rfl (Prod.ext rfl (Prod.ext rfl (Prod.ext rfl
      (Prod.ext rfl (Prod.ext ?_ ?_))))))
    · simp only []
      by_cases h1 : rest.any (fun p => p.1 == 'o') = true
      · simp [h1]
      · by_cases h2 : c = 'o'
        · simp [h1, h2]
        · simp [h1, h2]
    · simp only []
      by_cases h1 : rest.any (fun p => p.1 == 'y') = true
      · simp [h1]
      · by_cases h2 : c = 'y'
        · simp [h1, h2]
        · simp [h1, h2]

theorem us_last_o_none (opts : List (Char × String))
    (h : opts.any (fun p => p.1 == 'o') = false) : us_last_o opts = -1 := by
  induction opts with
  | nil => rfl
  | cons p rest ih =>
    obtain ⟨c, a⟩ := p
    simp only [List.any_cons, Bool.or_eq_false_iff, beq_eq_false_iff_ne, ne_eq] at h
    rw [us_last_o]
    simp only [h.2, Bool.false_eq_true, if_false, h.1]

theorem us_any_or (l : List (Char × String)) (a b : Char × String → Bool) :
    l.any (fun p => a p || b p) = (l.any a || l.any b) := by
  induction l with
  | nil => rfl
  | cons x t ih =>
    simp only [List.any_cons, ih]
    cases a x <;> cases b x <;> cases t.any a <;> cases t.any b <;> rfl

theorem us_group_letters (c : Char) :
    ((us_group c == some 0 && c != 'o') = (c == 'a')) ∧
    ((us_group c == some 1 && c != 'o') = (c == 'k' || c == 'r')) ∧
    ((us_group c == some 2 && c != 'o') = (c == 'm')) ∧
    ((us_group c == some 3 && c != 'o') = (c == 'p')) ∧
    ((us_group c == some 4 && c != 'o') = (c == 'q')) ∧
    ((us_group c == some 5 && c != 'o') =
      ((c == 'e' || c == 's' || c == 'S' || c == 'u' || c == 'U' || c == 'c' || c == 'C')
        || c == 'y')) := by
  unfold us_group
  by_cases h0 : c = 'a'
  · subst h0; decide
  by_cases h1 : c = 'k'
  · subst h1; decide
  by_cases h2 : c = 'r'
  · subst h2; decide
  by_cases h3 : c = 'm'
  · subst h3; decide
  by_cases h4 : c = 'p'
  · subst h4; decide
  by_cases h5 : c = 'q'
  · subst h5; decide
  by_cases h6 : c = 'e'
  · subst h6; decide
  by_cases h7 : c = 's'
  · subst h7; decide
  by_cases h8 : c = 'S'
  · subst h8; decide
  by_cases h9 : c = 'u'
  · subst h9; decide
  by_cases h10 : c = 'U'
  · subst h10; decide
  by_cases h11 : c = 'o'
  · subst h11; decide
  by_cases h12 : c = 'y'
  · subst h12; decide
  by_cases h13 : c = 'c'
  · subst h13; decide
  by_cases h14 : c = 'C'
  · subst h14; decide
  simp [h0, h1, h2, h3, h4, h5, h6, h7, h8, h9, h10, h11, h12, h13, h14]

/-- The count `ccmds` is the number of option groups that count as used. -/
theorem uustat_ccmds_groups (env : UsEnv) (opts : List (Char × String)) (o : UsOpts)
    (h : uustat_getopt env UsOpts.init opts = some o) :
    uustat_ccmds o = us_groups_used opts := by
  have hf := uustat_getopt_flags env opts UsOpts.init o h
  rw [us_flags_fold] at hf
  simp only [us_flags, UsOpts.init, Prod.mk.injEq, Bool.false_or, List.length_nil,
    gt_iff_lt, lt_self_iff_false, or_self, decide_False, Bool.false_eq_true, false_or] at hf
  obtain ⟨f1, f2, f3, f4, f5, f6, f7, f8⟩ := hf
  have e0 : opts.any (fun p => us_group p.1 == some 0 && p.1 != 'o') =
      opts.any (fun p => p.1 == 'a') := by
    congr 1; funext p; exact (us_group_letters p.1).1
  have e1 : opts.any (fun p => us_group p.1 == some 1 && p.1 != 'o') =
      opts.any (fun p => p.1 == 'k' || p.1 == 'r') := by
    congr 1; funext p; exact (us_group_letters p.1).2.1
  have e2 : opts.any (fun p => us_group p.1 == some 2 && p.1 != 'o') =
      opts.any (fun p => p.1 == 'm') := by
    congr 1; funext p; exact (us_group_letters p.1).2.2.1
  have e3 : opts.any (fun p => us_group p.1 == some 3 && p.1 != 'o') =
      opts.any (fun p => p.1 == 'p') := by
    congr 1; funext p; exact (us_group_letters p.1).2.2.2.1
  have e4 : opts.any (fun p => us_group p.1 == some 4 && p.1 != 'o') =
      opts.any (fun p => p.1 == 'q') := by
    congr 1; funext p; exact (us_group_letters p.1).2.2.2.2.1
  have e5 : opts.any (fun p => us_group p.1 == some 5 && p.1 != 'o') =
      (opts.any (fun p => p.1 == 'e' || p.1 == 's' || p.1 == 'S' || p.1 == 'u' ||
        p.1 == 'U' || p.1 == 'c' || p.1 == 'C') || opts.any (fun p => p.1 == 'y')) := by
    rw [← us_any_or]
    congr 1; funext p; exact (us_group_letters p.1).2.2.2.2.2
  have hold : o.ioldhours = us_last_o opts := by
    rw [f7]
    split
    · rfl
    · rename_i hno
      exact (us_last_o_none opts ((Bool.not_eq_true _).mp hno)).symm
  have hyoung : (o.iyounghours ≠ -1) ↔ opts.any (fun p => p.1 == 'y') = true := by
    rw [f8]
    split
    · rename_i hy
      exact ⟨fun _ => hy, fun _ => by decide⟩
    · rename_i hy
      exact ⟨fun h => absurd rfl h, fun h => absurd h hy⟩
  have hr : List.range 6 = [0, 1, 2, 3, 4, 5] := by decide
  unfold us_groups_used uustat_ccmds
  rw [hr, ← List.countP_eq_length_filter]
  simp only [List.countP_cons, List.countP_nil, us_group_used, e0, e1, e2, e3, e4, e5,
    ← f1, ← f3, ← f4, ← f5, ← f2, ← f6, ← hold]
  have hc5 : (o.fexecute = true ∨ o.pazsystems.length > 0 ∨ o.pazusers.length > 0 ∨
        o.ioldhours ≠ -1 ∨ o.iyounghours ≠ -1 ∨ o.pazcommands.length > 0) ↔
      (((decide (o.fexecute = true ∨ 0 < o.pazsystems.length ∨ 0 < o.pazusers.length ∨
          0 < o.pazcommands.length) || opts.any fun p => p.1 == 'y') ||
        (5 == 5 && o.ioldhours != -1)) = true) := by
    simp only [Bool.or_eq_true, decide_eq_true_eq, beq_self_eq_true, Bool.true_and,
      bne_iff_ne, ← hyoung, gt_iff_lt]
    tauto
  have n0 : ((0 : Nat) == 5) = false := rfl
  have n1 : ((1 : Nat) == 5) = false := rfl
  have n2 : ((2 : Nat) == 5) = false := rfl
  have n3 : ((3 : Nat) == 5) = false := rfl
  have n4 : ((4 : Nat) == 5) = false := rfl
  simp only [n0, n1, n2, n3, n4, Bool.false_and, Bool.or_false, if_congr hc5 rfl rfl,
    decide_eq_true_eq, gt_iff_lt, Nat.zero_add]
  ac_rfl

theorem us_last_o_used (opts : List (Char × String)) (h : us_last_o opts ≠ -1) :
    ∃ p ∈ opts, p.1 = 'o' := by
  by_cases h2 : opts.any (fun p => p.1 == 'o') = true
  · simp only [List.any_eq_true, beq_iff_eq] at h2
    exact h2
  · exact absurd (us_last_o_none opts ((Bool.not_eq_true _).mp h2)) h

/-- With all options from the group `g` no other group counts as used. -/
theorem us_group_used_single (opts : List (Char × String)) (g g1 : Nat)
    (hall : ∀ p ∈ opts, us_group p.1 = some g) (h : us_group_used opts g1 = true) :
    g1 = g := by
  unfold us_group_used at h
  simp only [Bool.or_eq_true, List.any_eq_true, Bool.and_eq_true, beq_iff_eq, bne_iff_ne,
    ne_eq] at h
  rcases h with ⟨p, hp, hg, _⟩ | ⟨h5, ho⟩
  · rw [hall p hp] at hg
    exact (Option.some.inj hg).symm
  · obtain ⟨p, hp, hpo⟩ := us_last_o_used opts ho
    have := hall p hp
    rw [hpo] at this
    have e : us_group 'o' = some 5 := by decide
    rw [e] at this
    rw [h5]
    exact Option.some.inj this

theorem us_nodup_const_length (l : List Nat) (g : Nat) (hn : l.Nodup)
    (h : ∀ x ∈ l, x = g) : l.length ≤ 1 := by
  match l, hn, h with
  | [], _, _ => simp
  | [_], _, _ => simp
  | a :: b :: t, hn, h =>
    have ha := h a (List.mem_cons_self _ _)
    have hb := h b (List.mem_cons_of_mem _ (List.mem_cons_self _ _))
    rw [List.nodup_cons] at hn
    exact absurd (by rw [ha, hb]; exact List.mem_cons_self _ _) hn.1

theorem uustat_canonicalize_fatal (env : UsEnv) (st : UsState) (l : List String) :
    ∀ f, uustat_canonicalize env st l = Except.error f → f.exit = UsExit.fatal := by
  induction l with
  | nil => intro f h; simp [uustat_canonicalize] at h
  | cons z rest ih =>
    intro f h
    rw [uustat_canonicalize] at h
    cases hz : env.uuconf_system_info z with
    | UUCONF_NOT_FOUND =>
      rw [hz] at h
      simp only [Except.error.injEq] at h
      rw [← h]
      rfl
    | UUCONF_ERROR msg =>
      rw [hz] at h
      simp only [Except.error.injEq] at h
      rw [← h]
      rfl
    | UUCONF_SUCCESS ssys =>
      rw [hz] at h
      simp only [] at h
      cases hr : uustat_canonicalize env st rest with
      | error f2 =>
        rw [hr] at h
        simp only [Except.error.injEq] at h
        rw [← h]
        exact ih f2 hr
      | ok l2 =>
        rw [hr] at h
        cases h

/-! ## Claims on the splitting of the command line -/

theorem take_takeWhile_length {α : Type} (p : α → Bool) (l : List α) :
    l.take (l.takeWhile p).length = l.takeWhile p := by
  induction l with
  | nil => rfl
  | cons a t ih =>
    by_cases h : p a = true
    · simp [List.takeWhile_cons, h, ih]
    · simp [List.takeWhile_cons, h]

theorem drop_takeWhile_length {α : Type} (p : α → Bool) (l : List α) :
    l.drop (l.takeWhile p).length = l.dropWhile p := by
  induction l with
  | nil => rfl
  | cons a t ih =>
    by_cases h : p a = true
    · simp [List.takeWhile_cons, List.dropWhile_cons, h, ih]
    · simp [List.takeWhile_cons, List.dropWhile_cons, h]

theorem dropWhile_head_not {α : Type} (p : α → Bool) (l : List α) (a : α) (t : List α)
    (h : l.dropWhile p = a :: t) : p a = false := by
  induction l with
  | nil => simp at h
  | cons b r ih =>
    by_cases hb : p b = true
    · rw [List.dropWhile_cons, if_pos hb] at h
      exact ih h
    · rw [List.dropWhile_cons, if_neg hb] at h
      injection h with h1 h2
      subst h1
      simpa using hb

theorem dropWhile_subset {α : Type} (p : α → Bool) (l : List α) :
    ∀ c ∈ l.dropWhile p, c ∈ l := by
  intro c hc
  exact (List.dropWhile_suffix p).subset hc

theorem dropWhile_length_le {α : Type} (p : α → Bool) (l : List α) :
    (l.dropWhile p).length ≤ l.length :=
  (List.dropWhile_suffix p).length_le

theorem uux_split_word_spec : ∀ (fuel : Nat) (z : List Char), z.length ≤ fuel →
    (∀ c ∈ z, c ≠ ' ' ∧ c ≠ '\t') →
    ((uux_split_word fuel z).map String.data).flatten = z ∧
    ∀ t ∈ uux_split_word fuel z, is_uux_token t := by
  intro fuel
  induction fuel with
  | zero =>
    intro z hz _
    have : z = [] := List.length_eq_zero.mp (Nat.le_zero.mp hz)
    subst this
    simp [uux_split_word]
  | succ n ih =>
    intro z hz hws
    rw [uux_split_word]
    by_cases hnil : z = []
    · simp [hnil]
    · simp only [hnil, if_false]
      have htk : z.take (strcspn z ZSHELLSEPS) =
          z.takeWhile (fun c => ! ZSHELLSEPS.contains c) := take_takeWhile_length _ z
      have hdr : z.drop (strcspn z ZSHELLSEPS) =
          z.dropWhile (fun c => ! ZSHELLSEPS.contains c) := drop_takeWhile_length _ z
      have hz1 : (if strcspn z ZSHELLSEPS > 0 then z.drop (strcspn z ZSHELLSEPS) else z) =
          z.dropWhile (fun c => ! ZSHELLSEPS.contains c) := by
        by_cases hc : strcspn z ZSHELLSEPS > 0
        · rw [if_pos hc, hdr]
        · rw [if_neg hc]
          have h0 : strcspn z ZSHELLSEPS = 0 := by omega
          rw [← hdr, h0]
          rfl
      have hout : ((if strcspn z ZSHELLSEPS > 0 then
            [String.mk (z.take (strcspn z ZSHELLSEPS))] else ([] : List String)).map
            String.data).flatten = z.takeWhile (fun c => ! ZSHELLSEPS.contains c) := by
        by_cases hc : strcspn z ZSHELLSEPS > 0
        · rw [if_pos hc, htk]
          simp
        · rw [if_neg hc]
          have h0 : strcspn z ZSHELLSEPS = 0 := by omega
          have : z.takeWhile (fun c => ! ZSHELLSEPS.contains c) = [] :=
            List.length_eq_zero.mp h0
          rw [this]
          rfl
      have houttok : ∀ t ∈ (if strcspn z ZSHELLSEPS > 0 then
            [String.mk (z.take (strcspn z ZSHELLSEPS))] else ([] : List String)),
            is_uux_token t := by
        intro t ht
        by_cases hc : strcspn z ZSHELLSEPS > 0
        · rw [if_pos hc] at ht
          simp only [List.mem_singleton] at ht
          subst ht
          refine ⟨?_, Or.inl ?_⟩
          · show z.take (strcspn z ZSHELLSEPS) ≠ []
            rw [htk]
            intro he
            unfold strcspn at hc
            rw [he] at hc
            simp at hc
          · show ∀ c ∈ z.take (strcspn z ZSHELLSEPS), c ∉ ZSHELLSEPS
            rw [htk]
            intro c hc2
            have := List.mem_takeWhile_imp hc2
            simpa using this
        · rw [if_neg hc] at ht
          cases ht
      rw [hz1]
      generalize hout1 : (if strcspn z ZSHELLSEPS > 0 then
            [String.mk (z.take (strcspn z ZSHELLSEPS))] else ([] : List String)) = out1
            at hout houttok
      cases hd : z.dropWhile (fun c => ! ZSHELLSEPS.contains c) with
      | nil =>
        have hall : z.takeWhile (fun c => ! ZSHELLSEPS.contains c) = z := by
          have := List.takeWhile_append_dropWhile (fun c => ! ZSHELLSEPS.contains c) z
          rw [hd, List.append_nil] at this
          exact this
        simp only [ne_eq, not_true_eq_false, if_false]
        have hrec := ih [] (Nat.zero_le _) (by intro c hc; cases hc)
        have he : uux_split_word n [] = [] := by
          cases n with
          | zero => rfl
          | succ m => simp [uux_split_word]
        rw [he, List.append_nil]
        exact ⟨by rw [hout, hall], houttok⟩
      | cons a t =>
        simp only [ne_eq, reduceCtorEq, not_false_eq_true, if_true]
        have hsep : ZSHELLSEPS.contains a = true := by
          have := dropWhile_head_not _ z a t hd
          simpa using this
        have hmem : ∀ c ∈ a :: t, c ∈ z := by
          intro c hc
          rw [← hd] at hc
          exact dropWhile_subset _ z c hc
        have hlen : (a :: t).length ≤ z.length := by
          rw [← hd]
          exact dropWhile_length_le _ z
        have hwsa := hws a (hmem a (List.mem_cons_self _ _))
        have htk2 : (a :: t).take (strspn (a :: t) ZSHELLNONREDIRSEPS) =
            (a :: t).takeWhile (fun c => ZSHELLNONREDIRSEPS.contains c) :=
          take_takeWhile_length _ _
        have hdr2 : (a :: t).drop (strspn (a :: t) ZSHELLNONREDIRSEPS) =
            (a :: t).dropWhile (fun c => ZSHELLNONREDIRSEPS.contains c) :=
          drop_takeWhile_length _ _
        have hjoin : z = z.takeWhile (fun c => ! ZSHELLSEPS.contains c) ++ a :: t := by
          rw [← hd]
          exact (List.takeWhile_append_dropWhile _ z).symm
        by_cases hs0 : strspn (a :: t) ZSHELLNONREDIRSEPS = 0
        · simp only [hs0, if_true]
          have ha : ZSHELLNONREDIRSEPS.contains a = false := by
            unfold strspn at hs0
            rw [List.takeWhile_cons] at hs0
            by_cases hq : ZSHELLNONREDIRSEPS.contains a = true
            · rw [if_pos hq] at hs0
              simp at hs0
            · simpa using hq
          have hrec := ih t (by simp at hlen; omega)
            (fun c hc => hws c (hmem c (List.mem_cons_of_mem _ hc)))
          have ha2 : a = '<' ∨ a = '>' := by
            simp [ZSHELLSEPS] at hsep
            simp [ZSHELLNONREDIRSEPS] at ha
            tauto
          refine ⟨?_, ?_⟩
          · simp only [List.map_append, List.map_cons, List.flatten_append,
              List.flatten_cons, hout, List.take_succ_cons, List.take_zero,
              List.drop_succ_cons, List.drop_zero, hrec.1]
            exact hjoin.symm
          · intro x hx
            simp only [List.mem_append, List.mem_cons, List.take_succ_cons, List.take_zero,
              List.drop_succ_cons, List.drop_zero] at hx
            rcases hx with hx | hx | hx
            · exact houttok x hx
            · subst hx
              refine ⟨by simp, Or.inr (Or.inr ?_)⟩
              rcases ha2 with h | h
              · left; subst h; rfl
              · right; subst h; rfl
            · exact hrec.2 x hx
        · simp only [hs0, if_false]
          rw [htk2, hdr2]
          have hq : ZSHELLNONREDIRSEPS.contains a = true := by
            by_contra hq
            apply hs0
            unfold strspn
            rw [List.takeWhile_cons, if_neg hq]
            rfl
          have hrec := ih ((a :: t).dropWhile (fun c => ZSHELLNONREDIRSEPS.contains c))
            (by
              rw [List.dropWhile_cons, if_pos hq]
              have := dropWhile_length_le (fun c => ZSHELLNONREDIRSEPS.contains c) t
              simp at hlen
              omega)
            (fun c hc => hws c (hmem c (dropWhile_subset _ _ c hc)))
          refine ⟨?_, ?_⟩
          · simp only [List.map_append, List.map_cons, List.flatten_append,
              List.flatten_cons, hout, hrec.1, List.takeWhile_append_dropWhile]
            exact hjoin.symm
          · intro x hx
            simp only [List.mem_append, List.mem_cons] at hx
            rcases hx with hx | hx | hx
            · exact houttok x hx
            · subst hx
              refine ⟨?_, Or.inr (Or.inl ?_)⟩
              · show (a :: t).takeWhile (fun c => ZSHELLNONREDIRSEPS.contains c) ≠ []
                rw [List.takeWhile_cons, if_pos hq]
                simp
              · show ∀ c ∈ (a :: t).takeWhile (fun c => ZSHELLNONREDIRSEPS.contains c),
                  c ∈ [';', '&', '*', '|']
                intro c hc
                have h1 := List.mem_takeWhile_imp hc
                have h2 := hws c (hmem c ((List.takeWhile_prefix _).subset hc))
                simp [ZSHELLNONREDIRSEPS] at h1
                simp
                tauto
            · exact hrec.2 x hx

theorem filter_not_dropWhile {α : Type} (p : α → Bool) (l : List α) :
    (l.dropWhile p).filter (fun c => ! p c) = l.filter (fun c => ! p c) := by
  induction l with
  | nil => rfl
  | cons a t ih =>
    by_cases h : p a = true
    · simp [List.dropWhile_cons, List.filter_cons, h, ih]
    · simp [List.dropWhile_cons, List.filter_cons, h]

theorem filter_takeWhile_rest {α : Type} (p : α → Bool) (l : List α) :
    l.filter (fun c => ! p c) =
      l.takeWhile (fun c => ! p c) ++
        ((l.dropWhile (fun c => ! p c)).drop 1).filter (fun c => ! p c) := by
  induction l with
  | nil => rfl
  | cons a t ih =>
    by_cases h : p a = true
    · simp [List.dropWhile_cons, List.takeWhile_cons, List.filter_cons, h]
    · simp only [Bool.not_eq_true] at h
      simp only [List.dropWhile_cons, List.takeWhile_cons, List.filter_cons, h, Bool.not_false,
        if_true, List.cons_append]
      rw [← ih]

theorem uux_split_args_spec : ∀ (fuel : Nat) (z : List Char), z.length ≤ fuel →
    ((uux_split_args fuel z).map String.data).flatten =
      z.filter (fun c => ! [' ', '\t'].contains c) ∧
    ∀ t ∈ uux_split_args fuel z, is_uux_token t := by
  intro fuel
  induction fuel with
  | zero =>
    intro z hz
    have : z = [] := List.length_eq_zero.mp (Nat.le_zero.mp hz)
    subst this
    simp [uux_split_args]
  | succ n ih =>
    intro z hz
    rw [uux_split_args]
    unfold strtok
    by_cases hd : z.dropWhile (fun c => [' ', '\t'].contains c) = []
    · simp only [hd, if_true]
      refine ⟨?_, by intro t ht; cases ht⟩
      rw [← filter_not_dropWhile (fun c => [' ', '\t'].contains c) z, hd]
      rfl
    · simp only [hd, if_false]
      generalize hz1 : z.dropWhile (fun c => [' ', '\t'].contains c) = z1 at hd
      have hlen1 : z1.length ≤ z.length := by
        rw [← hz1]
        exact dropWhile_length_le _ z
      have hword := uux_split_word_spec
        (z1.takeWhile (fun c => ! [' ', '\t'].contains c)).length
        (z1.takeWhile (fun c => ! [' ', '\t'].contains c)) (Nat.le_refl _)
        (by
          intro c hc
          have := List.mem_takeWhile_imp hc
          simp at this
          exact this)
      have hrest : ((z1.dropWhile (fun c => ! [' ', '\t'].contains c)).drop 1).length ≤ n := by
        have h1 := dropWhile_length_le (fun c => ! [' ', '\t'].contains c) z1
        cases hz1c : z1 with
        | nil => exact absurd hz1c hd
        | cons a t =>
          rw [hz1c] at hlen1 h1
          have hna : [' ', '\t'].contains a = false := by
            have := dropWhile_head_not _ z a t (hz1.trans hz1c)
            exact this
          rw [List.dropWhile_cons, if_pos (by rw [hna]; rfl)]
          have h2 := dropWhile_length_le (fun c => ! [' ', '\t'].contains c) t
          simp only [List.length_drop, List.length_cons] at *
          omega
      have hrec := ih _ hrest
      refine ⟨?_, ?_⟩
      · simp only [List.map_append, List.flatten_append, hword.1, hrec.1]
        rw [← filter_not_dropWhile (fun c => [' ', '\t'].contains c) z, hz1]
        exact (filter_takeWhile_rest _ z1).symm
      · intro t ht
        rcases List.mem_append.mp ht with h | h
        · exact hword.2 t h
        · exact hrec.2 t h

theorem intercalate_go_data (s : String) : ∀ (l : List String) (acc : String),
    (String.intercalate.go acc s l).data =
      acc.data ++ (l.map (fun a => s.data ++ a.data)).flatten := by
  intro l
  induction l with
  | nil => intro acc; simp [String.intercalate.go]
  | cons a t ih =>
    intro acc
    rw [String.intercalate.go, ih]
    simp [String.data_append, List.append_assoc]

theorem shift_space (l : List String) :
    ' ' :: (l.map (fun a => a.data ++ [' '])).flatten =
      (l.map (fun a => " ".data ++ a.data)).flatten ++ [' '] := by
  induction l with
  | nil => rfl
  | cons a t ih =>
    simp only [List.map_cons, List.flatten_cons, List.append_assoc]
    rw [← ih]
    rfl

theorem uux_zargs_joined (argv : List String) (h : argv ≠ []) :
    uux_zargs argv = joined_by_spaces argv ++ [' '] := by
  cases argv with
  | nil => exact absurd rfl h
  | cons a t =>
    unfold uux_zargs joined_by_spaces
    rw [String.intercalate, intercalate_go_data]
    simp only [List.map_cons, List.flatten_cons, List.append_assoc]
    rw [← shift_space]
    rfl

theorem takeWhile_append_stop {α : Type} (p : α → Bool) (l : List α) (x : α)
    (hx : p x = false) : (l ++ [x]).takeWhile p = l.takeWhile p := by
  induction l with
  | nil => simp [List.takeWhile_cons, hx]
  | cons a t ih =>
    by_cases h : p a = true
    · simp [List.takeWhile_cons, h, ih]
    · simp [List.takeWhile_cons, h]

theorem dropWhile_append_stop {α : Type} (p : α → Bool) (l : List α) (x : α)
    (hx : p x = false) : (l ++ [x]).dropWhile p = l.dropWhile p ++ [x] := by
  induction l with
  | nil => simp [List.dropWhile_cons, hx]
  | cons a t ih =>
    by_cases h : p a = true
    · simp [List.dropWhile_cons, h, ih]
    · simp [List.dropWhile_cons, h]

theorem prefix_takeWhile {α : Type} (p : α → Bool) : ∀ (l q : List α), q <+: l →
    (∀ c ∈ q, p c = true) → q.length ≤ (l.takeWhile p).length := by
  intro l
  induction l with
  | nil =>
    intro q hq _
    have : q = [] := List.prefix_nil.mp hq
    subst this
    simp
  | cons a t ih =>
    intro q hq hall
    cases q with
    | nil => simp
    | cons b r =>
      have hb : b = a ∧ r <+: t := by
        rcases hq with ⟨s, hs⟩
        injection hs with h1 h2
        exact ⟨h1, ⟨s, h2⟩⟩
      have hpa : p a = true := hb.1 ▸ hall b (List.mem_cons_self _ _)
      rw [List.takeWhile_cons, if_pos hpa]
      have := ih r hb.2 (fun c hc => hall c (List.mem_cons_of_mem _ hc))
      simp only [List.length_cons]
      omega

/-- The two parts of the command line in terms of the arguments joined by
single spaces. -/
theorem uux_split_parts (argv : List String) :
    (uux_split argv).1.data =
      (joined_by_spaces argv).takeWhile (fun c => ! ZSHELLSEPS.contains c) ∧
    ((uux_split argv).2.map String.data).flatten =
      ((joined_by_spaces argv).dropWhile (fun c => ! ZSHELLSEPS.contains c)).filter
        (fun c => ! [' ', '\t'].contains c) ∧
    ∀ t ∈ (uux_split argv).2, is_uux_token t := by
  unfold uux_split
  have htk := take_takeWhile_length (fun c => ! ZSHELLSEPS.contains c) (uux_zargs argv)
  have hdr := drop_takeWhile_length (fun c => ! ZSHELLSEPS.contains c) (uux_zargs argv)
  have hspec := uux_split_args_spec (uux_zargs argv).length
    ((uux_zargs argv).drop (strcspn (uux_zargs argv) ZSHELLSEPS))
    (by simp only [List.length_drop]; omega)
  by_cases h : argv = []
  · subst h
    refine ⟨rfl, ?_, hspec.2⟩
    rw [hspec.1]
    rfl
  · have hz := uux_zargs_joined argv h
    refine ⟨?_, ?_, hspec.2⟩
    · show (uux_zargs argv).take (strcspn (uux_zargs argv) ZSHELLSEPS) = _
      unfold strcspn
      rw [htk, hz, takeWhile_append_stop _ _ _ (by decide)]
    · rw [hspec.1]
      unfold strcspn
      rw [hdr, hz, dropWhile_append_stop _ _ _ (by decide), List.filter_append]
      simp

/-- C11: for every argument list, with `s` the arguments joined by single
spaces, `zcmd` is the longest prefix of `s` without a character of
`; & * | < >`, space and tab, and the tokens made of the rest of `s` are not
empty, hold no space and no tab, are each a run of characters that are no
separators, a run of the characters `; & * |`, or `<`, or `>`, and put together
in their order they are the rest of `s` without its spaces and tabs. -/
theorem C11_command_line_tokens (argv : List String) :
    (uux_split argv).1.data <+: joined_by_spaces argv ∧
    (∀ c ∈ (uux_split argv).1.data, c ∉ ZSHELLSEPS) ∧
    (∀ p : List Char, p <+: joined_by_spaces argv → (∀ c ∈ p, c ∉ ZSHELLSEPS) →
      p.length ≤ (uux_split argv).1.data.length) ∧
    (∀ t ∈ (uux_split argv).2,
      t.data ≠ [] ∧ (∀ c ∈ t.data, c ≠ ' ' ∧ c ≠ '\t') ∧ is_uux_token t) ∧
    ((uux_split argv).2.map String.data).flatten =
      ((joined_by_spaces argv).drop (uux_split argv).1.data.length).filter
        (fun c => decide (c ≠ ' ' ∧ c ≠ '\t')) := by
  obtain ⟨h1, h2, h3⟩ := uux_split_parts argv
  refine ⟨?_, ?_, ?_, ?_, ?_⟩
  · rw [h1]
    exact List.takeWhile_prefix _
  · rw [h1]
    intro c hc
    have := List.mem_takeWhile_imp hc
    simpa using this
  · intro p hp hall
    rw [h1]
    exact prefix_takeWhile _ _ p hp (fun c hc => by simpa using hall c hc)
  · intro t ht
    have htok := h3 t ht
    refine ⟨htok.1, ?_, htok⟩
    intro c hc
    rcases htok.2 with h | h | h | h
    · have := h c hc
      simp [ZSHELLSEPS] at this
      tauto
    · have := h c hc
      simp at this
      rcases this with e | e | e | e <;> subst e <;> decide
    · subst h
      simp at hc
      subst hc
      decide
    · subst h
      simp at hc
      subst hc
      decide
  · rw [h2, h1, drop_takeWhile_length]
    congr 1
    funext c
    simp

/-- C11 at `uux "cat a;b" "<x"`: the command is `cat` and the tokens are `a`,
`;`, `b`, `<`, `x`. -/
theorem C11_command_line_tokens_witness :
    uux_split ["cat a;b", "<x"] = ("cat", ["a", ";", "b", "<", "x"]) ∧
    ((uux_split ["cat a;b", "<x"]).2.map String.data).flatten =
      ((joined_by_spaces ["cat a;b", "<x"]).drop
        (uux_split ["cat a;b", "<x"]).1.data.length).filter
        (fun c => decide (c ≠ ' ' ∧ c ≠ '\t')) :=
  ⟨by decide, (C11_command_line_tokens ["cat a;b", "<x"]).2.2.2.2⟩

/-! ## Claims on the argument loop of uux -/

theorem uxargs_nil_bind (env : UxEnv) (o : UxOpts) (sxqtsys : uuconf_system)
    (zxqtloc : String) (fxqtlocal : Bool) (rest : List String) (st : UxState) :
    uxargs env o sxqtsys zxqtloc fxqtlocal rest st =
      match uxargs env o sxqtsys zxqtloc fxqtlocal rest st with
      | Except.error e => Except.error e
      | Except.ok (st2, rs2) => Except.ok (st2, [] ++ rs2) := by
  cases uxargs env o sxqtsys zxqtloc fxqtlocal rest st with
  | error e => rfl
  | ok r => rfl

/-- The loop over a list of words is the loop over its first part followed by
the loop over the rest, when the first part does not end in the middle of a
redirection. -/
theorem uxargs_append (env : UxEnv) (o : UxOpts) (sxqtsys : uuconf_system)
    (zxqtloc : String) (fxqtlocal : Bool) (rest : List String) :
    ∀ (n : Nat) (pre : List String) (st : UxState), pre.length ≤ n →
      redir_pending pre = false →
      uxargs env o sxqtsys zxqtloc fxqtlocal (pre ++ rest) st =
        match uxargs env o sxqtsys zxqtloc fxqtlocal pre st with
        | Except.error e => Except.error e
        | Except.ok (st1, rs1) =>
          match uxargs env o sxqtsys zxqtloc fxqtlocal rest st1 with
          | Except.error e => Except.error e
          | Except.ok (st2, rs2) => Except.ok (st2, rs1 ++ rs2) := by
  intro n
  induction n with
  | zero =>
    intro pre st hlen _
    have : pre = [] := List.length_eq_zero.mp (Nat.le_zero.mp hlen)
    subst this
    simp only [List.nil_append, uxargs]
    exact uxargs_nil_bind env o sxqtsys zxqtloc fxqtlocal rest st
  | succ n ih =>
    intro pre st hlen hp
    match pre, hlen, hp with
    | [], _, _ =>
      simp only [List.nil_append, uxargs]
      exact uxargs_nil_bind env o sxqtsys zxqtloc fxqtlocal rest st
    | [a], _, hp =>
      cases rest with
      | nil =>
        simp only [List.append_nil]
        cases uxargs env o sxqtsys zxqtloc fxqtlocal [a] st with
        | error e => rfl
        | ok r => simp [uxargs]
      | cons b r =>
        simp only [redir_pending, Bool.and_eq_false_imp, bne_iff_ne, ne_eq, Bool.or_eq_false_iff,
          beq_eq_false_iff_ne] at hp
        by_cases h1 : a.data.head? = some '('
        · simp only [List.singleton_append, uxargs, h1, if_true]
        · have h2 := hp h1
          simp only [List.singleton_append, uxargs, h1, h2.1, h2.2, or_self, if_false]
          cases uxarg env o sxqtsys zxqtloc fxqtlocal st a false false with
          | error e => rfl
          | ok q =>
            obtain ⟨st1, x⟩ := q
            simp only []
            cases uxargs env o sxqtsys zxqtloc fxqtlocal (b :: r) st1 with
            | error e => rfl
            | ok q2 => rfl
    | a :: b :: t, hlen, hp =>
      simp only [List.length_cons] at hlen
      rw [redir_pending] at hp
      by_cases h1 : a.data.head? = some '('
      · simp only [h1, if_true] at hp
        have hrec := ih (b :: t) (uxarg_paren st a).1 (by simp only [List.length_cons]; omega) hp
        simp only [List.cons_append] at hrec ⊢
        simp only [uxargs, h1, if_true, hrec]
        cases uxargs env o sxqtsys zxqtloc fxqtlocal (b :: t) (uxarg_paren st a).1 with
        | error e => rfl
        | ok q =>
          obtain ⟨st1, rs1⟩ := q
          simp only []
          cases uxargs env o sxqtsys zxqtloc fxqtlocal rest st1 with
          | error e => rfl
          | ok q2 => rfl
      · by_cases h2 : a.data.head? = some '<' ∨ a.data.head? = some '>'
        · simp only [h1, h2, if_true, if_false] at hp
          simp only [List.cons_append, uxargs, h1, h2, if_true, if_false]
          cases uxarg env o sxqtsys zxqtloc fxqtlocal st b
              (decide (a.data.head? = some '<')) (decide (a.data.head? = some '>')) with
          | error e => rfl
          | ok q =>
            obtain ⟨st1, x⟩ := q
            simp only []
            have hrec := ih t st1 (by omega) hp
            rw [show t.append rest = t ++ rest from rfl, hrec]
            cases uxargs env o sxqtsys zxqtloc fxqtlocal t st1 with
            | error e => rfl
            | ok q1 =>
              obtain ⟨st2, rs1⟩ := q1
              simp only []
              cases uxargs env o sxqtsys zxqtloc fxqtlocal rest st2 with
              | error e => rfl
              | ok q2 => rfl
        · simp only [h1, h2, if_false] at hp
          have hrec := fun s => ih (b :: t) s (by simp only [List.length_cons]; omega)
          simp only [List.cons_append] at hrec ⊢
          simp only [uxargs, h1, h2, if_false]
          cases uxarg env o sxqtsys zxqtloc fxqtlocal st a false false with
          | error e => rfl
          | ok q =>
            obtain ⟨st1, x⟩ := q
            simp only []
            rw [hrec st1 hp]
            cases uxargs env o sxqtsys zxqtloc fxqtlocal (b :: t) st1 with
            | error e => rfl
            | ok q1 =>
              obtain ⟨st2, rs1⟩ := q1
              simp only []
              cases uxargs env o sxqtsys zxqtloc fxqtlocal rest st2 with
              | error e => rfl
              | ok q2 => rfl

/-- The loop on a word in parentheses: the word without them stays in the
array, and the state is as it was. -/
theorem uxargs_paren_cons (env : UxEnv) (o : UxOpts) (sxqtsys : uuconf_system)
    (zxqtloc : String) (fxqtlocal : Bool) (a w : String) (post : List String) (st : UxState)
    (ha : a.data = '(' :: w.data ++ [')']) :
    uxargs env o sxqtsys zxqtloc fxqtlocal (a :: post) st =
      match uxargs env o sxqtsys zxqtloc fxqtlocal post st with
      | Except.error e => Except.error e
      | Except.ok (st2, rs) => Except.ok (st2, some w :: rs) := by
  have h1 : a.data.head? = some '(' := by rw [ha]; rfl
  have hp : uxarg_paren st a = (st, w) := by
    unfold uxarg_paren
    have hl : a.data.getLast? = some ')' := by
      rw [ha, show '(' :: w.data ++ [')'] = ('(' :: w.data) ++ [')'] from rfl,
        List.getLast?_append]
      rfl
    rw [if_neg (not_not.mpr hl), ha]
    simp [List.dropLast_concat]
  cases post with
  | nil => simp only [uxargs, h1, if_true, hp]
  | cons b r =>
    simp only [uxargs, h1, if_true, hp]

/-- C12 as stated fails: in `uux cat "<" "(w)"` the word `(w)` is taken as the
file of the redirection: it gives an I line, and the C line does not carry `w`. -/
theorem C12_counterexample :
    (uux_split ["cat", "<", "(w)"]) = ("cat", ["<", "(w)"]) ∧
    (uux_main example_uxenv UxOpts.init UxState.init "cat" ["<", "(w)"]).st.xqt_lines =
      ["U bob here", "I D.hereN0001", "C cat"] := by
  decide

/-- C12, amended: a word `(w)` of the argument list that does not come right
after a `<` or `>` that the loop takes as a redirection gives `w` at its place
in the array of arguments and changes nothing else: the words after it are
processed from the state the words before it left, so it gives no S or R
command and no F, I or O line; and the C line carries `w`, also with an
exclamation point in it, at that place. -/
theorem C12_parenthesized_word_is_literal (env : UxEnv) (o : UxOpts)
    (sxqtsys : uuconf_system) (zxqtloc : String) (fxqtlocal : Bool) (a w : String)
    (pre post : List String) (st : UxState) (zcmd : String)
    (ha : a.data = '(' :: w.data ++ [')'])
    (hpre : redir_pending pre = false) :
    uxargs env o sxqtsys zxqtloc fxqtlocal (pre ++ a :: post) st =
      (match uxargs env o sxqtsys zxqtloc fxqtlocal pre st with
       | Except.error e => Except.error e
       | Except.ok (st1, rs1) =>
         match uxargs env o sxqtsys zxqtloc fxqtlocal post st1 with
         | Except.error e => Except.error e
         | Except.ok (st2, rs2) => Except.ok (st2, rs1 ++ some w :: rs2)) ∧
    ∀ rs1 rs2 : List (Option String),
      (uux_command_line zcmd (rs1 ++ some w :: rs2)).1 =
        (uux_command_line zcmd rs1).1 ++ " " ++ w ++
          String.join ((live_args rs2).map (fun x => " " ++ x)) := by
  refine ⟨?_, ?_⟩
  · rw [uxargs_append env o sxqtsys zxqtloc fxqtlocal (a :: post) pre.length pre st
      (Nat.le_refl _) hpre]
    cases uxargs env o sxqtsys zxqtloc fxqtlocal pre st with
    | error e => rfl
    | ok q =>
      obtain ⟨st1, rs1⟩ := q
      simp only []
      rw [uxargs_paren_cons env o sxqtsys zxqtloc fxqtlocal a w post st1 ha]
      cases uxargs env o sxqtsys zxqtloc fxqtlocal post st1 with
      | error e => rfl
      | ok q2 => rfl
  · intro rs1 rs2
    apply String.ext
    simp [uux_command_line, live_args, String.data_join, String.data_append,
      List.filterMap_append]

/-- C12, amended, at `uux cat -n "(a!b)" x`: the array of arguments becomes
`-n`, `a!b`, `x`, the state is as it was, and the C line is `C cat -n a!b x`. -/
theorem C12_parenthesized_word_is_literal_witness :
    uxargs example_uxenv UxOpts.init (example_system "here") "here" true
        (["-n"] ++ "(a!b)" :: ["x"]) UxState.init =
      Except.ok (UxState.init, [some "-n", some "a!b", some "x"]) ∧
    (uux_command_line "cat" ([some "-n"] ++ some "a!b" :: [some "x"])).1 =
      "C cat -n a!b x" :=
  ⟨(C12_parenthesized_word_is_literal example_uxenv UxOpts.init (example_system "here")
      "here" true "(a!b)" "a!b" ["-n"] ["x"] UxState.init "cat" rfl rfl).1.trans rfl,
   ((C12_parenthesized_word_is_literal example_uxenv UxOpts.init (example_system "here")
      "here" true "(a!b)" "a!b" ["-n"] ["x"] UxState.init "cat" rfl rfl).2
      [some "-n"] [some "x"]).trans (by decide)⟩

/-! ## The e line -/

theorem uxadd_xqt_line_flag (st : UxState) (c : Char) :
    (uxadd_xqt_line st c none none).xqt_lines = st.xqt_lines ++ [String.singleton c] := rfl

theorem uxadd_xqt_line_field (st : UxState) (c : Char) (a : String) :
    (uxadd_xqt_line st c (some a) none).xqt_lines =
      st.xqt_lines ++ [String.singleton c ++ " " ++ a] := rfl

theorem field_line_ne_e (z a : String) (hz : z.length = 2) : z ++ a ≠ "e" := by
  intro h
  have := congrArg String.length h
  rw [String.length_append, hz] at this
  have h2 : "e".length = 1 := rfl
  omega

/-- The lines of the options (lines 877-893). -/
theorem uux_flag_lines_text (o : UxOpts) (fneedshell : Bool) (st : UxState) :
    (uux_flag_lines o fneedshell st).xqt_lines = st.xqt_lines ++ uux_flag_text o fneedshell := by
  unfold uux_flag_lines uux_flag_text
  cases fneedshell <;> cases o.fno_ack <;> cases o.ferror_ack <;> cases o.fretstdin <;>
    cases o.zrequestor <;> cases o.zstatus_file <;>
    simp only [Bool.false_eq_true, if_false, if_true, uxadd_xqt_line_flag,
      uxadd_xqt_line_field, List.append_assoc, List.singleton_append, List.append_nil,
      List.nil_append, List.cons_append] <;> rfl

/-- There is an e line among the lines of the options exactly when the shell is
needed. -/
theorem uux_flag_text_e (o : UxOpts) (fneedshell : Bool) :
    "e" ∈ uux_flag_text o fneedshell ↔ fneedshell = true := by
  unfold uux_flag_text
  have hR := fun a => (field_line_ne_e "R " a rfl).symm
  have hM := fun a => (field_line_ne_e "M " a rfl).symm
  have h1 : ¬ "e" = "N" := by decide
  have h2 : ¬ "e" = "Z" := by decide
  have h3 : ¬ "e" = "B" := by decide
  cases fneedshell <;> cases o.fno_ack <;> cases o.ferror_ack <;> cases o.fretstdin <;>
    cases o.zrequestor <;> cases o.zstatus_file <;>
    simp [hR, hM, h1, h2, h3]

theorem note_call_xqt_lines (st : UxState) (z : String) :
    (note_call st z).xqt_lines = st.xqt_lines := by
  unfold note_call
  split <;> rfl

theorem uux_run_uucico_st (env : UxEnv) (o : UxOpts) (st : UxState) :
    (uux_run_uucico env o st).st = st := by
  unfold uux_run_uucico
  split
  · rfl
  · split
    · rfl
    · split <;> rfl

/-- The lines of the execute file at the end of `uux_finish`. -/
theorem uux_finish_xqt_lines (env : UxEnv) (o : UxOpts) (sxqtsys : uuconf_system)
    (fxqtlocal : Bool) (zxqtname abxqt_tname abxqt_xname zcmd : String)
    (pzargs : List (Option String)) (st : UxState) :
    (uux_finish env o sxqtsys fxqtlocal zxqtname abxqt_tname abxqt_xname zcmd pzargs
      st).st.xqt_lines =
      st.xqt_lines ++ (uux_command_line zcmd pzargs).1 ::
        uux_flag_text o (uux_command_line zcmd pzargs).2 := by
  have hfl := uux_flag_lines_text o (uux_command_line zcmd pzargs).2
    { st with xqt_lines := st.xqt_lines ++ [(uux_command_line zcmd pzargs).1] }
  simp only [List.append_assoc, List.singleton_append] at hfl
  unfold uux_finish
  simp only []
  generalize uux_flag_lines o (uux_command_line zcmd pzargs).2
    { st with xqt_lines := st.xqt_lines ++ [(uux_command_line zcmd pzargs).1] } = st2 at hfl ⊢
  by_cases hc : (! env.fclose_ok zxqtname) = true
  · rw [if_pos hc]
    exact hfl
  · rw [if_neg hc]
    have hst3 : (if (! fxqtlocal) = true then
          uxadd_send_file env st2 abxqt_tname abxqt_xname "C" abxqt_tname else st2).xqt_lines =
        st2.xqt_lines := by
      split <;> rfl
    generalize (if (! fxqtlocal) = true then
          uxadd_send_file env st2 abxqt_tname abxqt_xname "C" abxqt_tname else st2) = st3
      at hst3 ⊢
    rw [← hfl, ← hst3]
    by_cases hs : env.fgot_signal = true
    · rw [if_pos hs]
      rfl
    · rw [if_neg hs]
      by_cases hn : st3.pasXcmds.length > 0
      · rw [if_pos hn]
        cases env.zsysdep_spool_commands sxqtsys o.bgrade st3.pasXcmds st3.cnames with
        | none => rfl
        | some job =>
          simp only [uux_run_uucico_st, note_call_xqt_lines]
          rfl
      · rw [if_neg hn]
        simp only [uux_run_uucico_st]

/-- C13 as stated fails: in `uux cat "(a!b)"` the argument as typed has
parentheses, and the execute file has no e line. -/
theorem C13_counterexample :
    has_shell_char "(a!b)" = true ∧
    (uux_split ["cat", "(a!b)"]) = ("cat", ["(a!b)"]) ∧
    (uux_main example_uxenv UxOpts.init UxState.init "cat" ["(a!b)"]).st.xqt_lines =
      ["U bob here", "C cat a!b"] := by
  decide

/-- C13, amended: the end of `main` adds to the execute file the C line and then
the lines of the options, and there is an e line among these exactly when the
command or one of the arguments as the C line carries them (the array after the
argument loop, without the entries set to NULL) has one of the characters of
`ZSHELLCHARS`. -/
theorem C13_e_line_iff_shell_char_in_C_line (env : UxEnv) (o : UxOpts)
    (sxqtsys : uuconf_system) (fxqtlocal : Bool)
    (zxqtname abxqt_tname abxqt_xname zcmd : String)
    (pzargs : List (Option String)) (st : UxState) :
    ∃ flags : List String,
      (uux_finish env o sxqtsys fxqtlocal zxqtname abxqt_tname abxqt_xname zcmd pzargs
        st).st.xqt_lines = st.xqt_lines ++ (uux_command_line zcmd pzargs).1 :: flags ∧
      ("e" ∈ flags ↔
        (has_shell_char zcmd = true ∨ ∃ a ∈ live_args pzargs, has_shell_char a = true)) := by
  refine ⟨uux_flag_text o (uux_command_line zcmd pzargs).2,
    uux_finish_xqt_lines env o sxqtsys fxqtlocal zxqtname abxqt_tname abxqt_xname zcmd
      pzargs st, ?_⟩
  rw [uux_flag_text_e]
  simp [uux_command_line]

/-- C13, amended, at `uux cat "a;b"`: the C line carries `a`, `;`, `b`, and the
execute file has the e line. -/
theorem C13_e_line_iff_shell_char_in_C_line_witness :
    ∃ flags : List String,
      (uux_finish example_uxenv UxOpts.init (example_system "here") true "X.hereN0000" "" ""
        "cat" [some "a", some ";", some "b"] UxState.init).st.xqt_lines =
        UxState.init.xqt_lines ++ "C cat a ; b" :: flags ∧ "e" ∈ flags := by
  obtain ⟨flags, h1, h2⟩ := C13_e_line_iff_shell_char_in_C_line example_uxenv UxOpts.init
    (example_system "here") true "X.hereN0000" "" "" "cat" [some "a", some ";", some "b"]
    UxState.init
  exact ⟨flags, h1, h2.mpr (Or.inr ⟨";", by decide, by decide⟩)⟩

/-! ## A local file that is sent from where it is -/

/-- C14 as stated fails: in `uux peerA!cat !/tmp/f` the S command for the file
has the name of the data file on the peer as destination; `D.0` is its
temporary file name. -/
theorem C14_counterexample :
    (uux_main example_uxenv UxOpts.init UxState.init "peerA!cat" ["!/tmp/f"]).st.queued.map
        (fun q => q.2.2.map (fun s => (s.bcmd, s.zfrom, s.zto, s.zoptions, s.ztemp))) =
      [[('S', "/tmp/f", "D.hereN0001", "c", "D.0"),
        ('S', "D.peerAX0000", "X.hereX0000", "C", "D.peerAX0000")]] ∧
    (uux_main example_uxenv UxOpts.init UxState.init "peerA!cat" ["!/tmp/f"]).st.xqt_lines =
      ["U bob here", "F D.hereN0001 /tmp/f", "C cat /tmp/f"] := by
  decide

/-! ## A file that is already on the execution system -/

/-- The lines of the options change the execute file only. -/
theorem uux_flag_lines_frame (o : UxOpts) (fneedshell : Bool) (st : UxState) :
    uux_flag_lines o fneedshell st =
      { st with xqt_lines := st.xqt_lines ++ uux_flag_text o fneedshell } := by
  unfold uux_flag_lines uux_flag_text
  cases fneedshell <;> cases o.fno_ack <;> cases o.ferror_ack <;> cases o.fretstdin <;>
    cases o.zrequestor <;> cases o.zstatus_file <;>
    simp only [Bool.false_eq_true, if_false, if_true, uxadd_xqt_line, List.append_assoc,
      List.singleton_append, List.append_nil, List.nil_append, List.cons_append] <;> rfl

/-- No line of the options starts with `F`. -/
theorem uux_flag_text_no_F (o : UxOpts) (fneedshell : Bool) :
    ∀ l ∈ uux_flag_text o fneedshell, l.data.head? ≠ some 'F' := by
  intro l hl
  unfold uux_flag_text at hl
  simp only [List.mem_append] at hl
  rcases hl with ((((hl | hl) | hl) | hl) | hl) | hl
  · split at hl
    · simp only [List.mem_singleton] at hl; subst hl; decide
    · cases hl
  · split at hl
    · simp only [List.mem_singleton] at hl; subst hl; decide
    · cases hl
  · split at hl
    · simp only [List.mem_singleton] at hl; subst hl
      simp [String.data_append]
    · cases hl
  · split at hl
    · simp only [List.mem_singleton] at hl; subst hl; decide
    · cases hl
  · split at hl
    · simp only [List.mem_singleton] at hl; subst hl
      simp [String.data_append]
    · cases hl
  · split at hl
    · simp only [List.mem_singleton] at hl; subst hl; decide
    · cases hl

/-- The loop on a word that is no parenthesized word and no redirection. -/
theorem uxargs_cons_ok (env : UxEnv) (o : UxOpts) (sxqtsys : uuconf_system)
    (zxqtloc : String) (fxqtlocal : Bool) (a : String) (post : List String) (st st1 : UxState)
    (r : Option String)
    (h1 : a.data.head? ≠ some '(') (h2 : a.data.head? ≠ some '<')
    (h3 : a.data.head? ≠ some '>')
    (hx : uxarg env o sxqtsys zxqtloc fxqtlocal st a false false = Except.ok (st1, r)) :
    uxargs env o sxqtsys zxqtloc fxqtlocal (a :: post) st =
      match uxargs env o sxqtsys zxqtloc fxqtlocal post st1 with
      | Except.error e => Except.error e
      | Except.ok (st2, rs) => Except.ok (st2, r :: rs) := by
  cases post with
  | nil => simp only [uxargs, h1, if_false, hx]
  | cons b t =>
    simp only [uxargs, h1, h2, h3, or_self, if_false, hx]

/-- The loop on `<` and the word after it. -/
theorem uxargs_input_ok (env : UxEnv) (o : UxOpts) (sxqtsys : uuconf_system)
    (zxqtloc : String) (fxqtlocal : Bool) (a b : String) (post : List String)
    (st st1 : UxState) (r : Option String) (ha : a.data.head? = some '<')
    (hx : uxarg env o sxqtsys zxqtloc fxqtlocal st b true false = Except.ok (st1, r)) :
    uxargs env o sxqtsys zxqtloc fxqtlocal (a :: b :: post) st =
      match uxargs env o sxqtsys zxqtloc fxqtlocal post st1 with
      | Except.error e => Except.error e
      | Except.ok (st2, rs) => Except.ok (st2, none :: r :: rs) := by
  have h1 : ¬ a.data.head? = some '(' := by rw [ha]; decide
  have h3 : decide (a.data.head? = some '>') = false := by rw [ha]; decide
  have h2 : decide (a.data.head? = some '<') = true := by rw [ha]; decide
  rw [uxargs, if_neg h1, if_pos (Or.inl ha), h2, h3, hx]

/-- The loop leaves a list of plain words as it is. -/
theorem uxargs_plain (env : UxEnv) (o : UxOpts) (sxqtsys : uuconf_system)
    (zxqtloc : String) (fxqtlocal : Bool) (post : List String) (st : UxState)
    (hpost : ∀ a ∈ post, plain_word a = true) :
    uxargs env o sxqtsys zxqtloc fxqtlocal post st = Except.ok (st, post.map some) := by
  have h := uxargs_plain_append env o sxqtsys zxqtloc fxqtlocal post [] st hpost
  simp only [List.append_nil, uxargs] at h
  exact h

/-- An argument that names a file on the execution system. -/
theorem uxarg_on_xqt_system (env : UxEnv) (o : UxOpts) (sxqtsys : uuconf_system)
    (zxqtloc : String) (fxqtlocal : Bool) (st : UxState) (arg : String) (finput : Bool)
    (zsystem zfile0 zfile : String)
    (harg : uxarg_system env arg = (zsystem, zfile0, false))
    (hexp : (if o.fexpand then env.zsysdep_add_cwd zfile0 else some zfile0) = some zfile)
    (hin : ¬ (finput = true ∧ o.fread_stdin = true))
    (hsame : sxqtsys.uuconf_zname = zsystem ∨
      ∃ sfromsys, uxarg_from_system env st zsystem = Except.ok sfromsys ∧
        sfromsys.uuconf_zname = sxqtsys.uuconf_zname) :
    uxarg env o sxqtsys zxqtloc fxqtlocal st arg finput false =
      Except.ok (if finput then (uxadd_xqt_line st 'I' (some zfile) none, none)
        else (st, some zfile)) := by
  have hsplit := uxarg_system_remote env arg zsystem zfile0 harg
  have hin2 : (finput && o.fread_stdin) = false := by
    cases finput <;> cases hr : o.fread_stdin <;> simp_all
  by_cases hn : sxqtsys.uuconf_zname = zsystem
  · unfold uxarg
    simp only [hsplit, harg, Bool.false_and, Bool.false_eq_true, if_false, hexp, hin2, hn,
      if_true]
    cases finput <;> rfl
  · rcases hsame with h | ⟨sfromsys, hf, hz⟩
    · exact absurd h hn
    · rw [uxarg_third_system env o sxqtsys zxqtloc fxqtlocal st arg finput zsystem zfile0 zfile
        harg hexp hin hn]
      unfold uxarg_remote
      simp only [hf, hz, if_true]
      cases finput <;> rfl

theorem note_call_queued (st : UxState) (z : String) :
    (note_call st z).queued = st.queued := by
  unfold note_call
  split <;> rfl

theorem uux_run_uucico_exit (env : UxEnv) (o : UxOpts) (st : UxState) :
    ∃ b, (uux_run_uucico env o st).exit = UxExit.finished b := by
  unfold uux_run_uucico
  split
  · exact ⟨_, rfl⟩
  · split
    · exact ⟨_, rfl⟩
    · split
      · exact ⟨_, rfl⟩
      · exact ⟨_, rfl⟩

/-- The end of `main` for remote execution when nothing fails: the commands
collected and the one that sends the execute file are queued for the execution
system. -/
theorem uux_finish_remote (env : UxEnv) (o : UxOpts) (sxqtsys : uuconf_system)
    (zxqtname abxqt_tname abxqt_xname zcmd : String) (pzargs : List (Option String))
    (st : UxState) (job : String × String)
    (hclose : env.fclose_ok zxqtname = true) (hsig : env.fgot_signal = false)
    (hspool : env.zsysdep_spool_commands sxqtsys o.bgrade
      (st.pasXcmds ++
        [{ bcmd := 'S', zfrom := abxqt_tname, zto := abxqt_xname,
           zuser := env.zsysdep_login_name, zoptions := "C", ztemp := abxqt_tname,
           imode := 0o666, znotify := "", cbytes := -1 }]) st.cnames = some job) :
    (∃ b, (uux_finish env o sxqtsys false zxqtname abxqt_tname abxqt_xname zcmd pzargs
      st).exit = UxExit.finished b) ∧
    (uux_finish env o sxqtsys false zxqtname abxqt_tname abxqt_xname zcmd pzargs
      st).st.queued = st.queued ++ [(sxqtsys.uuconf_zname, o.bgrade, st.pasXcmds ++
        [{ bcmd := 'S', zfrom := abxqt_tname, zto := abxqt_xname,
           zuser := env.zsysdep_login_name, zoptions := "C", ztemp := abxqt_tname,
           imode := 0o666, znotify := "", cbytes := -1 }])] := by
  obtain ⟨zjobid, zcfile⟩ := job
  have hpos : 0 < st.pasXcmds.length + 1 := Nat.succ_pos _
  unfold uux_finish
  simp only [uux_flag_lines_frame, hclose, hsig, Bool.not_true, Bool.not_false,
    Bool.false_eq_true, if_false, if_true, uxadd_send_file, List.length_append,
    List.length_singleton, gt_iff_lt, hpos, hspool, UxState.named]
  refine ⟨uux_run_uucico_exit env o _, ?_⟩
  rw [uux_run_uucico_st]
  simp only [note_call_queued]

theorem head_of_append (a b : String) (c : Char) (h : a.data.head? = some c) :
    (a ++ b).data.head? = some c := by
  rw [String.data_append]
  cases hd : a.data with
  | nil => rw [hd] at h; cases h
  | cons x t => rw [hd] at h; exact h

/-- C15 as stated fails: in `uux -p peerA!cat peerA!/tmp/f` the only file
argument is on the execution system, yet the execute file has an F line (for
the copy of standard input) and two S commands are queued. -/
theorem C15_counterexample :
    (uux_main example_uxenv { UxOpts.init with fread_stdin := true } UxState.init
        "peerA!cat" ["peerA!/tmp/f"]).st.xqt_lines =
      ["U bob here", "F D.hereN0001", "I D.hereN0001", "C cat /tmp/f"] ∧
    (uux_main example_uxenv { UxOpts.init with fread_stdin := true } UxState.init
        "peerA!cat" ["peerA!/tmp/f"]).st.queued.map
        (fun q => q.2.2.map (fun s => (s.bcmd, s.zfrom, s.zto, s.zoptions))) =
      [[('S', "D.peerAN0001", "D.hereN0001", "C"),
        ('S', "D.peerAX0000", "X.hereX0000", "C")]] := by
  decide

/-- C15, amended: let uux run without `-p` for a command on a remote system
P, let the words of the command line be plain words and one argument `arg`
(alone, or as the word after `<`) that names a file on P (by the name of P, or
by a name whose system information has the name of P), and let nothing fail
(the names are made, the execute file is written, no signal, the work is
queued).  Then the run goes to its end; the lines added to the execute file are
the U line, for `<` the line `I zfile`, the C line, which carries `zfile` at the
place of `arg` when it stood alone, and the lines of the options; none of them
is an F line; and the work queued is one command file for P with one command:
the S command for the execute file, with source `abxqt_tname`, destination
`abxqt_xname`, options "C".  Here `zfile` is the file part of `arg`, made
absolute by `zsysdep_add_cwd` unless `-W` was given. -/
theorem C15_file_on_execution_system (env : UxEnv) (o : UxOpts) (st : UxState)
    (zcmd arg zsystem zfile0 zfile : String) (pre post : List String) (finput : Bool)
    (sxqtsys : uuconf_system) (names : String × String × String × String)
    (job : String × String)
    (hremote : (uux_exec_system env zcmd).2.2 = false)
    (hxsys : uux_xqt_system env st (uux_exec_system env zcmd).1 false = Except.ok sxqtsys)
    (hname : env.zsysdep_data_file_name sxqtsys
      (sxqtsys.uuconf_zlocalname.getD env.zlocalname) 'X' st.cnames = some names)
    (hopen : env.esysdep_fopen names.1 = true)
    (hcmds : st.pasXcmds = [])
    (hnop : o.fread_stdin = false)
    (hpre : ∀ a ∈ pre, plain_word a = true) (hpost : ∀ a ∈ post, plain_word a = true)
    (hhead : finput = false → arg.data.head? ≠ some '(' ∧ arg.data.head? ≠ some '<' ∧
      arg.data.head? ≠ some '>')
    (harg : uxarg_system env arg = (zsystem, zfile0, false))
    (hexp : (if o.fexpand then env.zsysdep_add_cwd zfile0 else some zfile0) = some zfile)
    (hsame : sxqtsys.uuconf_zname = zsystem ∨
      ∃ sfromsys, (env.uuconf_system_info zsystem = uuconf_info.UUCONF_SUCCESS sfromsys ∨
        (env.uuconf_system_info zsystem = uuconf_info.UUCONF_NOT_FOUND ∧
          env.funknown_system zsystem = some sfromsys)) ∧
        sfromsys.uuconf_zname = sxqtsys.uuconf_zname)
    (hclose : env.fclose_ok names.1 = true) (hsig : env.fgot_signal = false)
    (hspool : env.zsysdep_spool_commands sxqtsys o.bgrade
      [{ bcmd := 'S', zfrom := names.2.1, zto := names.2.2.2,
         zuser := env.zsysdep_login_name, zoptions := "C", ztemp := names.2.1,
         imode := 0o666, znotify := "", cbytes := -1 }] (st.cnames + 1) = some job) :
    (∃ b, (uux_main env o st zcmd
        (pre ++ (if finput then ["<", arg] else [arg]) ++ post)).exit = UxExit.finished b) ∧
    (∃ cline : String,
      (uux_main env o st zcmd
        (pre ++ (if finput then ["<", arg] else [arg]) ++ post)).st.xqt_lines =
      st.xqt_lines ++
        (["U " ++ env.zsysdep_login_name ++ " " ++
            sxqtsys.uuconf_zlocalname.getD env.zlocalname] ++
          (if finput then ["I " ++ zfile] else []) ++
          [cline] ++ uux_flag_text o (has_shell_char (uux_exec_system env zcmd).2.1 ||
            (pre ++ (if finput then [] else [zfile]) ++ post).any has_shell_char)) ∧
      cline = String.join ("C " :: (uux_exec_system env zcmd).2.1 ::
        (pre ++ (if finput then [] else [zfile]) ++ post).map (fun a => " " ++ a))) ∧
    (∀ l ∈ (uux_main env o st zcmd
        (pre ++ (if finput then ["<", arg] else [arg]) ++ post)).st.xqt_lines.drop
          st.xqt_lines.length, l.data.head? ≠ some 'F') ∧
    (uux_main env o st zcmd
        (pre ++ (if finput then ["<", arg] else [arg]) ++ post)).st.queued =
      st.queued ++ [(sxqtsys.uuconf_zname, o.bgrade,
        [{ bcmd := 'S', zfrom := names.2.1, zto := names.2.2.2,
           zuser := env.zsysdep_login_name, zoptions := "C", ztemp := names.2.1,
           imode := 0o666, znotify := "", cbytes := -1 }])] := by
  obtain ⟨zxqtname, abt, abd, abx⟩ := names
  simp only at hname hopen hclose hspool
  have hx : ∀ s : UxState,
      uxarg env o sxqtsys (sxqtsys.uuconf_zlocalname.getD env.zlocalname) false s arg finput
        false =
      Except.ok (if finput then (uxadd_xqt_line s 'I' (some zfile) none, none)
        else (s, some zfile)) := by
    intro s
    refine uxarg_on_xqt_system env o sxqtsys _ false s arg finput zsystem zfile0 zfile harg hexp
      (by simp [hnop]) ?_
    rcases hsame with h | ⟨sfromsys, hk, hz⟩
    · exact Or.inl h
    · exact Or.inr ⟨sfromsys, uxarg_from_system_known env s zsystem sfromsys hk, hz⟩
  have hloop : ∀ s : UxState,
      uxargs env o sxqtsys (sxqtsys.uuconf_zlocalname.getD env.zlocalname) false
        (pre ++ (if finput then ["<", arg] else [arg]) ++ post) s =
      Except.ok
        (if finput then uxadd_xqt_line s 'I' (some zfile) none else s,
         pre.map some ++ (if finput then [none, none] else [some zfile]) ++ post.map some) := by
    intro s
    rw [List.append_assoc, uxargs_plain_append env o sxqtsys _ false pre _ s hpre]
    cases finput with
    | true =>
      have h1 := hx s
      simp only [if_true] at h1 ⊢
      rw [show ["<", arg] ++ post = "<" :: arg :: post from rfl,
        uxargs_input_ok env o sxqtsys _ false "<" arg post s _ _ rfl h1,
        uxargs_plain env o sxqtsys _ false post _ hpost]
      simp
    | false =>
      have h1 := hx s
      obtain ⟨g1, g2, g3⟩ := hhead rfl
      simp only [Bool.false_eq_true, if_false] at h1 ⊢
      rw [show [arg] ++ post = arg :: post from rfl,
        uxargs_cons_ok env o sxqtsys _ false arg post s _ _ g1 g2 g3 h1,
        uxargs_plain env o sxqtsys _ false post _ hpost]
      simp
  have hmain : uux_main env o st zcmd (pre ++ (if finput then ["<", arg] else [arg]) ++ post) =
      uux_finish env o sxqtsys false zxqtname abt abx (uux_exec_system env zcmd).2.1
        (pre.map some ++ (if finput then [none, none] else [some zfile]) ++ post.map some)
        (if finput then
          uxadd_xqt_line
            (uxadd_xqt_line
              (uxrecord_file { st.named with files := st.files ++ [zxqtname] } zxqtname) 'U'
              (some env.zsysdep_login_name)
              (some (sxqtsys.uuconf_zlocalname.getD env.zlocalname))) 'I' (some zfile) none
         else
           uxadd_xqt_line
             (uxrecord_file { st.named with files := st.files ++ [zxqtname] } zxqtname) 'U'
             (some env.zsysdep_login_name)
             (some (sxqtsys.uuconf_zlocalname.getD env.zlocalname))) := by
    unfold uux_main
    simp only [hremote, hxsys, Bool.false_eq_true, if_false, hname, Option.map_some',
      hopen, Bool.not_true, hloop, uux_stdin, hnop, Bool.not_false, if_true]
  rw [hmain]
  have hlive : live_args
      (pre.map some ++ (if finput then [none, none] else [some zfile]) ++ post.map some) =
      pre ++ (if finput then [] else [zfile]) ++ post := by
    cases finput <;> simp [live_args, List.filterMap_append]
  have hlines := uux_finish_xqt_lines env o sxqtsys false zxqtname abt abx
    (uux_exec_system env zcmd).2.1
    (pre.map some ++ (if finput then [none, none] else [some zfile]) ++ post.map some)
  have hfin := fun s hs => uux_finish_remote env o sxqtsys zxqtname abt abx
    (uux_exec_system env zcmd).2.1
    (pre.map some ++ (if finput then [none, none] else [some zfile]) ++ post.map some)
    s job hclose hsig hs
  have hU : ∀ a b : String, String.singleton 'U' ++ " " ++ a ++ " " ++ b = "U " ++ a ++ " " ++ b :=
    fun a b => rfl
  have hI : ∀ a : String, String.singleton 'I' ++ " " ++ a = "I " ++ a := fun a => rfl
  have hl2 : ∀ s : UxState, s.xqt_lines = st.xqt_lines ++
      (["U " ++ env.zsysdep_login_name ++ " " ++
            sxqtsys.uuconf_zlocalname.getD env.zlocalname] ++
          (if finput then ["I " ++ zfile] else [])) →
      (uux_finish env o sxqtsys false zxqtname abt abx (uux_exec_system env zcmd).2.1
        (pre.map some ++ (if finput then [none, none] else [some zfile]) ++ post.map some)
        s).st.xqt_lines =
      st.xqt_lines ++
        (["U " ++ env.zsysdep_login_name ++ " " ++
            sxqtsys.uuconf_zlocalname.getD env.zlocalname] ++
          (if finput then ["I " ++ zfile] else []) ++
          [String.join ("C " :: (uux_exec_system env zcmd).2.1 ::
            (pre ++ (if finput then [] else [zfile]) ++ post).map (fun a => " " ++ a))] ++
          uux_flag_text o (has_shell_char (uux_exec_system env zcmd).2.1 ||
            (pre ++ (if finput then [] else [zfile]) ++ post).any has_shell_char)) := by
    intro s hs
    rw [hlines s, hs]
    simp only [uux_command_line]
    rw [hlive]
    simp only [List.append_assoc, List.singleton_append, List.cons_append, List.nil_append]
  have hstate : (if finput then
          uxadd_xqt_line
            (uxadd_xqt_line
              (uxrecord_file { st.named with files := st.files ++ [zxqtname] } zxqtname) 'U'
              (some env.zsysdep_login_name)
              (some (sxqtsys.uuconf_zlocalname.getD env.zlocalname))) 'I' (some zfile) none
         else
           uxadd_xqt_line
             (uxrecord_file { st.named with files := st.files ++ [zxqtname] } zxqtname) 'U'
             (some env.zsysdep_login_name)
             (some (sxqtsys.uuconf_zlocalname.getD env.zlocalname))).xqt_lines =
      st.xqt_lines ++
      (["U " ++ env.zsysdep_login_name ++ " " ++
            sxqtsys.uuconf_zlocalname.getD env.zlocalname] ++
          (if finput then ["I " ++ zfile] else [])) := by
    cases finput
    · simp only [Bool.false_eq_true, if_false, uxadd_xqt_line, uxrecord_file, UxState.named,
        hU, List.append_nil]
    · simp only [if_true, uxadd_xqt_line, uxrecord_file, UxState.named, hU, hI,
        List.append_assoc, List.singleton_append]
  have hq : ∀ (s : UxState), s.pasXcmds = [] → s.cnames = st.cnames + 1 →
      s.queued = st.queued →
      (∃ b, (uux_finish env o sxqtsys false zxqtname abt abx (uux_exec_system env zcmd).2.1
        (pre.map some ++ (if finput then [none, none] else [some zfile]) ++ post.map some)
        s).exit = UxExit.finished b) ∧
      (uux_finish env o sxqtsys false zxqtname abt abx (uux_exec_system env zcmd).2.1
        (pre.map some ++ (if finput then [none, none] else [some zfile]) ++ post.map some)
        s).st.queued = st.queued ++ [(sxqtsys.uuconf_zname, o.bgrade,
        [{ bcmd := 'S', zfrom := abt, zto := abx,
           zuser := env.zsysdep_login_name, zoptions := "C", ztemp := abt,
           imode := 0o666, znotify := "", cbytes := -1 }])] := by
    intro s h1 h2 h3
    have := hfin s (by rw [h1, h2]; exact hspool)
    rw [h1, h3] at this
    exact this
  have hfields : ∀ b : Bool, ((if b then
          uxadd_xqt_line
            (uxadd_xqt_line
              (uxrecord_file { st.named with files := st.files ++ [zxqtname] } zxqtname) 'U'
              (some env.zsysdep_login_name)
              (some (sxqtsys.uuconf_zlocalname.getD env.zlocalname))) 'I' (some zfile) none
         else
           uxadd_xqt_line
             (uxrecord_file { st.named with files := st.files ++ [zxqtname] } zxqtname) 'U'
             (some env.zsysdep_login_name)
             (some (sxqtsys.uuconf_zlocalname.getD env.zlocalname))).pasXcmds = [] ∧
      (if b then
          uxadd_xqt_line
            (uxadd_xqt_line
              (uxrecord_file { st.named with files := st.files ++ [zxqtname] } zxqtname) 'U'
              (some env.zsysdep_login_name)
              (some (sxqtsys.uuconf_zlocalname.getD env.zlocalname))) 'I' (some zfile) none
         else
           uxadd_xqt_line
             (uxrecord_file { st.named with files := st.files ++ [zxqtname] } zxqtname) 'U'
             (some env.zsysdep_login_name)
             (some (sxqtsys.uuconf_zlocalname.getD env.zlocalname))).cnames = st.cnames + 1 ∧
      (if b then
          uxadd_xqt_line
            (uxadd_xqt_line
              (uxrecord_file { st.named with files := st.files ++ [zxqtname] } zxqtname) 'U'
              (some env.zsysdep_login_name)
              (some (sxqtsys.uuconf_zlocalname.getD env.zlocalname))) 'I' (some zfile) none
         else
           uxadd_xqt_line
             (uxrecord_file { st.named with files := st.files ++ [zxqtname] } zxqtname) 'U'
             (some env.zsysdep_login_name)
             (some (sxqtsys.uuconf_zlocalname.getD env.zlocalname))).queued = st.queued) := by
    intro b
    cases b <;> exact ⟨hcmds, rfl, rfl⟩
  obtain ⟨f1, f2, f3⟩ := hfields finput
  have hres := hq _ f1 f2 f3
  have hl := hl2 _ hstate
  refine ⟨hres.1, ⟨_, hl, rfl⟩, ?_, hres.2⟩
  rw [hl, List.drop_left]
  intro l hl
  simp only [List.mem_append, List.mem_singleton] at hl
  rcases hl with ((hl | hl) | hl) | hl
  · subst hl
    rw [String.append_assoc, String.append_assoc]
    exact fun h => by
      have := head_of_append "U " (env.zsysdep_login_name ++
        (" " ++ sxqtsys.uuconf_zlocalname.getD env.zlocalname)) 'U' rfl
      rw [this] at h
      cases h
  · cases finput
    · simp at hl
    · simp only [if_true, List.mem_singleton] at hl
      subst hl
      intro h
      rw [head_of_append "I " zfile 'I' rfl] at h
      cases h
  · subst hl
    intro h
    rw [String.data_join] at h
    simp at h
  · exact uux_flag_text_no_F o _ l hl

/-- C15, amended, at `uux peerA!cat -n peerA!/tmp/f`: one command file for
`peerA` with the S command for the execute file. -/
theorem C15_file_on_execution_system_witness :
    (uux_main example_uxenv UxOpts.init UxState.init "peerA!cat"
        (["-n"] ++ (if false then ["<", "peerA!/tmp/f"] else ["peerA!/tmp/f"]) ++ [])).st.queued =
      UxState.init.queued ++ [((example_system "peerA").uuconf_zname, UxOpts.init.bgrade,
        [{ bcmd := 'S', zfrom := "D.peerAX0000", zto := "X.hereX0000",
           zuser := example_uxenv.zsysdep_login_name, zoptions := "C", ztemp := "D.peerAX0000",
           imode := 0o666, znotify := "", cbytes := -1 }])] :=
  (C15_file_on_execution_system example_uxenv UxOpts.init UxState.init "peerA!cat"
    "peerA!/tmp/f" "peerA" "/tmp/f" "/tmp/f" ["-n"] [] false (example_system "peerA")
    ("/spool/peerA/D.0", "D.peerAX0000", "D.hereX0000", "X.hereX0000")
    ("peerAN0001", "C.peerAN0001")
    (by decide) rfl (by decide) (by decide) rfl rfl (by decide) (by decide)
    (fun _ => by decide) (by decide) (by decide) (Or.inl (by decide)) (by decide) (by decide)
    (by decide)).2.2.2

/-! ## Which uucico is started -/

theorem callInv_frame (q0 : List (String × Char × List scmd)) (s s1 : UxState)
    (h : callf s1 = callf s) (hs : CallInv q0 s) : CallInv q0 s1 := by
  obtain ⟨added, h1, h2⟩ := hs
  simp only [callf, Prod.mk.injEq] at h
  refine ⟨added, by rw [h.1, h1], ?_⟩
  rw [h.2.1, h.2.2]
  exact h2

theorem callInv_note_call (q0 : List (String × Char × List scmd)) (s s1 : UxState)
    (z : String) (g : Char) (c : List scmd)
    (hq : s1.queued = s.queued ++ [(z, g, c)])
    (hf : s1.fcall_any = s.fcall_any) (hs : CallInv q0 s) :
    CallInv q0 (note_call s1 z) := by
  obtain ⟨added, h1, h2⟩ := hs
  refine ⟨added ++ [(z, g, c)], ?_, ?_⟩
  · rw [note_call_queued, hq, h1, List.append_assoc]
  · unfold note_call
    match added, h2 with
    | [], h2 =>
      simp only [call_state, Prod.mk.injEq] at h2
      rw [hf, h2.2]
      rfl
    | [e], h2 =>
      simp only [call_state, Prod.mk.injEq] at h2
      rw [hf, h2.2]
      rfl
    | e1 :: e2 :: t, h2 =>
      simp only [call_state, Prod.mk.injEq] at h2
      rw [hf, h2.2]
      cases t <;> rfl

theorem uxarg_local_data_callf (env : UxEnv) (o : UxOpts) (sxqtsys : uuconf_system)
    (zxqtloc : String) (fxqtlocal : Bool) (st st1 : UxState) (zfile : String)
    (x : String × String × String)
    (h : uxarg_local_data env o sxqtsys zxqtloc fxqtlocal st zfile = Except.ok (st1, x)) :
    callf st1 = callf st := by
  unfold uxarg_local_data at h
  repeat' split at h
  all_goals first
    | (cases h; rfl)
    | (cases h)

theorem uxarg_local_callf (env : UxEnv) (o : UxOpts) (sxqtsys : uuconf_system)
    (zxqtloc : String) (fxqtlocal : Bool) (st st1 : UxState) (zfile : String)
    (finput : Bool) (r : Option String)
    (h : uxarg_local env o sxqtsys zxqtloc fxqtlocal st zfile finput = Except.ok (st1, r)) :
    callf st1 = callf st := by
  unfold uxarg_local at h
  split at h
  · cases h
  · split at h
    · cases h
    · rename_i s1 zuse abtname abdname hd
      have hc := uxarg_local_data_callf env o sxqtsys zxqtloc fxqtlocal st s1 zfile _ hd
      repeat' split at h
      all_goals first
        | (cases h; exact hc)
        | (cases h)

theorem uxarg_remote_callInv (env : UxEnv) (o : UxOpts) (sxqtsys : uuconf_system)
    (zxqtloc : String) (fxqtlocal : Bool) (st st1 : UxState) (zsystem zfile : String)
    (finput : Bool) (r : Option String) (q0 : List (String × Char × List scmd))
    (h : uxarg_remote env o sxqtsys zxqtloc fxqtlocal st zsystem zfile finput =
      Except.ok (st1, r))
    (hs : CallInv q0 st) : CallInv q0 st1 := by
  unfold uxarg_remote at h
  split at h
  · cases h
  · rename_i sfromsys hfrom
    split at h
    · split at h
      · cases h
        exact callInv_frame q0 st _ rfl hs
      · cases h
        exact hs
    · split at h
      · cases h
      · split at h
        · cases h
        · rename_i zdata abtname x1 x2 hname
          simp only at h
          split at h
          · cases h
          · rename_i zjobid zcfile hjob
            have hn := callInv_note_call q0 st
              { st.named.named with
                files := st.named.files ++ [zcfile],
                queued := st.named.queued ++
                  [(sfromsys.uuconf_zname, o.bgrade, [request_cmd env zfile abtname])],
                printed := if o.fjobid then st.named.printed ++ [zjobid]
                  else st.named.printed }
              sfromsys.uuconf_zname o.bgrade [request_cmd env zfile abtname] rfl rfl hs
            split at h
            · cases h
              exact callInv_frame q0 _ _ rfl hn
            · split at h
              · cases h
              · cases h
                exact callInv_frame q0 _ _ rfl hn

theorem uxarg_callInv (env : UxEnv) (o : UxOpts) (sxqtsys : uuconf_system)
    (zxqtloc : String) (fxqtlocal : Bool) (st st1 : UxState) (arg : String)
    (finput foutput : Bool) (r : Option String) (q0 : List (String × Char × List scmd))
    (h : uxarg env o sxqtsys zxqtloc fxqtlocal st arg finput foutput = Except.ok (st1, r))
    (hs : CallInv q0 st) : CallInv q0 st1 := by
  unfold uxarg at h
  split at h
  · cases h
    exact hs
  · simp only at h
    split at h
    · cases h
    · split at h
      · split at h
        · cases h
        · split at h
          · cases h
            exact callInv_frame q0 st _ rfl hs
          · cases h
            exact callInv_frame q0 st _ rfl hs
      · split at h
        · cases h
        · split at h
          · exact callInv_frame q0 st _
              (uxarg_local_callf env o sxqtsys zxqtloc fxqtlocal st st1 _ finput r h) hs
          · split at h
            · split at h
              · cases h
                exact callInv_frame q0 st _ rfl hs
              · cases h
                exact hs
            · exact uxarg_remote_callInv env o sxqtsys zxqtloc fxqtlocal st st1 _ _ finput r q0
                h hs

theorem uxarg_paren_callf (st : UxState) (a : String) :
    callf (uxarg_paren st a).1 = callf st := by
  unfold uxarg_paren
  split <;> rfl

theorem uxargs_callInv (env : UxEnv) (o : UxOpts) (sxqtsys : uuconf_system)
    (zxqtloc : String) (fxqtlocal : Bool) (q0 : List (String × Char × List scmd)) :
    ∀ (n : Nat) (l : List String) (st st1 : UxState) (rs : List (Option String)),
      l.length ≤ n →
      uxargs env o sxqtsys zxqtloc fxqtlocal l st = Except.ok (st1, rs) →
      CallInv q0 st → CallInv q0 st1 := by
  intro n
  induction n with
  | zero =>
    intro l st st1 rs hlen h hs
    have : l = [] := List.length_eq_zero.mp (Nat.le_zero.mp hlen)
    subst this
    rw [uxargs] at h
    cases h
    exact hs
  | succ n ih =>
    intro l st st1 rs hlen h hs
    match l, hlen, h with
    | [], _, h =>
      rw [uxargs] at h
      cases h
      exact hs
    | [a], _, h =>
      rw [uxargs] at h
      split at h
      · cases h
        exact callInv_frame q0 st _ (uxarg_paren_callf st a) hs
      · split at h
        · cases h
        · rename_i s1 x hx
          cases h
          exact uxarg_callInv env o sxqtsys zxqtloc fxqtlocal st _ a false false x q0 hx hs
    | a :: b :: t, hlen, h =>
      simp only [List.length_cons] at hlen
      rw [uxargs] at h
      split at h
      · split at h
        · cases h
        · rename_i s2 rs2 hrec
          cases h
          exact ih (b :: t) _ _ rs2 (by simp only [List.length_cons]; omega) hrec
            (callInv_frame q0 st _ (uxarg_paren_callf st a) hs)
      · split at h
        · split at h
          · cases h
          · rename_i s1 x hx
            split at h
            · cases h
            · rename_i s2 rs2 hrec
              cases h
              exact ih t _ _ rs2 (by omega) hrec
                (uxarg_callInv env o sxqtsys zxqtloc fxqtlocal st s1 b _ _ x q0 hx hs)
        · split at h
          · cases h
          · rename_i s1 x hx
            split at h
            · cases h
            · rename_i s2 rs2 hrec
              cases h
              exact ih (b :: t) _ _ rs2 (by simp only [List.length_cons]; omega) hrec
                (uxarg_callInv env o sxqtsys zxqtloc fxqtlocal st s1 a _ _ x q0 hx hs)

theorem uux_stdin_callf (env : UxEnv) (o : UxOpts) (sxqtsys : uuconf_system)
    (zxqtloc : String) (fxqtlocal : Bool) (st st1 : UxState)
    (h : uux_stdin env o sxqtsys zxqtloc fxqtlocal st = Except.ok st1) :
    callf st1 = callf st := by
  unfold uux_stdin at h
  repeat' split at h
  all_goals first
    | (cases h; rfl)
    | (cases h)

/-! ### A step that ends the run ends it through `uxabort` -/

theorem uxarg_local_data_aborts (env : UxEnv) (o : UxOpts) (sxqtsys : uuconf_system)
    (zxqtloc : String) (fxqtlocal : Bool) (st : UxState) (zfile : String) (e : UxFinal)
    (h : uxarg_local_data env o sxqtsys zxqtloc fxqtlocal st zfile = Except.error e) :
    e.exit = UxExit.aborted := by
  unfold uxarg_local_data at h
  repeat' split at h
  all_goals first
    | (cases h; rfl)
    | (cases h)

theorem uxarg_local_aborts (env : UxEnv) (o : UxOpts) (sxqtsys : uuconf_system)
    (zxqtloc : String) (fxqtlocal : Bool) (st : UxState) (zfile : String)
    (finput : Bool) (e : UxFinal)
    (h : uxarg_local env o sxqtsys zxqtloc fxqtlocal st zfile finput = Except.error e) :
    e.exit = UxExit.aborted := by
  unfold uxarg_local at h
  split at h
  · cases h
    rfl
  · split at h
    · rename_i e1 hd
      cases h
      exact uxarg_local_data_aborts env o sxqtsys zxqtloc fxqtlocal st zfile _ hd
    · repeat' split at h
      all_goals first
        | (cases h; rfl)
        | (cases h)

theorem uxarg_from_system_aborts (env : UxEnv) (st : UxState) (zsystem : String) (e : UxFinal)
    (h : uxarg_from_system env st zsystem = Except.error e) : e.exit = UxExit.aborted := by
  unfold uxarg_from_system at h
  repeat' split at h
  all_goals first
    | (cases h; rfl)
    | (cases h)

theorem uxarg_remote_aborts (env : UxEnv) (o : UxOpts) (sxqtsys : uuconf_system)
    (zxqtloc : String) (fxqtlocal : Bool) (st : UxState) (zsystem zfile : String)
    (finput : Bool) (e : UxFinal)
    (h : uxarg_remote env o sxqtsys zxqtloc fxqtlocal st zsystem zfile finput =
      Except.error e) : e.exit = UxExit.aborted := by
  unfold uxarg_remote at h
  split at h
  · rename_i e1 hd
    cases h
    exact uxarg_from_system_aborts env st zsystem _ hd
  · split at h
    · split at h <;> cases h
    · split at h
      · cases h
        rfl
      · split at h
        · cases h
          rfl
        · simp only at h
          split at h
          · cases h
            rfl
          · repeat' split at h
            all_goals first
              | (cases h; rfl)
              | (cases h)

theorem uxarg_aborts (env : UxEnv) (o : UxOpts) (sxqtsys : uuconf_system)
    (zxqtloc : String) (fxqtlocal : Bool) (st : UxState) (arg : String)
    (finput foutput : Bool) (e : UxFinal)
    (h : uxarg env o sxqtsys zxqtloc fxqtlocal st arg finput foutput = Except.error e) :
    e.exit = UxExit.aborted := by
  unfold uxarg at h
  split at h
  · cases h
  · simp only at h
    split at h
    · cases h
      rfl
    · split at h
      · repeat' split at h
        all_goals first
          | (cases h; rfl)
          | (cases h)
      · split at h
        · cases h
          rfl
        · split at h
          · exact uxarg_local_aborts env o sxqtsys zxqtloc fxqtlocal st _ finput e h
          · split at h
            · split at h <;> cases h
            · exact uxarg_remote_aborts env o sxqtsys zxqtloc fxqtlocal st _ _ finput e h

theorem uxargs_aborts (env : UxEnv) (o : UxOpts) (sxqtsys : uuconf_system)
    (zxqtloc : String) (fxqtlocal : Bool) :
    ∀ (n : Nat) (l : List String) (st : UxState) (e : UxFinal), l.length ≤ n →
      uxargs env o sxqtsys zxqtloc fxqtlocal l st = Except.error e →
      e.exit = UxExit.aborted := by
  intro n
  induction n with
  | zero =>
    intro l st e hlen h
    have : l = [] := List.length_eq_zero.mp (Nat.le_zero.mp hlen)
    subst this
    rw [uxargs] at h
    cases h
  | succ n ih =>
    intro l st e hlen h
    match l, hlen, h with
    | [], _, h =>
      rw [uxargs] at h
      cases h
    | [a], _, h =>
      rw [uxargs] at h
      split at h
      · cases h
      · split at h
        · rename_i e1 hx
          cases h
          exact uxarg_aborts env o sxqtsys zxqtloc fxqtlocal st a false false _ hx
        · cases h
    | a :: b :: t, hlen, h =>
      simp only [List.length_cons] at hlen
      rw [uxargs] at h
      split at h
      · split at h
        · rename_i e1 hrec
          cases h
          exact ih (b :: t) _ _ (by simp only [List.length_cons]; omega) hrec
        · cases h
      · split at h
        · split at h
          · rename_i e1 hx
            cases h
            exact uxarg_aborts env o sxqtsys zxqtloc fxqtlocal st b _ _ _ hx
          · split at h
            · rename_i e1 hrec
              cases h
              exact ih t _ _ (by omega) hrec
            · cases h
        · split at h
          · rename_i e1 hx
            cases h
            exact uxarg_aborts env o sxqtsys zxqtloc fxqtlocal st a _ _ _ hx
          · split at h
            · rename_i e1 hrec
              cases h
              exact ih (b :: t) _ _ (by simp only [List.length_cons]; omega) hrec
            · cases h

theorem uux_stdin_aborts (env : UxEnv) (o : UxOpts) (sxqtsys : uuconf_system)
    (zxqtloc : String) (fxqtlocal : Bool) (st : UxState) (e : UxFinal)
    (h : uux_stdin env o sxqtsys zxqtloc fxqtlocal st = Except.error e) :
    e.exit = UxExit.aborted := by
  unfold uux_stdin at h
  repeat' split at h
  all_goals first
    | (cases h; rfl)
    | (cases h)

theorem uux_xqt_system_aborts (env : UxEnv) (st : UxState) (zsys : String)
    (fxqtlocal : Bool) (e : UxFinal)
    (h : uux_xqt_system env st zsys fxqtlocal = Except.error e) :
    e.exit = UxExit.aborted := by
  unfold uux_xqt_system at h
  repeat' split at h
  all_goals first
    | (cases h; rfl)
    | (cases h)

/-! ### The end of `main` -/

theorem uux_run_uucico_args (env : UxEnv) (o : UxOpts) (s : UxState)
    (added : List (String × Char × List scmd))
    (h : (s.zcall_system, s.fcall_any) = call_state added) :
    (uux_run_uucico env o s).uucico = uucico_args o.fuucico added := by
  unfold uux_run_uucico uucico_args
  cases o.fuucico with
  | false => rfl
  | true =>
    match added, h with
    | [], h =>
      simp only [call_state, Prod.mk.injEq] at h
      simp only [Bool.not_true, Bool.false_eq_true, if_false, h.1, h.2, if_true]
    | [x], h =>
      simp only [call_state, Prod.mk.injEq] at h
      simp only [Bool.not_true, Bool.false_eq_true, if_false, h.1, if_true]
    | x :: y :: t, h =>
      simp only [call_state, Prod.mk.injEq] at h
      simp only [Bool.not_true, Bool.false_eq_true, if_false, h.1, h.2, if_true]

theorem uux_finish_uucico (env : UxEnv) (o : UxOpts) (sxqtsys : uuconf_system)
    (fxqtlocal : Bool) (zxqtname abxqt_tname abxqt_xname zcmd : String)
    (pzargs : List (Option String)) (st : UxState) (q0 : List (String × Char × List scmd))
    (hs : CallInv q0 st) (b : Bool)
    (hexit : (uux_finish env o sxqtsys fxqtlocal zxqtname abxqt_tname abxqt_xname zcmd pzargs
      st).exit = UxExit.finished b) :
    ∃ added,
      (uux_finish env o sxqtsys fxqtlocal zxqtname abxqt_tname abxqt_xname zcmd pzargs
        st).st.queued = q0 ++ added ∧
      (uux_finish env o sxqtsys fxqtlocal zxqtname abxqt_tname abxqt_xname zcmd pzargs
        st).uucico = uucico_args o.fuucico added := by
  unfold uux_finish at hexit ⊢
  simp only [uux_flag_lines_frame] at hexit ⊢
  split at hexit
  · cases hexit
  · rename_i hc
    rw [if_neg hc]
    split at hexit
    · cases hexit
    · rename_i hsig
      rw [if_neg hsig]
      have hs3 : CallInv q0 (if (! fxqtlocal) = true then
          uxadd_send_file env
            { st with xqt_lines := st.xqt_lines ++ [(uux_command_line zcmd pzargs).1] ++
                uux_flag_text o (uux_command_line zcmd pzargs).2 }
            abxqt_tname abxqt_xname "C" abxqt_tname
          else
            { st with xqt_lines := st.xqt_lines ++ [(uux_command_line zcmd pzargs).1] ++
                uux_flag_text o (uux_command_line zcmd pzargs).2 }) := by
        split
        · exact callInv_frame q0 st _ rfl hs
        · exact callInv_frame q0 st _ rfl hs
      generalize (if (! fxqtlocal) = true then
          uxadd_send_file env
            { st with xqt_lines := st.xqt_lines ++ [(uux_command_line zcmd pzargs).1] ++
                uux_flag_text o (uux_command_line zcmd pzargs).2 }
            abxqt_tname abxqt_xname "C" abxqt_tname
          else
            { st with xqt_lines := st.xqt_lines ++ [(uux_command_line zcmd pzargs).1] ++
                uux_flag_text o (uux_command_line zcmd pzargs).2 }) = st3 at hs3 hexit ⊢
      by_cases hn : st3.pasXcmds.length > 0
      · simp only [hn, if_true] at hexit ⊢
        cases hj : env.zsysdep_spool_commands sxqtsys o.bgrade st3.pasXcmds st3.cnames with
        | none =>
          rw [hj] at hexit
          cases hexit
        | some job =>
          simp only []
          have hn4 := callInv_note_call q0 st3
            { st3.named with
              files := st3.files ++ [job.2],
              queued := st3.queued ++ [(sxqtsys.uuconf_zname, o.bgrade, st3.pasXcmds)],
              printed := if o.fjobid then st3.printed ++ [job.1] else st3.printed }
            sxqtsys.uuconf_zname o.bgrade st3.pasXcmds rfl rfl hs3
          obtain ⟨added, h1, h2⟩ := hn4
          refine ⟨added, ?_, ?_⟩
          · rw [uux_run_uucico_st]
            exact h1
          · exact uux_run_uucico_args env o _ added h2
      · simp only [hn, if_false] at hexit ⊢
        obtain ⟨added, h1, h2⟩ := hs3
        refine ⟨added, ?_, ?_⟩
        · rw [uux_run_uucico_st]
          exact h1
        · exact uux_run_uucico_args env o _ added h2

/-- C16 as stated fails: `uux cat peerA!/a peerA!/b` queues two requests, both
for `peerA`, and starts uucico with `-r1`, not with `-s peerA`. -/
theorem C16_counterexample :
    (uux_main example_uxenv UxOpts.init UxState.init "cat" ["peerA!/a", "peerA!/b"]).exit =
      UxExit.finished true ∧
    (uux_main example_uxenv UxOpts.init UxState.init "cat"
      ["peerA!/a", "peerA!/b"]).st.queued.map (fun q => q.1) = ["peerA", "peerA"] ∧
    (uux_main example_uxenv UxOpts.init UxState.init "cat" ["peerA!/a", "peerA!/b"]).uucico =
      some ["uucico", "-r1"] := by
  decide

/-- C16, amended: at the end of a run of uux that goes to its end, started with
`zcall_system` NULL and `fcall_any` FALSE, the queue is the queue before the
run and the command files queued in the run, each for one system; without `-r`
uucico is started with `-s P` when exactly one command file was queued, for the
system P, with `-r1` when more than one command file was queued (also when
they are all for the same system), and not at all when none was queued; with
`-r` it is never started. -/
theorem C16_uucico_by_command_files_queued (env : UxEnv) (o : UxOpts) (st : UxState)
    (zcmd : String) (pzargs : List String) (b : Bool)
    (hz : st.zcall_system = none) (hf : st.fcall_any = false)
    (hexit : (uux_main env o st zcmd pzargs).exit = UxExit.finished b) :
    ∃ added : List (String × Char × List scmd),
      (uux_main env o st zcmd pzargs).st.queued = st.queued ++ added ∧
      (uux_main env o st zcmd pzargs).uucico = uucico_args o.fuucico added ∧
      (o.fuucico = false → (uux_main env o st zcmd pzargs).uucico = none) ∧
      (o.fuucico = true → added = [] → (uux_main env o st zcmd pzargs).uucico = none) ∧
      (o.fuucico = true → ∀ e, added = [e] →
        (uux_main env o st zcmd pzargs).uucico = some ["uucico", "-s", e.1]) ∧
      (o.fuucico = true → added.length > 1 →
        (uux_main env o st zcmd pzargs).uucico = some ["uucico", "-r1"]) := by
  have hkey : ∃ added : List (String × Char × List scmd),
      (uux_main env o st zcmd pzargs).st.queued = st.queued ++ added ∧
      (uux_main env o st zcmd pzargs).uucico = uucico_args o.fuucico added := by
    have hs0 : CallInv st.queued st := ⟨[], by simp, by rw [hz, hf]; rfl⟩
    unfold uux_main at hexit ⊢
    simp only at hexit ⊢
    cases hx : uux_xqt_system env st (uux_exec_system env zcmd).1
        (uux_exec_system env zcmd).2.2 with
    | error e =>
      rw [hx] at hexit
      simp only at hexit
      rw [uux_xqt_system_aborts env st _ _ e hx] at hexit
      cases hexit
    | ok sxqtsys =>
      rw [hx] at hexit
      simp only at hexit ⊢
      cases hn : (if (uux_exec_system env zcmd).2.2 = true then
          (env.zsysdep_xqt_file_name st.cnames).map (fun z => (z, "", ""))
        else
          (env.zsysdep_data_file_name sxqtsys
            (sxqtsys.uuconf_zlocalname.getD env.zlocalname) 'X' st.cnames).map
            (fun r => (r.1, r.2.1, r.2.2.2))) with
      | none =>
        rw [hn] at hexit
        cases hexit
      | some names =>
        obtain ⟨zxqtname, abt, abx⟩ := names
        rw [hn] at hexit
        simp only at hexit ⊢
        by_cases ho : (! env.esysdep_fopen zxqtname) = true
        · rw [if_pos ho] at hexit
          cases hexit
        · rw [if_neg ho] at hexit ⊢
          have hs2 : CallInv st.queued
              (uxadd_xqt_line
                (uxrecord_file { st.named with files := st.files ++ [zxqtname] } zxqtname) 'U'
                (some env.zsysdep_login_name)
                (some (sxqtsys.uuconf_zlocalname.getD env.zlocalname))) :=
            callInv_frame st.queued st _ rfl hs0
          generalize (uxadd_xqt_line
                (uxrecord_file { st.named with files := st.files ++ [zxqtname] } zxqtname) 'U'
                (some env.zsysdep_login_name)
                (some (sxqtsys.uuconf_zlocalname.getD env.zlocalname))) = st2 at hs2 hexit ⊢
          cases ha : uxargs env o sxqtsys (sxqtsys.uuconf_zlocalname.getD env.zlocalname)
              (uux_exec_system env zcmd).2.2 pzargs st2 with
          | error e =>
            rw [ha] at hexit
            simp only at hexit
            rw [uxargs_aborts env o sxqtsys _ _ pzargs.length pzargs st2 e (Nat.le_refl _) ha]
              at hexit
            cases hexit
          | ok r =>
            obtain ⟨st3, pzargs1⟩ := r
            rw [ha] at hexit
            simp only at hexit ⊢
            have hs3 := uxargs_callInv env o sxqtsys _ _ st.queued pzargs.length pzargs st2 st3
              pzargs1 (Nat.le_refl _) ha hs2
            cases hi : uux_stdin env o sxqtsys (sxqtsys.uuconf_zlocalname.getD env.zlocalname)
                (uux_exec_system env zcmd).2.2 st3 with
            | error e =>
              rw [hi] at hexit
              simp only at hexit
              rw [uux_stdin_aborts env o sxqtsys _ _ st3 e hi] at hexit
              cases hexit
            | ok st4 =>
              rw [hi] at hexit
              simp only at hexit ⊢
              exact uux_finish_uucico env o sxqtsys _ zxqtname abt abx _ pzargs1 st4 st.queued
                (callInv_frame st.queued st3 st4
                  (uux_stdin_callf env o sxqtsys _ _ st3 st4 hi) hs3) b hexit
  obtain ⟨added, h1, h2⟩ := hkey
  refine ⟨added, h1, h2, ?_, ?_, ?_, ?_⟩
  · intro hu
    rw [h2, hu]
    rfl
  · intro hu he
    rw [h2, hu, he]
    rfl
  · intro hu e he
    rw [h2, hu, he]
    rfl
  · intro hu hl
    rw [h2, hu]
    match added, hl with
    | [], hl => simp at hl
    | [x], hl => simp at hl
    | x :: y :: t, _ => rfl

/-- C16, amended, at `uux cat peerA!/a`: one request is queued, for `peerA`,
and uucico is started with `-s peerA`. -/
theorem C16_uucico_by_command_files_queued_witness :
    ∃ added : List (String × Char × List scmd),
      (uux_main example_uxenv UxOpts.init UxState.init "cat" ["peerA!/a"]).st.queued =
        UxState.init.queued ++ added ∧
      (uux_main example_uxenv UxOpts.init UxState.init "cat" ["peerA!/a"]).uucico =
        uucico_args UxOpts.init.fuucico added ∧
      (uux_main example_uxenv UxOpts.init UxState.init "cat" ["peerA!/a"]).uucico =
        some ["uucico", "-s", "peerA"] := by
  obtain ⟨added, h1, h2, _⟩ := C16_uucico_by_command_files_queued example_uxenv UxOpts.init
    UxState.init "cat" ["peerA!/a"] true rfl rfl (by decide)
  exact ⟨added, h1, h2, by decide⟩

/-! ## Reading back the execute file that uux wrote -/

theorem xqt_split_word (w : List Char) (hw : ∀ c ∈ w, c_isspace c = false) :
    ∀ (cur rest : List Char), xqt_split cur (w ++ rest) = xqt_split (cur ++ w) rest := by
  induction w with
  | nil => intro cur rest; simp
  | cons a t ih =>
    intro cur rest
    have ha := hw a (List.mem_cons_self _ _)
    rw [List.cons_append, xqt_split]
    simp only [ha, Bool.false_eq_true, if_false]
    rw [ih (fun c hc => hw c (List.mem_cons_of_mem _ hc))]
    simp

/-- The words of a word followed by a space and more text. -/
theorem xqt_split_word_space (w rest : List Char) (hne : w ≠ [])
    (hw : ∀ c ∈ w, c_isspace c = false) :
    xqt_split [] (w ++ ' ' :: rest) = String.mk w :: xqt_split [] rest := by
  rw [xqt_split_word w hw, List.nil_append, xqt_split]
  have : c_isspace ' ' = true := by decide
  simp only [this, if_true, hne, if_false]

/-- The words of a word at the end of the line. -/
theorem xqt_split_word_end (w : List Char) (hne : w ≠ [])
    (hw : ∀ c ∈ w, c_isspace c = false) :
    xqt_split [] w = [String.mk w] := by
  have := xqt_split_word w hw [] []
  rw [List.append_nil, List.nil_append] at this
  rw [this, xqt_split]
  simp only [hne, if_false]

/-- The words of fields joined by single spaces are the fields. -/
theorem xqt_split_fields : ∀ (l : List String), (∀ z ∈ l, is_word z) → l ≠ [] →
    xqt_split [] (" ".intercalate l).data = l := by
  intro l
  induction l with
  | nil => intro _ h; exact absurd rfl h
  | cons a t ih =>
    intro hw _
    have ha := hw a (List.mem_cons_self _ _)
    cases t with
    | nil =>
      simp only [String.intercalate, String.intercalate.go]
      rw [xqt_split_word_end a.data ha.1 ha.2]
    | cons b r =>
      have hrec := ih (fun z hz => hw z (List.mem_cons_of_mem _ hz)) (by simp)
      have hdata : (" ".intercalate (a :: b :: r)).data =
          a.data ++ ' ' :: (" ".intercalate (b :: r)).data := by
        simp only [String.intercalate, String.intercalate.go, intercalate_go_data,
          String.data_append, List.append_assoc]
        rfl
      rw [hdata, xqt_split_word_space a.data _ ha.1 ha.2, hrec]

theorem xqt_item_text_eq (i : Char × String × Option String) :
    xqt_item_text i = " ".intercalate (xqt_item_fields i) := by
  obtain ⟨c, a, z2⟩ := i
  cases z2 <;> rfl

theorem xqt_words_item (i : Char × String × Option String)
    (hc : c_isspace i.1 = false) (hw : item_words i) :
    xqt_words (xqt_item_text i) = xqt_item_fields i := by
  rw [xqt_item_text_eq, xqt_words]
  apply xqt_split_fields
  · obtain ⟨c, a, z2⟩ := i
    have hcw : is_word (String.singleton c) := by
      refine ⟨by simp [String.singleton], ?_⟩
      intro x hx
      have : x = c := by simpa [String.singleton] using hx
      rw [this]
      exact hc
    intro z hz
    cases z2 with
    | none =>
      simp only [xqt_item_fields, List.mem_cons, List.mem_singleton, List.mem_nil_iff,
        or_false] at hz
      rcases hz with h | h
      · rw [h]; exact hcw
      · rw [h]; exact hw.1
    | some b =>
      simp only [xqt_item_fields, List.mem_cons, List.mem_singleton, List.mem_nil_iff,
        or_false] at hz
      rcases hz with h | h | h
      · rw [h]; exact hcw
      · rw [h]; exact hw.1
      · rw [h]; exact hw.2 b rfl
  · obtain ⟨c, a, z2⟩ := i
    cases z2 <;> simp [xqt_item_fields]

/-- The C line is the command and the arguments joined by single spaces after `C`. -/
theorem uux_command_line_eq (zcmd : String) (pzargs : List (Option String)) :
    (uux_command_line zcmd pzargs).1 = " ".intercalate ("C" :: zcmd :: live_args pzargs) ∧
    (uux_command_line zcmd pzargs).1 = "C " ++ " ".intercalate (zcmd :: live_args pzargs) := by
  constructor
  · apply String.ext
    simp only [uux_command_line, String.data_join, String.intercalate, intercalate_go_data,
      List.map_cons, List.flatten_cons, List.map_map]
    simp [String.data_append, Function.comp_def]
  · apply String.ext
    simp only [uux_command_line, String.data_join, String.intercalate, intercalate_go_data,
      List.map_cons, List.flatten_cons, List.map_map, String.data_append]
    simp [String.data_append, Function.comp_def]

/-! ### What the handlers do with the fields -/

theorem tprocess_U (fsp : String → Bool) (zerr : String) (p : XqtParse) (user sys : String) :
    tprocess_one_cmd (asQcmds fsp zerr) zerr p ["U", user, sys] =
      ({ p.1 with zQuser := some user, zQsystem := some sys }, p.2) := by
  simp [tprocess_one_cmd, asQcmds, cmdtab_find, cmdtab_apply, tquser]

theorem tprocess_C (fsp : String → Bool) (zerr : String) (p : XqtParse) (zcmd : String)
    (args : List String) :
    tprocess_one_cmd (asQcmds fsp zerr) zerr p ("C" :: zcmd :: args) =
      ({ p.1 with azQargs := some (zcmd :: args),
                  zQcmd := some (" ".intercalate (zcmd :: args)) }, p.2) := by
  simp [tprocess_one_cmd, asQcmds, cmdtab_find, cmdtab_apply, tqcmd]

theorem tprocess_item (fsp : String → Bool) (zerr : String) (p : XqtParse)
    (i : Char × String × Option String) (hi : is_file_item i)
    (hsp : i.1 = 'F' → fsp i.2.1 = true) :
    tprocess_one_cmd (asQcmds fsp zerr) zerr p (xqt_item_fields i) = (item_step p.1 i, p.2) := by
  obtain ⟨c, a, z2⟩ := i
  have hF : String.singleton 'F' = "F" := rfl
  have hI : String.singleton 'I' = "I" := rfl
  have hO : String.singleton 'O' = "O" := rfl
  rcases hi with h | ⟨h, h2⟩ | h
  · simp only at h hsp
    subst h
    have hs := hsp rfl
    cases z2 <;>
      simp [xqt_item_fields, hF, tprocess_one_cmd, asQcmds, cmdtab_find, cmdtab_apply, tqfile,
        item_step, hs]
  · simp only at h h2
    subst h
    subst h2
    simp [xqt_item_fields, hI, tprocess_one_cmd, asQcmds, cmdtab_find, cmdtab_apply, item_step]
  · simp only at h
    subst h
    cases z2 <;>
      simp [xqt_item_fields, hO, tprocess_one_cmd, asQcmds, cmdtab_find, cmdtab_apply, tqout,
        item_step]

theorem uprocesscmds_append (fsp : String → Bool) (zerr : String) (p : XqtParse)
    (l1 l2 : List (List String)) :
    uprocesscmds fsp zerr p (l1 ++ l2) = uprocesscmds fsp zerr (uprocesscmds fsp zerr p l1) l2 := by
  unfold uprocesscmds
  rw [List.foldl_append]

theorem uprocesscmds_items (fsp : String → Bool) (zerr : String) :
    ∀ (items : List (Char × String × Option String)) (p : XqtParse),
      (∀ i ∈ items, is_file_item i) → (∀ i ∈ items, i.1 = 'F' → fsp i.2.1 = true) →
      uprocesscmds fsp zerr p (items.map xqt_item_fields) = (items.foldl item_step p.1, p.2) := by
  intro items
  induction items with
  | nil => intro p _ _; rfl
  | cons i t ih =>
    intro p h1 h2
    have hstep := tprocess_item fsp zerr p i (h1 i (List.mem_cons_self _ _))
      (h2 i (List.mem_cons_self _ _))
    have hrec := ih (item_step p.1 i, p.2) (fun j hj => h1 j (List.mem_cons_of_mem _ hj))
      (fun j hj => h2 j (List.mem_cons_of_mem _ hj))
    simp only [uprocesscmds, List.map_cons, List.foldl_cons] at hrec ⊢
    rw [hstep]
    exact hrec

/-- The lines of the options, split into fields. -/
theorem uux_flag_text_words (o : UxOpts) (fneedshell : Bool)
    (hr : ∀ r, o.zrequestor = some r → is_word r)
    (hm : ∀ f, o.zstatus_file = some f → is_word f) :
    (uux_flag_text o fneedshell).map xqt_words =
      (if o.fno_ack then [["N"]] else []) ++ (if o.ferror_ack then [["Z"]] else []) ++
      (match o.zrequestor with
       | some r => [["R", r]]
       | none => []) ++
      (if o.fretstdin then [["B"]] else []) ++
      (match o.zstatus_file with
       | some f => [["M", f]]
       | none => []) ++
      (if fneedshell then [["e"]] else []) := by
  have hw : ∀ (c : Char) (z : String), c_isspace c = false → is_word z →
      xqt_words (String.singleton c ++ " " ++ z) = [String.singleton c, z] := by
    intro c z hc hz
    exact xqt_words_item (c, z, none) hc ⟨hz, fun b hb => by cases hb⟩
  have hR : ∀ r, is_word r → xqt_words ("R " ++ r) = ["R", r] :=
    fun r h => hw 'R' r (by decide) h
  have hM : ∀ r, is_word r → xqt_words ("M " ++ r) = ["M", r] :=
    fun r h => hw 'M' r (by decide) h
  have hN : xqt_words "N" = ["N"] := by decide
  have hZ : xqt_words "Z" = ["Z"] := by decide
  have hB : xqt_words "B" = ["B"] := by decide
  have he : xqt_words "e" = ["e"] := by decide
  unfold uux_flag_text
  simp only [List.map_append]
  congr 1
  · congr 1
    · congr 1
      · congr 1
        · congr 1
          · split <;> simp [hN]
          · split <;> simp [hZ]
        · cases h : o.zrequestor with
          | none => rfl
          | some r => simp [hR r (hr r h)]
      · split <;> simp [hB]
    · cases h : o.zstatus_file with
      | none => rfl
      | some f => simp [hM f (hm f h)]
  · split <;> simp [he]

/-- The handlers on the fields of the lines of the options. -/
theorem uprocesscmds_flags (fsp : String → Bool) (zerr : String) (p : XqtParse) (o : UxOpts)
    (fneedshell : Bool) :
    uprocesscmds fsp zerr p
      ((if o.fno_ack then [["N"]] else []) ++ (if o.ferror_ack then [["Z"]] else []) ++
      (match o.zrequestor with
       | some r => [["R", r]]
       | none => []) ++
      (if o.fretstdin then [["B"]] else []) ++
      (match o.zstatus_file with
       | some f => [["M", f]]
       | none => []) ++
      (if fneedshell then [["e"]] else [])) =
    ({ p.1 with
        fQno_ack := o.fno_ack || p.1.fQno_ack,
        fQerror_ack := o.ferror_ack || p.1.fQerror_ack,
        zQrequestor := if o.zrequestor.isSome then o.zrequestor else p.1.zQrequestor,
        fQsend_input := o.fretstdin || p.1.fQsend_input,
        zQstatus_file := if o.zstatus_file.isSome then o.zstatus_file else p.1.zQstatus_file,
        fQuse_sh := fneedshell || p.1.fQuse_sh }, p.2) := by
  cases fneedshell <;> cases o.fno_ack <;> cases o.ferror_ack <;> cases o.fretstdin <;>
    cases o.zrequestor <;> cases o.zstatus_file <;>
    simp [uprocesscmds, tprocess_one_cmd, asQcmds, cmdtab_find, cmdtab_apply, tqset]

/-! ### The variables after the F, I and O lines -/

theorem item_step_other (v : XqtVars) (i : Char × String × Option String) :
    (item_step v i).azQargs = v.azQargs ∧ (item_step v i).zQcmd = v.zQcmd ∧
    (item_step v i).zQrequestor = v.zQrequestor ∧ (item_step v i).zQuser = v.zQuser ∧
    (item_step v i).zQsystem = v.zQsystem ∧ (item_step v i).fQerror_ack = v.fQerror_ack ∧
    (item_step v i).fQno_ack = v.fQno_ack ∧ (item_step v i).fQsuccess_ack = v.fQsuccess_ack ∧
    (item_step v i).fQsend_input = v.fQsend_input ∧ (item_step v i).fQuse_exec = v.fQuse_exec ∧
    (item_step v i).zQstatus_file = v.zQstatus_file ∧ (item_step v i).fQuse_sh = v.fQuse_sh := by
  unfold item_step
  split
  · exact ⟨rfl, rfl, rfl, rfl, rfl, rfl, rfl, rfl, rfl, rfl, rfl, rfl⟩
  · split
    · exact ⟨rfl, rfl, rfl, rfl, rfl, rfl, rfl, rfl, rfl, rfl, rfl, rfl⟩
    · split <;> exact ⟨rfl, rfl, rfl, rfl, rfl, rfl, rfl, rfl, rfl, rfl, rfl, rfl⟩

theorem items_other : ∀ (items : List (Char × String × Option String)) (v : XqtVars),
    (items.foldl item_step v).azQargs = v.azQargs ∧
    (items.foldl item_step v).zQcmd = v.zQcmd ∧
    (items.foldl item_step v).zQrequestor = v.zQrequestor ∧
    (items.foldl item_step v).zQuser = v.zQuser ∧
    (items.foldl item_step v).zQsystem = v.zQsystem ∧
    (items.foldl item_step v).fQerror_ack = v.fQerror_ack ∧
    (items.foldl item_step v).fQno_ack = v.fQno_ack ∧
    (items.foldl item_step v).fQsuccess_ack = v.fQsuccess_ack ∧
    (items.foldl item_step v).fQsend_input = v.fQsend_input ∧
    (items.foldl item_step v).fQuse_exec = v.fQuse_exec ∧
    (items.foldl item_step v).zQstatus_file = v.zQstatus_file ∧
    (items.foldl item_step v).fQuse_sh = v.fQuse_sh := by
  intro items
  induction items with
  | nil => intro v; exact ⟨rfl, rfl, rfl, rfl, rfl, rfl, rfl, rfl, rfl, rfl, rfl, rfl⟩
  | cons i t ih =>
    intro v
    obtain ⟨a1, a2, a3, a4, a5, a6, a7, a8, a9, a10, a11, a12⟩ := ih (item_step v i)
    obtain ⟨b1, b2, b3, b4, b5, b6, b7, b8, b9, b10, b11, b12⟩ := item_step_other v i
    simp only [List.foldl_cons]
    exact ⟨a1.trans b1, a2.trans b2, a3.trans b3, a4.trans b4, a5.trans b5, a6.trans b6,
      a7.trans b7, a8.trans b8, a9.trans b9, a10.trans b10, a11.trans b11, a12.trans b12⟩

theorem items_files : ∀ (items : List (Char × String × Option String)) (v : XqtVars),
    (items.foldl item_step v).azQfiles =
      v.azQfiles ++ (items.filter (fun i => i.1 = 'F')).map (fun i => (i.2.1, i.2.2)) := by
  intro items
  induction items with
  | nil => intro v; simp
  | cons i t ih =>
    intro v
    simp only [List.foldl_cons]
    rw [ih]
    by_cases h : i.1 = 'F'
    · simp [item_step, h, List.filter_cons]
    · have : (item_step v i).azQfiles = v.azQfiles := by
        unfold item_step
        rw [if_neg h]
        split
        · rfl
        · split <;> rfl
      simp [this, h, List.filter_cons]

theorem items_input_none : ∀ (items : List (Char × String × Option String)) (v : XqtVars),
    (∀ i ∈ items, i.1 ≠ 'I') → (items.foldl item_step v).zQinput = v.zQinput := by
  intro items
  induction items with
  | nil => intro v _; rfl
  | cons i t ih =>
    intro v h
    simp only [List.foldl_cons]
    rw [ih _ (fun j hj => h j (List.mem_cons_of_mem _ hj))]
    have hi := h i (List.mem_cons_self _ _)
    unfold item_step
    split
    · rfl
    · split <;> rfl

theorem items_output_none : ∀ (items : List (Char × String × Option String)) (v : XqtVars),
    (∀ i ∈ items, i.1 ≠ 'O') → (∀ i ∈ items, is_file_item i) →
    (items.foldl item_step v).zQoutfile = v.zQoutfile ∧
    (items.foldl item_step v).zQoutsys = v.zQoutsys := by
  intro items
  induction items with
  | nil => intro v _ _; exact ⟨rfl, rfl⟩
  | cons i t ih =>
    intro v h hf
    simp only [List.foldl_cons]
    have hrec := ih (item_step v i) (fun j hj => h j (List.mem_cons_of_mem _ hj))
      (fun j hj => hf j (List.mem_cons_of_mem _ hj))
    rw [hrec.1, hrec.2]
    have hi := h i (List.mem_cons_self _ _)
    rcases hf i (List.mem_cons_self _ _) with g | ⟨g, _⟩ | g
    · simp [item_step, g]
    · have g2 : ¬ i.1 = 'F' := by rw [g]; decide
      simp [item_step, g, g2]
    · exact absurd g hi

theorem countP_cons_le_one {α : Type} (p : α → Bool) (a : α) (t : List α) (ha : p a = true)
    (h : (a :: t).countP p ≤ 1) : ∀ x ∈ t, p x = false := by
  rw [List.countP_cons_of_pos _ _ ha] at h
  have h0 : t.countP p = 0 := by omega
  intro x hx
  have := List.countP_eq_zero.mp h0 x hx
  simpa using this

theorem items_input : ∀ (items : List (Char × String × Option String)) (v : XqtVars),
    items.countP (fun i => i.1 = 'I') ≤ 1 → v.zQinput = none →
    (items.foldl item_step v).zQinput =
      (items.find? (fun i => i.1 = 'I')).map (fun i => i.2.1) := by
  intro items
  induction items with
  | nil => intro v _ hv; simpa using hv
  | cons i t ih =>
    intro v hc hv
    simp only [List.foldl_cons]
    by_cases h : i.1 = 'I'
    · have hno := countP_cons_le_one (fun i : Char × String × Option String => decide (i.1 = 'I'))
        i t (by simp [h]) hc
      rw [items_input_none t _ (fun j hj => by simpa using hno j hj)]
      have g2 : ¬ i.1 = 'F' := by rw [h]; decide
      simp [item_step, h, g2, List.find?_cons]
    · have hc2 : t.countP (fun i => i.1 = 'I') ≤ 1 := by
        rw [List.countP_cons_of_neg _ _ (by simp [h])] at hc
        exact hc
      have hv2 : (item_step v i).zQinput = none := by
        unfold item_step
        split
        · exact hv
        · split <;> exact hv
      rw [ih _ hc2 hv2]
      simp [List.find?_cons, h]

theorem items_output : ∀ (items : List (Char × String × Option String)) (v : XqtVars),
    items.countP (fun i => i.1 = 'O') ≤ 1 → (∀ i ∈ items, is_file_item i) →
    v.zQoutfile = none → v.zQoutsys = none →
    (items.foldl item_step v).zQoutfile =
      (items.find? (fun i => i.1 = 'O')).map (fun i => i.2.1) ∧
    (items.foldl item_step v).zQoutsys =
      (items.find? (fun i => i.1 = 'O')).bind (fun i => i.2.2) := by
  intro items
  induction items with
  | nil => intro v _ _ h1 h2; simp [h1, h2]
  | cons i t ih =>
    intro v hc hf h1 h2
    simp only [List.foldl_cons]
    by_cases h : i.1 = 'O'
    · have hno := countP_cons_le_one (fun i : Char × String × Option String => decide (i.1 = 'O'))
        i t (by simp [h]) hc
      have hrest := items_output_none t (item_step v i) (fun j hj => by simpa using hno j hj)
        (fun j hj => hf j (List.mem_cons_of_mem _ hj))
      rw [hrest.1, hrest.2]
      have g1 : ¬ i.1 = 'F' := by rw [h]; decide
      have g2 : ¬ i.1 = 'I' := by rw [h]; decide
      obtain ⟨c, a, z2⟩ := i
      simp only at h g1 g2
      cases z2 <;> simp [item_step, h, g1, g2, List.find?_cons, h2]
    · have hc2 : t.countP (fun i => i.1 = 'O') ≤ 1 := by
        rw [List.countP_cons_of_neg _ _ (by simp [h])] at hc
        exact hc
      have hv := items_output_none [i] v (by simpa using h)
        (fun j hj => hf j (by simp at hj; rw [hj]; exact List.mem_cons_self _ _))
      simp only [List.foldl_cons, List.foldl_nil] at hv
      have hrec := ih (item_step v i) hc2 (fun j hj => hf j (List.mem_cons_of_mem _ hj))
        (hv.1.trans h1) (hv.2.trans h2)
      rw [hrec.1, hrec.2]
      simp [List.find?_cons, h]

/-- The variables that uuxqt has after reading the lines that uux writes: the
U line, F, I and O lines, the C line and the lines of the options. -/
theorem xqt_parse_written (fsp : String → Bool) (zerr user sys zcmd : String)
    (items : List (Char × String × Option String)) (pzargs : List (Option String))
    (o : UxOpts)
    (huser : is_word user) (hsys : is_word sys)
    (hitems : ∀ i ∈ items, is_file_item i) (hwords : ∀ i ∈ items, item_words i)
    (hspool : ∀ i ∈ items, i.1 = 'F' → fsp i.2.1 = true)
    (hI : items.countP (fun i => i.1 = 'I') ≤ 1)
    (hO : items.countP (fun i => i.1 = 'O') ≤ 1)
    (hcmd : is_word zcmd) (hargs : ∀ a ∈ live_args pzargs, is_word a)
    (hr : ∀ r, o.zrequestor = some r → is_word r)
    (hm : ∀ f, o.zstatus_file = some f → is_word f) :
    ∃ v : XqtVars,
      xqt_parse fsp zerr
        ((('U', user, some sys) :: items).map xqt_item_text ++
          (uux_command_line zcmd pzargs).1 ::
            uux_flag_text o (uux_command_line zcmd pzargs).2) = (v, []) ∧
      v.zQuser = some user ∧ v.zQsystem = some sys ∧
      v.azQargs = some (zcmd :: live_args pzargs) ∧
      v.zQcmd = some (" ".intercalate (zcmd :: live_args pzargs)) ∧
      (uux_command_line zcmd pzargs).1 = "C " ++ " ".intercalate (zcmd :: live_args pzargs) ∧
      v.azQfiles = (items.filter (fun i => i.1 = 'F')).map (fun i => (i.2.1, i.2.2)) ∧
      v.zQinput = (items.find? (fun i => i.1 = 'I')).map (fun i => i.2.1) ∧
      v.zQoutfile = (items.find? (fun i => i.1 = 'O')).map (fun i => i.2.1) ∧
      v.zQoutsys = (items.find? (fun i => i.1 = 'O')).bind (fun i => i.2.2) ∧
      v.fQno_ack = o.fno_ack ∧ v.fQerror_ack = o.ferror_ack ∧
      v.zQrequestor = o.zrequestor ∧ v.fQsend_input = o.fretstdin ∧
      v.zQstatus_file = o.zstatus_file ∧ v.fQuse_sh = (uux_command_line zcmd pzargs).2 ∧
      v.fQsuccess_ack = false ∧ v.fQuse_exec = false := by
  have hchar : ∀ i ∈ items, c_isspace i.1 = false := by
    intro i hi
    rcases hitems i hi with h | ⟨h, _⟩ | h <;> rw [h] <;> decide
  have hmap : items.map (xqt_words ∘ xqt_item_text) = items.map xqt_item_fields :=
    List.map_congr_left (fun i hi => xqt_words_item i (hchar i hi) (hwords i hi))
  have hUw : xqt_words (xqt_item_text ('U', user, some sys)) = ["U", user, sys] :=
    xqt_words_item ('U', user, some sys) (show c_isspace 'U' = false by decide)
      ⟨huser, fun b hb => by cases hb; exact hsys⟩
  have hCw : xqt_words (uux_command_line zcmd pzargs).1 = "C" :: zcmd :: live_args pzargs := by
    rw [(uux_command_line_eq zcmd pzargs).1, xqt_words]
    apply xqt_split_fields
    · intro z hz
      simp only [List.mem_cons] at hz
      rcases hz with h | h | h
      · rw [h]
        exact ⟨by decide, by decide⟩
      · rw [h]
        exact hcmd
      · exact hargs z h
    · simp
  have hparse : xqt_parse fsp zerr
        ((('U', user, some sys) :: items).map xqt_item_text ++
          (uux_command_line zcmd pzargs).1 ::
            uux_flag_text o (uux_command_line zcmd pzargs).2) =
      uprocesscmds fsp zerr
        (uprocesscmds fsp zerr
          (uprocesscmds fsp zerr
            (uprocesscmds fsp zerr (XqtVars.init, []) [["U", user, sys]])
            (items.map xqt_item_fields))
          ["C" :: zcmd :: live_args pzargs])
        ((uux_flag_text o (uux_command_line zcmd pzargs).2).map xqt_words) := by
    unfold xqt_parse
    have e : ((('U', user, some sys) :: items).map xqt_item_text ++
          (uux_command_line zcmd pzargs).1 ::
            uux_flag_text o (uux_command_line zcmd pzargs).2).map xqt_words =
        [["U", user, sys]] ++ (items.map xqt_item_fields ++
          ([("C" :: zcmd :: live_args pzargs)] ++
            (uux_flag_text o (uux_command_line zcmd pzargs).2).map xqt_words)) := by
      simp only [List.map_append, List.map_cons, List.map_map, hUw, hCw, hmap,
        List.singleton_append, List.cons_append, List.nil_append]
    rw [e, uprocesscmds_append, uprocesscmds_append, uprocesscmds_append]
  have hU1 : uprocesscmds fsp zerr (XqtVars.init, []) [["U", user, sys]] =
      ({ XqtVars.init with zQuser := some user, zQsystem := some sys }, []) := by
    simp only [uprocesscmds, List.foldl_cons, List.foldl_nil, tprocess_U]
  have hC1 : ∀ p : XqtParse, uprocesscmds fsp zerr p ["C" :: zcmd :: live_args pzargs] =
      ({ p.1 with azQargs := some (zcmd :: live_args pzargs),
                  zQcmd := some (" ".intercalate (zcmd :: live_args pzargs)) }, p.2) := by
    intro p
    simp only [uprocesscmds, List.foldl_cons, List.foldl_nil, tprocess_C]
  rw [hparse, hU1, uprocesscmds_items fsp zerr items _ hitems hspool, hC1,
    uux_flag_text_words o _ hr hm, uprocesscmds_flags]
  obtain ⟨a1, a2, a3, a4, a5, a6, a7, a8, a9, a10, a11, a12⟩ :=
    items_other items { XqtVars.init with zQuser := some user, zQsystem := some sys }
  have hfiles := items_files items
    { XqtVars.init with zQuser := some user, zQsystem := some sys }
  have hin := items_input items
    { XqtVars.init with zQuser := some user, zQsystem := some sys } hI rfl
  have hout := items_output items
    { XqtVars.init with zQuser := some user, zQsystem := some sys } hO hitems rfl rfl
  refine ⟨_, rfl, ?_, ?_, rfl, rfl, (uux_command_line_eq zcmd pzargs).2, ?_, ?_, ?_, ?_, ?_, ?_,
    ?_, ?_, ?_, ?_, ?_, ?_⟩
  · exact a4
  · exact a5
  · simpa using hfiles
  · exact hin
  · exact hout.1
  · exact hout.2
  · simp only [a7]
    simp [XqtVars.init]
  · simp only [a6]
    simp [XqtVars.init]
  · simp only [a3]
    cases o.zrequestor <;> simp [XqtVars.init]
  · simp only [a9]
    simp [XqtVars.init]
  · simp only [a11]
    cases o.zstatus_file <;> simp [XqtVars.init]
  · simp only [a12]
    simp [XqtVars.init]
  · exact a8
  · exact a10

/-! ### The lines that the argument loop writes -/

theorem linesInv_add (l0 : List String) (st st1 : UxState)
    (more : List (Char × String × Option String))
    (hl : st1.xqt_lines = st.xqt_lines ++ more.map xqt_item_text)
    (hi : ∀ i ∈ more, is_file_item i) (hs : LinesInv l0 st) : LinesInv l0 st1 := by
  obtain ⟨items, h1, h2⟩ := hs
  refine ⟨items ++ more, ?_, ?_⟩
  · intro i hi2
    rcases List.mem_append.mp hi2 with h | h
    · exact h1 i h
    · exact hi i h
  · rw [hl, h2, List.map_append, List.append_assoc]

theorem uxarg_local_data_lines (env : UxEnv) (o : UxOpts) (sxqtsys : uuconf_system)
    (zxqtloc : String) (fxqtlocal : Bool) (st st1 : UxState) (zfile : String)
    (x : String × String × String)
    (h : uxarg_local_data env o sxqtsys zxqtloc fxqtlocal st zfile = Except.ok (st1, x)) :
    st1.xqt_lines = st.xqt_lines := by
  unfold uxarg_local_data at h
  repeat' split at h
  all_goals first
    | (cases h; rfl)
    | (cases h)

theorem uxarg_local_linesInv (env : UxEnv) (o : UxOpts) (sxqtsys : uuconf_system)
    (zxqtloc : String) (fxqtlocal : Bool) (st st1 : UxState) (zfile : String)
    (finput : Bool) (r : Option String) (l0 : List String)
    (h : uxarg_local env o sxqtsys zxqtloc fxqtlocal st zfile finput = Except.ok (st1, r))
    (hs : LinesInv l0 st) : LinesInv l0 st1 := by
  unfold uxarg_local at h
  split at h
  · cases h
  · split at h
    · cases h
    · rename_i s1 zuse abtname abdname hd
      have hc := uxarg_local_data_lines env o sxqtsys zxqtloc fxqtlocal st s1 zfile _ hd
      have hs1 : LinesInv l0 s1 := linesInv_add l0 st s1 [] (by simpa using hc) (by simp) hs
      repeat' split at h
      all_goals first
        | (cases h; exact hs1)
        | (cases h; exact linesInv_add l0 s1 _ [('I', _, none)] rfl (by simp [is_file_item]) hs1)
        | (cases h; exact linesInv_add l0 _ _ [('I', _, none)] rfl (by simp [is_file_item])
            (linesInv_add l0 s1 _ [('F', _, none)] rfl (by simp [is_file_item]) hs1))
        | (cases h; exact linesInv_add l0 s1 _ [('F', _, some _)] rfl
            (by simp [is_file_item]) hs1)
        | (cases h)

theorem note_call_lines (st : UxState) (z : String) :
    (note_call st z).xqt_lines = st.xqt_lines := by
  unfold note_call
  split <;> rfl

theorem uxarg_remote_linesInv (env : UxEnv) (o : UxOpts) (sxqtsys : uuconf_system)
    (zxqtloc : String) (fxqtlocal : Bool) (st st1 : UxState) (zsystem zfile : String)
    (finput : Bool) (r : Option String) (l0 : List String)
    (h : uxarg_remote env o sxqtsys zxqtloc fxqtlocal st zsystem zfile finput =
      Except.ok (st1, r))
    (hs : LinesInv l0 st) : LinesInv l0 st1 := by
  unfold uxarg_remote at h
  split at h
  · cases h
  · rename_i sfromsys hfrom
    split at h
    · split at h
      · cases h
        exact linesInv_add l0 st _ [('I', _, none)] rfl (by simp [is_file_item]) hs
      · cases h
        exact hs
    · split at h
      · cases h
      · split at h
        · cases h
        · rename_i zdata abtname x1 x2 hname
          simp only at h
          split at h
          · cases h
          · rename_i zjobid zcfile hjob
            have hn : LinesInv l0 (note_call
                { st.named.named with
                  files := st.named.files ++ [zcfile],
                  queued := st.named.queued ++
                    [(sfromsys.uuconf_zname, o.bgrade, [request_cmd env zfile abtname])],
                  printed := if o.fjobid then st.named.printed ++ [zjobid]
                    else st.named.printed }
                sfromsys.uuconf_zname) :=
              linesInv_add l0 st _ [] (by rw [note_call_lines]; simp; rfl) (by simp) hs
            split at h
            · cases h
              exact linesInv_add l0 _ _ [('I', _, none)] rfl (by simp [is_file_item])
                (linesInv_add l0 _ _ [('F', _, none)] rfl (by simp [is_file_item]) hn)
            · split at h
              · cases h
              · cases h
                exact linesInv_add l0 _ _ [('F', _, some _)] rfl (by simp [is_file_item]) hn

theorem uxarg_linesInv (env : UxEnv) (o : UxOpts) (sxqtsys : uuconf_system)
    (zxqtloc : String) (fxqtlocal : Bool) (st st1 : UxState) (arg : String)
    (finput foutput : Bool) (r : Option String) (l0 : List String)
    (h : uxarg env o sxqtsys zxqtloc fxqtlocal st arg finput foutput = Except.ok (st1, r))
    (hs : LinesInv l0 st) : LinesInv l0 st1 := by
  unfold uxarg at h
  split at h
  · cases h
    exact hs
  · simp only at h
    split at h
    · cases h
    · split at h
      · split at h
        · cases h
        · split at h
          · cases h
            exact linesInv_add l0 st _ [('O', _, none)] rfl (by simp [is_file_item]) hs
          · cases h
            exact linesInv_add l0 st _ [('O', _, some _)] rfl (by simp [is_file_item]) hs
      · split at h
        · cases h
        · split at h
          · exact uxarg_local_linesInv env o sxqtsys zxqtloc fxqtlocal st st1 _ finput r l0 h hs
          · split at h
            · split at h
              · cases h
                exact linesInv_add l0 st _ [('I', _, none)] rfl (by simp [is_file_item]) hs
              · cases h
                exact hs
            · exact uxarg_remote_linesInv env o sxqtsys zxqtloc fxqtlocal st st1 _ _ finput r
                l0 h hs

theorem uxarg_paren_lines (st : UxState) (a : String) :
    (uxarg_paren st a).1.xqt_lines = st.xqt_lines := by
  unfold uxarg_paren
  split <;> rfl

theorem uxargs_linesInv (env : UxEnv) (o : UxOpts) (sxqtsys : uuconf_system)
    (zxqtloc : String) (fxqtlocal : Bool) (l0 : List String) :
    ∀ (n : Nat) (l : List String) (st st1 : UxState) (rs : List (Option String)),
      l.length ≤ n →
      uxargs env o sxqtsys zxqtloc fxqtlocal l st = Except.ok (st1, rs) →
      LinesInv l0 st → LinesInv l0 st1 := by
  intro n
  induction n with
  | zero =>
    intro l st st1 rs hlen h hs
    have : l = [] := List.length_eq_zero.mp (Nat.le_zero.mp hlen)
    subst this
    rw [uxargs] at h
    cases h
    exact hs
  | succ n ih =>
    intro l st st1 rs hlen h hs
    match l, hlen, h with
    | [], _, h =>
      rw [uxargs] at h
      cases h
      exact hs
    | [a], _, h =>
      rw [uxargs] at h
      split at h
      · cases h
        exact linesInv_add l0 st _ [] (by rw [uxarg_paren_lines]; simp) (by simp) hs
      · split at h
        · cases h
        · rename_i s1 x hx
          cases h
          exact uxarg_linesInv env o sxqtsys zxqtloc fxqtlocal st _ a false false x l0 hx hs
    | a :: b :: t, hlen, h =>
      simp only [List.length_cons] at hlen
      rw [uxargs] at h
      split at h
      · split at h
        · cases h
        · rename_i s2 rs2 hrec
          cases h
          exact ih (b :: t) _ _ rs2 (by simp only [List.length_cons]; omega) hrec
            (linesInv_add l0 st _ [] (by rw [uxarg_paren_lines]; simp) (by simp) hs)
      · split at h
        · split at h
          · cases h
          · rename_i s1 x hx
            split at h
            · cases h
            · rename_i s2 rs2 hrec
              cases h
              exact ih t _ _ rs2 (by omega) hrec
                (uxarg_linesInv env o sxqtsys zxqtloc fxqtlocal st s1 b _ _ x l0 hx hs)
        · split at h
          · cases h
          · rename_i s1 x hx
            split at h
            · cases h
            · rename_i s2 rs2 hrec
              cases h
              exact ih (b :: t) _ _ rs2 (by simp only [List.length_cons]; omega) hrec
                (uxarg_linesInv env o sxqtsys zxqtloc fxqtlocal st s1 a _ _ x l0 hx hs)

theorem uux_stdin_linesInv (env : UxEnv) (o : UxOpts) (sxqtsys : uuconf_system)
    (zxqtloc : String) (fxqtlocal : Bool) (st st1 : UxState) (l0 : List String)
    (h : uux_stdin env o sxqtsys zxqtloc fxqtlocal st = Except.ok st1)
    (hs : LinesInv l0 st) : LinesInv l0 st1 := by
  unfold uux_stdin at h
  repeat' split at h
  all_goals first
    | (cases h; exact hs)
    | (cases h; exact linesInv_add l0 st _ [('I', _, none)] rfl (by simp [is_file_item]) hs)
    | (cases h; exact linesInv_add l0 _ _ [('I', _, none)] rfl (by simp [is_file_item])
        (linesInv_add l0 st _ [('F', _, none)] rfl (by simp [is_file_item]) hs))
    | (cases h)

/-- The execute file of a run of uux that goes to its end: the U line, F, I
and O lines, the C line, the lines of the options. -/
theorem uux_main_lines (env : UxEnv) (o : UxOpts) (st : UxState) (zcmd : String)
    (pzargs : List String) (b : Bool)
    (hexit : (uux_main env o st zcmd pzargs).exit = UxExit.finished b)
    (hst : st.xqt_lines = []) :
    ∃ (sys : String) (items : List (Char × String × Option String))
      (pzargs1 : List (Option String)),
      (∀ i ∈ items, is_file_item i) ∧
      (uux_main env o st zcmd pzargs).st.xqt_lines =
        (('U', env.zsysdep_login_name, some sys) :: items).map xqt_item_text ++
          (uux_command_line (uux_exec_system env zcmd).2.1 pzargs1).1 ::
            uux_flag_text o (uux_command_line (uux_exec_system env zcmd).2.1 pzargs1).2 := by
  unfold uux_main at hexit ⊢
  simp only at hexit ⊢
  cases hx : uux_xqt_system env st (uux_exec_system env zcmd).1
      (uux_exec_system env zcmd).2.2 with
  | error e =>
    rw [hx] at hexit
    simp only at hexit
    rw [uux_xqt_system_aborts env st _ _ e hx] at hexit
    cases hexit
  | ok sxqtsys =>
    rw [hx] at hexit
    simp only at hexit ⊢
    cases hn : (if (uux_exec_system env zcmd).2.2 = true then
        (env.zsysdep_xqt_file_name st.cnames).map (fun z => (z, "", ""))
      else
        (env.zsysdep_data_file_name sxqtsys
          (sxqtsys.uuconf_zlocalname.getD env.zlocalname) 'X' st.cnames).map
          (fun r => (r.1, r.2.1, r.2.2.2))) with
    | none =>
      rw [hn] at hexit
      cases hexit
    | some names =>
      obtain ⟨zxqtname, abt, abx⟩ := names
      rw [hn] at hexit
      simp only at hexit ⊢
      by_cases ho : (! env.esysdep_fopen zxqtname) = true
      · rw [if_pos ho] at hexit
        cases hexit
      · rw [if_neg ho] at hexit ⊢
        have hs2 : LinesInv [xqt_item_text ('U', env.zsysdep_login_name,
              some (sxqtsys.uuconf_zlocalname.getD env.zlocalname))]
            (uxadd_xqt_line
              (uxrecord_file { st.named with files := st.files ++ [zxqtname] } zxqtname) 'U'
              (some env.zsysdep_login_name)
              (some (sxqtsys.uuconf_zlocalname.getD env.zlocalname))) := by
          refine ⟨[], by simp, ?_⟩
          show st.xqt_lines ++ _ = _
          rw [hst]
          rfl
        generalize (uxadd_xqt_line
              (uxrecord_file { st.named with files := st.files ++ [zxqtname] } zxqtname) 'U'
              (some env.zsysdep_login_name)
              (some (sxqtsys.uuconf_zlocalname.getD env.zlocalname))) = st2 at hs2 hexit ⊢
        cases ha : uxargs env o sxqtsys (sxqtsys.uuconf_zlocalname.getD env.zlocalname)
            (uux_exec_system env zcmd).2.2 pzargs st2 with
        | error e =>
          rw [ha] at hexit
          simp only at hexit
          rw [uxargs_aborts env o sxqtsys _ _ pzargs.length pzargs st2 e (Nat.le_refl _) ha]
            at hexit
          cases hexit
        | ok r =>
          obtain ⟨st3, pzargs1⟩ := r
          rw [ha] at hexit
          simp only at hexit ⊢
          have hs3 := uxargs_linesInv env o sxqtsys _ _ _ pzargs.length pzargs st2 st3
            pzargs1 (Nat.le_refl _) ha hs2
          cases hi : uux_stdin env o sxqtsys (sxqtsys.uuconf_zlocalname.getD env.zlocalname)
              (uux_exec_system env zcmd).2.2 st3 with
          | error e =>
            rw [hi] at hexit
            simp only at hexit
            rw [uux_stdin_aborts env o sxqtsys _ _ st3 e hi] at hexit
            cases hexit
          | ok st4 =>
            simp only
            obtain ⟨items, h1, h2⟩ := uux_stdin_linesInv env o sxqtsys _ _ st3 st4 _ hi hs3
            refine ⟨sxqtsys.uuconf_zlocalname.getD env.zlocalname, items, pzargs1, h1, ?_⟩
            rw [uux_finish_xqt_lines, h2]
            rfl

/-- C17 as stated fails: `uux -a "John Doe" cat` writes the line
`R John Doe`, and the parser of the execute file, which takes the fields of a
line as separated by white space, does not recover the requestor: it logs the
wrong number of arguments and leaves the requestor unset. -/
theorem C17_counterexample :
    (uux_main example_uxenv { UxOpts.init with zrequestor := some "John Doe" } UxState.init
      "cat" []).st.xqt_lines = ["U bob here", "C cat", "R John Doe"] ∧
    (xqt_parse is_spool_file "X.hereN0000"
      (uux_main example_uxenv { UxOpts.init with zrequestor := some "John Doe" } UxState.init
        "cat" []).st.xqt_lines).1.zQrequestor = none ∧
    (xqt_parse is_spool_file "X.hereN0000"
      (uux_main example_uxenv { UxOpts.init with zrequestor := some "John Doe" } UxState.init
        "cat" []).st.xqt_lines).2 =
      [(tlog.LOG_ERROR, "X.hereN0000: R: Wrong number of arguments")] := by
  decide

/-- C17, amended: (1) the execute file of every run of uux that goes to its end
is the U line, then F, I and O lines, the C line and the lines of the options
N, Z, R, B, M, e as far as given.  (2) When the fields that uux wrote (user
and system, the names in the F, I and O lines, the command and the arguments of
the C line, the requestor and the status file) are not empty and free of white
space, the F lines name spool files, and there is at most one I line and at most
one O line, then the parser of the execute file recovers, with no error logged,
exactly what was written: user and system, the argument vector, the command
string, which is the arguments joined by single spaces and the text that uux
wrote after `C `, the files of the F lines with their second names, the input
file, the output file and its system, the requestor, the status file, and the
flags N, Z, B and e; the flags n and E are not set. -/
theorem C17_parsing_undoes_writing (env : UxEnv) (o : UxOpts) (st : UxState) (zcmd : String)
    (pzargs : List String) (fsp : String → Bool) (zerr : String) :
    (∀ b, (uux_main env o st zcmd pzargs).exit = UxExit.finished b → st.xqt_lines = [] →
      ∃ (sys : String) (items : List (Char × String × Option String))
        (pzargs1 : List (Option String)),
        (∀ i ∈ items, is_file_item i) ∧
        (uux_main env o st zcmd pzargs).st.xqt_lines =
          (('U', env.zsysdep_login_name, some sys) :: items).map xqt_item_text ++
            (uux_command_line (uux_exec_system env zcmd).2.1 pzargs1).1 ::
              uux_flag_text o (uux_command_line (uux_exec_system env zcmd).2.1 pzargs1).2) ∧
    (∀ (user sys zcmd1 : String) (items : List (Char × String × Option String))
        (pzargs1 : List (Option String)),
      (uux_main env o st zcmd pzargs).st.xqt_lines =
        (('U', user, some sys) :: items).map xqt_item_text ++
          (uux_command_line zcmd1 pzargs1).1 ::
            uux_flag_text o (uux_command_line zcmd1 pzargs1).2 →
      is_word user → is_word sys →
      (∀ i ∈ items, is_file_item i) → (∀ i ∈ items, item_words i) →
      (∀ i ∈ items, i.1 = 'F' → fsp i.2.1 = true) →
      items.countP (fun i => i.1 = 'I') ≤ 1 → items.countP (fun i => i.1 = 'O') ≤ 1 →
      is_word zcmd1 → (∀ a ∈ live_args pzargs1, is_word a) →
      (∀ r, o.zrequestor = some r → is_word r) →
      (∀ f, o.zstatus_file = some f → is_word f) →
      ∃ v : XqtVars,
        xqt_parse fsp zerr (uux_main env o st zcmd pzargs).st.xqt_lines = (v, []) ∧
        v.zQuser = some user ∧ v.zQsystem = some sys ∧
        v.azQargs = some (zcmd1 :: live_args pzargs1) ∧
        v.zQcmd = some (" ".intercalate (zcmd1 :: live_args pzargs1)) ∧
        (uux_command_line zcmd1 pzargs1).1 =
          "C " ++ " ".intercalate (zcmd1 :: live_args pzargs1) ∧
        v.azQfiles = (items.filter (fun i => i.1 = 'F')).map (fun i => (i.2.1, i.2.2)) ∧
        v.zQinput = (items.find? (fun i => i.1 = 'I')).map (fun i => i.2.1) ∧
        v.zQoutfile = (items.find? (fun i => i.1 = 'O')).map (fun i => i.2.1) ∧
        v.zQoutsys = (items.find? (fun i => i.1 = 'O')).bind (fun i => i.2.2) ∧
        v.fQno_ack = o.fno_ack ∧ v.fQerror_ack = o.ferror_ack ∧
        v.zQrequestor = o.zrequestor ∧ v.fQsend_input = o.fretstdin ∧
        v.zQstatus_file = o.zstatus_file ∧ v.fQuse_sh = (uux_command_line zcmd1 pzargs1).2 ∧
        v.fQsuccess_ack = false ∧ v.fQuse_exec = false) := by
  refine ⟨fun b hexit hst => uux_main_lines env o st zcmd pzargs b hexit hst, ?_⟩
  intro user sys zcmd1 items pzargs1 hlines huser hsys hitems hwords hspool hI hO hcmd hargs hr hm
  rw [hlines]
  exact xqt_parse_written fsp zerr user sys zcmd1 items pzargs1 o huser hsys hitems hwords
    hspool hI hO hcmd hargs hr hm

/-- C17, amended, at `uux -a bob@here peerA!cat !/tmp/f`: the execute file has
the lines `U bob here`, `F D.hereN0001 /tmp/f`, `C cat /tmp/f` and
`R bob@here`, and the parser recovers the user, the arguments, the file and the
requestor. -/
theorem C17_parsing_undoes_writing_witness :
    ∃ v : XqtVars,
      xqt_parse is_spool_file "X.hereN0000"
        (uux_main example_uxenv { UxOpts.init with zrequestor := some "bob@here" }
          UxState.init "peerA!cat" ["!/tmp/f"]).st.xqt_lines = (v, []) ∧
      v.zQuser = some "bob" ∧ v.zQsystem = some "here" ∧
      v.azQargs = some ["cat", "/tmp/f"] ∧ v.zQcmd = some "cat /tmp/f" ∧
      v.azQfiles = [("D.hereN0001", some "/tmp/f")] ∧ v.zQrequestor = some "bob@here" := by
  obtain ⟨v, h0, h1, h2, h3, h4, _, h6, _, _, _, _, _, h12, _⟩ :=
    (C17_parsing_undoes_writing example_uxenv
      { UxOpts.init with zrequestor := some "bob@here" } UxState.init "peerA!cat" ["!/tmp/f"]
      is_spool_file "X.hereN0000").2 "bob" "here" "cat"
      [('F', "D.hereN0001", some "/tmp/f")] [some "/tmp/f"]
      (by decide) (by unfold is_word; decide) (by unfold is_word; decide)
      (by intro i hi; simp at hi; subst hi; exact Or.inl rfl)
      (by
        intro i hi
        simp at hi
        subst hi
        refine ⟨by unfold is_word; decide, ?_⟩
        intro b hb
        cases hb
        unfold is_word
        decide)
      (by intro i hi _; simp at hi; subst hi; decide)
      (by decide) (by decide) (by unfold is_word; decide)
      (by intro a ha; simp [live_args] at ha; subst ha; unfold is_word; decide)
      (by intro r hr; cases hr; unfold is_word; decide)
      (by intro f hf; cases hf)
  exact ⟨v, h0, h1, h2, h3, h4, h6, h12⟩


/-- When the end of lines 985-1207 gives TRUE the list is empty. -/
theorem usworkfile_done_ok (r : UsStep) (st1 : UsState)
    (h : usworkfile_done r = Except.ok (st1, true)) :
    st1.qlist = [] ∧ st1.zlistid = none := by
  unfold usworkfile_done at h
  split at h
  · cases h
  · split at h
    · cases h
      exact ⟨rfl, rfl⟩
    · rename_i r0 h2
      cases h
      exact absurd rfl h2

/-- When lines 985-1207 of `fsworkfile_show` return TRUE the list is empty after
them. -/
theorem usworkfile_job_done (env : UsEnv) (icmd : Nat) (qsys : uuconf_system)
    (pazcommands : List String) (fnotcommands : Bool) (zcomment : Option String)
    (cstdin : Int) (st st1 : UsState)
    (h : usworkfile_job env icmd qsys pazcommands fnotcommands zcomment cstdin st =
      Except.ok (st1, true)) :
    st1.qlist = [] ∧ st1.zlistid = none := by
  unfold usworkfile_job at h
  simp only [] at h
  split at h
  · split at h <;> exact usworkfile_done_ok _ _ h
  · split at h
    · cases h
    · rename_i zxqt _
      generalize fsxqt_file_read env st zxqt = r at h
      split at h
      · rename_i h3
        simp only [Except.ok.injEq] at h
        rw [h] at h3
        simp at h3
      · split at h
        · cases h
        · exact usworkfile_done_ok _ _ h

/-- The jobs given in turn leave an empty list when none of them fails. -/
theorem us_process_jobs_done (env : UsEnv) (icmd : Nat) (qsys : uuconf_system)
    (pazcommands : List String) (fnotcommands : Bool) (zcomment : Option String)
    (cstdin : Int) (runs : List (String × List scmdlist)) :
    ∀ st st1 : UsState, st.qlist = [] →
      us_process_jobs env icmd qsys pazcommands fnotcommands zcomment cstdin runs st =
        Except.ok (st1, true) →
      st1.qlist = [] := by
  induction runs with
  | nil =>
    intro st st1 h h1
    rw [us_process_jobs] at h1
    cases h1
    exact h
  | cons r rest ih =>
    intro st st1 _ h
    obtain ⟨j, g⟩ := r
    rw [us_process_jobs] at h
    cases hj : usworkfile_job env icmd qsys pazcommands fnotcommands zcomment cstdin
        { st with qlist := g, zlistid := some j } with
    | error f =>
      rw [hj] at h
      cases h
    | ok r =>
      rw [hj] at h
      obtain ⟨s2, b⟩ := r
      cases b with
      | false =>
        simp only [Bool.not_false, if_true] at h
        cases h
      | true =>
        simp only [Bool.not_true, Bool.false_eq_true, if_false] at h
        exact ih s2 st1 (usworkfile_job_done env icmd qsys pazcommands fnotcommands zcomment
          cstdin _ s2 hj).1 h

/-- Feeding commands to `fsworkfile_show` while it holds the run `c :: g` of the
job `j`. -/
theorem us_feed_runs_acc (env : UsEnv) (icmd : Nat) (qsys : uuconf_system)
    (pazcommands : List String) (fnotcommands : Bool) (zcomment : Option String)
    (cstdin : Int) (f : scmdlist → String) (cmds : List scmdlist)
    (hid : ∀ c ∈ cmds, env.zsysdep_jobid qsys c.s.pseq = some (f c)) :
    ∀ (c : scmdlist) (g : List scmdlist) (j : String) (st : UsState),
      f c = j → (∀ d ∈ g, f d = j) →
      us_feed env icmd qsys pazcommands fnotcommands zcomment cstdin cmds
          { st with qlist := c :: g, zlistid := some j } =
        us_process_jobs env icmd qsys pazcommands fnotcommands zcomment cstdin
          (us_runs f ((c :: g) ++ cmds)) st := by
  induction cmds with
  | nil =>
    intro c g j st hc hg
    rw [List.append_nil, us_runs_const f j c g hc hg, us_process_jobs, us_feed,
      fsworkfile_show]
    simp only [ne_eq, reduceCtorEq, not_false_eq_true, if_true]
    cases h : usworkfile_job env icmd qsys pazcommands fnotcommands zcomment cstdin
        { st with qlist := c :: g, zlistid := some j } with
    | error e => rfl
    | ok r =>
      obtain ⟨s2, b⟩ := r
      cases b with
      | true =>
        simp only [Bool.not_true, Bool.false_eq_true, if_false, us_process_jobs]
      | false => simp only [Bool.not_false, if_true]
  | cons a t ih =>
    intro c g j st hc hg
    have ha := hid a (List.mem_cons_self a t)
    have ht : ∀ d ∈ t, env.zsysdep_jobid qsys d.s.pseq = some (f d) :=
      fun d hd => hid d (List.mem_cons_of_mem a hd)
    rw [us_feed, fsworkfile_show]
    simp only [ha, ne_eq, reduceCtorEq, not_false_eq_true, true_and, Option.some.injEq,
      if_true]
    by_cases hj : j = f a
    · rw [if_pos hj]
      simp only [Bool.not_true, Bool.false_eq_true, if_false]
      have e := ih ht c (g ++ [a]) j st hc (by
        intro d hd
        rcases List.mem_append.mp hd with h1 | h1
        · exact hg d h1
        · simp only [List.mem_singleton] at h1
          rw [h1]
          exact hj.symm)
      have e2 : (c :: (g ++ [a])) ++ t = (c :: g) ++ a :: t := by simp
      rw [e2] at e
      rw [← e]
      rfl
    · rw [if_neg hj]
      rw [us_runs_append_ne f j a t (fun h => hj h.symm) c g hc hg, us_process_jobs]
      cases h : usworkfile_job env icmd qsys pazcommands fnotcommands zcomment cstdin
          { st with qlist := c :: g, zlistid := some j } with
      | error e => rfl
      | ok r =>
        obtain ⟨s2, b⟩ := r
        cases b with
        | true =>
          simp only [Bool.not_true, Bool.false_eq_true, if_false]
          exact ih ht a [] (f a) _ rfl (by intro d hd; cases hd)
        | false => simp only [Bool.not_false, if_true]

/-- Feeding commands to `fsworkfile_show` from an empty list. -/
theorem us_feed_runs (env : UsEnv) (icmd : Nat) (qsys : uuconf_system)
    (pazcommands : List String) (fnotcommands : Bool) (zcomment : Option String)
    (cstdin : Int) (f : scmdlist → String) (cmds : List scmdlist) (st : UsState)
    (hid : ∀ c ∈ cmds, env.zsysdep_jobid qsys c.s.pseq = some (f c))
    (hst : st.qlist = []) :
    us_feed env icmd qsys pazcommands fnotcommands zcomment cstdin cmds st =
      us_process_jobs env icmd qsys pazcommands fnotcommands zcomment cstdin
        (us_runs f cmds) st := by
  cases cmds with
  | nil =>
    rw [us_feed, fsworkfile_show]
    simp only [hst, ne_eq, not_true_eq_false, if_false]
    rfl
  | cons a t =>
    have ha := hid a (List.mem_cons_self a t)
    have ht : ∀ d ∈ t, env.zsysdep_jobid qsys d.s.pseq = some (f d) :=
      fun d hd => hid d (List.mem_cons_of_mem a hd)
    rw [us_feed, fsworkfile_show]
    simp only [ha, hst, ne_eq, not_true_eq_false, false_and, if_false, Bool.not_true,
      Bool.false_eq_true]
    exact us_feed_runs_acc env icmd qsys pazcommands fnotcommands zcomment cstdin f t ht a []
      (f a) st rfl (by intro d hd; cases hd)

/-- C28: for every sequence of work commands with job ids, passed one by one to
`fsworkfile_show` from an empty list and followed by the final call with no
command, what is done is what lines 985-1207 do for each maximal run of
consecutive commands with equal job id, in the order of the stream, with the
run as `qlist` and its job id as `zlistid`, up to the first job for which they
return FALSE or end the program; the runs hold every command once, in the
order of the stream; each run is not empty and all its commands have the job
id of the run; runs that follow each other have different job ids; and when
the calls return and none returns FALSE (the result is `Except.ok` with TRUE)
the accumulated list is empty after the final call. -/
theorem C28_jobs_are_maximal_runs (env : UsEnv) (icmd : Nat) (qsys : uuconf_system)
    (pazcommands : List String) (fnotcommands : Bool) (zcomment : Option String)
    (cstdin : Int) (f : scmdlist → String) (cmds : List scmdlist) (st : UsState)
    (hid : ∀ c ∈ cmds, env.zsysdep_jobid qsys c.s.pseq = some (f c))
    (hst : st.qlist = []) :
    us_feed env icmd qsys pazcommands fnotcommands zcomment cstdin cmds st =
      us_process_jobs env icmd qsys pazcommands fnotcommands zcomment cstdin
        (us_runs f cmds) st ∧
    us_runs_concat (us_runs f cmds) = cmds ∧
    (∀ r ∈ us_runs f cmds, r.2 ≠ [] ∧ ∀ c ∈ r.2, f c = r.1) ∧
    List.Chain' (fun a b => a.1 ≠ b.1) (us_runs f cmds) ∧
    (∀ st1 : UsState,
      us_feed env icmd qsys pazcommands fnotcommands zcomment cstdin cmds st =
        Except.ok (st1, true) → st1.qlist = []) := by
  have key := us_feed_runs env icmd qsys pazcommands fnotcommands zcomment cstdin f cmds st
    hid hst
  refine ⟨key, us_runs_concat_eq f cmds, us_runs_mem f cmds, us_runs_chain f cmds, ?_⟩
  intro st1 h
  rw [key] at h
  exact us_process_jobs_done env icmd qsys pazcommands fnotcommands zcomment cstdin _ st st1
    hst h

/-- C28 at three commands of the example system, two of the command file 1 and
one of the command file 2: two jobs are shown, the first with two lines, and
the list is empty at the end. -/
theorem C28_jobs_are_maximal_runs_witness :
    us_runs (fun c => "peerAN000" ++ toString c.s.pseq)
        [{ s := example_work 1, itime := 94600 }, { s := example_work 1, itime := 94600 },
         { s := example_work 2, itime := 94600 }] =
      [("peerAN0001",
         [{ s := example_work 1, itime := 94600 }, { s := example_work 1, itime := 94600 }]),
       ("peerAN0002", [{ s := example_work 2, itime := 94600 }])] ∧
    ∃ st1, us_feed example_usenv JOB_SHOW (example_system "peerA") [] false none 100
        [{ s := example_work 1, itime := 94600 }, { s := example_work 1, itime := 94600 },
         { s := example_work 2, itime := 94600 }] UsState.init = Except.ok (st1, true) ∧
      st1.w.out =
        ["peerAN0001 peerA alice 1970-01-02 02:16:40 Sending /home/alice/f (10 bytes) to ~/f\n",
         "- peerA alice 1970-01-02 02:16:40 Sending /home/alice/f (10 bytes) to ~/f\n",
         "peerAN0002 peerA alice 1970-01-02 02:16:40 Sending /home/alice/f (10 bytes) to ~/f\n"] ∧
      st1.qlist = [] :=
  have h := C28_jobs_are_maximal_runs example_usenv JOB_SHOW (example_system "peerA") [] false
    none 100 (fun c => "peerAN000" ++ toString c.s.pseq)
    [{ s := example_work 1, itime := 94600 }, { s := example_work 1, itime := 94600 },
     { s := example_work 2, itime := 94600 }] UsState.init
    (by
      intro c hc
      simp only [List.mem_cons, List.mem_singleton, List.not_mem_nil, or_false] at hc
      rcases hc with h | h | h <;> subst h <;> rfl)
    rfl
  ⟨by decide,
   { UsState.init with
       w := { UsState.init.w with out :=
         ["peerAN0001 peerA alice 1970-01-02 02:16:40 Sending /home/alice/f (10 bytes) to ~/f\n",
          "- peerA alice 1970-01-02 02:16:40 Sending /home/alice/f (10 bytes) to ~/f\n",
          "peerAN0002 peerA alice 1970-01-02 02:16:40 Sending /home/alice/f (10 bytes) to ~/f\n"] },
       x := { UsState.init.x with zSxqt_cmd := none, zSxqt_requestor := none } },
   by rfl, rfl, h.2.2.2.2 _ (by rfl)⟩


/-- What reading an execute file leaves as it is. -/
theorem fsxqt_file_read_frame (env : UsEnv) (st : UsState) (zfile : String) :
    (fsxqt_file_read env st zfile).1.w.killed = st.w.killed ∧
    (fsxqt_file_read env st zfile).1.w.removed = st.w.removed ∧
    (fsxqt_file_read env st zfile).1.w.mails = st.w.mails ∧
    (fsxqt_file_read env st zfile).1.qlist = st.qlist ∧
    (fsxqt_file_read env st zfile).1.zlistid = st.zlistid := by
  unfold fsxqt_file_read
  cases env.xqt_file zfile with
  | error zerr => simp [UsWorld.ulog]
  | ok lines =>
    dsimp only
    refine ⟨?_, ?_, ?_, ?_, ?_⟩ <;> first | rfl | trivial | (split <;> rfl)

/-- What the decision on `fkill` leaves as it is. -/
theorem us_fkill_frame (w : UsWorld) (icmd : Nat) (zwhat : String) :
    (us_fkill w icmd zwhat).1.killed = w.killed ∧
    (us_fkill w icmd zwhat).1.removed = w.removed ∧
    (us_fkill w icmd zwhat).1.mails = w.mails ∧
    (us_fkill w icmd zwhat).1.log = w.log ∧
    (us_fkill w icmd zwhat).1.out = w.out := by
  unfold us_fkill
  by_cases h1 : icmd &&& JOB_INQUIRE ≠ 0
  · rw [if_pos h1]
    exact ⟨rfl, rfl, rfl, rfl, rfl⟩
  · rw [if_neg h1]
    by_cases h2 : icmd &&& JOB_KILL ≠ 0
    · rw [if_pos h2]
      exact ⟨rfl, rfl, rfl, rfl, rfl⟩
    · rw [if_neg h2]
      exact ⟨rfl, rfl, rfl, rfl, rfl⟩


/-- The loop of `fsworkfiles_system` calls `fsworkfile_show` for exactly the
selected commands, in their order. -/
theorem fsworkfiles_system_loop_each (env : UsEnv) (icmd : Nat) (qsys : uuconf_system)
    (pazusers : List String) (fnotusers : Bool) (iold iyoung : Int)
    (pazcommands : List String) (fnotcommands : Bool) (zcomment : Option String)
    (cstdin : Int) (cmds : List swork) :
    ∀ st : UsState,
      fsworkfiles_system_loop env icmd qsys pazusers fnotusers iold iyoung pazcommands
        fnotcommands zcomment cstdin cmds st =
      us_show_each env icmd qsys pazcommands fnotcommands zcomment cstdin
        (cmds.filter (us_work_selected env qsys pazusers fnotusers iold iyoung)) st := by
  induction cmds with
  | nil => intro st; rfl
  | cons a t ih =>
    intro st
    rw [fsworkfiles_system_loop, List.filter_cons]
    by_cases h : us_work_selected env qsys pazusers fnotusers iold iyoung a = true
    · simp only [h, if_true]
      rw [us_show_each]
      cases fsworkfile_show env icmd qsys (some (a, env.isysdep_work_time qsys a.pseq))
          pazcommands fnotcommands zcomment cstdin st with
      | error f => rfl
      | ok r =>
        simp only []
        split
        · rfl
        · exact ih _
    · simp only [h, Bool.false_eq_true, if_false]
      exact ih st

/-- With `zSxqt_stdin` set the loop of lines 1126-1138 runs to its end. -/
theorem us_zstdin_some (env : UsEnv) (zin : String) (l : List scmdlist) :
    ∃ v, us_zstdin env (some zin) l = some v := by
  induction l with
  | nil => exact ⟨none, rfl⟩
  | cons q rest ih =>
    rw [us_zstdin]
    split
    · split
      · split
        · exact ⟨_, rfl⟩
        · exact ⟨_, rfl⟩
      · exact ih
    · exact ih

/-- With `zSxqt_stdin` NULL the loop of lines 1126-1138 calls `strcmp` with it
when the list has an `S` command. -/
theorem us_zstdin_null (env : UsEnv) (l : List scmdlist)
    (h : ∃ q ∈ l, q.s.s.bcmd = 'S') : us_zstdin env none l = none := by
  induction l with
  | nil =>
    obtain ⟨q, hq, _⟩ := h
    cases hq
  | cons a rest ih =>
    rw [us_zstdin]
    by_cases ha : a.s.s.bcmd = 'S'
    · rw [if_pos ha]
    · rw [if_neg ha]
      obtain ⟨q, hq, hs⟩ := h
      rcases List.mem_cons.mp hq with h1 | h1
      · rw [h1] at hs
        exact absurd hs ha
      · exact ih ⟨q, h1, hs⟩

/-- The command that sends the execute file is an `S` command of the list. -/
theorem us_is_xqt_found (env : UsEnv) (l : List scmdlist) (qxqt : scmdlist)
    (h : l.find? (us_is_xqt env) = some qxqt) : ∃ q ∈ l, q.s.s.bcmd = 'S' := by
  refine ⟨qxqt, List.mem_of_find?_eq_some h, ?_⟩
  have h2 := List.find?_some h
  simp only [us_is_xqt, Bool.and_eq_true, beq_iff_eq] at h2
  exact h2.1.1.1

/-- With no option but `JOB_SHOW` nothing more is done with a job. -/
theorem usworkfile_match_show (env : UsEnv) (qsys : uuconf_system)
    (zcomment : Option String) (cstdin : Int) (zstdin : Option String) (st : UsState)
    (fmatch : Bool) :
    usworkfile_match env JOB_SHOW qsys zcomment cstdin zstdin st fmatch =
      Except.ok (st, true) := by
  unfold usworkfile_match
  cases fmatch with
  | false => rfl
  | true =>
    have e1 : JOB_SHOW &&& JOB_INQUIRE = 0 := by decide
    have e2 : JOB_SHOW &&& JOB_KILL = 0 := by decide
    have e3 : JOB_SHOW &&& (JOB_MAIL ||| JOB_NOTIFY) = 0 := by decide
    simp only [if_true, us_fkill, e1, e2, ne_eq, not_true_eq_false, if_false,
      usworkfile_kill, e3, Bool.false_and, Bool.false_eq_true, Bool.not_true]

/-- A job that does not pass the command filter is passed over. -/
theorem usworkfile_match_false (env : UsEnv) (icmd : Nat) (qsys : uuconf_system)
    (zcomment : Option String) (cstdin : Int) (zstdin : Option String) (st : UsState) :
    usworkfile_match env icmd qsys zcomment cstdin zstdin st false = Except.ok (st, true) := by
  unfold usworkfile_match
  rfl

/-- Lines 985-1207 for a job without execute file: the command filter of lines
1008-1010 decides whether the job is shown. -/
theorem usworkfile_job_plain (env : UsEnv) (icmd : Nat) (qsys : uuconf_system)
    (pazcommands : List String) (fnotcommands : Bool) (zcomment : Option String)
    (cstdin : Int) (st : UsState) (hx : st.qlist.find? (us_is_xqt env) = none) :
    (us_plain_cmd_match pazcommands fnotcommands = false →
      usworkfile_job env icmd qsys pazcommands fnotcommands zcomment cstdin st =
        Except.ok
          ({ st with x := { st.x with zSxqt_cmd := none, zSxqt_requestor := none },
                     qlist := [], zlistid := none }, true)) ∧
    (us_plain_cmd_match pazcommands fnotcommands = true →
      usworkfile_job env JOB_SHOW qsys pazcommands fnotcommands zcomment cstdin st =
        Except.ok
          ({ st with x := { st.x with zSxqt_cmd := none, zSxqt_requestor := none },
                     w := st.w.printfs
                       (us_show_lines env qsys (st.zlistid.getD "") true st.qlist),
                     qlist := [], zlistid := none }, true)) := by
  constructor
  · intro hm
    unfold usworkfile_job
    simp only [hx, hm, Bool.false_eq_true, if_false, usworkfile_match_false]
    rfl
  · intro hm
    unfold usworkfile_job
    have e : JOB_SHOW &&& JOB_SHOW ≠ 0 := by decide
    simp only [hx, hm, if_true, e, ne_eq, not_false_eq_true, usworkfile_match_show]
    rfl

/-- Lines 985-1207 for a job with an execute file that is read without error:
the command filter of lines 1101-1117 decides whether the job is shown, and a
job that passes it ends the program in `strcmp` when `zSxqt_stdin` is NULL. -/
theorem usworkfile_job_xqt (env : UsEnv) (icmd : Nat) (qsys : uuconf_system)
    (pazcommands : List String) (fnotcommands : Bool) (zcomment : Option String)
    (cstdin : Int) (st st0 : UsState) (qxqt : scmdlist) (zxqt : String)
    (hx : st.qlist.find? (us_is_xqt env) = some qxqt)
    (hz : env.zsysdep_spool_file_name qsys qxqt.s.s.zfrom = some zxqt)
    (hr : fsxqt_file_read env st zxqt = (st0, true)) :
    (us_xqt_cmd_match st0.x.zSxqt_prog pazcommands fnotcommands = false →
      usworkfile_job env icmd qsys pazcommands fnotcommands zcomment cstdin st =
        Except.ok ({ st0 with qlist := [], zlistid := none }, true)) ∧
    (us_xqt_cmd_match st0.x.zSxqt_prog pazcommands fnotcommands = true →
      st0.x.zSxqt_stdin = none →
      usworkfile_job env icmd qsys pazcommands fnotcommands zcomment cstdin st =
        Except.error { st := st0, exit := UsExit.undefined }) ∧
    (us_xqt_cmd_match st0.x.zSxqt_prog pazcommands fnotcommands = true →
      st0.x.zSxqt_stdin ≠ none →
      usworkfile_job env JOB_SHOW qsys pazcommands fnotcommands zcomment cstdin st =
        Except.ok
          ({ st0 with
               w := st0.w.printfs
                 [usworkfile_header env qsys qxqt.s.s (st.zlistid.getD "") qxqt.itime true,
                  "Executing " ++ st0.x.zSxqt_cmd.getD "" ++ " (sending " ++
                    toString (us_csize env qsys st0.qlist) ++ " bytes)\n"],
               qlist := [], zlistid := none }, true)) := by
  have hq : st0.qlist = st.qlist := by
    have h := (fsxqt_file_read_frame env st zxqt).2.2.2.1
    rw [hr] at h
    exact h
  refine ⟨?_, ?_, ?_⟩
  · intro hm
    unfold usworkfile_job
    simp only [hx, hz, hr, hm, Bool.not_true, Bool.false_eq_true, if_false,
      usworkfile_match_false, Bool.false_and]
    rfl
  · intro hm hn
    unfold usworkfile_job
    have hnull : us_zstdin env none st0.qlist = none := by
      rw [hq]
      exact us_zstdin_null env st.qlist (us_is_xqt_found env st.qlist qxqt hx)
    simp only [hx, hz, hr, hm, Bool.not_true, Bool.false_eq_true, if_false, if_true, hn,
      hnull]
  · intro hm hn
    obtain ⟨zin, hzin⟩ := Option.ne_none_iff_exists'.mp hn
    obtain ⟨v, hv⟩ := us_zstdin_some env zin st0.qlist
    unfold usworkfile_job
    have e : JOB_SHOW &&& JOB_SHOW ≠ 0 := by decide
    simp only [hx, hz, hr, hm, Bool.not_true, Bool.false_eq_true, if_false, if_true, hzin,
      hv, e, ne_eq, not_false_eq_true, decide_True, Bool.and_self, usworkfile_match_show]
    rfl

/-- The command filter for a job with an execute file: without a list every
job passes; a list given with `-c` passes the jobs whose command is in the list,
and all of them when `ALL` is in it; a list given with `-C` passes the jobs
whose command is not in the list, and none when `ALL` is in it. -/
theorem us_xqt_cmd_match_iff (zprog : Option String) (pazcommands : List String)
    (fnotcommands : Bool) :
    us_xqt_cmd_match zprog pazcommands fnotcommands = true ↔
      pazcommands = [] ∨
      (fnotcommands = false ∧ ∃ z ∈ pazcommands, z = "ALL" ∨ some z = zprog) ∨
      (fnotcommands = true ∧ ∀ z ∈ pazcommands, z ≠ "ALL" ∧ some z ≠ zprog) := by
  unfold us_xqt_cmd_match
  cases pazcommands with
  | nil => simp
  | cons c cs =>
    simp only [List.length_cons, Nat.succ_ne_zero, if_false, reduceCtorEq, false_or]
    cases fnotcommands with
    | false =>
      rw [us_match_loop_false]
      simp
    | true =>
      rw [us_match_loop_true]
      simp

/-- C19: a work command passes the selection of `fsworkfiles_system` exactly
when it passes the user filter, if one was given, and the two age filters, if
given; the loop of `fsworkfiles_system` calls `fsworkfile_show` for exactly
these commands, in their order, up to the first call that fails; the user
filter of a list given with `-u` (`fnotusers` false) passes the commands whose
user is in the list, that of a list given with `-U` (`fnotusers` true) those
whose user is not in it.  The command filter is applied to the job that the
selected commands make: a job without execute file passes it when no command
list was given or the first entry of a `-C` list is `ALL`; a job with an
execute file passes it when no list was given, when the list was given with
`-c` and holds `ALL` or the command of the job, or when it was given with `-C`
and holds neither.  A job that does not pass is passed over (nothing is
printed for it); with no other option a job that passes is listed, but for a
job with an execute file the program first calls `strcmp` with `zSxqt_stdin`,
which is a null pointer when no execute file read so far had an I line.  An
execute file matches in `fsexecutions` exactly when it passes the user filter,
if given, and the command filter, if given. -/
theorem C19_filters_compose (env : UsEnv) (icmd : Nat) (qsys : uuconf_system)
    (pazusers : List String) (fnotusers : Bool) (iold iyoung : Int)
    (pazcommands : List String) (fnotcommands : Bool) (zcomment : Option String)
    (cstdin : Int) (s : swork) (cmds : List swork) (st st0 : UsState) (x : SxqtVars)
    (zuser : String) (zprog : Option String) (qxqt : scmdlist) (zxqt : String) :
    (us_work_selected env qsys pazusers fnotusers iold iyoung s = true ↔
      (pazusers = [] ∨
        us_match_loop (fun z => z == s.s.zuser) fnotusers pazusers = true) ∧
      (iold = -1 ∨ env.isysdep_work_time qsys s.pseq ≤ iold) ∧
      (iyoung = -1 ∨ iyoung ≤ env.isysdep_work_time qsys s.pseq)) ∧
    (fsworkfiles_system_loop env icmd qsys pazusers fnotusers iold iyoung pazcommands
        fnotcommands zcomment cstdin cmds st =
      us_show_each env icmd qsys pazcommands fnotcommands zcomment cstdin
        (cmds.filter (us_work_selected env qsys pazusers fnotusers iold iyoung)) st) ∧
    (us_match_loop (fun z => z == zuser) false pazusers = true ↔ zuser ∈ pazusers) ∧
    (us_match_loop (fun z => z == zuser) true pazusers = true ↔ zuser ∉ pazusers) ∧
    (us_plain_cmd_match pazcommands fnotcommands = true ↔
      pazcommands = [] ∨ (fnotcommands = true ∧ pazcommands.head? = some "ALL")) ∧
    (st.qlist.find? (us_is_xqt env) = none →
      (us_plain_cmd_match pazcommands fnotcommands = false →
        usworkfile_job env icmd qsys pazcommands fnotcommands zcomment cstdin st =
          Except.ok
            ({ st with x := { st.x with zSxqt_cmd := none, zSxqt_requestor := none },
                       qlist := [], zlistid := none }, true)) ∧
      (us_plain_cmd_match pazcommands fnotcommands = true →
        usworkfile_job env JOB_SHOW qsys pazcommands fnotcommands zcomment cstdin st =
          Except.ok
            ({ st with x := { st.x with zSxqt_cmd := none, zSxqt_requestor := none },
                       w := st.w.printfs
                         (us_show_lines env qsys (st.zlistid.getD "") true st.qlist),
                       qlist := [], zlistid := none }, true))) ∧
    (us_xqt_cmd_match zprog pazcommands fnotcommands = true ↔
      pazcommands = [] ∨
      (fnotcommands = false ∧ ∃ z ∈ pazcommands, z = "ALL" ∨ some z = zprog) ∨
      (fnotcommands = true ∧ ∀ z ∈ pazcommands, z ≠ "ALL" ∧ some z ≠ zprog)) ∧
    (st.qlist.find? (us_is_xqt env) = some qxqt →
      env.zsysdep_spool_file_name qsys qxqt.s.s.zfrom = some zxqt →
      fsxqt_file_read env st zxqt = (st0, true) →
      (us_xqt_cmd_match st0.x.zSxqt_prog pazcommands fnotcommands = false →
        usworkfile_job env icmd qsys pazcommands fnotcommands zcomment cstdin st =
          Except.ok ({ st0 with qlist := [], zlistid := none }, true)) ∧
      (us_xqt_cmd_match st0.x.zSxqt_prog pazcommands fnotcommands = true →
        st0.x.zSxqt_stdin = none →
        usworkfile_job env icmd qsys pazcommands fnotcommands zcomment cstdin st =
          Except.error { st := st0, exit := UsExit.undefined }) ∧
      (us_xqt_cmd_match st0.x.zSxqt_prog pazcommands fnotcommands = true →
        st0.x.zSxqt_stdin ≠ none →
        usworkfile_job env JOB_SHOW qsys pazcommands fnotcommands zcomment cstdin st =
          Except.ok
            ({ st0 with
                 w := st0.w.printfs
                   [usworkfile_header env qsys qxqt.s.s (st.zlistid.getD "") qxqt.itime true,
                    "Executing " ++ st0.x.zSxqt_cmd.getD "" ++ " (sending " ++
                      toString (us_csize env qsys st0.qlist) ++ " bytes)\n"],
                 qlist := [], zlistid := none }, true))) ∧
    (us_xqt_match x pazusers fnotusers pazcommands fnotcommands = true ↔
      (pazusers = [] ∨
        us_match_loop (fun z => x.zSxqt_user == some z || x.zSxqt_requestor == some z)
          fnotusers pazusers = true) ∧
      (pazcommands = [] ∨
        us_match_loop (fun z => z == "ALL" || some z == x.zSxqt_prog) fnotcommands
          pazcommands = true)) := by
  refine ⟨?_, fsworkfiles_system_loop_each env icmd qsys pazusers fnotusers iold iyoung
    pazcommands fnotcommands zcomment cstdin cmds st, ?_, ?_, ?_,
    fun hx => usworkfile_job_plain env icmd qsys pazcommands fnotcommands zcomment cstdin st hx,
    us_xqt_cmd_match_iff zprog pazcommands fnotcommands,
    fun hx hz hr => usworkfile_job_xqt env icmd qsys pazcommands fnotcommands zcomment cstdin
      st st0 qxqt zxqt hx hz hr, ?_⟩
  · unfold us_work_selected
    simp only []
    cases pazusers with
    | nil =>
      simp only [List.length_nil, gt_iff_lt, lt_self_iff_false, false_and, if_false, true_or,
        true_and]
      by_cases h1 : iold = -1 <;> by_cases h2 : iyoung = -1 <;>
        simp [h1, h2]
    | cons a t =>
      simp only [List.length_cons, gt_iff_lt, Nat.zero_lt_succ, true_and, reduceCtorEq,
        false_or]
      cases hm : us_match_loop (fun z => z == s.s.zuser) fnotusers (a :: t) with
      | false => simp
      | true =>
        simp only [Bool.true_eq_false, if_false, true_and]
        by_cases h1 : iold = -1 <;> by_cases h2 : iyoung = -1 <;>
          simp [h1, h2]
  · rw [us_match_loop_false]
    simp
  · rw [us_match_loop_true]
    simp only [beq_eq_false_iff_ne, ne_eq]
    constructor
    · intro h hm
      exact h zuser hm rfl
    · intro h z hz hzu
      exact h (hzu ▸ hz)
  · unfold us_plain_cmd_match
    simp only [decide_eq_true_eq, List.length_eq_zero]
  · unfold us_xqt_match
    simp only []
    cases pazusers with
    | nil =>
      cases pazcommands with
      | nil => simp
      | cons c cs => simp
    | cons a t =>
      cases pazcommands with
      | nil => simp
      | cons c cs =>
        simp only [List.length_cons, Nat.succ_ne_zero, if_false, gt_iff_lt, Nat.zero_lt_succ,
          decide_True, Bool.and_true, reduceCtorEq, false_or]
        cases hm : us_match_loop
          (fun z => x.zSxqt_user == some z || x.zSxqt_requestor == some z) fnotusers
          (a :: t) with
        | false => simp
        | true => simp

/-- C19 at the example job with the execute file `U alice peerA`, `C rmail carol`:
with `-c rnews` the job is passed over; with `-c rmail` it passes and the
program ends in the call of `strcmp` with the null `zSxqt_stdin`; when the
execute file has an I line the job is listed. -/
theorem C19_filters_compose_witness :
    usworkfile_job (example_usenv_xqt [["U", "alice", "peerA"], ["C", "rmail", "carol"]])
        JOB_SHOW (example_system "peerA") ["rnews"] false none 100
        { UsState.init with qlist := [{ s := example_xqt_work, itime := 94600 }],
                            zlistid := some "peerAN0003" } =
      Except.ok
        ({ UsState.init with
             x := { UsState.init.x with zSxqt_user := some "alice",
                                        zSxqt_system := some "peerA",
                                        zSxqt_prog := some "rmail",
                                        zSxqt_cmd := some "rmail carol" } }, true) ∧
    usworkfile_job (example_usenv_xqt [["U", "alice", "peerA"], ["C", "rmail", "carol"]])
        JOB_SHOW (example_system "peerA") ["rmail"] false none 100
        { UsState.init with qlist := [{ s := example_xqt_work, itime := 94600 }],
                            zlistid := some "peerAN0003" } =
      Except.error
        { st := { UsState.init with
                    qlist := [{ s := example_xqt_work, itime := 94600 }],
                    zlistid := some "peerAN0003",
                    x := { UsState.init.x with zSxqt_user := some "alice",
                                               zSxqt_system := some "peerA",
                                               zSxqt_prog := some "rmail",
                                               zSxqt_cmd := some "rmail carol" } },
          exit := UsExit.undefined } ∧
    (uustat_main (example_usenv_xqt [["U", "alice", "peerA"], ["C", "rmail", "carol"]])
      example_usother [('c', "rmail")] false UsState.init).exit = UsExit.undefined ∧
    (uustat_main
      (example_usenv_xqt [["U", "alice", "peerA"], ["C", "rmail", "carol"], ["I", "D.in"]])
      example_usother [('c', "rmail")] false UsState.init).st.w.out =
      ["peerAN0003 peerA alice 1970-01-02 02:16:40 ",
       "Executing rmail carol (sending 10 bytes)\n"] :=
  have h := (C19_filters_compose
    (example_usenv_xqt [["U", "alice", "peerA"], ["C", "rmail", "carol"]]) JOB_SHOW
    (example_system "peerA") [] false (-1) (-1) ["rnews"] false none 100 example_xqt_work []
    { UsState.init with qlist := [{ s := example_xqt_work, itime := 94600 }],
                        zlistid := some "peerAN0003" }
    { UsState.init with
        qlist := [{ s := example_xqt_work, itime := 94600 }],
        zlistid := some "peerAN0003",
        x := { UsState.init.x with zSxqt_user := some "alice",
                                   zSxqt_system := some "peerA",
                                   zSxqt_prog := some "rmail",
                                   zSxqt_cmd := some "rmail carol" } }
    UsState.init.x "alice" none { s := example_xqt_work, itime := 94600 }
    "/spool/D.X0003").2.2.2.2.2.2.2.1 (by decide) (by decide) (by rfl)
  have h2 := (C19_filters_compose
    (example_usenv_xqt [["U", "alice", "peerA"], ["C", "rmail", "carol"]]) JOB_SHOW
    (example_system "peerA") [] false (-1) (-1) ["rmail"] false none 100 example_xqt_work []
    { UsState.init with qlist := [{ s := example_xqt_work, itime := 94600 }],
                        zlistid := some "peerAN0003" }
    { UsState.init with
        qlist := [{ s := example_xqt_work, itime := 94600 }],
        zlistid := some "peerAN0003",
        x := { UsState.init.x with zSxqt_user := some "alice",
                                   zSxqt_system := some "peerA",
                                   zSxqt_prog := some "rmail",
                                   zSxqt_cmd := some "rmail carol" } }
    UsState.init.x "alice" none { s := example_xqt_work, itime := 94600 }
    "/spool/D.X0003").2.2.2.2.2.2.2.1 (by decide) (by decide) (by rfl)
  ⟨h.1 (by decide), h2.2.1 (by decide) (by decide), by decide, by decide⟩


/-- Function `fsnotify` kills no job and removes no file. -/
theorem fsnotify_frame (env : UsEnv) (w : UsWorld) (icmd : Nat)
    (zcomment : Option String) (cstdin : Int) (fkilled : Bool) (zcmd : Option String)
    (qcmd : List scmdlist) (zid : Option String) (zuser : String) (qsys : uuconf_system)
    (zstdin zrequestor : Option String) :
    (∀ r, fsnotify env w icmd zcomment cstdin fkilled zcmd qcmd zid zuser qsys zstdin
        zrequestor = Except.ok r → r.1.killed = w.killed ∧ r.1.removed = w.removed) ∧
    (∀ w1, fsnotify env w icmd zcomment cstdin fkilled zcmd qcmd zid zuser qsys zstdin
        zrequestor = Except.error w1 → w1.killed = w.killed ∧ w1.removed = w.removed) := by
  unfold fsnotify
  simp only []
  constructor
  · intro r h
    repeat' split at h
    all_goals first | (cases h; exact ⟨rfl, rfl⟩) | (cases h)
  · intro w1 h
    repeat' split at h
    all_goals first | (cases h; exact ⟨rfl, rfl⟩) | (cases h)

/-- The answer that `fkill` gets depends on the options and on standard input
only. -/
theorem us_fkill_answer (w w1 : UsWorld) (icmd : Nat) (zwhat zwhat1 : String)
    (h : w1.stdin = w.stdin) : (us_fkill w1 icmd zwhat1).2 = (us_fkill w icmd zwhat).2 := by
  unfold us_fkill
  split
  · simp only [h]
  · split <;> rfl

/-- The end of lines 985-1207 leaves the world as it is. -/
theorem usworkfile_done_world (r : UsStep) : us_world (usworkfile_done r) = us_world r := by
  unfold usworkfile_done
  split
  · rfl
  · split <;> rfl

/-- Lines 1170-1173: the job of another user that was to be killed is refused. -/
theorem usworkfile_kill_refused (env : UsEnv) (icmd : Nat) (qsys : uuconf_system)
    (zcomment : Option String) (cstdin : Int) (zstdin : Option String)
    (st : UsState) (q : scmdlist) (rest : List scmdlist)
    (hq : st.qlist = q :: rest) (huser : q.s.s.zuser ≠ env.zsysdep_login_name)
    (hpriv : env.fsysdep_privileged = false) :
    usworkfile_kill env icmd qsys zcomment cstdin zstdin st true =
      Except.ok
        (st.logged tlog.LOG_ERROR (st.zlistid.getD "" ++ ": Not submitted by you"), true) := by
  unfold usworkfile_kill
  have hne : (env.zsysdep_login_name != q.s.s.zuser) = true := by
    simp only [bne_iff_ne, ne_eq]
    exact fun h => huser h.symm
  simp only [hq, hne, hpriv, Bool.not_false, Bool.and_true, if_true]
  unfold UsState.logged
  simp only [hq]

/-- A job of another user is not killed by lines 1170-1190, whatever `fkill` is. -/
theorem usworkfile_kill_other (env : UsEnv) (icmd : Nat) (qsys : uuconf_system)
    (zcomment : Option String) (cstdin : Int) (zstdin : Option String)
    (st : UsState) (fkill : Bool) (q : scmdlist) (rest : List scmdlist)
    (hq : st.qlist = q :: rest) (huser : q.s.s.zuser ≠ env.zsysdep_login_name)
    (hpriv : env.fsysdep_privileged = false) :
    (us_world (usworkfile_kill env icmd qsys zcomment cstdin zstdin st fkill)).killed
      = st.w.killed := by
  cases fkill with
  | true =>
    rw [usworkfile_kill_refused env icmd qsys zcomment cstdin zstdin st q rest hq huser hpriv]
    rfl
  | false =>
    unfold usworkfile_kill
    simp only [Bool.false_and, Bool.false_eq_true, if_false]
    split
    · rename_i w1 hn
      split at hn
      · exact ((fsnotify_frame _ _ _ _ _ _ _ _ _ _ _ _ _).2 w1 hn).1
      · cases hn
    · rename_i r hn
      have hr : r.1.killed = st.w.killed := by
        split at hn
        · exact ((fsnotify_frame _ _ _ _ _ _ _ _ _ _ _ _ _).1 r hn).1
        · cases hn
          rfl
      split
      · exact hr
      · exact hr

/-- Lines 1148-1173 for the job of another user that is to be killed (with `-K`,
or by the answer to `-i`): it is refused. -/
theorem usworkfile_match_refused (env : UsEnv) (icmd : Nat) (qsys : uuconf_system)
    (zcomment : Option String) (cstdin : Int) (zstdin : Option String)
    (st : UsState) (q : scmdlist) (rest : List scmdlist)
    (hq : st.qlist = q :: rest) (huser : q.s.s.zuser ≠ env.zsysdep_login_name)
    (hpriv : env.fsysdep_privileged = false)
    (hk : (us_fkill st.w icmd (st.zlistid.getD "")).2 = true) :
    usworkfile_match env icmd qsys zcomment cstdin zstdin st true =
      Except.ok
        ({ st with
             w := UsWorld.ulog (us_fkill st.w icmd (st.zlistid.getD "")).1 tlog.LOG_ERROR
               (st.zlistid.getD "" ++ ": Not submitted by you") }, true) := by
  unfold usworkfile_match
  simp only [if_true, hk]
  exact usworkfile_kill_refused env icmd qsys zcomment cstdin zstdin
    { st with w := (us_fkill st.w icmd (st.zlistid.getD "")).1 } q rest hq huser hpriv

/-- A job of another user is not killed by lines 1148-1190. -/
theorem usworkfile_match_other (env : UsEnv) (icmd : Nat) (qsys : uuconf_system)
    (zcomment : Option String) (cstdin : Int) (zstdin : Option String)
    (st : UsState) (fmatch : Bool) (q : scmdlist) (rest : List scmdlist)
    (hq : st.qlist = q :: rest) (huser : q.s.s.zuser ≠ env.zsysdep_login_name)
    (hpriv : env.fsysdep_privileged = false) :
    (us_world (usworkfile_match env icmd qsys zcomment cstdin zstdin st fmatch)).killed
      = st.w.killed := by
  unfold usworkfile_match
  split
  · exact (usworkfile_kill_other env icmd qsys zcomment cstdin zstdin
      { st with w := (us_fkill st.w icmd (st.zlistid.getD "")).1 } _ q rest hq huser
      hpriv).trans (us_fkill_frame _ _ _).1
  · rfl

/-- An execute file that is read without error leaves the world as it is. -/
theorem fsxqt_file_read_world (env : UsEnv) (st : UsState) (zfile : String)
    (h : (fsxqt_file_read env st zfile).2 = true) :
    (fsxqt_file_read env st zfile).1.w = st.w := by
  unfold fsxqt_file_read at h ⊢
  cases hx : env.xqt_file zfile with
  | error zerr =>
    rw [hx] at h
    cases h
  | ok lines =>
    rw [hx] at h
    simp only [] at h ⊢
    rw [if_pos h]

/-- Lines 985-1147 of `fsworkfile_show`: they return FALSE, or the program ends
in `strcmp`, or they hand to lines 1148-1190 a state that differs from the one
they got in what was printed and in the variables of the execute file only. -/
theorem usworkfile_job_shape (env : UsEnv) (icmd : Nat) (qsys : uuconf_system)
    (pazcommands : List String) (fnotcommands : Bool) (zcomment : Option String)
    (cstdin : Int) (st : UsState) :
    (∃ st2, usworkfile_job env icmd qsys pazcommands fnotcommands zcomment cstdin st =
        Except.ok (st2, false) ∧
      st2.w.killed = st.w.killed ∧ st2.w.mails = st.w.mails) ∨
    (∃ st0, usworkfile_job env icmd qsys pazcommands fnotcommands zcomment cstdin st =
        Except.error { st := st0, exit := UsExit.undefined } ∧
      st0.w.killed = st.w.killed ∧ st0.w.mails = st.w.mails) ∨
    (∃ st1 zstdin fmatch,
      usworkfile_job env icmd qsys pazcommands fnotcommands zcomment cstdin st =
        usworkfile_done
          (usworkfile_match env icmd qsys zcomment cstdin zstdin st1 fmatch) ∧
      st1.qlist = st.qlist ∧ st1.zlistid = st.zlistid ∧ st1.w.killed = st.w.killed ∧
      st1.w.mails = st.w.mails ∧ st1.w.stdin = st.w.stdin ∧ st1.w.log = st.w.log) := by
  unfold usworkfile_job
  simp only []
  split
  · refine Or.inr (Or.inr ?_)
    split
    · refine ⟨_, _, _, rfl, ?_⟩
      split <;> exact ⟨rfl, rfl, rfl, rfl, rfl, rfl⟩
    · exact ⟨_, _, _, rfl, rfl, rfl, rfl, rfl, rfl, rfl⟩
  · split
    · exact Or.inl ⟨st, rfl, rfl, rfl⟩
    · rename_i zxqt _
      obtain ⟨f1, f2, f3, f4, f5⟩ := fsxqt_file_read_frame env st zxqt
      split
      · rename_i hr
        simp only [Bool.not_eq_true', ] at hr
        exact Or.inl ⟨(fsxqt_file_read env st zxqt).1, by rw [← hr], f1, f3⟩
      · rename_i hr
        simp only [Bool.not_eq_true, Bool.not_eq_false] at hr
        simp only [Bool.not_eq_false'] at hr
        have hw := fsxqt_file_read_world env st zxqt hr
        split
        · exact Or.inr (Or.inl ⟨_, rfl, f1, f3⟩)
        · refine Or.inr (Or.inr ⟨_, _, _, rfl, ?_⟩)
          split
          · refine ⟨f4, f5, ?_, ?_, ?_, ?_⟩
            · exact f1
            · exact f3
            · show (fsxqt_file_read env st zxqt).1.w.stdin = st.w.stdin
              rw [hw]
            · show (fsxqt_file_read env st zxqt).1.w.log = st.w.log
              rw [hw]
          · refine ⟨f4, f5, f1, f3, ?_, ?_⟩
            · rw [hw]
            · rw [hw]

/-- A job of another user is not killed by lines 985-1207 of `fsworkfile_show`,
however they end. -/
theorem usworkfile_job_other (env : UsEnv) (icmd : Nat) (qsys : uuconf_system)
    (pazcommands : List String) (fnotcommands : Bool) (zcomment : Option String)
    (cstdin : Int) (st : UsState) (q : scmdlist) (rest : List scmdlist)
    (hq : st.qlist = q :: rest) (huser : q.s.s.zuser ≠ env.zsysdep_login_name)
    (hpriv : env.fsysdep_privileged = false) :
    (us_world (usworkfile_job env icmd qsys pazcommands fnotcommands zcomment cstdin
      st)).killed = st.w.killed := by
  rcases usworkfile_job_shape env icmd qsys pazcommands fnotcommands zcomment cstdin st with
    ⟨st2, h, hk, _⟩ | ⟨st0, h, hk, _⟩ | ⟨st1, zstdin, fmatch, h, h1, _, hk, _, _, _⟩
  · rw [h]
    exact hk
  · rw [h]
    exact hk
  · rw [h, usworkfile_done_world]
    exact (usworkfile_match_other env icmd qsys zcomment cstdin zstdin st1 fmatch q rest
      (h1.trans hq) huser hpriv).trans hk

/-- For a job of another user that is to be killed lines 985-1207 of
`fsworkfile_show` send no mail, however they end. -/
theorem usworkfile_job_no_mail (env : UsEnv) (icmd : Nat) (qsys : uuconf_system)
    (pazcommands : List String) (fnotcommands : Bool) (zcomment : Option String)
    (cstdin : Int) (st : UsState) (q : scmdlist) (rest : List scmdlist)
    (hq : st.qlist = q :: rest) (huser : q.s.s.zuser ≠ env.zsysdep_login_name)
    (hpriv : env.fsysdep_privileged = false)
    (hk : (us_fkill st.w icmd (st.zlistid.getD "")).2 = true) :
    (us_world (usworkfile_job env icmd qsys pazcommands fnotcommands zcomment cstdin
      st)).mails = st.w.mails := by
  rcases usworkfile_job_shape env icmd qsys pazcommands fnotcommands zcomment cstdin st with
    ⟨st2, h, _, hm⟩ | ⟨st0, h, _, hm⟩ | ⟨st1, zstdin, fmatch, h, h1, h2, _, hm, hs, _⟩
  · rw [h]
    exact hm
  · rw [h]
    exact hm
  · rw [h, usworkfile_done_world]
    cases fmatch with
    | false =>
      rw [usworkfile_match_false]
      exact hm
    | true =>
      have hk1 : (us_fkill st1.w icmd (st1.zlistid.getD "")).2 = true := by
        rw [us_fkill_answer st.w st1.w icmd (st.zlistid.getD "") (st1.zlistid.getD "") hs]
        exact hk
      rw [usworkfile_match_refused env icmd qsys zcomment cstdin zstdin st1 q rest
        (h1.trans hq) huser hpriv hk1]
      exact (us_fkill_frame _ _ _).2.2.1.trans hm

/-- Lines 985-1207 for a job that passed the command filter, was submitted by
another user and is to be killed: they return TRUE, and the job is refused. -/
theorem usworkfile_done_refused (env : UsEnv) (icmd : Nat) (qsys : uuconf_system)
    (zcomment : Option String) (cstdin : Int) (zstdin : Option String)
    (st st1 : UsState) (q : scmdlist) (rest : List scmdlist)
    (hq : st.qlist = q :: rest) (huser : q.s.s.zuser ≠ env.zsysdep_login_name)
    (hpriv : env.fsysdep_privileged = false)
    (hk : (us_fkill st.w icmd (st.zlistid.getD "")).2 = true)
    (h1 : st1.qlist = st.qlist) (h2 : st1.zlistid = st.zlistid)
    (h3 : st1.w.killed = st.w.killed) (h4 : st1.w.mails = st.w.mails)
    (h5 : st1.w.stdin = st.w.stdin) (h6 : st1.w.log = st.w.log) :
    ∃ st2, usworkfile_done (usworkfile_match env icmd qsys zcomment cstdin zstdin st1 true) =
        Except.ok (st2, true) ∧
      st2.w.killed = st.w.killed ∧ st2.w.mails = st.w.mails ∧
      st2.w.log = st.w.log ++
        [(tlog.LOG_ERROR, st.zlistid.getD "" ++ ": Not submitted by you")] := by
  have hk1 : (us_fkill st1.w icmd (st1.zlistid.getD "")).2 = true := by
    rw [us_fkill_answer st.w st1.w icmd (st.zlistid.getD "") (st1.zlistid.getD "") h5]
    exact hk
  rw [usworkfile_match_refused env icmd qsys zcomment cstdin zstdin st1 q rest
    (h1.trans hq) huser hpriv hk1]
  obtain ⟨f1, _, f3, f4, _⟩ := us_fkill_frame st1.w icmd (st1.zlistid.getD "")
  refine ⟨_, rfl, ?_, ?_, ?_⟩
  · exact f1.trans h3
  · exact f3.trans h4
  · show (us_fkill st1.w icmd (st1.zlistid.getD "")).1.log ++ _ = _
    rw [f4, h6, h2]

/-- A job without execute file that passes the command filter, was submitted by
another user and is to be killed is refused. -/
theorem usworkfile_job_plain_refused (env : UsEnv) (icmd : Nat) (qsys : uuconf_system)
    (pazcommands : List String) (fnotcommands : Bool) (zcomment : Option String)
    (cstdin : Int) (st : UsState) (q : scmdlist) (rest : List scmdlist)
    (hq : st.qlist = q :: rest) (huser : q.s.s.zuser ≠ env.zsysdep_login_name)
    (hpriv : env.fsysdep_privileged = false)
    (hk : (us_fkill st.w icmd (st.zlistid.getD "")).2 = true)
    (hx : st.qlist.find? (us_is_xqt env) = none)
    (hm : us_plain_cmd_match pazcommands fnotcommands = true) :
    ∃ st2, usworkfile_job env icmd qsys pazcommands fnotcommands zcomment cstdin st =
        Except.ok (st2, true) ∧
      st2.w.killed = st.w.killed ∧ st2.w.mails = st.w.mails ∧
      st2.w.log = st.w.log ++
        [(tlog.LOG_ERROR, st.zlistid.getD "" ++ ": Not submitted by you")] := by
  unfold usworkfile_job
  simp only [hx, hm, if_true]
  split
  · exact usworkfile_done_refused env icmd qsys zcomment cstdin none st _ q rest hq huser
      hpriv hk rfl rfl rfl rfl rfl rfl
  · exact usworkfile_done_refused env icmd qsys zcomment cstdin none st _ q rest hq huser
      hpriv hk rfl rfl rfl rfl rfl rfl

/-- A job with an execute file that is read without error and passes the
command filter, submitted by another user and to be killed, is refused when
`zSxqt_stdin` is not NULL. -/
theorem usworkfile_job_xqt_refused (env : UsEnv) (icmd : Nat) (qsys : uuconf_system)
    (pazcommands : List String) (fnotcommands : Bool) (zcomment : Option String)
    (cstdin : Int) (st st0 : UsState) (q : scmdlist) (rest : List scmdlist)
    (qxqt : scmdlist) (zxqt : String)
    (hq : st.qlist = q :: rest) (huser : q.s.s.zuser ≠ env.zsysdep_login_name)
    (hpriv : env.fsysdep_privileged = false)
    (hk : (us_fkill st.w icmd (st.zlistid.getD "")).2 = true)
    (hx : st.qlist.find? (us_is_xqt env) = some qxqt)
    (hz : env.zsysdep_spool_file_name qsys qxqt.s.s.zfrom = some zxqt)
    (hr : fsxqt_file_read env st zxqt = (st0, true))
    (hm : us_xqt_cmd_match st0.x.zSxqt_prog pazcommands fnotcommands = true)
    (hn : st0.x.zSxqt_stdin ≠ none) :
    ∃ st2, usworkfile_job env icmd qsys pazcommands fnotcommands zcomment cstdin st =
        Except.ok (st2, true) ∧
      st2.w.killed = st.w.killed ∧ st2.w.mails = st.w.mails ∧
      st2.w.log = st.w.log ++
        [(tlog.LOG_ERROR, st.zlistid.getD "" ++ ": Not submitted by you")] := by
  obtain ⟨zin, hzin⟩ := Option.ne_none_iff_exists'.mp hn
  obtain ⟨v, hv⟩ := us_zstdin_some env zin st0.qlist
  obtain ⟨f1, f2, f3, f4, f5⟩ := fsxqt_file_read_frame env st zxqt
  have hw := fsxqt_file_read_world env st zxqt (by rw [hr])
  rw [hr] at f1 f3 f4 f5 hw
  simp only [] at f1 f3 f4 f5 hw
  unfold usworkfile_job
  simp only [hx, hz, hr, hm, Bool.not_true, Bool.false_eq_true, if_false, if_true, hzin, hv,
    Bool.true_and]
  split
  · exact usworkfile_done_refused env icmd qsys zcomment cstdin v st _ q rest hq huser
      hpriv hk f4 f5 f1 f3 (by rw [← hw]; rfl) (by rw [← hw]; rfl)
  · exact usworkfile_done_refused env icmd qsys zcomment cstdin v st _ q rest hq huser
      hpriv hk f4 f5 f1 f3 (by rw [hw]) (by rw [hw])

/-- What finding the system of an execute file leaves as it is. -/
theorem usexecutions_system_frame (env : UsEnv) (w : UsWorld) (zsystem : String) :
    (usexecutions_system env w zsystem).1.removed = w.removed := by
  unfold usexecutions_system
  repeat' split
  all_goals rfl

/-- The execute file of another user is not removed by lines 1358-1490 of
`fsexecutions`, however they end. -/
theorem usexecutions_match_other (env : UsEnv) (icmd : Nat) (zcomment : Option String)
    (cstdin : Int) (st : UsState) (zfile zsystem : String) (itime : Int)
    (hpriv : env.fsysdep_privileged = false)
    (huser : st.x.zSxqt_user ≠ some env.zsysdep_login_name) :
    (us_world (usexecutions_match env icmd zcomment cstdin st zfile zsystem itime)).removed
      = st.w.removed := by
  have hne : (st.x.zSxqt_user != some env.zsysdep_login_name) = true := by
    simp only [bne_iff_ne, ne_eq]
    exact huser
  have hw0 : ∀ l : List String,
      (if icmd &&& JOB_SHOW ≠ 0 then st.w.printfs l else st.w).removed = st.w.removed := by
    intro l
    split <;> rfl
  unfold usexecutions_match
  simp only []
  generalize hwg : (if icmd &&& JOB_SHOW ≠ 0 then st.w.printfs _ else st.w) = w0
  have hw0r : w0.removed = st.w.removed := by
    rw [← hwg]
    exact hw0 _
  have hkr := (us_fkill_frame w0 icmd (st.x.zSxqt_cmd.getD "")).2.1
  cases hfk : (us_fkill w0 icmd (st.x.zSxqt_cmd.getD "")).2 with
  | true =>
    simp only [usexecutions_own, hne, hpriv, Bool.not_false, Bool.and_true, if_true]
    exact hkr.trans hw0r
  | false =>
    simp only [usexecutions_own, Bool.false_eq_true, if_false]
    split
    · rename_i w2 hs
      have h2 := usexecutions_system_frame env (us_fkill w0 icmd (st.x.zSxqt_cmd.getD "")).1
        zsystem
      rw [hs] at h2
      exact h2.trans (hkr.trans hw0r)
    · rename_i w2 ssys hs
      have h2 := usexecutions_system_frame env (us_fkill w0 icmd (st.x.zSxqt_cmd.getD "")).1
        zsystem
      rw [hs] at h2
      simp only [] at h2
      split
      · rename_i w1 hn
        split at hn
        · exact ((fsnotify_frame _ _ _ _ _ _ _ _ _ _ _ _ _).2 w1 hn).2.trans
            (h2.trans (hkr.trans hw0r))
        · cases hn
      · rename_i r hn
        have hr : r.1.removed = st.w.removed := by
          split at hn
          · exact ((fsnotify_frame _ _ _ _ _ _ _ _ _ _ _ _ _).1 r hn).2.trans
              (h2.trans (hkr.trans hw0r))
          · cases hn
            exact h2.trans (hkr.trans hw0r)
        split
        · exact hr
        · exact hr

/-- The execute file of another user that is to be killed (with `-K`, or by the
answer to `-i`) is refused. -/
theorem usexecutions_match_refused (env : UsEnv) (icmd : Nat) (zcomment : Option String)
    (cstdin : Int) (st : UsState) (zfile zsystem : String) (itime : Int)
    (hpriv : env.fsysdep_privileged = false)
    (huser : st.x.zSxqt_user ≠ some env.zsysdep_login_name)
    (hk : (us_fkill st.w icmd (st.x.zSxqt_cmd.getD "")).2 = true) :
    ∃ st1, usexecutions_match env icmd zcomment cstdin st zfile zsystem itime =
        Except.ok (st1, false) ∧
      st1.w.removed = st.w.removed ∧ st1.w.mails = st.w.mails ∧
      st1.w.log = st.w.log ++ [(tlog.LOG_ERROR, "Job not submitted by you\n")] := by
  have hne : (st.x.zSxqt_user != some env.zsysdep_login_name) = true := by
    simp only [bne_iff_ne, ne_eq]
    exact huser
  unfold usexecutions_match
  simp only []
  generalize hwg : (if icmd &&& JOB_SHOW ≠ 0 then st.w.printfs _ else st.w) = w0
  have hw0 : w0.removed = st.w.removed ∧ w0.mails = st.w.mails ∧ w0.log = st.w.log ∧
      w0.stdin = st.w.stdin := by
    rw [← hwg]
    split <;> exact ⟨rfl, rfl, rfl, rfl⟩
  have hk0 : (us_fkill w0 icmd (st.x.zSxqt_cmd.getD "")).2 = true := by
    rw [us_fkill_answer st.w w0 icmd (st.x.zSxqt_cmd.getD "") (st.x.zSxqt_cmd.getD "")
      hw0.2.2.2]
    exact hk
  obtain ⟨_, f2, f3, f4, _⟩ := us_fkill_frame w0 icmd (st.x.zSxqt_cmd.getD "")
  simp only [hk0, usexecutions_own, hne, hpriv, Bool.not_false, Bool.and_true, if_true]
  refine ⟨_, rfl, ?_, ?_, ?_⟩
  · exact f2.trans hw0.1
  · exact f3.trans hw0.2.1
  · show (us_fkill w0 icmd (st.x.zSxqt_cmd.getD "")).1.log ++ _ = _
    rw [f4, hw0.2.2.1]

/-- A job is to be killed when `-i` is given and the answer starts with `y` or
`Y`, or when `-i` is not given and `-K` is. -/
theorem us_fkill_iff (w : UsWorld) (icmd : Nat) (zwhat : String) :
    (us_fkill w icmd zwhat).2 = true ↔
      (icmd &&& JOB_INQUIRE ≠ 0 ∧ (w.stdin.head? = some 'y' ∨ w.stdin.head? = some 'Y')) ∨
      (icmd &&& JOB_INQUIRE = 0 ∧ icmd &&& JOB_KILL ≠ 0) := by
  unfold us_fkill
  by_cases h1 : icmd &&& JOB_INQUIRE ≠ 0
  · rw [if_pos h1]
    have h1b : ¬ (icmd &&& JOB_INQUIRE = 0) := h1
    simp only [us_getchar_answer, h1, ne_eq, not_false_eq_true, true_and, h1b, false_and,
      or_false]
    cases hs : w.stdin with
    | nil => simp
    | cons b rest => simp
  · rw [if_neg h1]
    have h1b : icmd &&& JOB_INQUIRE = 0 := not_not.mp h1
    by_cases h2 : icmd &&& JOB_KILL ≠ 0
    · rw [if_pos h2]
      simp [h1b, h2]
    · rw [if_neg h2]
      have h2b : icmd &&& JOB_KILL = 0 := not_not.mp h2
      simp [h1b, h2b]

/-- The cast to `int` leaves a number in the range of `int` as it is. -/
theorem to_int_of_range (i : Int) (h1 : -(2 ^ 31) ≤ i) (h2 : i < 2 ^ 31) : to_int i = i := by
  unfold to_int
  omega

/-- A larger number of hours gives a threshold that is not later; a number
other than -1 gives a threshold, and -1 none. -/
theorem uustat_age_le (env : UsEnv) (h1 h2 : Int) (hh : h1 ≤ h2) (hne : h2 ≠ -1) :
    uustat_age env h2 ≠ -1 ∧
      (uustat_age env h1 = -1 ∨ uustat_age env h2 ≤ uustat_age env h1) := by
  unfold uustat_age
  simp only [hne, if_false]
  constructor
  · split <;> omega
  · by_cases e1 : h1 = -1
    · left
      simp [e1]
    · right
      simp only [e1, if_false]
      split <;> split <;> omega

/-- C20, amended: for all numbers `h1 ≤ h2` in the range of a 32-bit `int` with
`h2` other than -1, given as the arguments of `-o` (as `strtol` reads them),
`ioldhours` is `h1` and `h2`, and what `-o h2` selects is selected by `-o h1`
too, whatever the other filters are: a work command that passes the selection
of `fsworkfiles_system` with the threshold of `h2` passes it with that of `h1`,
and so does an execute file in `fsexecutions`.  The range is needed: the
argument 3000000000 becomes a negative `int`, and `-o 3000000000` lists the job
of the example, which `-o 2` does not list. -/
theorem C20_older_filter_antitone (env : UsEnv) (o o1 o2 : UsOpts) (z1 z2 : String)
    (qsys : uuconf_system) (pazusers : List String) (fnotusers : Bool) (iyoung : Int)
    (s : swork) (pazsystems : List String) (fnotsystems : Bool) (zfile zsystem : String)
    (ho1 : uustat_option env o 'o' z1 = some o1)
    (ho2 : uustat_option env o 'o' z2 = some o2)
    (hlo : -(2 ^ 31) ≤ strtol10 z1) (hle : strtol10 z1 ≤ strtol10 z2)
    (hhi : strtol10 z2 < 2 ^ 31) (hne : strtol10 z2 ≠ -1) :
    o1.ioldhours = strtol10 z1 ∧ o2.ioldhours = strtol10 z2 ∧
    (us_work_selected env qsys pazusers fnotusers (uustat_age env o2.ioldhours) iyoung s
        = true →
      us_work_selected env qsys pazusers fnotusers (uustat_age env o1.ioldhours) iyoung s
        = true) ∧
    (us_xqt_selected env pazsystems fnotsystems (uustat_age env o2.ioldhours) iyoung zfile
        zsystem = true →
      us_xqt_selected env pazsystems fnotsystems (uustat_age env o1.ioldhours) iyoung zfile
        zsystem = true) ∧
    (uustat_main example_usenv example_usother [('o', "3000000000")] false
      UsState.init).st.w.out =
      ["peerAN0001 peerA alice 1970-01-02 02:16:40 Sending /home/alice/f (10 bytes) to ~/f\n"] ∧
    (uustat_main example_usenv example_usother [('o', "2")] false UsState.init).st.w.out
      = [] := by
  have e1 : o1.ioldhours = strtol10 z1 := by
    have h : uustat_option env o 'o' z1 =
        some { o with ioldhours := to_int (strtol10 z1) } := rfl
    rw [h] at ho1
    injection ho1 with ho1
    rw [← ho1]
    exact to_int_of_range _ hlo (by omega)
  have e2 : o2.ioldhours = strtol10 z2 := by
    have h : uustat_option env o 'o' z2 =
        some { o with ioldhours := to_int (strtol10 z2) } := rfl
    rw [h] at ho2
    injection ho2 with ho2
    rw [← ho2]
    exact to_int_of_range _ (by omega) hhi
  refine ⟨e1, e2, ?_, ?_, by decide, by decide⟩
  · rw [e1, e2]
    obtain ⟨a2, a3⟩ := uustat_age_le env (strtol10 z1) (strtol10 z2) hle hne
    unfold us_work_selected
    simp only []
    intro h
    split at h
    · cases h
    · rename_i hu
      rw [if_neg hu]
      split at h
      · cases h
      · rename_i ho
        have : ¬ (uustat_age env (strtol10 z1) ≠ -1 ∧
            env.isysdep_work_time qsys s.pseq > uustat_age env (strtol10 z1)) := by
          intro hc
          rcases a3 with a3 | a3
          · exact hc.1 a3
          · exact ho ⟨a2, by omega⟩
        rw [if_neg this]
        exact h
  · rw [e1, e2]
    obtain ⟨a2, a3⟩ := uustat_age_le env (strtol10 z1) (strtol10 z2) hle hne
    unfold us_xqt_selected
    simp only []
    intro h
    split at h
    · cases h
    · rename_i hu
      rw [if_neg hu]
      split at h
      · cases h
      · rename_i ho
        have : ¬ ((uustat_age env (strtol10 z1) ≠ -1 ∧
            env.isysdep_file_time zfile > uustat_age env (strtol10 z1)) ∨
            (iyoung ≠ -1 ∧ env.isysdep_file_time zfile < iyoung)) := by
          intro hc
          rcases hc with hc | hc
          · rcases a3 with a3 | a3
            · exact hc.1 a3
            · exact ho (Or.inl ⟨a2, by omega⟩)
          · exact ho (Or.inr hc)
        rw [if_neg this]

/-- C20, amended, at the job of the example that is 5400 seconds old, with the
arguments `1` and `2` of `-o`. -/
theorem C20_older_filter_antitone_witness :
    ({ UsOpts.init with ioldhours := 1 } : UsOpts).ioldhours = strtol10 "1" ∧
    (us_work_selected example_usenv (example_system "peerA") [] false
        (uustat_age example_usenv ({ UsOpts.init with ioldhours := 2 } : UsOpts).ioldhours)
        (-1) (example_work 1) = true →
      us_work_selected example_usenv (example_system "peerA") [] false
        (uustat_age example_usenv ({ UsOpts.init with ioldhours := 1 } : UsOpts).ioldhours)
        (-1) (example_work 1) = true) :=
  have h := C20_older_filter_antitone example_usenv UsOpts.init
    { UsOpts.init with ioldhours := 1 } { UsOpts.init with ioldhours := 2 } "1" "2"
    (example_system "peerA") [] false (-1) (example_work 1) [] false "X.peerAN0002" "peerA"
    (by decide) (by decide) (by decide) (by decide) (by decide) (by decide)
  ⟨h.1, h.2.2.1⟩


/-- C22: the count `ccmds` of lines 361-375 looks at the values that the options
left, and for `-o` the value -1 of `ioldhours` means that the option was not
given.  So an option `-o` whose argument has the value -1 (written `-1`, or
4294967295, which the cast to `int` makes -1) is not counted: for every system
and every state `uustat -a -o -1` runs exactly as `uustat -a` does, and in the
example it lists the job and ends with success, though `-a` and `-o` are of
two groups; `uustat -a -o 1` is rejected with `Too many options`. -/
theorem C22_o_minus_one_not_counted (env : UsEnv) (other : UsOther) (fextra : Bool)
    (st : UsState) :
    us_group 'a' = some 0 ∧ us_group 'o' = some 5 ∧
    uustat_main env other [('a', ""), ('o', "-1")] fextra st =
      uustat_main env other [('a', "")] fextra st ∧
    uustat_main env other [('a', ""), ('o', "4294967295")] fextra st =
      uustat_main env other [('a', "")] fextra st ∧
    uustat_main env other [('a', ""), ('o', "1")] false st =
      ususage (st.logged tlog.LOG_ERROR "Too many options") ∧
    (uustat_main example_usenv example_usother [('a', ""), ('o', "-1")] false
      UsState.init).exit = UsExit.finished true ∧
    (uustat_main example_usenv example_usother [('a', ""), ('o', "-1")] false
      UsState.init).st.w.out =
      ["peerAN0001 peerA alice 1970-01-02 02:16:40 Sending /home/alice/f (10 bytes) to ~/f\n"] ∧
    (uustat_main example_usenv example_usother [('a', ""), ('o', "-1")] false
      UsState.init).st.w.log = [] := by
  have h1 : uustat_getopt env UsOpts.init [('a', ""), ('o', "-1")] =
      uustat_getopt env UsOpts.init [('a', "")] := by
    have e : to_int (strtol10 "-1") = -1 := by decide
    simp only [uustat_getopt, uustat_option, e]
    rfl
  have h2 : uustat_getopt env UsOpts.init [('a', ""), ('o', "4294967295")] =
      uustat_getopt env UsOpts.init [('a', "")] := by
    have e : to_int (strtol10 "4294967295") = -1 := by decide
    simp only [uustat_getopt, uustat_option, e]
    rfl
  have h3 : uustat_getopt env UsOpts.init [('a', ""), ('o', "1")] =
      some { UsOpts.init with fall := true, ioldhours := 1 } := by
    have e : to_int (strtol10 "1") = 1 := by decide
    simp only [uustat_getopt, uustat_option, e]
    rfl
  refine ⟨by decide, by decide, ?_, ?_, ?_, by decide, by decide, by decide⟩
  · unfold uustat_main
    rw [h1]
  · unfold uustat_main
    rw [h2]
  · unfold uustat_main
    rw [h3]
    have hcc : uustat_ccmds { UsOpts.init with fall := true, ioldhours := 1 } > 1 := by
      decide
    simp only [Bool.false_eq_true, if_false, hcc, if_true]

/-! ## Remote execution: the argument loop queues nothing -/

theorem uxGrows_refl (st : UxState) : UxGrows st st :=
  ⟨rfl, ⟨[], (List.append_nil _).symm⟩, ⟨[], (List.append_nil _).symm⟩⟩

theorem uxGrows_trans (a b c : UxState) (h1 : UxGrows a b) (h2 : UxGrows b c) :
    UxGrows a c := by
  obtain ⟨q1, ⟨c1, e1⟩, ⟨l1, f1⟩⟩ := h1
  obtain ⟨q2, ⟨c2, e2⟩, ⟨l2, f2⟩⟩ := h2
  refine ⟨q2.trans q1, ⟨c1 ++ c2, ?_⟩, ⟨l1 ++ l2, ?_⟩⟩
  · rw [e2, e1, List.append_assoc]
  · rw [f2, f1, List.append_assoc]

theorem uxAborted_of_grows (a b : UxState) (e : UxFinal) (h1 : UxGrows a b)
    (h2 : UxAborted b e) : UxAborted a e :=
  ⟨h2.1, h2.2.1, h2.2.2.trans h1.1⟩

theorem uxarg_local_data_remote (env : UxEnv) (o : UxOpts) (sxqtsys : uuconf_system)
    (zxqtloc : String) (st : UxState) (zfile : String) :
    (∀ st1 v, uxarg_local_data env o sxqtsys zxqtloc false st zfile = Except.ok (st1, v) →
      UxGrows st st1) ∧
    (∀ e, uxarg_local_data env o sxqtsys zxqtloc false st zfile = Except.error e →
      UxAborted st e) := by
  unfold uxarg_local_data
  constructor
  · intro st1 v h
    repeat' split at h
    all_goals first
      | (cases h; done)
      | (cases h
         simp [UxGrows, uxadd_xqt_line, uxadd_send_file, UxState.named, uxrecord_file])
  · intro e h
    repeat' split at h
    all_goals first
      | (cases h; done)
      | (cases h
         simp [UxAborted, uxabort, ulog_fatal, UxState.named, uxrecord_file])

theorem uxarg_local_remote (env : UxEnv) (o : UxOpts) (sxqtsys : uuconf_system)
    (zxqtloc : String) (st : UxState) (zfile : String) (finput : Bool) :
    (∀ st1 v, uxarg_local env o sxqtsys zxqtloc false st zfile finput = Except.ok (st1, v) →
      UxGrows st st1) ∧
    (∀ e, uxarg_local env o sxqtsys zxqtloc false st zfile finput = Except.error e →
      UxAborted st e) := by
  obtain ⟨d1, d2⟩ := uxarg_local_data_remote env o sxqtsys zxqtloc st zfile
  unfold uxarg_local
  constructor
  · intro st1 v h
    split at h
    · cases h
    · split at h
      · cases h
      · rename_i s1 zuse abtname abdname hd
        have g := d1 s1 _ hd
        simp only [Bool.false_eq_true, if_false] at h
        repeat' split at h
        all_goals first
          | (cases h; done)
          | (cases h
             refine uxGrows_trans st s1 _ g ?_
             simp [UxGrows, uxadd_xqt_line, uxadd_send_file])
  · intro e h
    split at h
    · cases h
      simp [UxAborted, uxabort]
    · split at h
      · rename_i e1 hd
        cases h
        exact d2 _ hd
      · rename_i s1 zuse abtname abdname hd
        have g := d1 s1 _ hd
        simp only [Bool.false_eq_true, if_false] at h
        repeat' split at h
        all_goals first
          | (cases h; done)
          | (cases h
             refine uxAborted_of_grows st s1 _ g ?_
             simp [UxAborted, uxabort, uxadd_xqt_line, uxadd_send_file])

theorem uxarg_from_system_aborted (env : UxEnv) (st : UxState) (zsystem : String)
    (e : UxFinal) (h : uxarg_from_system env st zsystem = Except.error e) :
    UxAborted st e := by
  unfold uxarg_from_system at h
  repeat' split at h
  all_goals first
    | (cases h; done)
    | (cases h
       simp [UxAborted, uxabort, ulog_fatal])

theorem uxarg_remote_remote (env : UxEnv) (o : UxOpts) (sxqtsys : uuconf_system)
    (zxqtloc : String) (st : UxState) (zsystem zfile : String) (finput : Bool) :
    (∀ st1 v, uxarg_remote env o sxqtsys zxqtloc false st zsystem zfile finput =
        Except.ok (st1, v) → UxGrows st st1) ∧
    (∀ e, uxarg_remote env o sxqtsys zxqtloc false st zsystem zfile finput =
        Except.error e → UxAborted st e) := by
  unfold uxarg_remote
  cases hf : uxarg_from_system env st zsystem with
  | error e1 =>
    constructor
    · intro st1 v h
      cases h
    · intro e h
      cases h
      exact uxarg_from_system_aborted env st zsystem _ hf
  | ok sfromsys =>
    simp only [Bool.not_false, if_true]
    constructor
    · intro st1 v h
      repeat' split at h
      all_goals first
        | (cases h; done)
        | (cases h
           simp [UxGrows, uxadd_xqt_line])
    · intro e h
      repeat' split at h
      all_goals first
        | (cases h; done)
        | (cases h
           simp [UxAborted, uxabort, ulog_fatal])

/-- With remote execution one argument queues nothing, whether it is accepted
or ends the run. -/
theorem uxarg_remote_exec (env : UxEnv) (o : UxOpts) (sxqtsys : uuconf_system)
    (zxqtloc : String) (st : UxState) (arg : String) (finput foutput : Bool) :
    (∀ st1 v, uxarg env o sxqtsys zxqtloc false st arg finput foutput = Except.ok (st1, v) →
      UxGrows st st1) ∧
    (∀ e, uxarg env o sxqtsys zxqtloc false st arg finput foutput = Except.error e →
      UxAborted st e) := by
  unfold uxarg
  constructor
  · intro st1 v h
    split at h
    · cases h
      exact uxGrows_refl _
    · simp only at h
      split at h
      · cases h
      · split at h
        · repeat' split at h
          all_goals first
            | (cases h; done)
            | (cases h
               simp [UxGrows, uxadd_xqt_line])
        · split at h
          · cases h
          · split at h
            · exact (uxarg_local_remote env o sxqtsys zxqtloc st _ finput).1 st1 v h
            · split at h
              · split at h
                · cases h
                  simp [UxGrows, uxadd_xqt_line]
                · cases h
                  exact uxGrows_refl _
              · exact (uxarg_remote_remote env o sxqtsys zxqtloc st _ _ finput).1 st1 v h
  · intro e h
    split at h
    · cases h
    · simp only at h
      split at h
      · cases h
        simp [UxAborted, uxabort]
      · split at h
        · repeat' split at h
          all_goals first
            | (cases h; done)
            | (cases h
               simp [UxAborted, uxabort, ulog_fatal])
        · split at h
          · cases h
            simp [UxAborted, uxabort, ulog_fatal]
          · split at h
            · exact (uxarg_local_remote env o sxqtsys zxqtloc st _ finput).2 e h
            · split at h
              · split at h <;> cases h
              · exact (uxarg_remote_remote env o sxqtsys zxqtloc st _ _ finput).2 e h

theorem uxarg_paren_grows (st : UxState) (a : String) : UxGrows st (uxarg_paren st a).1 := by
  unfold uxarg_paren
  split
  · exact ⟨rfl, ⟨[], (List.append_nil _).symm⟩, ⟨[], (List.append_nil _).symm⟩⟩
  · exact uxGrows_refl st

/-- With remote execution the argument loop queues nothing, whether it runs to
its end or ends the run. -/
theorem uxargs_remote_exec (env : UxEnv) (o : UxOpts) (sxqtsys : uuconf_system)
    (zxqtloc : String) :
    ∀ (n : Nat) (l : List String) (st : UxState), l.length ≤ n →
      (∀ st1 rs, uxargs env o sxqtsys zxqtloc false l st = Except.ok (st1, rs) →
        UxGrows st st1) ∧
      (∀ e, uxargs env o sxqtsys zxqtloc false l st = Except.error e → UxAborted st e) := by
  intro n
  induction n with
  | zero =>
    intro l st hlen
    have : l = [] := List.length_eq_zero.mp (Nat.le_zero.mp hlen)
    subst this
    constructor
    · intro st1 rs h
      rw [uxargs] at h
      cases h
      exact uxGrows_refl _
    · intro e h
      rw [uxargs] at h
      cases h
  | succ n ih =>
    intro l st hlen
    match l, hlen with
    | [], _ =>
      constructor
      · intro st1 rs h
        rw [uxargs] at h
        cases h
        exact uxGrows_refl _
      · intro e h
        rw [uxargs] at h
        cases h
    | [a], _ =>
      obtain ⟨x1, x2⟩ := uxarg_remote_exec env o sxqtsys zxqtloc st a false false
      constructor
      · intro st1 rs h
        rw [uxargs] at h
        split at h
        · cases h
          exact uxarg_paren_grows st a
        · split at h
          · cases h
          · rename_i s1 r hx
            cases h
            exact x1 _ _ hx
      · intro e h
        rw [uxargs] at h
        split at h
        · cases h
        · split at h
          · rename_i e1 hx
            cases h
            exact x2 _ hx
          · cases h
    | a :: b :: t, hlen =>
      have hl1 : (b :: t).length ≤ n := by
        simp only [List.length_cons] at hlen ⊢
        omega
      have hl2 : t.length ≤ n := by
        simp only [List.length_cons] at hlen
        omega
      constructor
      · intro st1 rs h
        rw [uxargs] at h
        split at h
        · split at h
          · cases h
          · rename_i s2 rs2 hrec
            cases h
            exact uxGrows_trans _ _ _ (uxarg_paren_grows st a) ((ih (b :: t) _ hl1).1 _ _ hrec)
        · split at h
          · split at h
            · cases h
            · rename_i s1 x hx
              split at h
              · cases h
              · rename_i s2 rs2 hrec
                cases h
                exact uxGrows_trans _ _ _
                  ((uxarg_remote_exec env o sxqtsys zxqtloc st b _ _).1 _ _ hx)
                  ((ih t _ hl2).1 _ _ hrec)
          · split at h
            · cases h
            · rename_i s1 x hx
              split at h
              · cases h
              · rename_i s2 rs2 hrec
                cases h
                exact uxGrows_trans _ _ _
                  ((uxarg_remote_exec env o sxqtsys zxqtloc st a _ _).1 _ _ hx)
                  ((ih (b :: t) _ hl1).1 _ _ hrec)
      · intro e h
        rw [uxargs] at h
        split at h
        · split at h
          · rename_i e1 hrec
            cases h
            exact uxAborted_of_grows _ _ _ (uxarg_paren_grows st a)
              ((ih (b :: t) _ hl1).2 _ hrec)
          · cases h
        · split at h
          · split at h
            · rename_i e1 hx
              cases h
              exact (uxarg_remote_exec env o sxqtsys zxqtloc st b _ _).2 _ hx
            · rename_i s1 x hx
              split at h
              · rename_i e1 hrec
                cases h
                exact uxAborted_of_grows _ _ _
                  ((uxarg_remote_exec env o sxqtsys zxqtloc st b _ _).1 _ _ hx)
                  ((ih t _ hl2).2 _ hrec)
              · cases h
          · split at h
            · rename_i e1 hx
              cases h
              exact (uxarg_remote_exec env o sxqtsys zxqtloc st a _ _).2 _ hx
            · rename_i s1 x hx
              split at h
              · rename_i e1 hrec
                cases h
                exact uxAborted_of_grows _ _ _
                  ((uxarg_remote_exec env o sxqtsys zxqtloc st a _ _).1 _ _ hx)
                  ((ih (b :: t) _ hl1).2 _ hrec)
              · cases h

/-- Copying standard input queues nothing, whether it works or ends the run. -/
theorem uux_stdin_remote_exec (env : UxEnv) (o : UxOpts) (sxqtsys : uuconf_system)
    (zxqtloc : String) (fxqtlocal : Bool) (st : UxState) :
    (∀ st1, uux_stdin env o sxqtsys zxqtloc fxqtlocal st = Except.ok st1 → UxGrows st st1) ∧
    (∀ e, uux_stdin env o sxqtsys zxqtloc fxqtlocal st = Except.error e →
      UxAborted st e) := by
  unfold uux_stdin
  constructor
  · intro st1 h
    repeat' split at h
    all_goals first
      | (cases h; done)
      | (cases h
         simp [UxGrows, uxadd_xqt_line, uxadd_send_file, UxState.named, uxrecord_file])
  · intro e h
    repeat' split at h
    all_goals first
      | (cases h; done)
      | (cases h
         simp [UxAborted, uxabort, ulog_fatal, UxState.named, uxrecord_file])

theorem uux_xqt_system_aborted (env : UxEnv) (st : UxState) (zsys : String)
    (fxqtlocal : Bool) (e : UxFinal)
    (h : uux_xqt_system env st zsys fxqtlocal = Except.error e) : UxAborted st e := by
  unfold uux_xqt_system at h
  repeat' split at h
  all_goals first
    | (cases h; done)
    | (cases h
       simp [UxAborted, uxabort, ulog_fatal])

/-- The loop on `<` and a word that ends the run. -/
theorem uxargs_input_error (env : UxEnv) (o : UxOpts) (sxqtsys : uuconf_system)
    (zxqtloc : String) (fxqtlocal : Bool) (a b : String) (post : List String)
    (st : UxState) (e : UxFinal) (ha : a.data.head? = some '<')
    (hx : uxarg env o sxqtsys zxqtloc fxqtlocal st b true false = Except.error e) :
    uxargs env o sxqtsys zxqtloc fxqtlocal (a :: b :: post) st = Except.error e := by
  have h1 : ¬ a.data.head? = some '(' := by rw [ha]; decide
  have h3 : decide (a.data.head? = some '>') = false := by rw [ha]; decide
  have h2 : decide (a.data.head? = some '<') = true := by rw [ha]; decide
  rw [uxargs, if_neg h1, if_pos (Or.inl ha), h2, h3, hx]

/-- With remote execution an argument that names a file on a third system ends
the run, whatever else holds. -/
theorem uxarg_third_fails (env : UxEnv) (o : UxOpts) (sxqtsys sfromsys : uuconf_system)
    (zxqtloc : String) (st : UxState) (arg zsystem zfile0 : String) (finput : Bool)
    (harg : uxarg_system env arg = (zsystem, zfile0, false))
    (hne : sxqtsys.uuconf_zname ≠ zsystem)
    (hknown : env.uuconf_system_info zsystem = uuconf_info.UUCONF_SUCCESS sfromsys ∨
      (env.uuconf_system_info zsystem = uuconf_info.UUCONF_NOT_FOUND ∧
        env.funknown_system zsystem = some sfromsys))
    (hdiff : sfromsys.uuconf_zname ≠ sxqtsys.uuconf_zname) :
    ∃ e, uxarg env o sxqtsys zxqtloc false st arg finput false = Except.error e := by
  have hsplit := uxarg_system_remote env arg zsystem zfile0 harg
  cases hexp : (if o.fexpand then env.zsysdep_add_cwd zfile0 else some zfile0) with
  | none =>
    unfold uxarg
    simp only [hsplit, harg, Bool.false_and, Bool.false_eq_true, if_false, hexp]
    exact ⟨_, rfl⟩
  | some zfile =>
    by_cases hin : finput = true ∧ o.fread_stdin = true
    · unfold uxarg
      simp only [hsplit, harg, Bool.false_and, Bool.false_eq_true, if_false, hexp, hin.1,
        hin.2, Bool.and_self, if_true]
      exact ⟨_, rfl⟩
    · rw [uxarg_third_system env o sxqtsys zxqtloc false st arg finput zsystem zfile0 zfile
        harg hexp hin hne]
      unfold uxarg_remote
      rw [uxarg_from_system_known env st zsystem sfromsys hknown]
      simp only [hdiff, if_false, Bool.not_false, if_true]
      exact ⟨_, rfl⟩

/-- With remote execution a list of words with a file on a third system, as an
argument or after `<`, ends the run; when the words before it are processed,
the file name is expanded and standard input is not given twice, it ends in the
fatal error for forwarding. -/
theorem uxargs_third_fails (env : UxEnv) (o : UxOpts) (sxqtsys sfromsys : uuconf_system)
    (zxqtloc : String) (st : UxState) (arg zsystem zfile0 lt : String) (finput : Bool)
    (pre post : List String)
    (hp : redir_pending pre = false)
    (hlt : finput = true → lt.data.head? = some '<')
    (hhead : finput = false → arg.data.head? ≠ some '(' ∧ arg.data.head? ≠ some '<' ∧
      arg.data.head? ≠ some '>')
    (harg : uxarg_system env arg = (zsystem, zfile0, false))
    (hne : sxqtsys.uuconf_zname ≠ zsystem)
    (hknown : env.uuconf_system_info zsystem = uuconf_info.UUCONF_SUCCESS sfromsys ∨
      (env.uuconf_system_info zsystem = uuconf_info.UUCONF_NOT_FOUND ∧
        env.funknown_system zsystem = some sfromsys))
    (hdiff : sfromsys.uuconf_zname ≠ sxqtsys.uuconf_zname) :
    ∃ e, uxargs env o sxqtsys zxqtloc false
        (pre ++ (if finput then [lt, arg] else [arg]) ++ post) st = Except.error e ∧
      UxAborted st e ∧
      ∀ st3 rs zfile, uxargs env o sxqtsys zxqtloc false pre st = Except.ok (st3, rs) →
        (if o.fexpand then env.zsysdep_add_cwd zfile0 else some zfile0) = some zfile →
        ¬ (finput = true ∧ o.fread_stdin = true) →
        e = ulog_fatal st3 "uux forwarding does not yet work" := by
  rw [List.append_assoc, uxargs_append env o sxqtsys zxqtloc false _ pre.length pre st
    (Nat.le_refl _) hp]
  obtain ⟨g1, g2⟩ := uxargs_remote_exec env o sxqtsys zxqtloc pre.length pre st (Nat.le_refl _)
  cases hpre : uxargs env o sxqtsys zxqtloc false pre st with
  | error e =>
    refine ⟨e, rfl, g2 e hpre, ?_⟩
    intro st3 rs zfile h
    cases h
  | ok r =>
    obtain ⟨st3, rs1⟩ := r
    obtain ⟨e, he⟩ := uxarg_third_fails env o sxqtsys sfromsys zxqtloc st3 arg zsystem zfile0
      finput harg hne hknown hdiff
    have hloop : uxargs env o sxqtsys zxqtloc false
        ((if finput then [lt, arg] else [arg]) ++ post) st3 = Except.error e := by
      cases finput with
      | true =>
        exact uxargs_input_error env o sxqtsys zxqtloc false lt arg post st3 e (hlt rfl) he
      | false =>
        obtain ⟨h1, h2, h3⟩ := hhead rfl
        exact uxargs_cons_error env o sxqtsys zxqtloc false arg post st3 e h1 h2 h3 he
    simp only [hloop]
    refine ⟨e, rfl, uxAborted_of_grows st st3 e (g1 st3 rs1 hpre)
      ((uxarg_remote_exec env o sxqtsys zxqtloc st3 arg finput false).2 e he), ?_⟩
    intro st3b rs zfile h hexp hin
    cases h
    rw [uxarg_third_system env o sxqtsys zxqtloc false st3 arg finput zsystem zfile0 zfile
      harg hexp hin hne] at he
    unfold uxarg_remote at he
    rw [uxarg_from_system_known env st3 zsystem sfromsys hknown] at he
    simp only [hdiff, if_false, Bool.not_false, if_true, Except.error.injEq] at he
    exact he.symm

/-- C10 as stated fails: in `uux peerA!wc '>' peerB!/tmp/out` the file after
`>` is on a third system, and the run goes to its end: the execute file gets
the line `O /tmp/out peerB` and is queued for `peerA`.  And with `-p` the file
after `<` on a third system ends the run in another fatal error. -/
theorem C10_counterexample :
    (uux_main example_uxenv UxOpts.init UxState.init "peerA!wc"
      [">", "peerB!/tmp/out"]).exit = UxExit.finished true ∧
    (uux_main example_uxenv UxOpts.init UxState.init "peerA!wc"
      [">", "peerB!/tmp/out"]).st.xqt_lines = ["U bob here", "O /tmp/out peerB", "C wc"] ∧
    (uux_main example_uxenv UxOpts.init UxState.init "peerA!wc"
      [">", "peerB!/tmp/out"]).st.queued.map (fun q => (q.1, q.2.2.map (fun c => c.zto))) =
      [("peerA", ["X.hereX0000"])] ∧
    (uux_main example_uxenv UxOpts.init UxState.init "peerA!wc"
      [">", "peerB!/tmp/out"]).st.log = [(tlog.LOG_NORMAL, "Queuing wc")] ∧
    (uux_main example_uxenv { UxOpts.init with fread_stdin := true } UxState.init "peerA!wc"
      ["<", "peerB!/tmp/in"]).st.log = [(tlog.LOG_FATAL, "Standard input specified twice")] := by
  decide

/-- C10, amended: let `arg` name a file on the system `zsystem`, which is known,
is not the local system and is, under the name given and under its own name,
not the execution system.  (1) When execution is remote, processing `arg` as an
argument or as the file after `<` (without `-p`), with its file name expanded,
ends in the fatal error "uux forwarding does not yet work".  (2) A run of uux
with remote execution in which the argument loop takes `arg` as an argument or
as the file after `<`, whatever the other words are, ends through `uxabort`,
starts no uucico and leaves the queued work as it was; when the words before
`arg` are processed without error, the file name is expanded and standard input
is not given twice, the run ends in this fatal error.  (3) When execution is
local, processing `arg` is accepted, when the names are made and the request is
queued, and queues for the system of the file exactly one command, an `R`
request with option "9". -/
theorem C10_forwarding_only_for_local_execution (env : UxEnv) (o : UxOpts)
    (sxqtsys sfromsys : uuconf_system) (arg zsystem zfile0 : String)
    (harg : uxarg_system env arg = (zsystem, zfile0, false))
    (hne : sxqtsys.uuconf_zname ≠ zsystem)
    (hknown : env.uuconf_system_info zsystem = uuconf_info.UUCONF_SUCCESS sfromsys ∨
      (env.uuconf_system_info zsystem = uuconf_info.UUCONF_NOT_FOUND ∧
        env.funknown_system zsystem = some sfromsys))
    (hdiff : sfromsys.uuconf_zname ≠ sxqtsys.uuconf_zname) :
    (∀ (st : UxState) (zxqtloc zfile : String) (finput : Bool),
      (if o.fexpand then env.zsysdep_add_cwd zfile0 else some zfile0) = some zfile →
      ¬ (finput = true ∧ o.fread_stdin = true) →
      uxarg env o sxqtsys zxqtloc false st arg finput false =
        Except.error (ulog_fatal st "uux forwarding does not yet work")) ∧
    (∀ (st : UxState) (zcmd lt : String) (pre post : List String) (finput : Bool),
      (uux_exec_system env zcmd).2.2 = false →
      uux_xqt_system env st (uux_exec_system env zcmd).1 false = Except.ok sxqtsys →
      redir_pending pre = false →
      (finput = true → lt.data.head? = some '<') →
      (finput = false → arg.data.head? ≠ some '(' ∧ arg.data.head? ≠ some '<' ∧
        arg.data.head? ≠ some '>') →
      ((uux_main env o st zcmd
          (pre ++ (if finput then [lt, arg] else [arg]) ++ post)).exit = UxExit.aborted ∧
        (uux_main env o st zcmd
          (pre ++ (if finput then [lt, arg] else [arg]) ++ post)).uucico = none ∧
        (uux_main env o st zcmd
          (pre ++ (if finput then [lt, arg] else [arg]) ++ post)).st.queued = st.queued) ∧
      (∀ (names : String × String × String × String) (st3 : UxState)
          (rs : List (Option String)) (zfile : String),
        env.zsysdep_data_file_name sxqtsys (sxqtsys.uuconf_zlocalname.getD env.zlocalname)
          'X' st.cnames = some names →
        env.esysdep_fopen names.1 = true →
        uxargs env o sxqtsys (sxqtsys.uuconf_zlocalname.getD env.zlocalname) false pre
          (uxadd_xqt_line
            (uxrecord_file { st.named with files := st.files ++ [names.1] } names.1) 'U'
            (some env.zsysdep_login_name)
            (some (sxqtsys.uuconf_zlocalname.getD env.zlocalname))) = Except.ok (st3, rs) →
        (if o.fexpand then env.zsysdep_add_cwd zfile0 else some zfile0) = some zfile →
        ¬ (finput = true ∧ o.fread_stdin = true) →
        uux_main env o st zcmd (pre ++ (if finput then [lt, arg] else [arg]) ++ post) =
          ulog_fatal st3 "uux forwarding does not yet work")) ∧
    (∀ (st : UxState) (zxqtloc zfile : String) (finput : Bool)
        (names : String × String × String × String) (job : String × String),
      (if o.fexpand then env.zsysdep_add_cwd zfile0 else some zfile0) = some zfile →
      ¬ (finput = true ∧ o.fread_stdin = true) →
      env.zsysdep_data_file_name sxqtsys zxqtloc o.bgrade st.cnames = some names →
      env.zsysdep_spool_commands sfromsys o.bgrade [request_cmd env zfile names.2.1]
        (st.cnames + 1) = some job →
      (finput = false → env.zsysdep_base_name zfile ≠ none) →
      ∃ st1 r, uxarg env o sxqtsys zxqtloc true st arg finput false = Except.ok (st1, r) ∧
        st1.queued =
          st.queued ++ [(sfromsys.uuconf_zname, o.bgrade, [request_cmd env zfile names.2.1])] ∧
        (request_cmd env zfile names.2.1).bcmd = 'R' ∧
        (request_cmd env zfile names.2.1).zoptions = "9") := by
  have hstep : ∀ (st : UxState) (zxqtloc zfile : String) (finput : Bool),
      (if o.fexpand then env.zsysdep_add_cwd zfile0 else some zfile0) = some zfile →
      ¬ (finput = true ∧ o.fread_stdin = true) →
      uxarg env o sxqtsys zxqtloc false st arg finput false =
        Except.error (ulog_fatal st "uux forwarding does not yet work") := by
    intro st zxqtloc zfile finput hexp hin
    rw [uxarg_third_system env o sxqtsys zxqtloc false st arg finput zsystem zfile0 zfile
      harg hexp hin hne]
    unfold uxarg_remote
    rw [uxarg_from_system_known env st zsystem sfromsys hknown]
    simp only [hdiff, if_false, Bool.not_false, if_true]
  refine ⟨hstep, ?_, ?_⟩
  · intro st zcmd lt pre post finput hremote hxsys hp hlt hhead
    have hrun : ∀ (names : String × String × String × String),
        env.zsysdep_data_file_name sxqtsys (sxqtsys.uuconf_zlocalname.getD env.zlocalname)
          'X' st.cnames = some names →
        env.esysdep_fopen names.1 = true →
        ∃ e, uux_main env o st zcmd (pre ++ (if finput then [lt, arg] else [arg]) ++ post)
            = e ∧
          UxAborted st e ∧
          ∀ st3 rs zfile,
            uxargs env o sxqtsys (sxqtsys.uuconf_zlocalname.getD env.zlocalname) false pre
              (uxadd_xqt_line
                (uxrecord_file { st.named with files := st.files ++ [names.1] } names.1) 'U'
                (some env.zsysdep_login_name)
                (some (sxqtsys.uuconf_zlocalname.getD env.zlocalname))) =
              Except.ok (st3, rs) →
            (if o.fexpand then env.zsysdep_add_cwd zfile0 else some zfile0) = some zfile →
            ¬ (finput = true ∧ o.fread_stdin = true) →
            e = ulog_fatal st3 "uux forwarding does not yet work" := by
      intro names hname hopen
      obtain ⟨e, he, hab, hmsg⟩ := uxargs_third_fails env o sxqtsys sfromsys
        (sxqtsys.uuconf_zlocalname.getD env.zlocalname)
        (uxadd_xqt_line
          (uxrecord_file { st.named with files := st.files ++ [names.1] } names.1) 'U'
          (some env.zsysdep_login_name)
          (some (sxqtsys.uuconf_zlocalname.getD env.zlocalname)))
        arg zsystem zfile0 lt finput pre post hp hlt hhead harg hne hknown hdiff
      refine ⟨e, ?_, ⟨hab.1, hab.2.1, hab.2.2⟩, hmsg⟩
      unfold uux_main
      simp only [hremote, hxsys, Bool.false_eq_true, if_false, hname, Option.map_some',
        hopen, Bool.not_true, he]
    constructor
    · cases hname : env.zsysdep_data_file_name sxqtsys
          (sxqtsys.uuconf_zlocalname.getD env.zlocalname) 'X' st.cnames with
      | none =>
        unfold uux_main
        simp only [hremote, hxsys, Bool.false_eq_true, if_false, hname, Option.map_none']
        exact ⟨rfl, rfl, rfl⟩
      | some names =>
        by_cases hopen : env.esysdep_fopen names.1 = true
        · obtain ⟨e, he, hab, _⟩ := hrun names hname hopen
          rw [he]
          exact hab
        · unfold uux_main
          simp only [hremote, hxsys, Bool.false_eq_true, if_false, hname, Option.map_some']
          simp only [Bool.not_eq_true] at hopen
          simp only [hopen, Bool.not_false, if_true]
          exact ⟨rfl, rfl, rfl⟩
    · intro names st3 rs zfile hname hopen hpre hexp hin
      obtain ⟨e, he, _, hmsg⟩ := hrun names hname hopen
      rw [he]
      exact hmsg st3 rs zfile hpre hexp hin
  · intro st zxqtloc zfile finput names job hexp hin hname hjob hbase
    obtain ⟨zdata, abtname, abdname, abxname⟩ := names
    obtain ⟨zjobid, zcfile⟩ := job
    rw [uxarg_third_system env o sxqtsys zxqtloc true st arg finput zsystem zfile0 zfile
      harg hexp hin hne]
    unfold uxarg_remote
    rw [uxarg_from_system_known env st zsystem sfromsys hknown]
    simp only [hdiff, if_false, Bool.not_true, Bool.false_eq_true, hname]
    simp only [UxState.named] at hjob ⊢
    simp only [hjob]
    cases finput with
    | true =>
      refine ⟨_, _, rfl, ?_, rfl, rfl⟩
      simp [uxadd_xqt_line, note_call]
      split <;> rfl
    | false =>
      cases hb : env.zsysdep_base_name zfile with
      | none => exact absurd hb (hbase rfl)
      | some zbase =>
        refine ⟨_, _, rfl, ?_, rfl, rfl⟩
        simp [uxadd_xqt_line, note_call]
        split <;> rfl

/-- C10 at concrete inputs: `uux peerA!wc -l !/tmp/y peerB!/tmp/x` ends through
`uxabort` and queues nothing; `uux peerA!wc -l '<' peerB!/tmp/x` ends in the
fatal error; for local execution on `here` the argument `peerB!/tmp/x` queues
an `R` request with option "9" for `peerB`. -/
theorem C10_forwarding_only_for_local_execution_witness :
    ((uux_main example_uxenv UxOpts.init UxState.init "peerA!wc"
        (["-l", "!/tmp/y"] ++ (if false then ["<", "peerB!/tmp/x"] else ["peerB!/tmp/x"]) ++
          [])).exit = UxExit.aborted ∧
      (uux_main example_uxenv UxOpts.init UxState.init "peerA!wc"
        (["-l", "!/tmp/y"] ++ (if false then ["<", "peerB!/tmp/x"] else ["peerB!/tmp/x"]) ++
          [])).uucico = none ∧
      (uux_main example_uxenv UxOpts.init UxState.init "peerA!wc"
        (["-l", "!/tmp/y"] ++ (if false then ["<", "peerB!/tmp/x"] else ["peerB!/tmp/x"]) ++
          [])).st.queued = UxState.init.queued) ∧
    uux_main example_uxenv UxOpts.init UxState.init "peerA!wc"
        (["-l"] ++ (if true then ["<", "peerB!/tmp/x"] else ["peerB!/tmp/x"]) ++ []) =
      ulog_fatal
        (uxadd_xqt_line
          (uxrecord_file
            { UxState.init.named with files := UxState.init.files ++ ["/spool/peerA/D.0"] }
            "/spool/peerA/D.0") 'U' (some "bob") (some "here"))
        "uux forwarding does not yet work" ∧
    ∃ st1 r, uxarg example_uxenv UxOpts.init (example_system "here") "here" true
        UxState.init "peerB!/tmp/x" false false = Except.ok (st1, r) ∧
      st1.queued = UxState.init.queued ++
        [("peerB", 'N', [request_cmd example_uxenv "/tmp/x" "D.hereN0000"])] ∧
      (request_cmd example_uxenv "/tmp/x" "D.hereN0000").bcmd = 'R' ∧
      (request_cmd example_uxenv "/tmp/x" "D.hereN0000").zoptions = "9" :=
  ⟨((C10_forwarding_only_for_local_execution example_uxenv UxOpts.init
      (example_system "peerA") (example_system "peerB") "peerB!/tmp/x" "peerB" "/tmp/x"
      (by decide) (by decide) (Or.inl (by decide)) (by decide)).2.1
      UxState.init "peerA!wc" "<" ["-l", "!/tmp/y"] [] false
      (by decide) rfl (by decide) (fun h => Bool.noConfusion h) (fun _ => by decide)).1,
   ((C10_forwarding_only_for_local_execution example_uxenv UxOpts.init
      (example_system "peerA") (example_system "peerB") "peerB!/tmp/x" "peerB" "/tmp/x"
      (by decide) (by decide) (Or.inl (by decide)) (by decide)).2.1
      UxState.init "peerA!wc" "<" ["-l"] [] true
      (by decide) rfl (by decide) (fun _ => by decide) (fun h => Bool.noConfusion h)).2
      ("/spool/peerA/D.0", "D.peerAX0000", "D.hereX0000", "X.hereX0000") _ [some "-l"] "/tmp/x"
      (by decide) (by decide) (by rfl) (by decide) (by decide),
   (C10_forwarding_only_for_local_execution example_uxenv UxOpts.init
      (example_system "here") (example_system "peerB") "peerB!/tmp/x" "peerB" "/tmp/x"
      (by decide) (by decide) (Or.inl (by decide)) (by decide)).2.2
      UxState.init "here" "/tmp/x" false
      ("/spool/here/D.0", "D.hereN0000", "D.hereN0000", "X.hereN0000")
      ("peerBN0001", "C.peerBN0001") (by decide) (by decide) (by decide) (by decide)
      (by decide)⟩


/-- The loop on a word that is no parenthesized word and no redirection, when
it goes on. -/
theorem uxargs_cons_inv (env : UxEnv) (o : UxOpts) (sxqtsys : uuconf_system)
    (zxqtloc : String) (fxqtlocal : Bool) (a : String) (post : List String) (st st2 : UxState)
    (rs : List (Option String))
    (h1 : a.data.head? ≠ some '(') (h2 : a.data.head? ≠ some '<')
    (h3 : a.data.head? ≠ some '>')
    (h : uxargs env o sxqtsys zxqtloc fxqtlocal (a :: post) st = Except.ok (st2, rs)) :
    ∃ st1 r rs1, uxarg env o sxqtsys zxqtloc fxqtlocal st a false false = Except.ok (st1, r) ∧
      uxargs env o sxqtsys zxqtloc fxqtlocal post st1 = Except.ok (st2, rs1) := by
  cases hx : uxarg env o sxqtsys zxqtloc fxqtlocal st a false false with
  | error e =>
    rw [uxargs_cons_error env o sxqtsys zxqtloc fxqtlocal a post st e h1 h2 h3 hx] at h
    cases h
  | ok v =>
    obtain ⟨st1, r⟩ := v
    rw [uxargs_cons_ok env o sxqtsys zxqtloc fxqtlocal a post st st1 r h1 h2 h3 hx] at h
    cases hrec : uxargs env o sxqtsys zxqtloc fxqtlocal post st1 with
    | error e =>
      rw [hrec] at h
      cases h
    | ok v2 =>
      obtain ⟨s2, rs1⟩ := v2
      rw [hrec] at h
      cases h
      exact ⟨st1, r, rs1, rfl, hrec⟩

/-- The loop on `<` and the word after it, when it goes on. -/
theorem uxargs_input_inv (env : UxEnv) (o : UxOpts) (sxqtsys : uuconf_system)
    (zxqtloc : String) (fxqtlocal : Bool) (a b : String) (post : List String)
    (st st2 : UxState) (rs : List (Option String)) (ha : a.data.head? = some '<')
    (h : uxargs env o sxqtsys zxqtloc fxqtlocal (a :: b :: post) st = Except.ok (st2, rs)) :
    ∃ st1 r rs1, uxarg env o sxqtsys zxqtloc fxqtlocal st b true false = Except.ok (st1, r) ∧
      uxargs env o sxqtsys zxqtloc fxqtlocal post st1 = Except.ok (st2, rs1) := by
  cases hx : uxarg env o sxqtsys zxqtloc fxqtlocal st b true false with
  | error e =>
    rw [uxargs_input_error env o sxqtsys zxqtloc fxqtlocal a b post st e ha hx] at h
    cases h
  | ok v =>
    obtain ⟨st1, r⟩ := v
    rw [uxargs_input_ok env o sxqtsys zxqtloc fxqtlocal a b post st st1 r ha hx] at h
    cases hrec : uxargs env o sxqtsys zxqtloc fxqtlocal post st1 with
    | error e =>
      rw [hrec] at h
      cases h
    | ok v2 =>
      obtain ⟨s2, rs1⟩ := v2
      rw [hrec] at h
      cases h
      exact ⟨st1, r, rs1, rfl, hrec⟩

/-- With remote execution and neither `-C` nor `-l`, a local file that the
argument loop accepts was found readable by the user and the daemon and in the
directories that may be sent from; it is sent from its place. -/
theorem uxarg_local_inv (env : UxEnv) (o : UxOpts) (sxqtsys : uuconf_system)
    (zxqtloc : String) (st st1 : UxState) (arg : String) (finput : Bool)
    (r : Option String)
    (hlocal : (uxarg_system env arg).2.2 = true)
    (hfile : finput = true ∨ (split_at_char '!' arg.data).isNone = false)
    (hcopy : o.fcopy = false) (hlink : o.flink = false)
    (h : uxarg env o sxqtsys zxqtloc false st arg finput false = Except.ok (st1, r)) :
    ∃ (zfile : String) (names : String × String × String × String),
      env.zsysdep_local_file_cwd (uxarg_system env arg).2.1 sxqtsys.uuconf_zpubdir =
        some zfile ∧
      env.fsysdep_access zfile = true ∧ env.fsysdep_daemon_access zfile = true ∧
      env.fin_directory_list zfile sxqtsys.uuconf_pzlocal_send sxqtsys.uuconf_zpubdir true
        true (some env.zsysdep_login_name) = true ∧
      env.zsysdep_data_file_name sxqtsys zxqtloc o.bgrade st.cnames = some names ∧
      st1.pasXcmds = st.pasXcmds ++
        [{ bcmd := 'S', zfrom := zfile, zto := names.2.2.1,
           zuser := env.zsysdep_login_name, zoptions := "c", ztemp := "D.0", imode := 0o666,
           znotify := "", cbytes := -1 }] ∧
      ((finput = true ∧
          st1.xqt_lines = st.xqt_lines ++ ["F " ++ names.2.2.1, "I " ++ names.2.2.1]) ∨
        (finput = false ∧ ∃ zbase, env.zsysdep_base_name zfile = some zbase ∧
          st1.xqt_lines = st.xqt_lines ++ ["F " ++ names.2.2.1 ++ " " ++ zbase])) := by
  have hhead : ((split_at_char '!' arg.data).isNone && ! finput && ! false) = false := by
    rcases hfile with h | h
    · simp [h]
    · simp [h]
  unfold uxarg at h
  simp only [hhead, Bool.false_eq_true, if_false, hlocal, if_true] at h
  split at h
  · cases h
  · rename_i zfile hcwd
    split at h
    · cases h
    · unfold uxarg_local at h
      split at h
      · cases h
      · rename_i hacc
        simp only [Bool.not_eq_true, Bool.not_eq_false'] at hacc
        cases hd : uxarg_local_data env o sxqtsys zxqtloc false st zfile with
        | error e =>
          rw [hd] at h
          cases h
        | ok v =>
          obtain ⟨s1, zuse, abtname, abdname⟩ := v
          rw [hd] at h
          simp only [Bool.false_eq_true, if_false, hcopy, hlink, Bool.or_self] at h
          unfold uxarg_local_data at hd
          simp only [hcopy, hlink, Bool.or_self, Bool.false_eq_true, if_false] at hd
          split at hd
          · cases hd
          · rename_i hdacc
            split at hd
            · cases hd
            · rename_i hperm
              split at hd
              · cases hd
              · rename_i zdata abt abd abx hname
                simp only [Bool.not_eq_true, Bool.not_eq_false'] at hdacc hperm
                cases hd
                refine ⟨zfile, (zdata, abt, _, abx), hcwd, hacc, hdacc, hperm, hname, ?_⟩
                split at h
                · rename_i hfi
                  cases h
                  refine ⟨rfl, Or.inl ⟨hfi, ?_⟩⟩
                  simp [uxadd_xqt_line, uxadd_send_file, UxState.named]
                  exact ⟨rfl, rfl⟩
                · rename_i hfi
                  split at h
                  · cases h
                  · rename_i zbase hbase
                    cases h
                    refine ⟨rfl, Or.inr ⟨by simpa using hfi, zbase, hbase, ?_⟩⟩
                    simp [uxadd_xqt_line, uxadd_send_file, UxState.named]
                    rfl

/-- The end of `main` for remote execution, when the run goes to its end: the
commands collected and the one that sends the execute file are queued for the
execution system. -/
theorem uux_finish_finished (env : UxEnv) (o : UxOpts) (sxqtsys : uuconf_system)
    (zxqtname abxqt_tname abxqt_xname zcmd : String) (pzargs : List (Option String))
    (st : UxState) (b : Bool)
    (hexit : (uux_finish env o sxqtsys false zxqtname abxqt_tname abxqt_xname zcmd pzargs
      st).exit = UxExit.finished b) :
    (uux_finish env o sxqtsys false zxqtname abxqt_tname abxqt_xname zcmd pzargs
      st).st.queued = st.queued ++ [(sxqtsys.uuconf_zname, o.bgrade, st.pasXcmds ++
        [{ bcmd := 'S', zfrom := abxqt_tname, zto := abxqt_xname,
           zuser := env.zsysdep_login_name, zoptions := "C", ztemp := abxqt_tname,
           imode := 0o666, znotify := "", cbytes := -1 }])] := by
  have hpos : 0 < st.pasXcmds.length + 1 := Nat.succ_pos _
  unfold uux_finish at hexit ⊢
  simp only [uux_flag_lines_frame, Bool.not_false, if_true, uxadd_send_file,
    List.length_append, List.length_singleton, gt_iff_lt, hpos] at hexit ⊢
  split at hexit
  · cases hexit
  · rename_i hc
    rw [if_neg hc]
    split at hexit
    · cases hexit
    · rename_i hsig
      rw [if_neg hsig]
      cases hj : env.zsysdep_spool_commands sxqtsys o.bgrade
          (st.pasXcmds ++
            [{ bcmd := 'S', zfrom := abxqt_tname, zto := abxqt_xname,
               zuser := env.zsysdep_login_name, zoptions := "C", ztemp := abxqt_tname,
               imode := 0o666, znotify := "", cbytes := -1 }]) st.cnames with
      | none =>
        simp only [hj] at hexit
        cases hexit
      | some job =>
        simp only [hj]
        rw [uux_run_uucico_st]
        simp only [note_call_queued, UxState.named]

/-- A run of uux with remote execution that goes to its end: the execute file
was named and opened, the argument loop and the copy of standard input went
through, and the run ended in lines 856-981. -/
theorem uux_main_chain (env : UxEnv) (o : UxOpts) (st : UxState) (zcmd : String)
    (pzargs : List String) (sxqtsys : uuconf_system) (b : Bool)
    (hremote : (uux_exec_system env zcmd).2.2 = false)
    (hxsys : uux_xqt_system env st (uux_exec_system env zcmd).1 false = Except.ok sxqtsys)
    (hexit : (uux_main env o st zcmd pzargs).exit = UxExit.finished b) :
    ∃ (names : String × String × String × String) (st3 st4 : UxState)
      (pz : List (Option String)),
      uxargs env o sxqtsys (sxqtsys.uuconf_zlocalname.getD env.zlocalname) false pzargs
        (uxadd_xqt_line
          (uxrecord_file { st.named with files := st.files ++ [names.1] } names.1) 'U'
          (some env.zsysdep_login_name)
          (some (sxqtsys.uuconf_zlocalname.getD env.zlocalname))) = Except.ok (st3, pz) ∧
      uux_stdin env o sxqtsys (sxqtsys.uuconf_zlocalname.getD env.zlocalname) false st3 =
        Except.ok st4 ∧
      uux_main env o st zcmd pzargs =
        uux_finish env o sxqtsys false names.1 names.2.1 names.2.2.2
          (uux_exec_system env zcmd).2.1 pz st4 := by
  unfold uux_main at hexit ⊢
  simp only [hremote, hxsys, Bool.false_eq_true, if_false] at hexit ⊢
  cases hn : env.zsysdep_data_file_name sxqtsys
      (sxqtsys.uuconf_zlocalname.getD env.zlocalname) 'X' st.cnames with
  | none =>
    simp only [hn, Option.map_none'] at hexit
    cases hexit
  | some names =>
    simp only [hn, Option.map_some'] at hexit ⊢
    by_cases ho : (! env.esysdep_fopen names.1) = true
    · rw [if_pos ho] at hexit
      cases hexit
    · rw [if_neg ho] at hexit ⊢
      cases ha : uxargs env o sxqtsys (sxqtsys.uuconf_zlocalname.getD env.zlocalname) false
          pzargs
          (uxadd_xqt_line
            (uxrecord_file { st.named with files := st.files ++ [names.1] } names.1) 'U'
            (some env.zsysdep_login_name)
            (some (sxqtsys.uuconf_zlocalname.getD env.zlocalname))) with
      | error e =>
        rw [ha] at hexit
        simp only at hexit
        rw [uxargs_aborts env o sxqtsys _ _ pzargs.length pzargs _ e (Nat.le_refl _) ha]
          at hexit
        cases hexit
      | ok v =>
        obtain ⟨st3, pz⟩ := v
        rw [ha] at hexit
        simp only at hexit ⊢
        cases hs : uux_stdin env o sxqtsys (sxqtsys.uuconf_zlocalname.getD env.zlocalname)
            false st3 with
        | error e =>
          rw [hs] at hexit
          simp only at hexit
          rw [uux_stdin_aborts env o sxqtsys _ _ st3 e hs] at hexit
          cases hexit
        | ok st4 =>
          exact ⟨names, st3, st4, pz, ha, hs, rfl⟩

/-- C14, amended: let uux run for a command on a remote system P, without `-C`
and `-l`, let the argument loop take `arg` as an argument or as the file after
`<`, where `arg` names a local file (by an empty or the local system name
before the exclamation point, or as the word after `<`), whatever the other
words are, and let the run go to its end.  Then the user and the daemon may
read the file `zfile` that `zsysdep_local_file_cwd` makes of the name, the file
is in the directories that may be sent to P, and the work queued is one command
file for P which holds an S command with options "c", source `zfile`,
destination `abdname` (the data file name made for P) and temporary file name
"D.0"; the execute file has the line `F abdname zbase`, or for `<` the lines
`F abdname` and `I abdname`. -/
theorem C14_local_file_sent_from_its_place (env : UxEnv) (o : UxOpts) (st : UxState)
    (zcmd arg lt : String) (pre post : List String) (finput : Bool)
    (sxqtsys : uuconf_system) (b : Bool)
    (hremote : (uux_exec_system env zcmd).2.2 = false)
    (hxsys : uux_xqt_system env st (uux_exec_system env zcmd).1 false = Except.ok sxqtsys)
    (hcopy : o.fcopy = false) (hlink : o.flink = false)
    (hp : redir_pending pre = false)
    (hlt : finput = true → lt.data.head? = some '<')
    (hhead : finput = false → arg.data.head? ≠ some '(' ∧ arg.data.head? ≠ some '<' ∧
      arg.data.head? ≠ some '>')
    (hlocal : (uxarg_system env arg).2.2 = true)
    (hfile : finput = true ∨ (split_at_char '!' arg.data).isNone = false)
    (hexit : (uux_main env o st zcmd
      (pre ++ (if finput then [lt, arg] else [arg]) ++ post)).exit = UxExit.finished b) :
    ∃ (zfile : String) (names : String × String × String × String) (n : Nat)
      (cmds : List scmd),
      env.zsysdep_local_file_cwd (uxarg_system env arg).2.1 sxqtsys.uuconf_zpubdir =
        some zfile ∧
      env.fsysdep_access zfile = true ∧ env.fsysdep_daemon_access zfile = true ∧
      env.fin_directory_list zfile sxqtsys.uuconf_pzlocal_send sxqtsys.uuconf_zpubdir true
        true (some env.zsysdep_login_name) = true ∧
      env.zsysdep_data_file_name sxqtsys (sxqtsys.uuconf_zlocalname.getD env.zlocalname)
        o.bgrade n = some names ∧
      (uux_main env o st zcmd
        (pre ++ (if finput then [lt, arg] else [arg]) ++ post)).st.queued =
        st.queued ++ [(sxqtsys.uuconf_zname, o.bgrade, cmds)] ∧
      ({ bcmd := 'S', zfrom := zfile, zto := names.2.2.1,
         zuser := env.zsysdep_login_name, zoptions := "c", ztemp := "D.0", imode := 0o666,
         znotify := "", cbytes := -1 } : scmd) ∈ cmds ∧
      ((finput = true ∧
          "F " ++ names.2.2.1 ∈ (uux_main env o st zcmd
            (pre ++ (if finput then [lt, arg] else [arg]) ++ post)).st.xqt_lines ∧
          "I " ++ names.2.2.1 ∈ (uux_main env o st zcmd
            (pre ++ (if finput then [lt, arg] else [arg]) ++ post)).st.xqt_lines) ∨
        (finput = false ∧ ∃ zbase, env.zsysdep_base_name zfile = some zbase ∧
          "F " ++ names.2.2.1 ++ " " ++ zbase ∈ (uux_main env o st zcmd
            (pre ++ (if finput then [lt, arg] else [arg]) ++ post)).st.xqt_lines)) := by
  obtain ⟨xnames, st3, st4, pz, hargs, hstdin, hmain⟩ := uux_main_chain env o st zcmd _
    sxqtsys b hremote hxsys hexit
  rw [hmain] at hexit ⊢
  generalize hst2 : uxadd_xqt_line
      (uxrecord_file { st.named with files := st.files ++ [xnames.1] } xnames.1) 'U'
      (some env.zsysdep_login_name)
      (some (sxqtsys.uuconf_zlocalname.getD env.zlocalname)) = st2 at hargs
  have hq2 : st2.queued = st.queued := by
    rw [← hst2]
    rfl
  rw [List.append_assoc, uxargs_append env o sxqtsys _ false _ pre.length pre st2
    (Nat.le_refl _) hp] at hargs
  cases hpre : uxargs env o sxqtsys (sxqtsys.uuconf_zlocalname.getD env.zlocalname) false pre
      st2 with
  | error e =>
    rw [hpre] at hargs
    cases hargs
  | ok v =>
    obtain ⟨sa, rs1⟩ := v
    rw [hpre] at hargs
    simp only [] at hargs
    have ga := (uxargs_remote_exec env o sxqtsys _ pre.length pre st2 (Nat.le_refl _)).1 sa
      rs1 hpre
    cases hrest : uxargs env o sxqtsys (sxqtsys.uuconf_zlocalname.getD env.zlocalname) false
        ((if finput then [lt, arg] else [arg]) ++ post) sa with
    | error e =>
      rw [hrest] at hargs
      cases hargs
    | ok v2 =>
      obtain ⟨s3, rs2⟩ := v2
      rw [hrest] at hargs
      simp only [Except.ok.injEq, Prod.mk.injEq] at hargs
      obtain ⟨h3, _⟩ := hargs
      subst h3
      have hstep : ∃ sc r rs3,
          uxarg env o sxqtsys (sxqtsys.uuconf_zlocalname.getD env.zlocalname) false sa arg
            finput false = Except.ok (sc, r) ∧
          uxargs env o sxqtsys (sxqtsys.uuconf_zlocalname.getD env.zlocalname) false post sc =
            Except.ok (s3, rs3) := by
        cases finput with
        | true =>
          exact uxargs_input_inv env o sxqtsys _ false lt arg post sa s3 rs2 (hlt rfl) hrest
        | false =>
          obtain ⟨h1, h2, h3⟩ := hhead rfl
          exact uxargs_cons_inv env o sxqtsys _ false arg post sa s3 rs2 h1 h2 h3 hrest
      obtain ⟨sc, r, rs3, hx, hpost⟩ := hstep
      obtain ⟨zfile, names, hcwd, hacc, hdacc, hperm, hname, hcmd, hlines⟩ :=
        uxarg_local_inv env o sxqtsys _ sa sc arg finput r hlocal hfile hcopy hlink hx
      have gc := (uxarg_remote_exec env o sxqtsys _ sa arg finput false).1 sc r hx
      have g3 := (uxargs_remote_exec env o sxqtsys _ post.length post sc (Nat.le_refl _)).1
        s3 rs3 hpost
      have g4 := (uux_stdin_remote_exec env o sxqtsys _ false s3).1 st4 hstdin
      have g34 := uxGrows_trans sc s3 st4 g3 g4
      obtain ⟨_, ⟨ex, hex⟩, ⟨ls, hls⟩⟩ := g34
      have hq4 : st4.queued = st.queued :=
        (g4.1.trans (g3.1.trans (gc.1.trans ga.1))).trans hq2
      have hfin := uux_finish_finished env o sxqtsys xnames.1 xnames.2.1 xnames.2.2.2
        (uux_exec_system env zcmd).2.1 pz st4 b hexit
      have hfl := uux_finish_xqt_lines env o sxqtsys false xnames.1 xnames.2.1 xnames.2.2.2
        (uux_exec_system env zcmd).2.1 pz st4
      refine ⟨zfile, names, sa.cnames, _, hcwd, hacc, hdacc, hperm, hname,
        hfin.trans (by rw [hq4]), ?_, ?_⟩
      · rw [hex, hcmd]
        simp
      · rw [hfl, hls]
        rcases hlines with ⟨hfi, hl⟩ | ⟨hfi, zbase, hbase, hl⟩
        · refine Or.inl ⟨hfi, ?_, ?_⟩
          · rw [hl]
            simp
          · rw [hl]
            simp
        · refine Or.inr ⟨hfi, zbase, hbase, ?_⟩
          rw [hl]
          simp

/-- C14, amended, at `uux peerA!cat -n !/tmp/f -`: the file `/tmp/f` is sent
from its place under the name `D.hereN0001`. -/
theorem C14_local_file_sent_from_its_place_witness :
    (uux_main example_uxenv UxOpts.init UxState.init "peerA!cat"
      (["-n"] ++ (if false then ["<", "!/tmp/f"] else ["!/tmp/f"]) ++ ["-"])).exit =
      UxExit.finished true ∧
    ∃ (zfile : String) (names : String × String × String × String) (n : Nat)
      (cmds : List scmd),
      example_uxenv.zsysdep_local_file_cwd (uxarg_system example_uxenv "!/tmp/f").2.1
        (example_system "peerA").uuconf_zpubdir = some zfile ∧
      example_uxenv.fsysdep_access zfile = true ∧
      example_uxenv.fsysdep_daemon_access zfile = true ∧
      example_uxenv.fin_directory_list zfile (example_system "peerA").uuconf_pzlocal_send
        (example_system "peerA").uuconf_zpubdir true true
        (some example_uxenv.zsysdep_login_name) = true ∧
      example_uxenv.zsysdep_data_file_name (example_system "peerA")
        ((example_system "peerA").uuconf_zlocalname.getD example_uxenv.zlocalname)
        UxOpts.init.bgrade n = some names ∧
      (uux_main example_uxenv UxOpts.init UxState.init "peerA!cat"
        (["-n"] ++ (if false then ["<", "!/tmp/f"] else ["!/tmp/f"]) ++ ["-"])).st.queued =
        UxState.init.queued ++
          [((example_system "peerA").uuconf_zname, UxOpts.init.bgrade, cmds)] ∧
      ({ bcmd := 'S', zfrom := zfile, zto := names.2.2.1,
         zuser := example_uxenv.zsysdep_login_name, zoptions := "c", ztemp := "D.0",
         imode := 0o666, znotify := "", cbytes := -1 } : scmd) ∈ cmds ∧
      ((false = true ∧
          "F " ++ names.2.2.1 ∈ (uux_main example_uxenv UxOpts.init UxState.init "peerA!cat"
            (["-n"] ++ (if false then ["<", "!/tmp/f"] else ["!/tmp/f"]) ++
              ["-"])).st.xqt_lines ∧
          "I " ++ names.2.2.1 ∈ (uux_main example_uxenv UxOpts.init UxState.init "peerA!cat"
            (["-n"] ++ (if false then ["<", "!/tmp/f"] else ["!/tmp/f"]) ++
              ["-"])).st.xqt_lines) ∨
        (false = false ∧ ∃ zbase, example_uxenv.zsysdep_base_name zfile = some zbase ∧
          "F " ++ names.2.2.1 ++ " " ++ zbase ∈
            (uux_main example_uxenv UxOpts.init UxState.init "peerA!cat"
              (["-n"] ++ (if false then ["<", "!/tmp/f"] else ["!/tmp/f"]) ++
                ["-"])).st.xqt_lines)) :=
  ⟨by decide,
   C14_local_file_sent_from_its_place example_uxenv UxOpts.init UxState.init "peerA!cat"
    "!/tmp/f" "<" ["-n"] ["-"] false (example_system "peerA") true (by decide) rfl
    rfl rfl (by decide) (fun _ => by decide) (fun _ => by decide) (by decide)
    (Or.inr (by decide)) (by decide)⟩

end Uucp
